import Mathlib

set_option linter.unusedTactic false
set_option linter.unreachableTactic false
set_option linter.unusedVariables false

/-!
# libminevent: event base, event API and dispatch loop

A shallow embedding of `event.c` (with the flag words of `minevent.h` and
`minevent-internal.h`).  Event objects are user-owned C structures referred to
by pointer; here they live in a memory `mem : List event` and are referred to
by index.  Intrusive tail queues are lists of indices, the poller behind
`evb_ops` is abstracted to the return values of its operations, and the
clock to the values it reads.
-/

namespace Minevent

/-! ## Flag words -/

def EV_INITIALIZED : Nat := 1 <<< 0
def EV_ON_LIST : Nat := 1 <<< 1
def EV_ON_HEAP : Nat := 1 <<< 3
def EV_ON_FIRE : Nat := 1 <<< 2

def EV_TYPE_MASK : Nat := 0xf <<< 4
def EV_IO : Nat := 0 <<< 4
def EV_TIMEOUT : Nat := 1 <<< 4
def EV_SIGNAL : Nat := 2 <<< 4

def EV_READ : Nat := 1 <<< 8
def EV_WRITE : Nat := 1 <<< 9
def EV_PERSIST : Nat := 1 <<< 10

def EV_PENDING_MASK : Nat := EV_SIGNAL ||| EV_READ ||| EV_WRITE ||| EV_PERSIST

/-- `SET(_v, _m)`: `_v |= _m`. -/
def SET (v m : Nat) : Nat := v ||| m

/-- `CLR(_v, _m)`: `_v &= ~_m` on a 16-bit `short`. -/
def CLR (v m : Nat) : Nat := v &&& (0xffff ^^^ m)

/-- `ISSET(_v, _m)`: `_v & _m`; a C condition tests it against zero. -/
def ISSET (v m : Nat) : Nat := v &&& m

/-- Wrap-around of `unsigned int` arithmetic. -/
def UINT_MOD : Nat := 2 ^ 32

/-- `x++` on an `unsigned int`. -/
def uinc (x : Nat) : Nat := (x + 1) % UINT_MOD

/-- `x--` on an `unsigned int`: zero wraps around to `UINT_MAX`. -/
def udec (x : Nat) : Nat := if x = 0 then UINT_MOD - 1 else x - 1

/-! ## Time values -/

structure timespec where
  tv_sec : Int
  tv_nsec : Int
deriving DecidableEq, Repr, Inhabited

structure timeval where
  tv_sec : Int
  tv_usec : Int
deriving DecidableEq, Repr, Inhabited

/-- `TIMEVAL_TO_TIMESPEC` of `sys/time.h`. -/
def TIMEVAL_TO_TIMESPEC (tv : timeval) : timespec :=
  { tv_sec := tv.tv_sec, tv_nsec := tv.tv_usec * 1000 }

/-- `timespecadd` of `sys/time.h`. -/
def timespecadd (tsp usp : timespec) : timespec :=
  let sec := tsp.tv_sec + usp.tv_sec
  let nsec := tsp.tv_nsec + usp.tv_nsec
  if nsec ≥ 1000000000 then { tv_sec := sec + 1, tv_nsec := nsec - 1000000000 }
  else { tv_sec := sec, tv_nsec := nsec }

/-- `timespecsub` of `sys/time.h`. -/
def timespecsub (tsp usp : timespec) : timespec :=
  let sec := tsp.tv_sec - usp.tv_sec
  let nsec := tsp.tv_nsec - usp.tv_nsec
  if nsec < 0 then { tv_sec := sec - 1, tv_nsec := nsec + 1000000000 }
  else { tv_sec := sec, tv_nsec := nsec }

/-! ## Data model -/

/-- `struct event`.  The tail-queue and heap linkage fields are represented by
the containers of the base; `ev_base` always is the one process-wide base.
`ev_fn` names the callback. -/
structure event where
  ev_cookie : Option Nat
  ev_deadline : timespec
  ev_fn : Nat
  ev_arg : Nat
  ev_ident : Int
  ev_event : Nat
  ev_fires : Nat
deriving DecidableEq, Repr, Inhabited

/-- A call made through the poller's operation table `evb_ops`. -/
inductive poller_call where
  | event_add (ev : Nat)
  | event_del (ev : Nat)
  | signal_add (s : Int)
  | signal_del (s : Int)
  | dispatch (ts : Option timespec)
deriving DecidableEq, Repr

/-- `struct event_base`, together with the memory `mem` holding the event
objects its containers point to.  The poller state behind `evb_backend` is
represented by the history of the calls made to the poller, each with the
value it returned. -/
structure event_base where
  evb_heap : List Nat
  evb_signals : Nat → List Nat
  evb_list : List Nat
  evb_list_len : Nat
  evb_nevents : Nat
  evb_running : Int
  evb_fire : List Nat
  evb_backend : List (poller_call × Int)
  mem : List event

/-- The event object at address `ev`. -/
def getEv (s : event_base) (ev : Nat) : event := s.mem.getD ev default

/-- Store an event object at address `ev`. -/
def setEv (s : event_base) (ev : Nat) (e : event) : event_base :=
  { s with mem := s.mem.set ev e }

/-- Replace the list of signal `sig`. -/
def setSignals (s : event_base) (sig : Nat) (l : List Nat) : event_base :=
  { s with evb_signals := fun j => if j = sig then l else s.evb_signals j }

/-! ## The heap of `heap.h` -/

/-- Modelled from the spec: `heap.h` (`HEAP_INSERT`, `HEAP_REMOVE`, `HEAP_FIRST`,
`HEAP_CEXTRACT`) is not among the sources; the spec names it a min-heap with
insert, remove, first and conditional extract.  A heap is represented by the
list of its members.  `HEAP_INSERT` adds a member. -/
def HEAP_INSERT (h : List Nat) (x : Nat) : List Nat := h ++ [x]

/-- Modelled from the spec: `HEAP_REMOVE` of the missing `heap.h` takes a
member out of the heap. -/
def HEAP_REMOVE (h : List Nat) (x : Nat) : List Nat := h.erase x

/-- Modelled from the spec: `HEAP_FIRST` of the missing `heap.h` returns a
member that compares lowest (the earliest inserted one among equals), or
nothing for an empty heap. -/
def HEAP_FIRST (cmp : Nat → Nat → Int) : List Nat → Option Nat
  | [] => none
  | x :: xs =>
    match HEAP_FIRST cmp xs with
    | none => some x
    | some y => if cmp y x < 0 then some y else some x

/-- Modelled from the spec: `HEAP_CEXTRACT` of the missing `heap.h` extracts
the first member if it is less than or equal to the key (`keycmp n` compares
the key with member `n`), and returns nothing otherwise. -/
def HEAP_CEXTRACT (cmp : Nat → Nat → Int) (keycmp : Nat → Int) (h : List Nat) :
    Option Nat × List Nat :=
  match HEAP_FIRST cmp h with
  | none => (none, h)
  | some n => if keycmp n < 0 then (none, h) else (some n, HEAP_REMOVE h n)

/-! ## Container primitives of `event.c` -/

/-- `event_heap_compare`: the order of the timeout heap. -/
def event_heap_compare (a b : event) : Int :=
  if a.ev_deadline.tv_sec > b.ev_deadline.tv_sec then 1
  else if a.ev_deadline.tv_sec < b.ev_deadline.tv_sec then -1
  else if a.ev_deadline.tv_nsec > b.ev_deadline.tv_nsec then 1
  else if a.ev_deadline.tv_nsec < b.ev_deadline.tv_nsec then -1
  else 0

/-- The comparison `HEAP_GENERATE` hands to the heap: members are compared
through the event objects they point to. -/
def event_heap_cmp (s : event_base) (a b : Nat) : Int :=
  event_heap_compare (getEv s a) (getEv s b)

def event_heap_empty (s : event_base) : Bool := s.evb_heap.isEmpty

/-- `event_heap_insert`: store the deadline in the event, then `HEAP_INSERT`. -/
def event_heap_insert (s : event_base) (ev : Nat) (deadline : timespec) : event_base :=
  let s1 := setEv s ev { getEv s ev with ev_deadline := deadline }
  { s1 with evb_heap := HEAP_INSERT s1.evb_heap ev }

def event_heap_remove (s : event_base) (ev : Nat) : event_base :=
  { s with evb_heap := HEAP_REMOVE s.evb_heap ev }

def event_heap_first (s : event_base) : Option Nat :=
  HEAP_FIRST (event_heap_cmp s) s.evb_heap

/-- `event_heap_cextract`: the key is the `struct event now` of the caller. -/
def event_heap_cextract (s : event_base) (now : event) : Option Nat × event_base :=
  let r := HEAP_CEXTRACT (event_heap_cmp s) (fun n => event_heap_compare now (getEv s n))
    s.evb_heap
  (r.1, { s with evb_heap := r.2 })

/-- `TAILQ_FIRST`. -/
def TAILQ_FIRST (l : List Nat) : Option Nat := l.head?

/-- `TAILQ_NEXT`: the element following `x` in the queue holding it. -/
def TAILQ_NEXT : List Nat → Nat → Option Nat
  | [], _ => none
  | y :: ys, x => if y = x then ys.head? else TAILQ_NEXT ys x

/-- `TAILQ_INSERT_TAIL`. -/
def TAILQ_INSERT_TAIL (l : List Nat) (x : Nat) : List Nat := l ++ [x]

/-- `TAILQ_REMOVE`. -/
def TAILQ_REMOVE (l : List Nat) (x : Nat) : List Nat := l.erase x

def event_fire_first (s : event_base) : Option Nat := TAILQ_FIRST s.evb_fire

def event_fire_insert (s : event_base) (ev : Nat) : event_base :=
  { s with evb_fire := TAILQ_INSERT_TAIL s.evb_fire ev }

def event_fire_remove (s : event_base) (ev : Nat) : event_base :=
  { s with evb_fire := TAILQ_REMOVE s.evb_fire ev }

def event_list_insert (s : event_base) (ev : Nat) : event_base :=
  { s with evb_list_len := uinc s.evb_list_len,
           evb_list := TAILQ_INSERT_TAIL s.evb_list ev }

def event_list_remove (s : event_base) (ev : Nat) : event_base :=
  { s with evb_list := TAILQ_REMOVE s.evb_list ev,
           evb_list_len := udec s.evb_list_len }

def event_list_len (s : event_base) : Nat := s.evb_list_len

/-- A call through `evb_ops` that returned `rv`: the call is appended to the
history standing for the poller state. -/
def event_op (s : event_base) (c : poller_call) (rv : Int) : event_base :=
  { s with evb_backend := s.evb_backend ++ [(c, rv)] }

/-- `evb->evb_nevents++`. -/
def nevents_inc (s : event_base) : event_base :=
  { s with evb_nevents := uinc s.evb_nevents }

/-- `evb->evb_nevents--`. -/
def nevents_dec (s : event_base) : event_base :=
  { s with evb_nevents := udec s.evb_nevents }

/-- Update the flag word `ev_event` of the event at `ev`. -/
def setFlags (s : event_base) (ev : Nat) (f : Nat → Nat) : event_base :=
  setEv s ev { getEv s ev with ev_event := f (getEv s ev).ev_event }

/-- Update the accumulator `ev_fires` of the event at `ev`. -/
def setFires (s : event_base) (ev : Nat) (f : Nat → Nat) : event_base :=
  setEv s ev { getEv s ev with ev_fires := f (getEv s ev).ev_fires }

/-- The signal list `evb_signals[ev->ev_ident]`. -/
def sigOf (s : event_base) (ev : Nat) : Nat := (getEv s ev).ev_ident.toNat

/-! ## The public API and the poller callbacks of `event.c` -/

/-- `event_init` with the allocation and the poller's `evo_init` succeeding;
`mem` is the memory holding the event objects of the user. -/
def event_init (mem : List event) : event_base :=
  { evb_heap := [], evb_signals := fun _ => [], evb_list := [], evb_list_len := 0,
    evb_nevents := 0, evb_running := 0, evb_fire := [], evb_backend := [], mem := mem }

/-- `event_deadline`; `now` is what `event_monotime` reads, `none` when it
fails. -/
def event_deadline (now : Option timespec) (tv : timeval) : Option timespec :=
  match now with
  | none => none
  | some n => some (timespecadd (TIMEVAL_TO_TIMESPEC tv) n)

def event_set (s : event_base) (ev : Nat) (fd : Int) (events fn arg : Nat) : event_base :=
  setEv s ev { getEv s ev with
    ev_ident := fd, ev_fn := fn, ev_arg := arg,
    ev_event := EV_INITIALIZED ||| EV_IO ||| (events &&& (EV_READ ||| EV_WRITE ||| EV_PERSIST)),
    ev_fires := 0 }

/-- `event_add`.  `now` is the clock reading of `event_deadline`, `oprv` the
value `evo_event_add` returns if it is called, and `rv0` the indeterminate
initial content of the local `rv`, which is what the function returns when
the event already is on the list. -/
def event_add (s : event_base) (ev : Nat) (tv : Option timeval)
    (now : Option timespec) (oprv rv0 : Int) : Int × event_base :=
  let rest (flags : Nat) (deadline : Option timespec) : Int × event_base :=
    let fin (rv : Int) (s1 : event_base) : Int × event_base :=
      let s2 := setFlags s1 ev (fun v => SET v flags)
      (rv, match deadline with
           | some d => event_heap_insert s2 ev d
           | none => s2)
    if ISSET (getEv s ev).ev_event EV_ON_LIST = 0 then
      let s1 := event_op s (.event_add ev) oprv
      if oprv ≠ 0 then (oprv, s1)
      else
        let s2 := event_list_insert s1 ev
        fin oprv (nevents_inc s2)
    else if ISSET (getEv s ev).ev_event EV_ON_HEAP ≠ 0 then
      fin rv0 (event_heap_remove s ev)
    else fin rv0 s
  match tv with
  | some t =>
    match event_deadline now t with
    | none => (-1, s)
    | some deadline => rest (EV_ON_LIST ||| EV_ON_HEAP) (some deadline)
  | none =>
    if ISSET (getEv s ev).ev_event (EV_ON_LIST ||| EV_ON_HEAP) = EV_ON_LIST then (0, s)
    else rest EV_ON_LIST none

/-- `event_del`; `oprv` is the value `evo_event_del` returns if it is called. -/
def event_del (s : event_base) (ev : Nat) (oprv : Int) : Int × event_base :=
  let rest (s1 : event_base) : Int × event_base :=
    let s2 := if ISSET (getEv s1 ev).ev_event EV_ON_HEAP ≠ 0 then event_heap_remove s1 ev
      else s1
    let s3 := if ISSET (getEv s2 ev).ev_event EV_ON_FIRE ≠ 0 then event_fire_remove s2 ev
      else s2
    (0, setFlags s3 ev (fun v => CLR v (EV_ON_LIST ||| EV_ON_HEAP ||| EV_ON_FIRE)))
  if ISSET (getEv s ev).ev_event EV_ON_LIST ≠ 0 then
    let s1 := event_op s (.event_del ev) oprv
    if oprv ≠ 0 then (oprv, s1)
    else
      let s2 := event_list_remove s1 ev
      rest (nevents_dec s2)
  else rest s

def event_initialized (s : event_base) (ev : Nat) : Nat :=
  ISSET (getEv s ev).ev_event EV_INITIALIZED

def evtimer_set (s : event_base) (ev : Nat) (fn arg : Nat) : event_base :=
  setEv s ev { getEv s ev with
    ev_ident := -1, ev_fn := fn, ev_arg := arg,
    ev_event := EV_INITIALIZED ||| EV_TIMEOUT,
    ev_fires := 0 }

/-- `evtimer_add`; `now` is the clock reading of `event_deadline`. -/
def evtimer_add (s : event_base) (ev : Nat) (tv : timeval) (now : Option timespec) :
    Int × event_base :=
  match event_deadline now tv with
  | none => (-1, s)
  | some deadline =>
    let s1 :=
      if ISSET (getEv s ev).ev_event EV_ON_HEAP = 0 then
        setFlags (nevents_inc s) ev (fun v => SET v EV_ON_HEAP)
      else event_heap_remove s ev
    (0, event_heap_insert s1 ev deadline)

def evtimer_del (s : event_base) (ev : Nat) : Int × event_base :=
  if ISSET (getEv s ev).ev_event (EV_ON_HEAP ||| EV_ON_FIRE) = 0 then (0, s)
  else
    let s1 := (nevents_dec s)
    let s2 := if ISSET (getEv s1 ev).ev_event EV_ON_HEAP ≠ 0 then event_heap_remove s1 ev
      else s1
    let s3 := if ISSET (getEv s2 ev).ev_event EV_ON_FIRE ≠ 0 then event_fire_remove s2 ev
      else s2
    (0, setFlags s3 ev (fun v => CLR v (EV_ON_HEAP ||| EV_ON_FIRE)))

def evtimer_initialized (s : event_base) (ev : Nat) : Nat :=
  ISSET (getEv s ev).ev_event EV_INITIALIZED

/-- `signal_set`; the source asserts `signal < NSIG`. -/
def signal_set (s : event_base) (ev : Nat) (signal : Int) (fn arg : Nat) : event_base :=
  setEv s ev { getEv s ev with
    ev_ident := signal, ev_fn := fn, ev_arg := arg,
    ev_event := EV_INITIALIZED ||| EV_SIGNAL ||| EV_PERSIST,
    ev_fires := 0 }

/-- `signal_add`; `oprv` is the value `evo_signal_add` returns if it is
called. -/
def signal_add (s : event_base) (ev : Nat) (tv : Option timeval)
    (now : Option timespec) (oprv : Int) : Int × event_base :=
  let rest (flags : Nat) (deadline : Option timespec) : Int × event_base :=
    let fin (s1 : event_base) : Int × event_base :=
      let s2 := setFlags s1 ev (fun v => SET v flags)
      (0, match deadline with
          | some d => event_heap_insert s2 ev d
          | none => s2)
    let ins (s1 : event_base) : Int × event_base :=
      let s2 := setSignals s1 (sigOf s ev) (TAILQ_INSERT_TAIL (s1.evb_signals (sigOf s ev)) ev)
      fin (nevents_inc s2)
    if ISSET (getEv s ev).ev_event EV_ON_LIST = 0 then
      if s.evb_signals (sigOf s ev) = [] then
        let s1 := event_op s (.signal_add (getEv s ev).ev_ident) oprv
        if oprv ≠ 0 then (oprv, s1) else ins s1
      else ins s
    else if ISSET (getEv s ev).ev_event EV_ON_HEAP ≠ 0 then
      fin (event_heap_remove s ev)
    else fin s
  match tv with
  | some t =>
    match event_deadline now t with
    | none => (-1, s)
    | some deadline => rest (EV_ON_LIST ||| EV_ON_HEAP) (some deadline)
  | none =>
    if ISSET (getEv s ev).ev_event (EV_ON_LIST ||| EV_ON_HEAP) = EV_ON_LIST then (0, s)
    else rest EV_ON_LIST none

/-- `signal_del`; `oprv` is the value `evo_signal_del` returns if it is
called. -/
def signal_del (s : event_base) (ev : Nat) (oprv : Int) : Int × event_base :=
  let rest (s1 : event_base) : Int × event_base :=
    let s2 := if ISSET (getEv s1 ev).ev_event EV_ON_HEAP ≠ 0 then event_heap_remove s1 ev
      else s1
    let s3 := if ISSET (getEv s2 ev).ev_event EV_ON_FIRE ≠ 0 then event_fire_remove s2 ev
      else s2
    (0, setFlags s3 ev (fun v => CLR v (EV_ON_LIST ||| EV_ON_HEAP ||| EV_ON_FIRE)))
  let rem (s1 : event_base) : Int × event_base :=
    let s2 := setSignals s1 (sigOf s ev) (TAILQ_REMOVE (s1.evb_signals (sigOf s ev)) ev)
    rest (nevents_dec s2)
  if ISSET (getEv s ev).ev_event (EV_ON_LIST ||| EV_ON_FIRE) = 0 then (0, s)
  else if ISSET (getEv s ev).ev_event EV_ON_LIST ≠ 0 then
    if TAILQ_FIRST (s.evb_signals (sigOf s ev)) = some ev ∧
        TAILQ_NEXT (s.evb_signals (sigOf s ev)) ev = none then
      let s1 := event_op s (.signal_del (getEv s ev).ev_ident) oprv
      if oprv ≠ 0 then (oprv, s1) else rem s1
    else rem s
  else rest s

def signal_initialized (s : event_base) (ev : Nat) : Nat :=
  ISSET (getEv s ev).ev_event EV_INITIALIZED

/-- `event_fire_event`, called by a poller; `oprv` is the value `evo_event_del`
returns if it is called. -/
def event_fire_event (s : event_base) (ev : Nat) (event : Nat) (oprv : Int) : event_base :=
  let s0 := setFires s ev (fun f => SET f (ISSET event (EV_READ ||| EV_WRITE ||| EV_TIMEOUT)))
  let fin (s1 : event_base) : event_base :=
    event_fire_insert (setFlags s1 ev (fun v => SET v EV_ON_FIRE)) ev
  if ISSET (getEv s0 ev).ev_event EV_ON_FIRE ≠ 0 then s0
  else if ISSET (getEv s0 ev).ev_event EV_PERSIST = 0 ∧ ISSET event EV_PERSIST ≠ 0 then
    let s1 := event_op s0 (.event_del ev) oprv
    if oprv ≠ 0 then s1
    else
      let s2 := if ISSET (getEv s1 ev).ev_event EV_ON_HEAP ≠ 0 then event_heap_remove s1 ev
        else s1
      let s3 := event_list_remove s2 ev
      let s4 := (nevents_dec s3)
      fin (setFlags s4 ev (fun v => CLR v (EV_ON_LIST ||| EV_ON_HEAP)))
  else fin s0

/-- The body of the `TAILQ_FOREACH_SAFE` loop of `event_fire_signal`. -/
def event_fire_signal_one (s : event_base) (ev : Nat) : event_base :=
  let s1 := setFires s ev (fun f => SET f EV_SIGNAL)
  if ISSET (getEv s1 ev).ev_event EV_ON_FIRE = 0 then
    setFlags (event_fire_insert s1 ev) ev (fun v => SET v EV_ON_FIRE)
  else s1

/-- `event_fire_signal`, called by a poller; the source asserts `sig < NSIG`. -/
def event_fire_signal (s : event_base) (sig : Nat) : event_base :=
  (s.evb_signals sig).foldl event_fire_signal_one s

/-! ## `event_dispatch` -/

/-- How a call of `event_dispatch` ends: it returns a value or calls `abort`. -/
inductive dispatch_end where
  | ret (rv : Int)
  | abort
deriving DecidableEq, Repr

/-- The body of the timer-drain loop of `event_dispatch` for the event `ev`
that `event_heap_cextract` returned; `oprv` is what the poller's delete
operation returns if it is called.  The first component is set when the
body leaves `event_dispatch`. -/
def event_dispatch_expire (s : event_base) (ev : Nat) (oprv : Int) :
    Option dispatch_end × event_base :=
  let fin (s1 : event_base) : Option dispatch_end × event_base :=
    let s2 := setFlags s1 ev (fun v => CLR v (EV_ON_LIST ||| EV_ON_HEAP))
    let s3 := (nevents_dec s2)
    let s4 := setFires s3 ev (fun f => SET f EV_TIMEOUT)
    (none,
      if ISSET (getEv s4 ev).ev_event EV_ON_FIRE = 0 then
        setFlags (event_fire_insert s4 ev) ev (fun v => SET v EV_ON_FIRE)
      else s4)
  let ty := ISSET (getEv s ev).ev_event EV_TYPE_MASK
  if ty = EV_IO then
    let s1 := event_op s (.event_del ev) oprv
    if oprv ≠ 0 then (some (.ret (-1)), s1) else fin (event_list_remove s1 ev)
  else if ty = EV_SIGNAL then
    let s1 := setSignals s (sigOf s ev) (TAILQ_REMOVE (s.evb_signals (sigOf s ev)) ev)
    if s1.evb_signals (sigOf s ev) = [] then
      let s2 := event_op s1 (.signal_del (getEv s ev).ev_ident) oprv
      if oprv ≠ 0 then (some (.ret (-1)), s2) else fin s2
    else fin s1
  else if ty = EV_TIMEOUT then fin s
  else (some .abort, s)

/-- The `struct event now` of `event_dispatch`: only its deadline is set. -/
def now_event (now : timespec) : event := { (default : event) with ev_deadline := now }

/-- One test of the condition of the timer-drain loop followed by its body. -/
def event_dispatch_drain_step (s : event_base) (now : timespec) (oprv : Int) :
    Option dispatch_end × event_base :=
  match event_heap_cextract s (now_event now) with
  | (none, _) => (none, s)
  | (some ev, s1) => event_dispatch_expire s1 ev oprv

/-- The timer-drain loop `while ((ev = event_heap_cextract(evb, &now)) != NULL)`.
Every turn takes one member out of the heap, so the number of members is
enough fuel.  `oprv ev` is what the poller's delete returns for `ev`. -/
def event_dispatch_drain (oprv : Nat → Int) (now : timespec) :
    Nat → event_base → Option dispatch_end × event_base
  | 0, s => (none, s)
  | fuel + 1, s =>
    match event_heap_cextract s (now_event now) with
    | (none, _) => (none, s)
    | (some ev, s1) =>
      match event_dispatch_expire s1 ev (oprv ev) with
      | (some e, s2) => (some e, s2)
      | (none, s2) => event_dispatch_drain oprv now fuel s2

/-- A call `(*ev->ev_fn)(ev->ev_ident, event, ev->ev_arg)`. -/
structure invocation where
  ev : Nat
  fn : Nat
  ident : Int
  event : Nat
  arg : Nat
deriving DecidableEq, Repr

/-- The body of the delivery loop of `event_dispatch` up to the call of the
callback: the head `ev` of the fire queue is taken off. -/
def event_dispatch_pop (s : event_base) (ev : Nat) : invocation × event_base :=
  let s1 := event_fire_remove s ev
  let s2 := setFlags s1 ev (fun v => CLR v EV_ON_FIRE)
  let event := (getEv s2 ev).ev_fires
  let s3 := setFires s2 ev (fun _ => 0)
  ({ ev := ev, fn := (getEv s3 ev).ev_fn, ident := (getEv s3 ev).ev_ident,
     event := event, arg := (getEv s3 ev).ev_arg }, s3)

/-- A call of the public API, with the values the clock and the poller
return to it. -/
inductive api_call where
  | event_set (ev : Nat) (fd : Int) (events fn arg : Nat)
  | event_add (ev : Nat) (tv : Option timeval) (now : Option timespec) (oprv rv0 : Int)
  | event_del (ev : Nat) (oprv : Int)
  | evtimer_set (ev : Nat) (fn arg : Nat)
  | evtimer_add (ev : Nat) (tv : timeval) (now : Option timespec)
  | evtimer_del (ev : Nat)
  | signal_set (ev : Nat) (signal : Int) (fn arg : Nat)
  | signal_add (ev : Nat) (tv : Option timeval) (now : Option timespec) (oprv : Int)
  | signal_del (ev : Nat) (oprv : Int)
deriving DecidableEq, Repr

/-- The state after a call of the public API. -/
def api_call.run (s : event_base) : api_call → event_base
  | .event_set ev fd events fn arg => Minevent.event_set s ev fd events fn arg
  | .event_add ev tv now oprv rv0 => (Minevent.event_add s ev tv now oprv rv0).2
  | .event_del ev oprv => (Minevent.event_del s ev oprv).2
  | .evtimer_set ev fn arg => Minevent.evtimer_set s ev fn arg
  | .evtimer_add ev tv now => (Minevent.evtimer_add s ev tv now).2
  | .evtimer_del ev => (Minevent.evtimer_del s ev).2
  | .signal_set ev signal fn arg => Minevent.signal_set s ev signal fn arg
  | .signal_add ev tv now oprv => (Minevent.signal_add s ev tv now oprv).2
  | .signal_del ev oprv => (Minevent.signal_del s ev oprv).2

/-- What a poller reports from inside its `evo_dispatch`. -/
inductive poller_report where
  | fire_event (ev : Nat) (event : Nat) (oprv : Int)
  | fire_signal (sig : Nat)
deriving DecidableEq, Repr

def poller_report.run (s : event_base) : poller_report → event_base
  | .fire_event ev event oprv => event_fire_event s ev event oprv
  | .fire_signal sig => event_fire_signal s sig

/-- The environment of one call of `event_dispatch`, by loop iteration `runs`:
the reading of the monotonic clock, what the poller's delete returns for an
expired event, what a callback does (the API calls it makes, given the state
it is invoked in), and what the poller's `evo_dispatch` returns and reports
for the timeout it is given. -/
structure dispatch_env where
  monotime : Nat → Option timespec
  op_del : Nat → Nat → Int
  callback : event_base → invocation → List api_call
  poll : Nat → event_base → Option timespec → Int × List poller_report

/-- The delivery loop `while ((ev = event_fire_first(evb)) != NULL)`.  A
callback makes API calls, which never add to the fire queue, so the length of
the queue is enough fuel.  The invocations made are appended to `tr`. -/
def event_dispatch_fire (env : dispatch_env) :
    Nat → event_base → List invocation → Option dispatch_end × event_base × List invocation
  | 0, s, tr => (none, s, tr)
  | fuel + 1, s, tr =>
    match event_fire_first s with
    | none => (none, s, tr)
    | some ev =>
      let r := event_dispatch_pop s ev
      let s1 := (env.callback r.2 r.1).foldl api_call.run r.2
      if s1.evb_running = 0 then (some (.ret 0), s1, tr ++ [r.1])
      else event_dispatch_fire env fuel s1 (tr ++ [r.1])

/-- `event_op_dispatch`: the call is recorded, the poller's reports are
applied in order. -/
def event_op_dispatch (env : dispatch_env) (runs : Nat) (s : event_base)
    (ts : Option timespec) : Int × event_base :=
  let r := env.poll runs s ts
  (r.1, r.2.foldl poller_report.run (event_op s (.dispatch ts) r.1))

/-- The loop `for (;;)` of `event_dispatch`.  `left` turns are left before
`++runs == 30`, so the turn entered with `left + 1` has `runs = 29 - left`. -/
def event_dispatch_loop (env : dispatch_env) :
    Nat → event_base → List invocation → dispatch_end × event_base × List invocation
  | 0, s, tr => (.abort, s, tr)
  | left + 1, s, tr =>
    let runs := 29 - left
    match env.monotime runs with
    | none => (.ret (-1), s, tr)
    | some now =>
      match event_dispatch_drain (env.op_del runs) now s.evb_heap.length s with
      | (some e, s1) => (e, s1, tr)
      | (none, s1) =>
        match event_dispatch_fire env s1.evb_fire.length s1 tr with
        | (some e, s2, tr2) => (e, s2, tr2)
        | (none, s2, tr2) =>
          if s2.evb_nevents = 0 then (.ret 0, s2, tr2)
          else
            let ts := match event_heap_first s2 with
              | some ev => some (timespecsub (getEv s2 ev).ev_deadline now)
              | none => none
            let r := event_op_dispatch env runs s2 ts
            if r.1 = -1 then (.ret (-1), r.2, tr2)
            else event_dispatch_loop env left r.2 tr2

/-- `event_dispatch`: how it ends, the state it leaves and the callbacks it
invoked, in order. -/
def event_dispatch (env : dispatch_env) (s : event_base) :
    dispatch_end × event_base × List invocation :=
  event_dispatch_loop env 29 { s with evb_running := 1 } []

/-! ## Reachable states -/

/-- The placement bits of a flag word. -/
def EV_PLACEMENT : Nat := EV_ON_LIST ||| EV_ON_HEAP ||| EV_ON_FIRE

/-- The event object a call of the public API is made on. -/
def api_call.target : api_call → Nat
  | .event_set ev _ _ _ _ => ev
  | .event_add ev _ _ _ _ => ev
  | .event_del ev _ => ev
  | .evtimer_set ev _ _ => ev
  | .evtimer_add ev _ _ => ev
  | .evtimer_del ev => ev
  | .signal_set ev _ _ _ => ev
  | .signal_add ev _ _ _ => ev
  | .signal_del ev _ => ev

/-- Whether the call is one of `event_set`, `evtimer_set`, `signal_set`. -/
def api_call.is_set : api_call → Bool
  | .event_set _ _ _ _ _ => true
  | .evtimer_set _ _ _ => true
  | .signal_set _ _ _ _ => true
  | _ => false

/-- A call is well-formed when it is made on an existing event object, and a
`set` call only on an object that no container of the base holds (setting an
event that is still registered overwrites its placement bits). -/
def api_call.valid (s : event_base) (c : api_call) : Bool :=
  decide (c.target < s.mem.length) &&
    (!c.is_set || decide (ISSET (getEv s c.target).ev_event EV_PLACEMENT = 0))

/-- The steps that change the base: a call of the public API (by the user or
by a callback), a report of a poller, and the steps of `event_dispatch`: the
assignment `evb_running = 1` at its start, one turn of its timer-drain loop,
one turn of its delivery loop up to the invocation of the callback, and the
call of the poller's `evo_dispatch` (whose reports are steps of their own). -/
inductive step where
  | api (c : api_call)
  | fire_event (ev : Nat) (event : Nat) (oprv : Int)
  | fire_signal (sig : Nat)
  | dispatch_start
  | drain (now : timespec) (oprv : Int)
  | deliver
  | op_dispatch (ts : Option timespec) (rv : Int)
deriving DecidableEq, Repr

def step.run (s : event_base) : step → event_base
  | .api c => c.run s
  | .fire_event ev event oprv => event_fire_event s ev event oprv
  | .fire_signal sig => event_fire_signal s sig
  | .dispatch_start => { s with evb_running := 1 }
  | .drain now oprv => (event_dispatch_drain_step s now oprv).2
  | .deliver =>
    match event_fire_first s with
    | none => s
    | some ev => (event_dispatch_pop s ev).2
  | .op_dispatch ts rv => event_op s (.dispatch ts) rv

def step.valid (s : event_base) : step → Bool
  | .api c => c.valid s
  | .fire_event ev _ _ => decide (ev < s.mem.length)
  | _ => true

/-- The states reachable from `event_init`, over a memory of event objects
none of which has a placement bit set, by well-formed steps. -/
inductive reachable : event_base → Prop where
  | init (mem : List event)
      (h : mem.all (fun e => decide (ISSET e.ev_event EV_PLACEMENT = 0)) = true) :
      reachable (event_init mem)
  | step {s : event_base} (st : step) (hs : reachable s) (hv : st.valid s = true) :
      reachable (st.run s)

/-- Whether every call of a sequence of API calls is well-formed in the state
it is made in. -/
def api_calls_valid (s : event_base) : List api_call → Bool
  | [] => true
  | c :: l => c.valid s && api_calls_valid (c.run s) l

/-- The state after a sequence of steps. -/
def run_steps (s : event_base) (l : List step) : event_base := l.foldl step.run s

/-! ## The fire queue and `EV_ON_FIRE` -/

/-- The invariant tying `EV_ON_FIRE` to the fire queue, with the facts about the
other containers that keep it inductive: all their members are event objects. -/
structure fire_inv (s : event_base) : Prop where
  bit : ∀ x, ISSET (getEv s x).ev_event EV_ON_FIRE ≠ 0 ↔ x ∈ s.evb_fire
  nodup : s.evb_fire.Nodup
  heap : ∀ x ∈ s.evb_heap, x < s.mem.length
  sigs : ∀ sig, ∀ x ∈ s.evb_signals sig, x < s.mem.length


/-! ## Runs and example states -/

/-- Whether every step of a sequence is well-formed in the state it is made in. -/
def steps_valid (s : event_base) : List step → Bool
  | [] => true
  | st :: l => st.valid s && steps_valid (st.run s) l

/-- Whether every poller operation of a step succeeds. -/
def step.ops_succeed : step → Bool
  | .api (.event_add _ _ _ oprv _) => decide (oprv = 0)
  | .api (.event_del _ oprv) => decide (oprv = 0)
  | .api (.signal_add _ _ _ oprv) => decide (oprv = 0)
  | .api (.signal_del _ oprv) => decide (oprv = 0)
  | .fire_event _ _ oprv => decide (oprv = 0)
  | .drain _ oprv => decide (oprv = 0)
  | _ => true

/-- The number of event objects whose `ev_event` has `EV_ON_LIST` or
`EV_ON_HEAP` set. -/
def placed_count (s : event_base) : Nat :=
  (s.mem.filter (fun e => ISSET e.ev_event (EV_ON_LIST ||| EV_ON_HEAP) != 0)).length

/-- Three event objects in zeroed storage. -/
def ex_mem : List event := [default, default, default]

/-- A timer is set and added with a timeout of 10 ms at time 100 s; the timer
drain of a dispatch at time 101 s moves it to the fire queue. -/
def ex_timer_fired_steps : List step :=
  [.api (.evtimer_set 0 7 42),
   .api (.evtimer_add 0 ⟨0, 10000⟩ (some ⟨100, 0⟩)),
   .drain ⟨101, 0⟩ 0]

def ex_timer_fired : event_base := run_steps (event_init ex_mem) ex_timer_fired_steps

/-- A read event on descriptor 3 is set and added with a timeout of 1 s. -/
def ex_io_timeout_steps : List step :=
  [.api (.event_set 0 3 EV_READ 7 42),
   .api (.event_add 0 (some ⟨1, 0⟩) (some ⟨100, 0⟩) 0 0)]

def ex_io_timeout : event_base := run_steps (event_init ex_mem) ex_io_timeout_steps

/-- A read event on descriptor 3 is set and added without a timeout. -/
def ex_io_steps : List step :=
  [.api (.event_set 0 3 EV_READ 7 42),
   .api (.event_add 0 none none 0 0)]

def ex_io : event_base := run_steps (event_init ex_mem) ex_io_steps

/-- An event for signal 2 is set and added with a timeout of 1 s. -/
def ex_sig_timeout_steps : List step :=
  [.api (.signal_set 0 2 7 42),
   .api (.signal_add 0 (some ⟨1, 0⟩) (some ⟨100, 0⟩) 0)]

def ex_sig_timeout : event_base := run_steps (event_init ex_mem) ex_sig_timeout_steps

/-- An event for signal 2 is set and added without a timeout. -/
def ex_sig_steps : List step :=
  [.api (.signal_set 0 2 7 42),
   .api (.signal_add 0 none none 0)]

def ex_sig : event_base := run_steps (event_init ex_mem) ex_sig_steps

/-- A dispatch at time 200 s in which the poller refuses every delete. -/
def env_del_fails : dispatch_env :=
  { monotime := fun _ => some ⟨200, 0⟩, op_del := fun _ _ => -1,
    callback := fun _ _ => [], poll := fun _ _ _ => (0, []) }

/-- Two timers (10 ms and 20 ms, added at time 100 s) and a persistent read
event on descriptor 5 without a timeout. -/
def ex_two_timers_steps : List step :=
  [.api (.evtimer_set 0 1 10),
   .api (.evtimer_add 0 ⟨0, 10000⟩ (some ⟨100, 0⟩)),
   .api (.evtimer_set 1 0 11),
   .api (.evtimer_add 1 ⟨0, 20000⟩ (some ⟨100, 0⟩)),
   .api (.event_set 2 5 (EV_READ ||| EV_PERSIST) 0 12),
   .api (.event_add 2 none none 0 0)]

def ex_two_timers : event_base := run_steps (event_init ex_mem) ex_two_timers_steps

/-- A dispatch at time 101 s in which the callback `1` (that of the first
timer) calls `evtimer_del` on the second timer; no poller operation fails. -/
def env_del_other : dispatch_env :=
  { monotime := fun _ => some ⟨101, 0⟩, op_del := fun _ _ => 0,
    callback := fun _ i => if i.fn = 1 then [.evtimer_del 1] else [],
    poll := fun _ _ _ => (0, []) }

/-! ## Timers in a dispatch -/

/-- The deadline of `x` is not after the deadline of `y`, in the order of the
timeout heap. -/
def dl_le (s : event_base) (x y : Nat) : Prop := event_heap_cmp s x y ≤ 0

/-- What holds of a base that only has timers while `event_dispatch` runs with
callbacks that make no API call; `s0` is the state at the call, `tr` the
invocations made so far.  The events invoked, then the events on the fire
queue, are in deadline order and not after any event still in the heap. -/
structure timer_inv (s0 s : event_base) (tr : List invocation) : Prop where
  len : s.mem.length = s0.mem.length
  static : ∀ x, (getEv s x).ev_deadline = (getEv s0 x).ev_deadline ∧
    (getEv s x).ev_ident = (getEv s0 x).ev_ident ∧
    (getEv s x).ev_arg = (getEv s0 x).ev_arg ∧ (getEv s x).ev_fn = (getEv s0 x).ev_fn
  list : s.evb_list = []
  sigs : ∀ sig, s.evb_signals sig = []
  heap : ∀ x ∈ s.evb_heap, ISSET (getEv s x).ev_event EV_TYPE_MASK = EV_TIMEOUT ∧
    ISSET (getEv s x).ev_event EV_ON_FIRE = 0 ∧
    SET (getEv s x).ev_fires EV_TIMEOUT = EV_TIMEOUT ∧ (getEv s x).ev_ident = -1
  fire : ∀ x ∈ s.evb_fire, (getEv s x).ev_fires = EV_TIMEOUT ∧ (getEv s x).ev_ident = -1 ∧
    x < s.mem.length
  nodup : (tr.map (fun i => i.ev) ++ s.evb_fire ++ s.evb_heap).Nodup
  sub : ∀ x ∈ tr.map (fun i => i.ev) ++ s.evb_fire ++ s.evb_heap, x ∈ s0.evb_heap
  sorted : (tr.map (fun i => i.ev) ++ s.evb_fire).Pairwise (dl_le s0)
  below : ∀ a ∈ tr.map (fun i => i.ev) ++ s.evb_fire, ∀ y ∈ s.evb_heap, dl_le s0 a y
  args : ∀ i ∈ tr, i.ident = -1 ∧ i.event = EV_TIMEOUT ∧ i.arg = (getEv s0 i.ev).ev_arg ∧
    i.fn = (getEv s0 i.ev).ev_fn

/-- Three timers with arguments 10 (A), 11 (B), 12 (C) and timeouts 30, 10 and
20 ms, all added at time 100 s. -/
def ex_three_timers_steps : List step :=
  [.api (.evtimer_set 0 1 10),
   .api (.evtimer_add 0 ⟨0, 30000⟩ (some ⟨100, 0⟩)),
   .api (.evtimer_set 1 1 11),
   .api (.evtimer_add 1 ⟨0, 10000⟩ (some ⟨100, 0⟩)),
   .api (.evtimer_set 2 1 12),
   .api (.evtimer_add 2 ⟨0, 20000⟩ (some ⟨100, 0⟩))]

def ex_three_timers : event_base := run_steps (event_init ex_mem) ex_three_timers_steps

/-- A dispatch whose clock reads 100 s in the first turn of the loop and 10 ms
more in every later turn; callbacks make no API call and the poller has
nothing to report. -/
def env_ticks : dispatch_env :=
  { monotime := fun runs => some ⟨100, (runs - 1) * 10000000⟩, op_del := fun _ _ => 0,
    callback := fun _ _ => [], poll := fun _ _ _ => (0, []) }

/-! ## The pending queries -/

/-- `TIMESPEC_TO_TIMEVAL` of `sys/time.h`; the division of C truncates. -/
def TIMESPEC_TO_TIMEVAL (ts : timespec) : timeval :=
  { tv_sec := ts.tv_sec, tv_usec := Int.tdiv ts.tv_nsec 1000 }

/-- `event_pending`.  `tv` tells whether the caller passes a `tv` that is not
null, `mono` and `wall` are what `event_monotime` and `event_walltime` read if
they are called.  The result is the value returned and the value stored
through `tv`, if one is stored. -/
def event_pending (s : event_base) (ev : Nat) (events : Nat) (tv : Bool)
    (mono wall : timespec) : Nat × Option timeval :=
  let flags0 := if ISSET (getEv s ev).ev_event EV_ON_LIST ≠ 0
    then (getEv s ev).ev_event &&& EV_PENDING_MASK else 0
  let flags := flags0 &&& events
  if ISSET events EV_TIMEOUT ≠ 0 ∧ ISSET flags EV_ON_HEAP ≠ 0 then
    (flags ||| EV_TIMEOUT,
      if tv then
        some (TIMESPEC_TO_TIMEVAL (timespecadd wall (timespecsub (getEv s ev).ev_deadline mono)))
      else none)
  else (flags, none)

/-- `evtimer_pending`, with the arguments and the result of `event_pending`. -/
def evtimer_pending (s : event_base) (ev : Nat) (tv : Bool) (mono wall : timespec) :
    Nat × Option timeval :=
  if ISSET (getEv s ev).ev_event EV_ON_HEAP ≠ 0 then
    (EV_TIMEOUT ||| ((getEv s ev).ev_event &&& EV_PERSIST),
      if tv then
        some (TIMESPEC_TO_TIMEVAL (timespecadd wall (timespecsub (getEv s ev).ev_deadline mono)))
      else none)
  else (0, none)

/-- `signal_pending`. -/
def signal_pending (s : event_base) (ev : Nat) (tv : Bool) (mono wall : timespec) :
    Nat × Option timeval :=
  event_pending s ev (EV_SIGNAL ||| EV_TIMEOUT ||| EV_PERSIST) tv mono wall

/-! ## More example states -/

/-- A persistent read event on descriptor 3 is added without a timeout and the
poller reports it readable; `event_del` takes it off the fire queue, then it
is added again with a timeout of 1 s at time 100 s and the timer drain of a
dispatch at time 102 s expires it. -/
def ex_stale_fires_steps : List step :=
  [.api (.event_set 0 3 (EV_READ ||| EV_PERSIST) 7 42),
   .api (.event_add 0 none none 0 0),
   .fire_event 0 (EV_READ ||| EV_PERSIST) 0,
   .api (.event_del 0 0),
   .api (.event_add 0 (some ⟨1, 0⟩) (some ⟨100, 0⟩) 0 0),
   .drain ⟨102, 0⟩ 0]

def ex_stale_fires : event_base := run_steps (event_init ex_mem) ex_stale_fires_steps

/-- How many times the poller accepted the registration of signal `sig`. -/
def signal_add_count (s : event_base) (sig : Int) : Nat :=
  s.evb_backend.count (poller_call.signal_add sig, 0)

/-- How many times the poller was asked to unregister signal `sig`. -/
def signal_del_count (s : event_base) (sig : Int) : Nat :=
  (s.evb_backend.filter (fun c => decide (c.1 = poller_call.signal_del sig))).length

/-! ## Signal events and the registrations at the poller -/

/-- Whether the event object at `ev` is a signal event for a signal number that
is not negative, as `signal_set` with such a number leaves it. -/
def is_signal_event (s : event_base) (ev : Nat) : Bool :=
  decide (ISSET (getEv s ev).ev_event EV_TYPE_MASK = EV_SIGNAL) &&
    decide (0 ≤ (getEv s ev).ev_ident)

/-- The steps of the signal API and of `event_dispatch`: `signal_set`, `signal_add`
and `signal_del` on signal events, the turns of the timer drain and of the
delivery loop, the reports of signals and the call of the poller's dispatch. -/
def step.signal_only (s : event_base) : step → Bool
  | .api (.signal_set _ _ _ _) => true
  | .api (.signal_add ev _ _ _) => is_signal_event s ev
  | .api (.signal_del ev _) => is_signal_event s ev
  | .fire_signal _ => true
  | .dispatch_start => true
  | .drain _ _ => true
  | .deliver => true
  | .op_dispatch _ _ => true
  | _ => false

/-- The states reachable from `event_init` by well-formed steps of the signal
API and of `event_dispatch`, with every poller operation succeeding. -/
inductive signal_reachable : event_base → Prop where
  | init (mem : List event)
      (h : mem.all (fun e => decide (ISSET e.ev_event EV_PLACEMENT = 0)) = true) :
      signal_reachable (event_init mem)
  | step {s : event_base} (st : step) (hs : signal_reachable s) (hv : st.valid s = true)
      (hk : st.signal_only s = true) (ho : st.ops_succeed = true) :
      signal_reachable (st.run s)

/-- What ties the signal lists to the flag words, to the heap and to the
registrations at the poller. -/
structure sig_inv (s : event_base) : Prop where
  memb : ∀ sig, ∀ x ∈ s.evb_signals sig,
    ISSET (getEv s x).ev_event EV_ON_LIST ≠ 0 ∧ (getEv s x).ev_ident = (sig : Int)
  listed : ∀ x, ISSET (getEv s x).ev_event EV_ON_LIST ≠ 0 →
    ISSET (getEv s x).ev_event EV_TYPE_MASK = EV_SIGNAL ∧ x ∈ s.evb_signals (sigOf s x)
  nodup : ∀ sig, (s.evb_signals sig).Nodup
  heap : ∀ x ∈ s.evb_heap,
    ISSET (getEv s x).ev_event EV_ON_LIST ≠ 0 ∧ ISSET (getEv s x).ev_event EV_ON_HEAP ≠ 0
  hnodup : s.evb_heap.Nodup
  count : ∀ sig : Nat, signal_add_count s sig =
    signal_del_count s sig + (if s.evb_signals sig = [] then 0 else 1)

/-- Two events for signal 2 are added; the first is deleted, then the second. -/
def ex_two_signals_steps : List step :=
  [.api (.signal_set 0 2 7 42),
   .api (.signal_set 1 2 7 43),
   .api (.signal_add 0 none none 0),
   .api (.signal_add 1 (some ⟨1, 0⟩) (some ⟨100, 0⟩) 0),
   .api (.signal_del 0 0)]

def ex_two_signals : event_base := run_steps (event_init ex_mem) ex_two_signals_steps

/-- Whether every step of a sequence is a step of the signal API or of
`event_dispatch`, in the state it is made in. -/
def steps_signal_only (s : event_base) : List step → Bool
  | [] => true
  | st :: l => st.signal_only s && steps_signal_only (st.run s) l

/-! ## The timeout handed to the poller -/

/-- The timeout `event_dispatch` computes for `event_op_dispatch`: the time from
`now` to the deadline at the head of the heap, or null for an empty heap. -/
def event_dispatch_timeout (s : event_base) (now : timespec) : Option timespec :=
  match event_heap_first s with
  | some ev => some (timespecsub (getEv s ev).ev_deadline now)
  | none => none

/-- The timer drain of the turn `runs` of the loop of `event_dispatch`, entered in
state `s` with the clock reading `now`. -/
def event_dispatch_drained (env : dispatch_env) (runs : Nat) (now : timespec)
    (s : event_base) : Option dispatch_end × event_base :=
  event_dispatch_drain (env.op_del runs) now s.evb_heap.length s

/-- The timer drain and the delivery loop of the turn `runs` of the loop of
`event_dispatch`. -/
def event_dispatch_delivered (env : dispatch_env) (runs : Nat) (now : timespec)
    (s : event_base) (tr : List invocation) :
    Option dispatch_end × event_base × List invocation :=
  event_dispatch_fire env (event_dispatch_drained env runs now s).2.evb_fire.length
    (event_dispatch_drained env runs now s).2 tr

/-- A `struct timespec` in normal form: its nanoseconds are within a second. -/
def timespec_normal (t : timespec) : Prop := 0 ≤ t.tv_nsec ∧ t.tv_nsec < 1000000000

instance (t : timespec) : Decidable (timespec_normal t) := by
  unfold timespec_normal
  infer_instance

/-- The time `a` is not after the time `b`. -/
def timespec_le (a b : timespec) : Prop :=
  a.tv_sec < b.tv_sec ∨ (a.tv_sec = b.tv_sec ∧ a.tv_nsec ≤ b.tv_nsec)

instance (a b : timespec) : Decidable (timespec_le a b) := by
  unfold timespec_le
  infer_instance

/-- A `struct timeval` that is not negative and in normal form. -/
def timeval_nonneg (tv : timeval) : Prop :=
  0 ≤ tv.tv_sec ∧ 0 ≤ tv.tv_usec ∧ tv.tv_usec < 1000000

instance (tv : timeval) : Decidable (timeval_nonneg tv) := by
  unfold timeval_nonneg
  infer_instance

/-- The deadline a call of the public API stores in its event, if it stores
one. -/
def api_call.new_deadline : api_call → Option timespec
  | .event_add _ (some tv) now _ _ => event_deadline now tv
  | .evtimer_add _ tv now => event_deadline now tv
  | .signal_add _ (some tv) now _ => event_deadline now tv
  | _ => none

/-- Whether a call that adds a timeout passes a timeout that is not negative and
reads a clock value in normal form that is not before `now`. -/
def api_call.timeout_ok (now : timespec) : api_call → Bool
  | .event_add _ (some tv) (some n) _ _ =>
    decide (timeval_nonneg tv ∧ timespec_normal n ∧ timespec_le now n)
  | .evtimer_add _ tv (some n) => decide (timeval_nonneg tv ∧ timespec_normal n ∧ timespec_le now n)
  | .signal_add _ (some tv) (some n) _ =>
    decide (timeval_nonneg tv ∧ timespec_normal n ∧ timespec_le now n)
  | _ => true

/-- Every member of the heap has a deadline of which `P` holds. -/
def heap_deadlines (P : timespec → Prop) (s : event_base) : Prop :=
  ∀ x ∈ s.evb_heap, P (getEv s x).ev_deadline

/-- A timer (10 ms, added at time 100 s) and a persistent read event on
descriptor 5 without a timeout. -/
def ex_timer_io_steps : List step :=
  [.api (.evtimer_set 0 1 10),
   .api (.evtimer_add 0 ⟨0, 10000⟩ (some ⟨100, 0⟩)),
   .api (.event_set 2 5 (EV_READ ||| EV_PERSIST) 0 12),
   .api (.event_add 2 none none 0 0)]

def ex_timer_io : event_base := run_steps (event_init ex_mem) ex_timer_io_steps

/-- A dispatch at time 101 s in which the callback of the timer adds the timer
again with a timeout of -5 s; the poller refuses the timeout it is given. -/
def env_negative_timeout : dispatch_env :=
  { monotime := fun _ => some ⟨101, 0⟩, op_del := fun _ _ => 0,
    callback := fun _ i => if i.fn = 1 then [.evtimer_add 0 ⟨-5, 0⟩ (some ⟨101, 0⟩)] else [],
    poll := fun _ _ ts =>
      match ts with
      | some t => if t.tv_sec < 0 then (-1, []) else (0, [])
      | none => (0, []) }

/-- A dispatch at time 101 s in which the callback of the timer adds the timer
again with a timeout of 2 s, reading the clock at 101.5 s. -/
def env_readd : dispatch_env :=
  { monotime := fun _ => some ⟨101, 0⟩, op_del := fun _ _ => 0,
    callback := fun _ i =>
      if i.fn = 1 then [.evtimer_add 0 ⟨2, 0⟩ (some ⟨101, 500000000⟩)] else [],
    poll := fun _ _ _ => (-1, []) }

/-! ## The POLL poller (`event-poll.c`)

The slot descriptors `struct event_pfd` are allocated one by one and pointed
to by the array `evp_evpfds`; a descriptor is referred to by the position of
its pointer in that array, which is also what its `evpfd_idx` holds once it
is committed.  The `int` and `unsigned int` counters are natural numbers; the
generation counter wraps around. -/

/-- `struct pollfd` of `poll.h`. -/
structure pollfd where
  fd : Int
  events : Nat
  revents : Nat
deriving DecidableEq, Repr, Inhabited

def POLLIN : Nat := 0x0001
def POLLOUT : Nat := 0x0004
def POLLERR : Nat := 0x0008
def POLLHUP : Nat := 0x0010

/-- `struct event_pfd`; the heap linkage `evpfd_heap` is represented by the
heaps of the poller. -/
structure event_pfd where
  evpfd_ev : Option Nat
  evpfd_idx : Nat
  evpfd_gen : Nat
deriving DecidableEq, Repr, Inhabited

/-- `struct event_poll_signals`.  Handlers are represented by their addresses;
`evs_ev` is the address of the event object embedded in the structure. -/
structure event_poll_signals where
  evs_handlers : Nat → Int
  evs_signals : Nat → Int
  evs_rescan : Int
  evs_ev : Nat
  evs_pipe : Int × Int
  evs_refcnt : Nat

/-- `struct event_poll`. -/
structure event_poll where
  evp_pfds : List pollfd
  evp_pfdlen : Nat
  evp_nfds : Nat
  evp_evpfds : List event_pfd
  evp_live : List Nat
  evp_free : List Nat
  evp_gen : Nat
  evp_signals : Option event_poll_signals

/-- `event_poll_init` with the allocation succeeding. -/
def event_poll_init : event_poll :=
  { evp_pfds := [], evp_pfdlen := 0, evp_nfds := 0, evp_evpfds := [], evp_live := [],
    evp_free := [], evp_gen := 0, evp_signals := none }

/-- The descriptor `evp_evpfds[i]` points to. -/
def getPfd (evp : event_poll) (i : Nat) : event_pfd := evp.evp_evpfds.getD i default

/-- Store a descriptor where `evp_evpfds[i]` points to. -/
def setPfd (evp : event_poll) (i : Nat) (e : event_pfd) : event_poll :=
  { evp with evp_evpfds := evp.evp_evpfds.set i e }

/-- Store a `struct pollfd` at `evp_pfds[i]`. -/
def setPollfd (evp : event_poll) (i : Nat) (p : pollfd) : event_poll :=
  { evp with evp_pfds := evp.evp_pfds.set i p }

/-- `evp->evp_nfds = n`. -/
def evp_set_nfds (evp : event_poll) (n : Nat) : event_poll := { evp with evp_nfds := n }

/-- `evp->evp_pfdlen = n`. -/
def evp_set_pfdlen (evp : event_poll) (n : Nat) : event_poll := { evp with evp_pfdlen := n }

/-- The free heap after an extraction. -/
def evp_set_free (evp : event_poll) (l : List Nat) : event_poll := { evp with evp_free := l }

/-- `reallocarray` succeeding: the array has `n` elements, the old ones kept,
new ones with indeterminate content (represented by `d`). -/
def reallocarray {α : Type} (l : List α) (n : Nat) (d : α) : List α :=
  l.take n ++ List.replicate (n - l.length) d

/-- `evp->evp_evpfds = reallocarray(evp->evp_evpfds, n, ...)` succeeding. -/
def evp_realloc_evpfds (evp : event_poll) (n : Nat) : event_poll :=
  { evp with evp_evpfds := reallocarray evp.evp_evpfds n default }

/-- `evp->evp_pfds = reallocarray(evp->evp_pfds, n, ...)` succeeding. -/
def evp_realloc_pfds (evp : event_poll) (n : Nat) : event_poll :=
  { evp with evp_pfds := reallocarray evp.evp_pfds n default }

/-- `event_pfd_free_cmp`. -/
def event_pfd_free_cmp (a b : event_pfd) : Int :=
  if a.evpfd_idx > b.evpfd_idx then 1
  else if a.evpfd_idx < b.evpfd_idx then -1
  else 0

/-- `event_pfd_live_cmp`. -/
def event_pfd_live_cmp (a b : event_pfd) : Int :=
  if a.evpfd_idx < b.evpfd_idx then 1
  else if a.evpfd_idx > b.evpfd_idx then -1
  else 0

/-- Modelled from the spec: `HEAP_EXTRACT` of the missing `heap.h` extracts the
first member, or returns nothing for an empty heap. -/
def HEAP_EXTRACT (cmp : Nat → Nat → Int) (h : List Nat) : Option Nat × List Nat :=
  match HEAP_FIRST cmp h with
  | none => (none, h)
  | some n => (some n, HEAP_REMOVE h n)

def evpfd_live_first (evp : event_poll) : Option Nat :=
  HEAP_FIRST (fun a b => event_pfd_live_cmp (getPfd evp a) (getPfd evp b)) evp.evp_live

def evpfd_live_remove (evp : event_poll) (e : Nat) : event_poll :=
  { evp with evp_live := HEAP_REMOVE evp.evp_live e }

def evpfd_live_insert (evp : event_poll) (e : Nat) : event_poll :=
  { evp with evp_live := HEAP_INSERT evp.evp_live e }

def evpfd_free_first (evp : event_poll) : Option Nat :=
  HEAP_FIRST (fun a b => event_pfd_free_cmp (getPfd evp a) (getPfd evp b)) evp.evp_free

/-- `evpfd_free_cextract`: the key is the descriptor `k`. -/
def evpfd_free_cextract (evp : event_poll) (k : Nat) : Option Nat × event_poll :=
  let r := HEAP_CEXTRACT (fun a b => event_pfd_free_cmp (getPfd evp a) (getPfd evp b))
    (fun n => event_pfd_free_cmp (getPfd evp k) (getPfd evp n)) evp.evp_free
  (r.1, evp_set_free evp r.2)

def evpfd_free_extract (evp : event_poll) : Option Nat × event_poll :=
  let r := HEAP_EXTRACT (fun a b => event_pfd_free_cmp (getPfd evp a) (getPfd evp b))
    evp.evp_free
  (r.1, evp_set_free evp r.2)

def evpfd_free_insert (evp : event_poll) (e : Nat) : event_poll :=
  { evp with evp_free := HEAP_INSERT evp.evp_free e }

/-- The body of the loop of `event_poll_pack` for the live descriptor `l` and
the free descriptor `f` that the loop condition found; `gen` is the
generation read before the loop.  Nothing is returned when the body
dereferences a null `evpfd_ev`. -/
def event_poll_pack_move (evp : event_poll) (s : event_base) (gen l f : Nat) :
    Option (event_poll × event_base) :=
  let evp1 := evpfd_live_remove evp l
  let fidx := (getPfd evp1 f).evpfd_idx
  let lidx := (getPfd evp1 l).evpfd_idx
  let lpfd := evp1.evp_pfds.getD lidx default
  let fpfd := evp1.evp_pfds.getD fidx default
  let evp2 := setPollfd evp1 fidx { fpfd with fd := lpfd.fd, events := lpfd.events }
  let evp3 := setPfd evp2 f
    { getPfd evp2 f with evpfd_gen := gen, evpfd_ev := (getPfd evp2 l).evpfd_ev }
  match (getPfd evp3 f).evpfd_ev with
  | none => none
  | some ev =>
    let s1 := setEv s ev { getEv s ev with ev_cookie := some f }
    let evp4 := setPfd evp3 l { getPfd evp3 l with evpfd_gen := gen, evpfd_ev := none }
    some (evpfd_free_insert (evpfd_live_insert evp4 f) l, s1)

/-- The loop of `event_poll_pack`. -/
def event_poll_pack_loop (gen : Nat) :
    Nat → event_poll → event_base → Option (event_poll × event_base)
  | 0, evp, s => some (evp, s)
  | fuel + 1, evp, s =>
    match evpfd_live_first evp with
    | none => some (evp, s)
    | some l =>
      match evpfd_free_cextract evp l with
      | (none, _) => some (evp, s)
      | (some f, evp1) =>
        match event_poll_pack_move evp1 s gen l f with
        | none => none
        | some (evp2, s1) => event_poll_pack_loop gen fuel evp2 s1

/-- `event_poll_pack`.  Every turn of the loop replaces the highest live
position by a lower one, so the sum of the live positions is enough fuel. -/
def event_poll_pack (evp : event_poll) (s : event_base) : Option (event_poll × event_base) :=
  event_poll_pack_loop evp.evp_gen evp.evp_live.sum evp s

/-- `event_poll_event_add`.  `a1`, `a2` and `a3` tell whether the `malloc` of the
descriptor and the two `reallocarray` calls succeed if they are made.  Nothing
is returned when a free descriptor is expected and the free heap is empty
(a null pointer is dereferenced). -/
def event_poll_event_add (evp : event_poll) (s : event_base) (ev : Nat) (a1 a2 a3 : Bool) :
    Option (Int × event_poll × event_base) :=
  let i := evp.evp_nfds
  let nfds := evp.evp_nfds + 1
  let fin (evp1 : event_poll) (evpfd : Nat) : Option (Int × event_poll × event_base) :=
    let s1 := setEv s ev { getEv s ev with ev_cookie := some evpfd }
    let evp2 := setPfd evp1 evpfd
      { getPfd evp1 evpfd with evpfd_gen := evp1.evp_gen, evpfd_ev := some ev }
    let idx := (getPfd evp2 evpfd).evpfd_idx
    let evp3 := setPollfd evp2 idx
      { evp2.evp_pfds.getD idx default with
        fd := (getEv s ev).ev_ident,
        events := (if ISSET (getEv s ev).ev_event EV_READ ≠ 0 then POLLIN else 0) |||
          (if ISSET (getEv s ev).ev_event EV_WRITE ≠ 0 then POLLOUT else 0) }
    some (0, evp_set_nfds (evpfd_live_insert evp3 evpfd) nfds, s1)
  if nfds > evp.evp_pfdlen then
    if !a1 then some (-1, evp, s)
    else if !a2 then some (-1, evp, s)
    else
      let evp1 := evp_realloc_evpfds evp nfds
      if !a3 then some (-1, evp1, s)
      else
        let evp2 := setPfd evp1 i { (default : event_pfd) with evpfd_idx := i }
        fin (evp_set_pfdlen (evp_realloc_pfds evp2 nfds) nfds) i
  else
    match evpfd_free_extract evp with
    | (none, _) => none
    | (some f, evp1) => fin evp1 f

/-- `event_poll_event_del`.  Nothing is returned when `ev_cookie` is null (it is
dereferenced). -/
def event_poll_event_del (evp : event_poll) (s : event_base) (ev : Nat) :
    Option (Int × event_poll × event_base) :=
  match (getEv s ev).ev_cookie with
  | none => none
  | some evpfd =>
    let evp1 := evpfd_live_remove evp evpfd
    let evp2 := setPfd evp1 evpfd
      { getPfd evp1 evpfd with evpfd_gen := evp1.evp_gen, evpfd_ev := none }
    let evp3 := evpfd_free_insert evp2 evpfd
    some (0, evp_set_nfds evp3 (evp3.evp_nfds - 1),
      setEv s ev { getEv s ev with ev_cookie := none })

/-- The operations on the slots of the POLL poller. -/
inductive poll_step where
  | add (ev : Nat) (a1 a2 a3 : Bool)
  | del (ev : Nat)
  | pack
deriving DecidableEq, Repr

def poll_step.run (p : event_poll × event_base) : poll_step → Option (event_poll × event_base)
  | .add ev a1 a2 a3 => (event_poll_event_add p.1 p.2 ev a1 a2 a3).map (fun r => r.2)
  | .del ev => (event_poll_event_del p.1 p.2 ev).map (fun r => r.2)
  | .pack => event_poll_pack p.1 p.2

/-- `event_poll_event_del` is called on events that are registered: the cookie
of the event is a live descriptor. -/
def poll_step.valid (p : event_poll × event_base) : poll_step → Bool
  | .del ev =>
    match (getEv p.2 ev).ev_cookie with
    | none => false
    | some evpfd => decide (evpfd ∈ p.1.evp_live)
  | _ => true

/-- The states of the POLL poller, with the event objects: reached from
`event_poll_init` by its slot operations, between which the base may change
in any way that keeps the cookies of the events. -/
inductive poll_reachable : event_poll × event_base → Prop where
  | init (s : event_base) : poll_reachable (event_poll_init, s)
  | step {p p1 : event_poll × event_base} (st : poll_step) (h : poll_reachable p)
      (hv : st.valid p = true) (hr : st.run p = some p1) : poll_reachable p1
  | base {evp : event_poll} {s s1 : event_base} (h : poll_reachable (evp, s))
      (hc : ∀ x, (getEv s1 x).ev_cookie = (getEv s x).ev_cookie) : poll_reachable (evp, s1)

/-- The invariant of the slots of the POLL poller. -/
structure poll_inv (evp : event_poll) : Prop where
  live : evp.evp_live.Nodup
  free : evp.evp_free.Nodup
  disj : ∀ i ∈ evp.evp_live, i ∉ evp.evp_free
  cover : ∀ i, i < evp.evp_pfdlen ↔ i ∈ evp.evp_live ∨ i ∈ evp.evp_free
  nfds : evp.evp_nfds = evp.evp_live.length
  idx : ∀ i, i < evp.evp_pfdlen → (getPfd evp i).evpfd_idx = i
  len : evp.evp_pfdlen ≤ evp.evp_evpfds.length
  owner : ∀ i ∈ evp.evp_live, (getPfd evp i).evpfd_ev ≠ none

/-- The state after a sequence of slot operations, if none of them dereferences
a null pointer. -/
def poll_run (p : event_poll × event_base) : List poll_step → Option (event_poll × event_base)
  | [] => some p
  | st :: l =>
    match st.run p with
    | none => none
    | some p1 => poll_run p1 l

def poll_steps_valid (p : event_poll × event_base) : List poll_step → Bool
  | [] => true
  | st :: l =>
    st.valid p &&
      match st.run p with
      | none => false
      | some p1 => poll_steps_valid p1 l

/-- Five event objects, read events on the descriptors 10 to 14. -/
def ex_mem5 : List event :=
  (List.range 5).map (fun i =>
    { (default : event) with
      ev_ident := 10 + i
      ev_event := EV_INITIALIZED ||| EV_IO ||| EV_READ })

/-- Four events are added, the middle two are deleted, one more is added. -/
def ex_poll_steps : List poll_step :=
  [.add 0 true true true, .add 1 true true true, .add 2 true true true, .add 3 true true true,
   .del 1, .del 2, .add 4 true true true]

/-- The slots after the operations of `ex_poll_steps`. -/
def ex_poll : event_poll × event_base :=
  (poll_run (event_poll_init, event_init ex_mem5) ex_poll_steps).getD
    (event_poll_init, event_init ex_mem5)

/-! ## The POLL poller under the event base, and its signal plumbing -/

/-- `evp->evp_signals = o`. -/
def evp_set_signals (evp : event_poll) (o : Option event_poll_signals) : event_poll :=
  { evp with evp_signals := o }

/-- `SIG_DFL`, `SIG_IGN` and `SIG_ERR` of `signal.h`, as addresses. -/
def SIG_DFL : Int := 0
def SIG_IGN : Int := 1
def SIG_ERR : Int := -1

/-- `NSIG` of `signal.h` (the value of OpenBSD). -/
def NSIG : Nat := 33

def SIGKILL : Int := 9
def SIGSTOP : Int := 17

/-- The address of the handler `event_poll_signal`. -/
def event_poll_signal_fn : Int := 4096

/-- The callback `event_poll_pipe` of the event of the self-pipe. -/
def event_poll_pipe_fn : Nat := 4097

/-- An event base whose `evb_ops` is `event_poll_ops`: the base, the poller state
`event_base_backend(evb)`, the signal dispositions of the process, and whether
the static `_evs` points to the signal plumbing. -/
structure poll_base where
  evb : event_base
  evp : event_poll
  sigdisp : Nat → Int
  evs_static : Bool

/-- The platform's `signal(2)`: it installs `handler` for the signal `s` and
returns the previous disposition; for a number that is no signal, and for
`SIGKILL` and `SIGSTOP`, it changes nothing and returns `SIG_ERR`. -/
def sys_signal (disp : Nat → Int) (s : Int) (handler : Int) : Int × (Nat → Int) :=
  if 0 < s ∧ s < NSIG ∧ s ≠ SIGKILL ∧ s ≠ SIGSTOP then
    (disp s.toNat, fun j => if j = s.toNat then handler else disp j)
  else (SIG_ERR, disp)

/-- `event_add` with `event_poll_event_add` as `evo_event_add`.  `event_add` makes at
most one call of the poller, which touches the poller state and the cookie of
the event only, and it makes the call exactly when the history of the poller
calls grows. -/
def poll_event_add (w : poll_base) (ev : Nat) (tv : Option timeval) (now : Option timespec)
    (rv0 : Int) (a1 a2 a3 : Bool) : Option (Int × poll_base) :=
  if (event_add w.evb ev tv now 0 rv0).2.evb_backend = w.evb.evb_backend then
    some ((event_add w.evb ev tv now 0 rv0).1, { w with evb := (event_add w.evb ev tv now 0 rv0).2 })
  else
    match event_poll_event_add w.evp w.evb ev a1 a2 a3 with
    | none => none
    | some (rv, evp1, s1) =>
      some ((event_add s1 ev tv now rv rv0).1,
        { w with evb := (event_add s1 ev tv now rv rv0).2, evp := evp1 })

/-- `event_del` with `event_poll_event_del` as `evo_event_del`. -/
def poll_event_del (w : poll_base) (ev : Nat) : Option (Int × poll_base) :=
  if (event_del w.evb ev 0).2.evb_backend = w.evb.evb_backend then
    some ((event_del w.evb ev 0).1, { w with evb := (event_del w.evb ev 0).2 })
  else
    match event_poll_event_del w.evp w.evb ev with
    | none => none
    | some (rv, evp1, s1) =>
      some ((event_del s1 ev rv).1, { w with evb := (event_del s1 ev rv).2, evp := evp1 })

/-- The storage `malloc` returns to `event_poll_signals_create`: its content is
indeterminate; `evs_ev` is the address of the event object in it. -/
structure evs_storage where
  evs_handlers : Nat → Int
  evs_signals : Nat → Int
  evs_ev : Nat

/-- `event_poll_signals_create`.  `m` is what `malloc` returns, `pipe` what `pipe2`
stores if it succeeds, `a1`, `a2`, `a3` tell whether the allocations of
`event_poll_event_add` succeed.  The arrays `evs_handlers` and `evs_signals` keep the
indeterminate content of the storage. -/
def event_poll_signals_create (w : poll_base) (m : Option evs_storage)
    (pipe : Option (Int × Int)) (a1 a2 a3 : Bool) :
    Option (Option event_poll_signals × poll_base) :=
  match m with
  | none => some (none, w)
  | some st =>
    match pipe with
    | none => some (none, w)
    | some fds =>
      let evs : event_poll_signals :=
        { evs_handlers := st.evs_handlers, evs_signals := st.evs_signals, evs_rescan := 0,
          evs_ev := st.evs_ev, evs_pipe := fds, evs_refcnt := 1 }
      let w1 := { w with
        evb := event_set w.evb st.evs_ev fds.1 (EV_READ ||| EV_PERSIST) event_poll_pipe_fn 0 }
      match poll_event_add w1 st.evs_ev none none 0 a1 a2 a3 with
      | none => none
      | some (rv, w2) =>
        if rv ≠ 0 then some (none, w2)
        else some (some evs, { w2 with evs_static := true })

/-- The loop of `event_poll_signals_destroy` over the signal numbers. -/
def event_poll_signals_restore (evs : event_poll_signals) (disp : Nat → Int) : Nat → Int :=
  (List.range NSIG).foldl
    (fun d i => if evs.evs_handlers i ≠ SIG_ERR then (sys_signal d i (evs.evs_handlers i)).2 else d)
    disp

/-- `event_poll_signals_destroy`.  Nothing is returned when it calls `abort` or
dereferences a null pointer. -/
def event_poll_signals_destroy (w : poll_base) (evs : Option event_poll_signals) :
    Option poll_base :=
  match evs with
  | none => some w
  | some e =>
    match poll_event_del { w with evs_static := false } e.evs_ev with
    | none => none
    | some (rv, w2) =>
      if rv ≠ 0 then none
      else some { w2 with sigdisp := event_poll_signals_restore e w2.sigdisp }

/-- `event_poll_signals_take`; the result tells whether the plumbing, which is then
in `evp_signals`, is returned. -/
def event_poll_signals_take (w : poll_base) (m : Option evs_storage)
    (pipe : Option (Int × Int)) (a1 a2 a3 : Bool) : Option (Bool × poll_base) :=
  match w.evp.evp_signals with
  | none =>
    match event_poll_signals_create w m pipe a1 a2 a3 with
    | none => none
    | some (none, w1) => some (false, w1)
    | some (some evs, w1) => some (true, { w1 with evp := evp_set_signals w1.evp (some evs) })
  | some evs =>
    some (true, { w with
      evp := evp_set_signals w.evp (some { evs with evs_refcnt := uinc evs.evs_refcnt }) })

/-- `event_poll_signals_rele` of the plumbing in `evp_signals`. -/
def event_poll_signals_rele (w : poll_base) : Option poll_base :=
  match w.evp.evp_signals with
  | none => none
  | some evs =>
    if udec evs.evs_refcnt = 0 then
      event_poll_signals_destroy { w with evp := evp_set_signals w.evp none }
        (some { evs with evs_refcnt := udec evs.evs_refcnt })
    else
      some { w with
        evp := evp_set_signals w.evp (some { evs with evs_refcnt := udec evs.evs_refcnt }) }

/-- `event_poll_signal_add`. -/
def event_poll_signal_add (w : poll_base) (s : Int) (m : Option evs_storage)
    (pipe : Option (Int × Int)) (a1 a2 a3 : Bool) : Option (Int × poll_base) :=
  match event_poll_signals_take w m pipe a1 a2 a3 with
  | none => none
  | some (false, w1) => some (-1, w1)
  | some (true, w1) =>
    if (sys_signal w1.sigdisp s event_poll_signal_fn).1 = SIG_ERR then
      match event_poll_signals_rele w1 with
      | none => none
      | some w2 => some (-1, w2)
    else
      match w1.evp.evp_signals with
      | none => none
      | some evs =>
        some (0, { w1 with
          sigdisp := (sys_signal w1.sigdisp s event_poll_signal_fn).2,
          evp := evp_set_signals w1.evp (some { evs with
            evs_handlers := fun j =>
              if j = s.toNat then (sys_signal w1.sigdisp s event_poll_signal_fn).1
              else evs.evs_handlers j }) })

/-- `event_poll_signal_del`. -/
def event_poll_signal_del (w : poll_base) (s : Int) : Option (Int × poll_base) :=
  match w.evp.evp_signals with
  | none => none
  | some evs =>
    if (sys_signal w.sigdisp s (evs.evs_handlers s.toNat)).1 = SIG_ERR then some (-1, w)
    else
      match event_poll_signals_rele
          { w with sigdisp := (sys_signal w.sigdisp s (evs.evs_handlers s.toNat)).2 } with
      | none => none
      | some w1 => some (0, w1)

/-- A process that has installed the handler at address 77 for signal 2 and left
every other signal at its default, with a fresh event base over `ex_mem`. -/
def ex_poll_base : poll_base :=
  { evb := event_init ex_mem, evp := event_poll_init,
    sigdisp := fun j => if j = 2 then 77 else SIG_DFL, evs_static := false }

/-- Storage filled with zeroes, its event object at address 2. -/
def ex_storage : evs_storage :=
  { evs_handlers := fun _ => 0, evs_signals := fun _ => 0, evs_ev := 2 }

/-- The state after `event_poll_signal_add(30)` followed by `event_poll_signal_del(30)`,
with every allocation succeeding. -/
def ex_signal_add_del : Option (Int × poll_base) :=
  match event_poll_signal_add ex_poll_base 30 (some ex_storage) (some (5, 6)) true true true with
  | none => none
  | some (_, w1) => event_poll_signal_del w1 30

/-! ## The KQ poller (`event-kqueue.c`) -/

/-- `EV_ADD`, `EV_DELETE` and `EV_ONESHOT` of `sys/event.h`. -/
def EV_ADD : Nat := 0x0001
def EV_DELETE : Nat := 0x0002
def EV_ONESHOT : Nat := 0x0010

/-- `EVFILT_READ` and `EVFILT_WRITE` of `sys/event.h`. -/
def EVFILT_READ : Int := -1
def EVFILT_WRITE : Int := -2

def NOTE_EOF : Nat := 0x0002

/-- `struct kevent` of `sys/event.h`; `udata` is the address of an event object. -/
structure kevent where
  ident : Int
  filter : Int
  flags : Nat
  fflags : Nat
  data : Int
  udata : Option Nat
deriving DecidableEq, Repr

/-- `EV_SET` of `sys/event.h`. -/
def EV_SET (ident filter : Int) (flags fflags : Nat) (data : Int) (udata : Option Nat) : kevent :=
  { ident := ident, filter := filter, flags := flags, fflags := fflags, data := data,
    udata := udata }

/-- The local `flags` of `event_kq_event_add` when the changes are built. -/
def event_kq_event_add_flags (ev_event : Nat) : Nat :=
  if ISSET ev_event (EV_READ ||| EV_WRITE) ≠ (EV_READ ||| EV_WRITE) ∧
      ISSET ev_event EV_PERSIST = 0 then SET EV_ADD EV_ONESHOT
  else EV_ADD

/-- The changes `kevs[0 .. nchanges)` that `event_kq_event_add` hands to `kevent`. -/
def event_kq_event_add_changes (s : event_base) (ev : Nat) : List kevent :=
  (if ISSET (getEv s ev).ev_event EV_READ ≠ 0 then
    [EV_SET (getEv s ev).ev_ident EVFILT_READ (event_kq_event_add_flags (getEv s ev).ev_event)
      NOTE_EOF 0 (some ev)]
   else []) ++
  (if ISSET (getEv s ev).ev_event EV_WRITE ≠ 0 then
    [EV_SET (getEv s ev).ev_ident EVFILT_WRITE (event_kq_event_add_flags (getEv s ev).ev_event)
      0 0 (some ev)]
   else [])

/-- `event_kq_event_add`: `nevents` is `evkq_nevents`, `rv` what `kevent` returns for the
changes.  The result is the value returned and the new `evkq_nevents`. -/
def event_kq_event_add (nevents : Int) (s : event_base) (ev : Nat) (rv : Int) : Int × Int :=
  if rv = -1 then (-1, nevents)
  else (0, nevents + (event_kq_event_add_changes s ev).length)

/-- The condition set `event_kq_fire_event` hands to `event_fire_event`, from the
`flags` it is called with and the flag word of the event. -/
def event_kq_fire_event_flags (flags ev_event : Nat) : Nat :=
  if ISSET ev_event (EV_READ ||| EV_WRITE) ≠ (EV_READ ||| EV_WRITE) then
    SET flags (ISSET ev_event EV_PERSIST)
  else SET flags EV_PERSIST

/-- `event_kq_fire_event`; `oprv` is what `evo_event_del` returns if `event_fire_event`
calls it. -/
def event_kq_fire_event (s : event_base) (flags : Nat) (ev : Nat) (oprv : Int) : event_base :=
  event_fire_event s ev (event_kq_fire_event_flags flags (getEv s ev).ev_event) oprv

/-- A read event without `EV_PERSIST` on descriptor 3. -/
def ex_mem_read : List event :=
  [{ (default : event) with ev_ident := 3, ev_event := EV_INITIALIZED ||| EV_IO ||| EV_READ }]


/-- A persistent read event on descriptor 3 is set and added with a timeout of 1 s. -/
def ex_io_persist_steps : List step :=
  [.api (.event_set 0 3 (EV_READ ||| EV_PERSIST) 7 42),
   .api (.event_add 0 (some ⟨1, 0⟩) (some ⟨100, 0⟩) 0 0)]

def ex_io_persist : event_base := run_steps (event_init ex_mem) ex_io_persist_steps


/-- Whether a call through `evb_ops` is a call of the poller's `evo_dispatch`. -/
def poller_call.is_dispatch : poller_call → Bool
  | .dispatch _ => true
  | _ => false

/-- How many times the poller's `evo_dispatch` was called. -/
def dispatch_calls (s : event_base) : Nat :=
  (s.evb_backend.filter (fun c => c.1.is_dispatch)).length

/-- The change of `evb_list_len` that goes with a call through `evb_ops` that returned
`rv`. -/
def list_len_step (c : poller_call) (rv : Int) (n : Nat) : Nat :=
  match c with
  | .event_add _ => if rv = 0 then uinc n else n
  | .event_del _ => if rv = 0 then udec n else n
  | _ => n

/-- The kind field of a flag word is one of `EV_IO`, `EV_TIMEOUT` and `EV_SIGNAL`. -/
def known_kind (v : Nat) : Prop :=
  ISSET v EV_TYPE_MASK = EV_IO ∨ ISSET v EV_TYPE_MASK = EV_TIMEOUT ∨
    ISSET v EV_TYPE_MASK = EV_SIGNAL

instance (v : Nat) : Decidable (known_kind v) := by
  unfold known_kind
  infer_instance

/-- Every event object has one of the three kinds, as the `set` functions leave
it. -/
def kinds_known (s : event_base) : Prop := ∀ e ∈ s.mem, known_kind e.ev_event

instance (s : event_base) : Decidable (kinds_known s) := by
  unfold kinds_known
  infer_instance

/-- A persistent read event on descriptor 3 is set and added without a timeout. -/
def ex_persist_steps : List step :=
  [.api (.event_set 0 3 (EV_READ ||| EV_PERSIST) 7 42),
   .api (.event_add 0 none none 0 0)]

def ex_persist : event_base := run_steps (event_init ex_mem) ex_persist_steps

/-- A dispatch in which the poller reports the event object 0 readable every time
it is called; callbacks make no API call. -/
def env_always_ready : dispatch_env :=
  { monotime := fun _ => some ⟨100, 0⟩, op_del := fun _ _ => 0,
    callback := fun _ _ => [],
    poll := fun _ _ _ => (1, [.fire_event 0 (EV_READ ||| EV_PERSIST) 0]) }


/-- Whether the call is one of `event_del`, `evtimer_del`, `signal_del`. -/
def api_call.is_del : api_call → Bool
  | .event_del _ _ => true
  | .evtimer_del _ => true
  | .signal_del _ _ => true
  | _ => false

/-- What a call of the public API on the event `t` leaves alone between the state
`s` before and the state `s1` after: the running flag, the number of calls of
the poller's dispatch, every event other than `t`, the accumulator `ev_fires` and
the kind of every event unless the call is a `set` (which gives `t` one of the
three kinds), the fire queue apart from the removal of `t` by a delete, and every
`ev_cookie`; it makes at most one call through `evb_ops`, and `evb_list_len` changes
with that call only. -/
structure api_frame (s s1 : event_base) (t : Nat) (set del : Bool) : Prop where
  running : s1.evb_running = s.evb_running
  calls : dispatch_calls s1 = dispatch_calls s
  others : ∀ x, x ≠ t → getEv s1 x = getEv s x
  fires : set = false → ∀ x, (getEv s1 x).ev_fires = (getEv s x).ev_fires ∧
    ISSET (getEv s1 x).ev_event EV_TYPE_MASK = ISSET (getEv s x).ev_event EV_TYPE_MASK
  kind : set = true → known_kind (getEv s1 t).ev_event
  queue : del = false → s1.evb_fire = s.evb_fire
  keep : ∀ x ∈ s.evb_fire, x ≠ t → x ∈ s1.evb_fire
  cookie : ∀ x, (getEv s1 x).ev_cookie = (getEv s x).ev_cookie
  log : (s1.evb_backend = s.evb_backend ∧ s1.evb_list_len = s.evb_list_len) ∨
    ∃ c rv, s1.evb_backend = s.evb_backend ++ [(c, rv)] ∧
      s1.evb_list_len = list_len_step c rv s.evb_list_len


/-- Everything of the base but the fire queue and the event objects is the same
in `s1` as in `s`: the timeout heap, the signal lists, the I/O list and its
length, the event count, the running flag and the history of poller calls. -/
def same_registration (s s1 : event_base) : Prop :=
  s1.evb_heap = s.evb_heap ∧ s1.evb_signals = s.evb_signals ∧ s1.evb_list = s.evb_list ∧
    s1.evb_list_len = s.evb_list_len ∧ s1.evb_nevents = s.evb_nevents ∧
    s1.evb_running = s.evb_running ∧ s1.evb_backend = s.evb_backend

/-- What `event_fire_signal` does to the event objects and the fire queue, for the
signal list `l`: `s` is the state before, `s1` the state after. -/
structure signal_fired (s s1 : event_base) (l : List Nat) : Prop where
  reg : same_registration s s1
  listed : ∀ x ∈ l, getEv s1 x =
    { getEv s x with
      ev_fires := SET (getEv s x).ev_fires EV_SIGNAL
      ev_event := SET (getEv s x).ev_event EV_ON_FIRE }
  others : ∀ x, x ∉ l → getEv s1 x = getEv s x
  queue : ∃ q, s1.evb_fire = s.evb_fire ++ q ∧ q.Sublist l ∧
    ∀ x, x ∈ q ↔ x ∈ l ∧ x ∉ s.evb_fire

/-- Two events for signal 2 are added and `event_dispatch` is entered. -/
def ex_two_listed_steps : List step :=
  [.api (.signal_set 0 2 7 42),
   .api (.signal_set 1 2 7 43),
   .api (.signal_add 0 none none 0),
   .api (.signal_add 1 none none 0),
   .dispatch_start]

def ex_two_listed : event_base := run_steps (event_init ex_mem) ex_two_listed_steps

/-- Callbacks of a dispatch: the one with argument 42 calls `signal_del` on the
event object 1, the others make no call. -/
def env_del_sibling : dispatch_env :=
  { monotime := fun _ => some ⟨101, 0⟩, op_del := fun _ _ => 0,
    callback := fun _ i => if i.arg = 42 then [.signal_del 1 0] else [],
    poll := fun _ _ _ => (0, []) }

/-- The moves the loop of `event_poll_pack` makes: each is the live descriptor whose
registration is moved and the free descriptor it is moved to. -/
def event_poll_pack_moves (gen : Nat) : Nat → event_poll → event_base → List (Nat × Nat)
  | 0, _, _ => []
  | fuel + 1, evp, s =>
    match evpfd_live_first evp with
    | none => []
    | some l =>
      match evpfd_free_cextract evp l with
      | (none, _) => []
      | (some f, evp1) =>
        match event_poll_pack_move evp1 s gen l f with
        | none => []
        | some (evp2, s1) => (l, f) :: event_poll_pack_moves gen fuel evp2 s1

/-- The `struct pollfd` of the descriptor at position `i`. -/
def evpfd_pollfd (evp : event_poll) (i : Nat) : pollfd :=
  evp.evp_pfds.getD (getPfd evp i).evpfd_idx default

/-- The registrations of the poller: for every live descriptor its owner and the
descriptor and conditions the platform poll is asked about. -/
def poll_registrations (evp : event_poll) : List (Option Nat × Int × Nat) :=
  evp.evp_live.map (fun i =>
    ((getPfd evp i).evpfd_ev, (evpfd_pollfd evp i).fd, (evpfd_pollfd evp i).events))

/-- The slots and the event objects agree: the `pollfd` array has room for every
slot, every live descriptor is owned by an event whose `ev_cookie` designates it,
and every free descriptor has a null owner. -/
structure poll_cookie_inv (evp : event_poll) (s : event_base) : Prop where
  pfds : evp.evp_pfdlen ≤ evp.evp_pfds.length
  owned : ∀ i ∈ evp.evp_live,
    ∃ ev, (getPfd evp i).evpfd_ev = some ev ∧ (getEv s ev).ev_cookie = some i
  vacant : ∀ i ∈ evp.evp_free, (getPfd evp i).evpfd_ev = none

/-! ## `event_poll_dispatch` -/

/-- How a run of the POLL poller leaves defined behaviour: `evpfd->evpfd_ev` is null
where it is dereferenced, `ev->ev_cookie` is null where `event_poll_event_del`
dereferences it, or `evp_evpfds[i]` is read beyond the array. -/
inductive poll_fault where
  | null_owner
  | null_cookie
  | out_of_bounds
deriving DecidableEq, Repr

/-- `evp->evp_gen = g`. -/
def evp_set_gen (evp : event_poll) (g : Nat) : event_poll := { evp with evp_gen := g }

/-- The array `evp_pfds` after the platform wrote to it. -/
def evp_set_pfds (evp : event_poll) (l : List pollfd) : event_poll := { evp with evp_pfds := l }

/-- `event_fire_event` with `event_poll_event_del` as `evo_event_del`: as `event_del`, it makes
at most one call of the poller, exactly when the history of poller calls
grows. -/
def poll_fire_event (w : poll_base) (ev event : Nat) : Option poll_base :=
  if (event_fire_event w.evb ev event 0).evb_backend = w.evb.evb_backend then
    some { w with evb := event_fire_event w.evb ev event 0 }
  else
    match event_poll_event_del w.evp w.evb ev with
    | none => none
    | some (rv, evp1, s1) => some { w with evb := event_fire_event s1 ev event rv, evp := evp1 }

/-- `event_poll_signal_scan`: the value returned, the plumbing and the base after it,
and the signals fired, in order. -/
def event_poll_signal_scan (evs : event_poll_signals) (s : event_base) :
    Int × event_poll_signals × event_base × List poller_report :=
  (List.range NSIG).foldl
    (fun r sg =>
      if r.2.1.evs_signals sg ≠ 0 then
        (1, { r.2.1 with evs_signals := fun j => if j = sg then 0 else r.2.1.evs_signals j },
          event_fire_signal r.2.2.1 sg, r.2.2.2 ++ [.fire_signal sg])
      else r)
    (0, { evs with evs_rescan := 0 }, s, [])

/-- The platform's `ppoll` on `pfds[0 .. nfds)`, from position `i` on: it stores the
conditions it found, `revents j` for the entry `j`. -/
def sys_ppoll (revents : Nat → Nat) (nfds : Nat) : Nat → List pollfd → List pollfd
  | _, [] => []
  | i, p :: ps =>
    (if i < nfds then { p with revents := revents i } else p) :: sys_ppoll revents nfds (i + 1) ps

/-- The loop of `event_poll_dispatch` that resets the stored generations when the
counter has wrapped: `~0` in an `unsigned int`. -/
def event_poll_reset_gens (evp : event_poll) : event_poll :=
  (List.range evp.evp_pfdlen).foldl
    (fun e i => setPfd e i { getPfd e i with evpfd_gen := UINT_MOD - 1 }) evp

/-- The conditions `event_poll_dispatch` translates the `revents` of a slot to (its local
`event`). -/
def event_poll_conditions (revents : Nat) : Nat :=
  if ISSET revents (POLLHUP ||| POLLERR) ≠ 0 then SET 0 (EV_READ ||| EV_WRITE)
  else
    let e1 := if ISSET revents POLLIN ≠ 0 then SET 0 EV_READ else 0
    if ISSET revents POLLOUT ≠ 0 then SET e1 EV_WRITE else e1

/-- The call of `event_fire_event` the scan of `event_poll_dispatch` makes for a slot owned
by `ev` whose `revents` is given, if it makes one. -/
def event_poll_scan_report (s : event_base) (ev revents : Nat) : Option poller_report :=
  if ISSET (getEv s ev).ev_event (event_poll_conditions revents) ≠ 0 then
    some (.fire_event ev (event_poll_conditions revents ||| EV_PERSIST) 0)
  else none

/-- The body of the scan loop of `event_poll_dispatch` for the slot `i`, after the test of
the generation, up to the test of `revents`. -/
def event_poll_scan_slot (w : poll_base) (i : Nat) :
    Except poll_fault (poll_base × List poller_report) :=
  match (getPfd w.evp i).evpfd_ev with
  | none => .error .null_owner
  | some ev =>
    match event_poll_scan_report w.evb ev (w.evp.evp_pfds.getD i default).revents with
    | some (.fire_event e event _) =>
      match poll_fire_event w e event with
      | none => .error .null_cookie
      | some w1 => .ok (w1, [.fire_event e event 0])
    | _ => .ok (w, [])

/-- The scan loop `for (i = 0; i < nfds; i++)` of `event_poll_dispatch`, entered at `i` with
`fuel = nfds - i`; `gen` is the incremented generation, `len` what is left of the
value `ppoll` returned, `rep` the calls of `event_fire_event` made so far. -/
def event_poll_scan (gen : Nat) :
    Nat → Nat → poll_base → Int → List poller_report →
      Except poll_fault (poll_base × List poller_report)
  | 0, _, w, _, rep => .ok (w, rep)
  | fuel + 1, i, w, len, rep =>
    if w.evp.evp_evpfds.length ≤ i then .error .out_of_bounds
    else if (getPfd w.evp i).evpfd_gen = gen then event_poll_scan gen fuel (i + 1) w len rep
    else
      match event_poll_scan_slot w i with
      | .error f => .error f
      | .ok (w1, r) =>
        if (w1.evp.evp_pfds.getD i default).revents ≠ 0 then
          if len - 1 = 0 then .ok (w1, rep ++ r)
          else event_poll_scan gen fuel (i + 1) w1 (len - 1) (rep ++ r)
        else event_poll_scan gen fuel (i + 1) w1 len (rep ++ r)

/-- The signal rescan at the top of `event_poll_dispatch`: whether it makes the function
return, the state after it and the signals fired. -/
def event_poll_rescan (w : poll_base) : Bool × poll_base × List poller_report :=
  match w.evp.evp_signals with
  | none => (false, w, [])
  | some evs =>
    if evs.evs_rescan ≠ 0 then
      (decide ((event_poll_signal_scan evs w.evb).1 ≠ 0),
        { w with
          evp := evp_set_signals w.evp (some (event_poll_signal_scan evs w.evb).2.1)
          evb := (event_poll_signal_scan evs w.evb).2.2.1 },
        (event_poll_signal_scan evs w.evb).2.2.2)
    else (false, w, [])

/-- `event_poll_dispatch`.  `len` is what `ppoll` returns and `revents` what it stores.  The
result is the value returned, the state, and the calls of `event_fire_event` and
`event_fire_signal` made, in order. -/
def event_poll_dispatch (w : poll_base) (len : Int) (revents : Nat → Nat) :
    Except poll_fault (Int × poll_base × List poller_report) :=
  if (event_poll_rescan w).1 then .ok (0, (event_poll_rescan w).2.1, (event_poll_rescan w).2.2)
  else
    match event_poll_pack (event_poll_rescan w).2.1.evp (event_poll_rescan w).2.1.evb with
    | none => .error .null_owner
    | some (evp1, s1) =>
      if len = -1 then
        .ok (-1, { (event_poll_rescan w).2.1 with evp := evp1, evb := s1 },
          (event_poll_rescan w).2.2)
      else
        let evp2 := evp_set_pfds evp1 (sys_ppoll revents (event_list_len s1) 0 evp1.evp_pfds)
        if len = 0 then
          .ok (0, { (event_poll_rescan w).2.1 with evp := evp2, evb := s1 },
            (event_poll_rescan w).2.2)
        else
          let evp3 := evp_set_gen evp2 (uinc evp2.evp_gen)
          let evp4 := if evp3.evp_gen = 0 then event_poll_reset_gens evp3 else evp3
          match event_poll_scan evp4.evp_gen (event_list_len s1) 0
              { (event_poll_rescan w).2.1 with evp := evp4, evb := s1 } len
              (event_poll_rescan w).2.2 with
          | .error f => .error f
          | .ok (w1, rep) => .ok (0, w1, rep)

/-! ## The event base with the POLL poller -/

/-- What the platform returns to the POLL poller during one of its operations:
whether the allocations of `event_poll_event_add` succeed, the storage `malloc` returns
for the signal plumbing and the descriptors of its pipe, and the result of
`ppoll`. -/
structure poll_env where
  a1 : Bool
  a2 : Bool
  a3 : Bool
  m : Option evs_storage
  pipe : Option (Int × Int)
  len : Int
  revents : Nat → Nat

/-- The operation of `event_poll_ops` behind a call through `evb_ops`: the value it
returns and the state it leaves, nothing when it leaves defined behaviour. -/
def poll_op (w : poll_base) (e : poll_env) : poller_call → Option (Int × poll_base)
  | .event_add ev =>
    (event_poll_event_add w.evp w.evb ev e.a1 e.a2 e.a3).map
      (fun r => (r.1, { w with evp := r.2.1, evb := r.2.2 }))
  | .event_del ev =>
    (event_poll_event_del w.evp w.evb ev).map
      (fun r => (r.1, { w with evp := r.2.1, evb := r.2.2 }))
  | .signal_add sg => event_poll_signal_add w sg e.m e.pipe e.a1 e.a2 e.a3
  | .signal_del sg => event_poll_signal_del w sg
  | .dispatch _ =>
    match event_poll_dispatch w e.len e.revents with
    | .error _ => none
    | .ok r => some (r.1, r.2.1)

/-- `event_fire_event` is called by the poller only, from inside its dispatch. -/
def step.by_poller : step → Bool
  | .fire_event _ _ _ => true
  | _ => false

/-- The state of a base whose `evb_ops` is `event_poll_ops` after a step: a step that
makes no call through `evb_ops` changes the base only; a step that calls the
operation `c`, which returns `rv` and leaves `w1`, completes in `w1`. -/
inductive poll_api_step (w : poll_base) : poll_base → Prop where
  | quiet (st : step) (hv : st.valid w.evb = true) (hp : st.by_poller = false)
      (hq : (st.run w.evb).evb_backend = w.evb.evb_backend) :
      poll_api_step w { w with evb := st.run w.evb }
  | op (st : step) (e : poll_env) (c : poller_call) (rv : Int) (w1 : poll_base)
      (hv : st.valid w.evb = true) (hp : st.by_poller = false)
      (hc : (st.run w.evb).evb_backend = w.evb.evb_backend ++ [(c, rv)])
      (ho : poll_op w e c = some (rv, w1))
      (hl : (st.run w1.evb).evb_backend = w1.evb.evb_backend ++ [(c, rv)]) :
      poll_api_step w { w1 with evb := st.run w1.evb }

/-- The states of a base with the POLL poller that are reachable from `event_init` by
the steps of the public API and of `event_dispatch`.  The event objects of the
user start outside every container and with a null `ev_cookie`. -/
inductive poll_api_reachable : poll_base → Prop where
  | init (mem : List event) (disp : Nat → Int)
      (h : mem.all (fun e => decide (ISSET e.ev_event EV_PLACEMENT = 0) &&
        decide (e.ev_cookie = none)) = true) :
      poll_api_reachable
        { evb := event_init mem, evp := event_poll_init, sigdisp := disp, evs_static := false }
  | step {w w1 : poll_base} (h : poll_api_reachable w) (hs : poll_api_step w w1) :
      poll_api_reachable w1

/-- The invariant of a base with the POLL poller: the slot invariant, every
`ev_cookie` that is not null designates a live descriptor owned by the event,
and `evb_list_len` is `evp_nfds` (as `unsigned int`). -/
structure poll_state_inv (w : poll_base) : Prop where
  slots : poll_inv w.evp
  cookies : ∀ ev c, (getEv w.evb ev).ev_cookie = some c →
    c ∈ w.evp.evp_live ∧ (getPfd w.evp c).evpfd_ev = some ev
  len : w.evb.evb_list_len = w.evp.evp_nfds % UINT_MOD

/-! ## Example states of a base with the POLL poller -/

/-- A read event on descriptor 3, without `EV_PERSIST`, is set and added on a fresh
base with the POLL poller, every allocation succeeding. -/
def ex_poll_read : Option (Int × poll_base) :=
  poll_event_add { ex_poll_base with evb := event_set ex_poll_base.evb 0 3 EV_READ 7 42 }
    0 none none 0 true true true

/-- The platform then reports `POLLHUP` for the descriptor: the dispatch of the
POLL poller in the state of `ex_poll_read`. -/
def ex_poll_hup : Option (Int × poll_base × List poller_report) :=
  match ex_poll_read with
  | none => none
  | some (_, w) => (event_poll_dispatch w 1 (fun _ => POLLHUP)).toOption

/-- A fresh base with the POLL poller over `ex_mem`, on which a read event on descriptor 3
is set. -/
def ex_poll_set : poll_base :=
  { ex_poll_base with evb := (step.api (.event_set 0 3 EV_READ 7 42)).run ex_poll_base.evb }

/-- What the platform returns in the examples: every allocation succeeds, and `ppoll`
reports one descriptor, readable. -/
def ex_poll_env : poll_env :=
  { a1 := true, a2 := true, a3 := true, m := none, pipe := none, len := 1,
    revents := fun _ => POLLIN }

/-- The state of the poller after `event_poll_event_add` for the event of `ex_poll_set`. -/
def ex_poll_add_op : poll_base :=
  ((poll_op ex_poll_set ex_poll_env (.event_add 0)).getD (0, ex_poll_set)).2

/-- The event of `ex_poll_set` is added. -/
def ex_poll_added : poll_base :=
  { ex_poll_add_op with
    evb := (step.api (.event_add 0 none none 0 0)).run ex_poll_add_op.evb }

/-- Every `ev_cookie` that is not null designates a live descriptor of the poller, and
the descriptor is owned by the event. -/
@[reducible] def cookies_live (evp : event_poll) (s : event_base) : Prop :=
  ∀ ev c, (getEv s ev).ev_cookie = some c →
    c ∈ evp.evp_live ∧ (getPfd evp c).evpfd_ev = some ev

/-- What a step of the base leaves alone, between the state `s` before and the state
`s1` after: every `ev_cookie`; it makes at most one call through `evb_ops`, and
`evb_list_len` changes with that call only. -/
structure call_frame (s s1 : event_base) : Prop where
  cookie : ∀ x, (getEv s1 x).ev_cookie = (getEv s x).ev_cookie
  log : (s1.evb_backend = s.evb_backend ∧ s1.evb_list_len = s.evb_list_len) ∨
    ∃ c rv, s1.evb_backend = s.evb_backend ++ [(c, rv)] ∧
      s1.evb_list_len = list_len_step c rv s.evb_list_len

/-- The slots of the POLL poller are the same in `evp` and `evp1`, up to the stored
generations and the array `evp_pfds`. -/
structure slots_kept (evp evp1 : event_poll) : Prop where
  live : evp1.evp_live = evp.evp_live
  free : evp1.evp_free = evp.evp_free
  nfds : evp1.evp_nfds = evp.evp_nfds
  pfdlen : evp1.evp_pfdlen = evp.evp_pfdlen
  length : evp1.evp_evpfds.length = evp.evp_evpfds.length
  owner : ∀ i, (getPfd evp1 i).evpfd_ev = (getPfd evp i).evpfd_ev
  idx : ∀ i, (getPfd evp1 i).evpfd_idx = (getPfd evp i).evpfd_idx

/-- A run of the POLL poller ends within defined behaviour, or it dereferences the
null `ev_cookie` of an event; `P` holds of what it returns. -/
def poll_result_ok {α : Type} (P : α → Prop) : Except poll_fault α → Prop
  | .error f => f = .null_cookie
  | .ok a => P a

/-! ## A base with the POLL poller and one persistent read event -/

/-- A base with the POLL poller inside `event_dispatch`, with one event object: a
persistent read event on descriptor 3 that is registered with the poller at
the descriptor 0.  `flags` is its `ev_event`, `fires` its `ev_fires`, `fire` the fire
queue, `g` the generation counter `evp_gen`, `sg` the generation stored in the
descriptor, `r` the `revents` of its `struct pollfd`, and `L` the history of the calls
through `evb_ops`. -/
def ex_gen_state (flags fires : Nat) (fire : List Nat) (g sg r : Nat)
    (L : List (poller_call × Int)) : poll_base :=
  { evb :=
      { evb_heap := [], evb_signals := fun _ => [], evb_list := [0], evb_list_len := 1,
        evb_nevents := 1, evb_running := 1, evb_fire := fire, evb_backend := L,
        mem := [{ ev_cookie := some 0, ev_deadline := default, ev_fn := 7, ev_arg := 42,
                  ev_ident := 3, ev_event := flags, ev_fires := fires }] },
    evp :=
      { evp_pfds := [{ fd := 3, events := POLLIN, revents := r }], evp_pfdlen := 1,
        evp_nfds := 1, evp_evpfds := [{ evpfd_ev := some 0, evpfd_idx := 0, evpfd_gen := sg }],
        evp_live := [0], evp_free := [], evp_gen := g, evp_signals := none },
    sigdisp := fun _ => SIG_DFL, evs_static := false }

/-- The flag word of the event of `ex_gen_state` while it is registered and not on the
fire queue. -/
def ex_gen_flags : Nat := EV_INITIALIZED ||| EV_IO ||| EV_READ ||| EV_PERSIST ||| EV_ON_LIST

/-- The state of `ex_gen_state` between two turns of `event_dispatch`: the event is
registered and the fire queue is empty. -/
def ex_gen (g sg r : Nat) (L : List (poller_call × Int)) : poll_base :=
  ex_gen_state ex_gen_flags 0 [] g sg r L

/-- The state of `ex_gen_state` after the poller fired the event for `EV_READ`. -/
def ex_gen_fired (g sg : Nat) (L : List (poller_call × Int)) : poll_base :=
  ex_gen_state (ex_gen_flags ||| EV_ON_FIRE) EV_READ [0] g sg POLLIN L

/-- The platform reports the descriptor as readable. -/
def ex_gen_env : poll_env :=
  { a1 := true, a2 := true, a3 := true, m := none, pipe := none, len := 1,
    revents := fun _ => POLLIN }

/-- The state of the poller after `event_poll_event_add` for a persistent read event that
was set on a fresh base over one event object. -/
def ex_gen_add_op : poll_base :=
  ((poll_op
      { evb := (step.api (.event_set 0 3 (EV_READ ||| EV_PERSIST) 7 42)).run (event_init [default]),
        evp := event_poll_init, sigdisp := fun _ => SIG_DFL, evs_static := false }
      ex_gen_env (.event_add 0)).getD
    (0, { evb := event_init [default], evp := event_poll_init, sigdisp := fun _ => SIG_DFL,
          evs_static := false })).2

/-- Callbacks of a dispatch: each calls `signal_del` on the event it is invoked for. -/
def env_del_self : dispatch_env :=
  { monotime := fun _ => some ⟨101, 0⟩, op_del := fun _ _ => 0,
    callback := fun s i => if i.ev < s.mem.length then [.signal_del i.ev 0] else [],
    poll := fun _ _ _ => (0, []) }

/-- A dispatch at time 100 s in which the KQ poller reports, at its first call, the
event object 0 readable: `event_kq_dispatch` calls `event_kq_fire_event` with `EV_READ`.
Callbacks make no API call. -/
def env_kq_read_once : dispatch_env :=
  { monotime := fun _ => some ⟨100, 0⟩, op_del := fun _ _ => 0,
    callback := fun _ _ => [],
    poll := fun runs s _ =>
      if runs = 1 then
        (0, [.fire_event 0 (event_kq_fire_event_flags EV_READ (getEv s 0).ev_event) 0])
      else (0, []) }

/-- The same dispatch with the POLL poller, whose scan passes the translated
conditions or-ed with `EV_PERSIST`. -/
def env_poll_read_once : dispatch_env :=
  { monotime := fun _ => some ⟨100, 0⟩, op_del := fun _ _ => 0,
    callback := fun _ _ => [],
    poll := fun runs _ _ =>
      if runs = 1 then (0, [.fire_event 0 (event_poll_conditions POLLIN ||| EV_PERSIST) 0])
      else (0, []) }

/-! ## Flag algebra -/

theorem ISSET_SET_of_sub {m b : Nat} (h : m &&& b = b) (v : Nat) :
    ISSET (SET v m) b = b := by
  unfold ISSET SET
  rw [Nat.and_distrib_right, h]
  apply Nat.eq_of_testBit_eq
  intro i
  simp only [Nat.testBit_or, Nat.testBit_and]
  cases v.testBit i <;> cases b.testBit i <;> rfl

theorem ISSET_SET_of_disj {m b : Nat} (h : m &&& b = 0) (v : Nat) :
    ISSET (SET v m) b = ISSET v b := by
  unfold ISSET SET
  rw [Nat.and_distrib_right, h, Nat.or_zero]

theorem ISSET_CLR_of_sub {m b : Nat} (h : (0xffff ^^^ m) &&& b = 0) (v : Nat) :
    ISSET (CLR v m) b = 0 := by
  unfold ISSET CLR
  rw [Nat.and_assoc, h, Nat.and_zero]

theorem ISSET_CLR_of_disj {m b : Nat} (h : (0xffff ^^^ m) &&& b = b) (v : Nat) :
    ISSET (CLR v m) b = ISSET v b := by
  unfold ISSET CLR
  rw [Nat.and_assoc, h]

theorem ISSET_or_eq_zero (v a b : Nat) :
    ISSET v (a ||| b) = 0 ↔ ISSET v a = 0 ∧ ISSET v b = 0 := by
  unfold ISSET
  rw [Nat.and_or_distrib_left]
  constructor
  · intro h
    constructor
    · apply Nat.eq_of_testBit_eq
      intro i
      have := congrArg (fun n => n.testBit i) h
      simp only [Nat.testBit_or, Nat.zero_testBit, Bool.or_eq_false_iff] at this
      simpa using this.1
    · apply Nat.eq_of_testBit_eq
      intro i
      have := congrArg (fun n => n.testBit i) h
      simp only [Nat.testBit_or, Nat.zero_testBit, Bool.or_eq_false_iff] at this
      simpa using this.2
  · rintro ⟨h1, h2⟩
    rw [h1, h2]; rfl

theorem ISSET_set_word {a m b : Nat} (h1 : a &&& b = 0) (h2 : m &&& b = 0) (e : Nat) :
    ISSET (a ||| (e &&& m)) b = 0 := by
  unfold ISSET
  rw [Nat.and_distrib_right, Nat.and_assoc, h1, h2, Nat.and_zero, Nat.or_zero]

theorem ISSET_of_placement {v : Nat} (h : ISSET v EV_PLACEMENT = 0) :
    ISSET v EV_ON_LIST = 0 ∧ ISSET v EV_ON_HEAP = 0 ∧ ISSET v EV_ON_FIRE = 0 := by
  unfold EV_PLACEMENT at h
  rw [ISSET_or_eq_zero, ISSET_or_eq_zero] at h
  exact ⟨h.1.1, h.1.2, h.2⟩

/-! ## Memory and primitive updates -/

theorem getEv_setEv (s : event_base) (ev x : Nat) (e : event) :
    getEv (setEv s ev e) x = if x = ev ∧ ev < s.mem.length then e else getEv s x := by
  unfold getEv setEv
  simp only [List.getD_eq_getElem?_getD, List.getElem?_set]
  by_cases h : ev = x
  · subst h
    by_cases h2 : ev < s.mem.length
    · simp [h2]
    · simp [h2, List.getElem?_eq_none (Nat.le_of_not_lt h2)]
  · have : ¬ x = ev := fun h3 => h h3.symm
    simp [h, this]

theorem getEv_of_length_le (s : event_base) (x : Nat) (h : s.mem.length ≤ x) :
    getEv s x = default := by
  unfold getEv
  simp [List.getD_eq_getElem?_getD, List.getElem?_eq_none h]

@[simp] theorem event_op_evb_heap (s : event_base) (c : poller_call) (rv : Int) :
    (event_op s c rv).evb_heap = s.evb_heap := rfl

@[simp] theorem event_op_evb_signals (s : event_base) (c : poller_call) (rv : Int) :
    (event_op s c rv).evb_signals = s.evb_signals := rfl

@[simp] theorem event_op_evb_list (s : event_base) (c : poller_call) (rv : Int) :
    (event_op s c rv).evb_list = s.evb_list := rfl

@[simp] theorem event_op_evb_list_len (s : event_base) (c : poller_call) (rv : Int) :
    (event_op s c rv).evb_list_len = s.evb_list_len := rfl

@[simp] theorem event_op_evb_nevents (s : event_base) (c : poller_call) (rv : Int) :
    (event_op s c rv).evb_nevents = s.evb_nevents := rfl

@[simp] theorem event_op_evb_running (s : event_base) (c : poller_call) (rv : Int) :
    (event_op s c rv).evb_running = s.evb_running := rfl

@[simp] theorem event_op_evb_fire (s : event_base) (c : poller_call) (rv : Int) :
    (event_op s c rv).evb_fire = s.evb_fire := rfl

@[simp] theorem event_op_evb_backend (s : event_base) (c : poller_call) (rv : Int) :
    (event_op s c rv).evb_backend = s.evb_backend ++ [(c, rv)] := rfl

@[simp] theorem event_op_mem (s : event_base) (c : poller_call) (rv : Int) :
    (event_op s c rv).mem = s.mem := rfl

@[simp] theorem getEv_event_op (s : event_base) (c : poller_call) (rv : Int) (x : Nat) :
    getEv (event_op s c rv) x = getEv s x := rfl

@[simp] theorem event_heap_remove_evb_heap (s : event_base) (ev : Nat) :
    (event_heap_remove s ev).evb_heap = s.evb_heap.erase ev := rfl

@[simp] theorem event_heap_remove_evb_signals (s : event_base) (ev : Nat) :
    (event_heap_remove s ev).evb_signals = s.evb_signals := rfl

@[simp] theorem event_heap_remove_evb_list (s : event_base) (ev : Nat) :
    (event_heap_remove s ev).evb_list = s.evb_list := rfl

@[simp] theorem event_heap_remove_evb_list_len (s : event_base) (ev : Nat) :
    (event_heap_remove s ev).evb_list_len = s.evb_list_len := rfl

@[simp] theorem event_heap_remove_evb_nevents (s : event_base) (ev : Nat) :
    (event_heap_remove s ev).evb_nevents = s.evb_nevents := rfl

@[simp] theorem event_heap_remove_evb_running (s : event_base) (ev : Nat) :
    (event_heap_remove s ev).evb_running = s.evb_running := rfl

@[simp] theorem event_heap_remove_evb_fire (s : event_base) (ev : Nat) :
    (event_heap_remove s ev).evb_fire = s.evb_fire := rfl

@[simp] theorem event_heap_remove_evb_backend (s : event_base) (ev : Nat) :
    (event_heap_remove s ev).evb_backend = s.evb_backend := rfl

@[simp] theorem event_heap_remove_mem (s : event_base) (ev : Nat) :
    (event_heap_remove s ev).mem = s.mem := rfl

@[simp] theorem getEv_event_heap_remove (s : event_base) (ev : Nat) (x : Nat) :
    getEv (event_heap_remove s ev) x = getEv s x := rfl

@[simp] theorem event_fire_insert_evb_heap (s : event_base) (ev : Nat) :
    (event_fire_insert s ev).evb_heap = s.evb_heap := rfl

@[simp] theorem event_fire_insert_evb_signals (s : event_base) (ev : Nat) :
    (event_fire_insert s ev).evb_signals = s.evb_signals := rfl

@[simp] theorem event_fire_insert_evb_list (s : event_base) (ev : Nat) :
    (event_fire_insert s ev).evb_list = s.evb_list := rfl

@[simp] theorem event_fire_insert_evb_list_len (s : event_base) (ev : Nat) :
    (event_fire_insert s ev).evb_list_len = s.evb_list_len := rfl

@[simp] theorem event_fire_insert_evb_nevents (s : event_base) (ev : Nat) :
    (event_fire_insert s ev).evb_nevents = s.evb_nevents := rfl

@[simp] theorem event_fire_insert_evb_running (s : event_base) (ev : Nat) :
    (event_fire_insert s ev).evb_running = s.evb_running := rfl

@[simp] theorem event_fire_insert_evb_fire (s : event_base) (ev : Nat) :
    (event_fire_insert s ev).evb_fire = s.evb_fire ++ [ev] := rfl

@[simp] theorem event_fire_insert_evb_backend (s : event_base) (ev : Nat) :
    (event_fire_insert s ev).evb_backend = s.evb_backend := rfl

@[simp] theorem event_fire_insert_mem (s : event_base) (ev : Nat) :
    (event_fire_insert s ev).mem = s.mem := rfl

@[simp] theorem getEv_event_fire_insert (s : event_base) (ev : Nat) (x : Nat) :
    getEv (event_fire_insert s ev) x = getEv s x := rfl

@[simp] theorem event_fire_remove_evb_heap (s : event_base) (ev : Nat) :
    (event_fire_remove s ev).evb_heap = s.evb_heap := rfl

@[simp] theorem event_fire_remove_evb_signals (s : event_base) (ev : Nat) :
    (event_fire_remove s ev).evb_signals = s.evb_signals := rfl

@[simp] theorem event_fire_remove_evb_list (s : event_base) (ev : Nat) :
    (event_fire_remove s ev).evb_list = s.evb_list := rfl

@[simp] theorem event_fire_remove_evb_list_len (s : event_base) (ev : Nat) :
    (event_fire_remove s ev).evb_list_len = s.evb_list_len := rfl

@[simp] theorem event_fire_remove_evb_nevents (s : event_base) (ev : Nat) :
    (event_fire_remove s ev).evb_nevents = s.evb_nevents := rfl

@[simp] theorem event_fire_remove_evb_running (s : event_base) (ev : Nat) :
    (event_fire_remove s ev).evb_running = s.evb_running := rfl

@[simp] theorem event_fire_remove_evb_fire (s : event_base) (ev : Nat) :
    (event_fire_remove s ev).evb_fire = s.evb_fire.erase ev := rfl

@[simp] theorem event_fire_remove_evb_backend (s : event_base) (ev : Nat) :
    (event_fire_remove s ev).evb_backend = s.evb_backend := rfl

@[simp] theorem event_fire_remove_mem (s : event_base) (ev : Nat) :
    (event_fire_remove s ev).mem = s.mem := rfl

@[simp] theorem getEv_event_fire_remove (s : event_base) (ev : Nat) (x : Nat) :
    getEv (event_fire_remove s ev) x = getEv s x := rfl

@[simp] theorem event_list_insert_evb_heap (s : event_base) (ev : Nat) :
    (event_list_insert s ev).evb_heap = s.evb_heap := rfl

@[simp] theorem event_list_insert_evb_signals (s : event_base) (ev : Nat) :
    (event_list_insert s ev).evb_signals = s.evb_signals := rfl

@[simp] theorem event_list_insert_evb_list (s : event_base) (ev : Nat) :
    (event_list_insert s ev).evb_list = s.evb_list ++ [ev] := rfl

@[simp] theorem event_list_insert_evb_list_len (s : event_base) (ev : Nat) :
    (event_list_insert s ev).evb_list_len = uinc s.evb_list_len := rfl

@[simp] theorem event_list_insert_evb_nevents (s : event_base) (ev : Nat) :
    (event_list_insert s ev).evb_nevents = s.evb_nevents := rfl

@[simp] theorem event_list_insert_evb_running (s : event_base) (ev : Nat) :
    (event_list_insert s ev).evb_running = s.evb_running := rfl

@[simp] theorem event_list_insert_evb_fire (s : event_base) (ev : Nat) :
    (event_list_insert s ev).evb_fire = s.evb_fire := rfl

@[simp] theorem event_list_insert_evb_backend (s : event_base) (ev : Nat) :
    (event_list_insert s ev).evb_backend = s.evb_backend := rfl

@[simp] theorem event_list_insert_mem (s : event_base) (ev : Nat) :
    (event_list_insert s ev).mem = s.mem := rfl

@[simp] theorem getEv_event_list_insert (s : event_base) (ev : Nat) (x : Nat) :
    getEv (event_list_insert s ev) x = getEv s x := rfl

@[simp] theorem event_list_remove_evb_heap (s : event_base) (ev : Nat) :
    (event_list_remove s ev).evb_heap = s.evb_heap := rfl

@[simp] theorem event_list_remove_evb_signals (s : event_base) (ev : Nat) :
    (event_list_remove s ev).evb_signals = s.evb_signals := rfl

@[simp] theorem event_list_remove_evb_list (s : event_base) (ev : Nat) :
    (event_list_remove s ev).evb_list = s.evb_list.erase ev := rfl

@[simp] theorem event_list_remove_evb_list_len (s : event_base) (ev : Nat) :
    (event_list_remove s ev).evb_list_len = udec s.evb_list_len := rfl

@[simp] theorem event_list_remove_evb_nevents (s : event_base) (ev : Nat) :
    (event_list_remove s ev).evb_nevents = s.evb_nevents := rfl

@[simp] theorem event_list_remove_evb_running (s : event_base) (ev : Nat) :
    (event_list_remove s ev).evb_running = s.evb_running := rfl

@[simp] theorem event_list_remove_evb_fire (s : event_base) (ev : Nat) :
    (event_list_remove s ev).evb_fire = s.evb_fire := rfl

@[simp] theorem event_list_remove_evb_backend (s : event_base) (ev : Nat) :
    (event_list_remove s ev).evb_backend = s.evb_backend := rfl

@[simp] theorem event_list_remove_mem (s : event_base) (ev : Nat) :
    (event_list_remove s ev).mem = s.mem := rfl

@[simp] theorem getEv_event_list_remove (s : event_base) (ev : Nat) (x : Nat) :
    getEv (event_list_remove s ev) x = getEv s x := rfl

@[simp] theorem nevents_inc_evb_heap (s : event_base) :
    (nevents_inc s).evb_heap = s.evb_heap := rfl

@[simp] theorem nevents_inc_evb_signals (s : event_base) :
    (nevents_inc s).evb_signals = s.evb_signals := rfl

@[simp] theorem nevents_inc_evb_list (s : event_base) :
    (nevents_inc s).evb_list = s.evb_list := rfl

@[simp] theorem nevents_inc_evb_list_len (s : event_base) :
    (nevents_inc s).evb_list_len = s.evb_list_len := rfl

@[simp] theorem nevents_inc_evb_nevents (s : event_base) :
    (nevents_inc s).evb_nevents = uinc s.evb_nevents := rfl

@[simp] theorem nevents_inc_evb_running (s : event_base) :
    (nevents_inc s).evb_running = s.evb_running := rfl

@[simp] theorem nevents_inc_evb_fire (s : event_base) :
    (nevents_inc s).evb_fire = s.evb_fire := rfl

@[simp] theorem nevents_inc_evb_backend (s : event_base) :
    (nevents_inc s).evb_backend = s.evb_backend := rfl

@[simp] theorem nevents_inc_mem (s : event_base) :
    (nevents_inc s).mem = s.mem := rfl

@[simp] theorem getEv_nevents_inc (s : event_base)  (x : Nat) :
    getEv (nevents_inc s) x = getEv s x := rfl

@[simp] theorem nevents_dec_evb_heap (s : event_base) :
    (nevents_dec s).evb_heap = s.evb_heap := rfl

@[simp] theorem nevents_dec_evb_signals (s : event_base) :
    (nevents_dec s).evb_signals = s.evb_signals := rfl

@[simp] theorem nevents_dec_evb_list (s : event_base) :
    (nevents_dec s).evb_list = s.evb_list := rfl

@[simp] theorem nevents_dec_evb_list_len (s : event_base) :
    (nevents_dec s).evb_list_len = s.evb_list_len := rfl

@[simp] theorem nevents_dec_evb_nevents (s : event_base) :
    (nevents_dec s).evb_nevents = udec s.evb_nevents := rfl

@[simp] theorem nevents_dec_evb_running (s : event_base) :
    (nevents_dec s).evb_running = s.evb_running := rfl

@[simp] theorem nevents_dec_evb_fire (s : event_base) :
    (nevents_dec s).evb_fire = s.evb_fire := rfl

@[simp] theorem nevents_dec_evb_backend (s : event_base) :
    (nevents_dec s).evb_backend = s.evb_backend := rfl

@[simp] theorem nevents_dec_mem (s : event_base) :
    (nevents_dec s).mem = s.mem := rfl

@[simp] theorem getEv_nevents_dec (s : event_base)  (x : Nat) :
    getEv (nevents_dec s) x = getEv s x := rfl

@[simp] theorem setSignals_evb_heap (s : event_base) (sig : Nat) (l : List Nat) :
    (setSignals s sig l).evb_heap = s.evb_heap := rfl

@[simp] theorem setSignals_evb_signals (s : event_base) (sig : Nat) (l : List Nat) :
    (setSignals s sig l).evb_signals = fun j => if j = sig then l else s.evb_signals j := rfl

@[simp] theorem setSignals_evb_list (s : event_base) (sig : Nat) (l : List Nat) :
    (setSignals s sig l).evb_list = s.evb_list := rfl

@[simp] theorem setSignals_evb_list_len (s : event_base) (sig : Nat) (l : List Nat) :
    (setSignals s sig l).evb_list_len = s.evb_list_len := rfl

@[simp] theorem setSignals_evb_nevents (s : event_base) (sig : Nat) (l : List Nat) :
    (setSignals s sig l).evb_nevents = s.evb_nevents := rfl

@[simp] theorem setSignals_evb_running (s : event_base) (sig : Nat) (l : List Nat) :
    (setSignals s sig l).evb_running = s.evb_running := rfl

@[simp] theorem setSignals_evb_fire (s : event_base) (sig : Nat) (l : List Nat) :
    (setSignals s sig l).evb_fire = s.evb_fire := rfl

@[simp] theorem setSignals_evb_backend (s : event_base) (sig : Nat) (l : List Nat) :
    (setSignals s sig l).evb_backend = s.evb_backend := rfl

@[simp] theorem setSignals_mem (s : event_base) (sig : Nat) (l : List Nat) :
    (setSignals s sig l).mem = s.mem := rfl

@[simp] theorem getEv_setSignals (s : event_base) (sig : Nat) (l : List Nat) (x : Nat) :
    getEv (setSignals s sig l) x = getEv s x := rfl

@[simp] theorem setEv_evb_heap (s : event_base) (ev : Nat) (e : event) :
    (setEv s ev e).evb_heap = s.evb_heap := rfl

@[simp] theorem setEv_evb_signals (s : event_base) (ev : Nat) (e : event) :
    (setEv s ev e).evb_signals = s.evb_signals := rfl

@[simp] theorem setEv_evb_list (s : event_base) (ev : Nat) (e : event) :
    (setEv s ev e).evb_list = s.evb_list := rfl

@[simp] theorem setEv_evb_list_len (s : event_base) (ev : Nat) (e : event) :
    (setEv s ev e).evb_list_len = s.evb_list_len := rfl

@[simp] theorem setEv_evb_nevents (s : event_base) (ev : Nat) (e : event) :
    (setEv s ev e).evb_nevents = s.evb_nevents := rfl

@[simp] theorem setEv_evb_running (s : event_base) (ev : Nat) (e : event) :
    (setEv s ev e).evb_running = s.evb_running := rfl

@[simp] theorem setEv_evb_fire (s : event_base) (ev : Nat) (e : event) :
    (setEv s ev e).evb_fire = s.evb_fire := rfl

@[simp] theorem setEv_evb_backend (s : event_base) (ev : Nat) (e : event) :
    (setEv s ev e).evb_backend = s.evb_backend := rfl

@[simp] theorem setEv_mem (s : event_base) (ev : Nat) (e : event) :
    (setEv s ev e).mem = s.mem.set ev e := rfl

@[simp] theorem setFlags_evb_heap (s : event_base) (ev : Nat) (f : Nat → Nat) :
    (setFlags s ev f).evb_heap = s.evb_heap := rfl

@[simp] theorem setFlags_evb_signals (s : event_base) (ev : Nat) (f : Nat → Nat) :
    (setFlags s ev f).evb_signals = s.evb_signals := rfl

@[simp] theorem setFlags_evb_list (s : event_base) (ev : Nat) (f : Nat → Nat) :
    (setFlags s ev f).evb_list = s.evb_list := rfl

@[simp] theorem setFlags_evb_list_len (s : event_base) (ev : Nat) (f : Nat → Nat) :
    (setFlags s ev f).evb_list_len = s.evb_list_len := rfl

@[simp] theorem setFlags_evb_nevents (s : event_base) (ev : Nat) (f : Nat → Nat) :
    (setFlags s ev f).evb_nevents = s.evb_nevents := rfl

@[simp] theorem setFlags_evb_running (s : event_base) (ev : Nat) (f : Nat → Nat) :
    (setFlags s ev f).evb_running = s.evb_running := rfl

@[simp] theorem setFlags_evb_fire (s : event_base) (ev : Nat) (f : Nat → Nat) :
    (setFlags s ev f).evb_fire = s.evb_fire := rfl

@[simp] theorem setFlags_evb_backend (s : event_base) (ev : Nat) (f : Nat → Nat) :
    (setFlags s ev f).evb_backend = s.evb_backend := rfl

@[simp] theorem setFlags_mem_length (s : event_base) (ev : Nat) (f : Nat → Nat) :
    (setFlags s ev f).mem.length = s.mem.length := by
  simp [setFlags, setEv]

@[simp] theorem setFires_evb_heap (s : event_base) (ev : Nat) (f : Nat → Nat) :
    (setFires s ev f).evb_heap = s.evb_heap := rfl

@[simp] theorem setFires_evb_signals (s : event_base) (ev : Nat) (f : Nat → Nat) :
    (setFires s ev f).evb_signals = s.evb_signals := rfl

@[simp] theorem setFires_evb_list (s : event_base) (ev : Nat) (f : Nat → Nat) :
    (setFires s ev f).evb_list = s.evb_list := rfl

@[simp] theorem setFires_evb_list_len (s : event_base) (ev : Nat) (f : Nat → Nat) :
    (setFires s ev f).evb_list_len = s.evb_list_len := rfl

@[simp] theorem setFires_evb_nevents (s : event_base) (ev : Nat) (f : Nat → Nat) :
    (setFires s ev f).evb_nevents = s.evb_nevents := rfl

@[simp] theorem setFires_evb_running (s : event_base) (ev : Nat) (f : Nat → Nat) :
    (setFires s ev f).evb_running = s.evb_running := rfl

@[simp] theorem setFires_evb_fire (s : event_base) (ev : Nat) (f : Nat → Nat) :
    (setFires s ev f).evb_fire = s.evb_fire := rfl

@[simp] theorem setFires_evb_backend (s : event_base) (ev : Nat) (f : Nat → Nat) :
    (setFires s ev f).evb_backend = s.evb_backend := rfl

@[simp] theorem setFires_mem_length (s : event_base) (ev : Nat) (f : Nat → Nat) :
    (setFires s ev f).mem.length = s.mem.length := by
  simp [setFires, setEv]

@[simp] theorem event_heap_insert_evb_heap (s : event_base) (ev : Nat) (d : timespec) :
    (event_heap_insert s ev d).evb_heap = s.evb_heap ++ [ev] := rfl

@[simp] theorem event_heap_insert_evb_signals (s : event_base) (ev : Nat) (d : timespec) :
    (event_heap_insert s ev d).evb_signals = s.evb_signals := rfl

@[simp] theorem event_heap_insert_evb_list (s : event_base) (ev : Nat) (d : timespec) :
    (event_heap_insert s ev d).evb_list = s.evb_list := rfl

@[simp] theorem event_heap_insert_evb_list_len (s : event_base) (ev : Nat) (d : timespec) :
    (event_heap_insert s ev d).evb_list_len = s.evb_list_len := rfl

@[simp] theorem event_heap_insert_evb_nevents (s : event_base) (ev : Nat) (d : timespec) :
    (event_heap_insert s ev d).evb_nevents = s.evb_nevents := rfl

@[simp] theorem event_heap_insert_evb_running (s : event_base) (ev : Nat) (d : timespec) :
    (event_heap_insert s ev d).evb_running = s.evb_running := rfl

@[simp] theorem event_heap_insert_evb_fire (s : event_base) (ev : Nat) (d : timespec) :
    (event_heap_insert s ev d).evb_fire = s.evb_fire := rfl

@[simp] theorem event_heap_insert_evb_backend (s : event_base) (ev : Nat) (d : timespec) :
    (event_heap_insert s ev d).evb_backend = s.evb_backend := rfl

@[simp] theorem event_heap_insert_mem_length (s : event_base) (ev : Nat) (d : timespec) :
    (event_heap_insert s ev d).mem.length = s.mem.length := by
  simp [event_heap_insert, setEv]


theorem getEv_setFlags (s : event_base) (ev x : Nat) (f : Nat → Nat) :
    getEv (setFlags s ev f) x =
      if x = ev ∧ ev < s.mem.length then { getEv s ev with ev_event := f (getEv s ev).ev_event }
      else getEv s x := getEv_setEv _ _ _ _

theorem getEv_setFires (s : event_base) (ev x : Nat) (f : Nat → Nat) :
    getEv (setFires s ev f) x =
      if x = ev ∧ ev < s.mem.length then { getEv s ev with ev_fires := f (getEv s ev).ev_fires }
      else getEv s x := getEv_setEv _ _ _ _

theorem getEv_event_heap_insert (s : event_base) (ev x : Nat) (d : timespec) :
    getEv (event_heap_insert s ev d) x =
      if x = ev ∧ ev < s.mem.length then { getEv s ev with ev_deadline := d }
      else getEv s x := getEv_setEv _ _ _ _

@[simp] theorem setFlags_get_ev_cookie (s : event_base) (ev x : Nat) (f : Nat → Nat) :
    (getEv (setFlags s ev f) x).ev_cookie = (getEv s x).ev_cookie := by
  rw [getEv_setFlags]; split
  · next h => rw [h.1]
  · rfl

@[simp] theorem setFlags_get_ev_deadline (s : event_base) (ev x : Nat) (f : Nat → Nat) :
    (getEv (setFlags s ev f) x).ev_deadline = (getEv s x).ev_deadline := by
  rw [getEv_setFlags]; split
  · next h => rw [h.1]
  · rfl

@[simp] theorem setFlags_get_ev_fn (s : event_base) (ev x : Nat) (f : Nat → Nat) :
    (getEv (setFlags s ev f) x).ev_fn = (getEv s x).ev_fn := by
  rw [getEv_setFlags]; split
  · next h => rw [h.1]
  · rfl

@[simp] theorem setFlags_get_ev_arg (s : event_base) (ev x : Nat) (f : Nat → Nat) :
    (getEv (setFlags s ev f) x).ev_arg = (getEv s x).ev_arg := by
  rw [getEv_setFlags]; split
  · next h => rw [h.1]
  · rfl

@[simp] theorem setFlags_get_ev_ident (s : event_base) (ev x : Nat) (f : Nat → Nat) :
    (getEv (setFlags s ev f) x).ev_ident = (getEv s x).ev_ident := by
  rw [getEv_setFlags]; split
  · next h => rw [h.1]
  · rfl

@[simp] theorem setFlags_get_ev_event (s : event_base) (ev x : Nat) (f : Nat → Nat) :
    (getEv (setFlags s ev f) x).ev_event =
      if x = ev ∧ ev < s.mem.length then f (getEv s ev).ev_event else (getEv s x).ev_event := by
  rw [getEv_setFlags]; split <;> rfl

@[simp] theorem setFlags_get_ev_fires (s : event_base) (ev x : Nat) (f : Nat → Nat) :
    (getEv (setFlags s ev f) x).ev_fires = (getEv s x).ev_fires := by
  rw [getEv_setFlags]; split
  · next h => rw [h.1]
  · rfl

@[simp] theorem setFires_get_ev_cookie (s : event_base) (ev x : Nat) (f : Nat → Nat) :
    (getEv (setFires s ev f) x).ev_cookie = (getEv s x).ev_cookie := by
  rw [getEv_setFires]; split
  · next h => rw [h.1]
  · rfl

@[simp] theorem setFires_get_ev_deadline (s : event_base) (ev x : Nat) (f : Nat → Nat) :
    (getEv (setFires s ev f) x).ev_deadline = (getEv s x).ev_deadline := by
  rw [getEv_setFires]; split
  · next h => rw [h.1]
  · rfl

@[simp] theorem setFires_get_ev_fn (s : event_base) (ev x : Nat) (f : Nat → Nat) :
    (getEv (setFires s ev f) x).ev_fn = (getEv s x).ev_fn := by
  rw [getEv_setFires]; split
  · next h => rw [h.1]
  · rfl

@[simp] theorem setFires_get_ev_arg (s : event_base) (ev x : Nat) (f : Nat → Nat) :
    (getEv (setFires s ev f) x).ev_arg = (getEv s x).ev_arg := by
  rw [getEv_setFires]; split
  · next h => rw [h.1]
  · rfl

@[simp] theorem setFires_get_ev_ident (s : event_base) (ev x : Nat) (f : Nat → Nat) :
    (getEv (setFires s ev f) x).ev_ident = (getEv s x).ev_ident := by
  rw [getEv_setFires]; split
  · next h => rw [h.1]
  · rfl

@[simp] theorem setFires_get_ev_event (s : event_base) (ev x : Nat) (f : Nat → Nat) :
    (getEv (setFires s ev f) x).ev_event = (getEv s x).ev_event := by
  rw [getEv_setFires]; split
  · next h => rw [h.1]
  · rfl

@[simp] theorem setFires_get_ev_fires (s : event_base) (ev x : Nat) (f : Nat → Nat) :
    (getEv (setFires s ev f) x).ev_fires =
      if x = ev ∧ ev < s.mem.length then f (getEv s ev).ev_fires else (getEv s x).ev_fires := by
  rw [getEv_setFires]; split <;> rfl

@[simp] theorem event_heap_insert_get_ev_cookie (s : event_base) (ev x : Nat) (d : timespec) :
    (getEv (event_heap_insert s ev d) x).ev_cookie = (getEv s x).ev_cookie := by
  rw [getEv_event_heap_insert]; split
  · next h => rw [h.1]
  · rfl

@[simp] theorem event_heap_insert_get_ev_deadline (s : event_base) (ev x : Nat) (d : timespec) :
    (getEv (event_heap_insert s ev d) x).ev_deadline =
      if x = ev ∧ ev < s.mem.length then d else (getEv s x).ev_deadline := by
  rw [getEv_event_heap_insert]; split <;> rfl

@[simp] theorem event_heap_insert_get_ev_fn (s : event_base) (ev x : Nat) (d : timespec) :
    (getEv (event_heap_insert s ev d) x).ev_fn = (getEv s x).ev_fn := by
  rw [getEv_event_heap_insert]; split
  · next h => rw [h.1]
  · rfl

@[simp] theorem event_heap_insert_get_ev_arg (s : event_base) (ev x : Nat) (d : timespec) :
    (getEv (event_heap_insert s ev d) x).ev_arg = (getEv s x).ev_arg := by
  rw [getEv_event_heap_insert]; split
  · next h => rw [h.1]
  · rfl

@[simp] theorem event_heap_insert_get_ev_ident (s : event_base) (ev x : Nat) (d : timespec) :
    (getEv (event_heap_insert s ev d) x).ev_ident = (getEv s x).ev_ident := by
  rw [getEv_event_heap_insert]; split
  · next h => rw [h.1]
  · rfl

@[simp] theorem event_heap_insert_get_ev_event (s : event_base) (ev x : Nat) (d : timespec) :
    (getEv (event_heap_insert s ev d) x).ev_event = (getEv s x).ev_event := by
  rw [getEv_event_heap_insert]; split
  · next h => rw [h.1]
  · rfl

@[simp] theorem event_heap_insert_get_ev_fires (s : event_base) (ev x : Nat) (d : timespec) :
    (getEv (event_heap_insert s ev d) x).ev_fires = (getEv s x).ev_fires := by
  rw [getEv_event_heap_insert]; split
  · next h => rw [h.1]
  · rfl

theorem sub_self (l : List Nat) (ev : Nat) : ∀ x ∈ l, x ∈ l ∨ x = ev :=
  fun _ hx => Or.inl hx

theorem sub_erase (l : List Nat) (a ev : Nat) : ∀ x ∈ l.erase a, x ∈ l ∨ x = ev :=
  fun _ hx => Or.inl (List.mem_of_mem_erase hx)

theorem sub_append (l : List Nat) (ev : Nat) : ∀ x ∈ l ++ [ev], x ∈ l ∨ x = ev := by
  intro x hx
  simpa using hx

theorem sub_erase_append (l : List Nat) (a ev : Nat) :
    ∀ x ∈ l.erase a ++ [ev], x ∈ l ∨ x = ev := by
  intro x hx
  rcases List.mem_append.1 hx with h | h
  · exact Or.inl (List.mem_of_mem_erase h)
  · exact Or.inr (by simpa using h)

theorem sigs_self (f : Nat → List Nat) (ev : Nat) :
    ∀ sig, ∀ x ∈ f sig, x ∈ f sig ∨ x = ev :=
  fun _ _ hx => Or.inl hx

theorem sigs_update (f : Nat → List Nat) (sg ev : Nat) (l : List Nat)
    (hl : ∀ x ∈ l, x ∈ f sg ∨ x = ev) :
    ∀ sig, ∀ x ∈ (if sig = sg then l else f sig), x ∈ f sig ∨ x = ev := by
  intro sig x hx
  by_cases h : sig = sg
  · subst h
    rw [if_pos rfl] at hx
    exact hl x hx
  · rw [if_neg h] at hx
    exact Or.inl hx

theorem sigs_append (f : Nat → List Nat) (sg ev : Nat) :
    ∀ sig, ∀ x ∈ (if sig = sg then f sg ++ [ev] else f sig), x ∈ f sig ∨ x = ev := by
  intro sig x hx
  by_cases h : sig = sg
  · subst h
    simpa using hx
  · rw [if_neg h] at hx
    exact Or.inl hx

theorem sigs_erase (f : Nat → List Nat) (sg a ev : Nat) :
    ∀ sig, ∀ x ∈ (if sig = sg then (f sg).erase a else f sig), x ∈ f sig ∨ x = ev := by
  intro sig x hx
  by_cases h : sig = sg
  · subst h
    rw [if_pos rfl] at hx
    exact Or.inl (List.mem_of_mem_erase hx)
  · rw [if_neg h] at hx
    exact Or.inl hx

/-- How one operation on the event `ev` may change what `fire_inv` speaks of. -/
theorem fire_inv_step {s s' : event_base} (ev : Nat) (h : fire_inv s)
    (hv : ev < s.mem.length)
    (hlen : s'.mem.length = s.mem.length)
    (hheap : ∀ x ∈ s'.evb_heap, x ∈ s.evb_heap ∨ x = ev)
    (hsig : ∀ sig, ∀ x ∈ s'.evb_signals sig, x ∈ s.evb_signals sig ∨ x = ev)
    (hoth : ∀ x, x ≠ ev →
      ISSET (getEv s' x).ev_event EV_ON_FIRE = ISSET (getEv s x).ev_event EV_ON_FIRE)
    (hfire : (s'.evb_fire = s.evb_fire ∧
        ISSET (getEv s' ev).ev_event EV_ON_FIRE = ISSET (getEv s ev).ev_event EV_ON_FIRE) ∨
      (s'.evb_fire = s.evb_fire ++ [ev] ∧ ISSET (getEv s ev).ev_event EV_ON_FIRE = 0 ∧
        ISSET (getEv s' ev).ev_event EV_ON_FIRE ≠ 0) ∨
      (s'.evb_fire = s.evb_fire.erase ev ∧ ISSET (getEv s' ev).ev_event EV_ON_FIRE = 0)) :
    fire_inv s' := by
  obtain ⟨hb, hn, hh, hs⟩ := h
  refine ⟨fun x => ?_, ?_, ?_, ?_⟩
  · by_cases hx : x = ev
    · subst hx
      rcases hfire with ⟨h1, h2⟩ | ⟨h1, h2, h3⟩ | ⟨h1, h2⟩
      · rw [h1, h2]; exact hb x
      · rw [h1]; simp [h3]
      · rw [h1]; simp [h2, hn.mem_erase_iff]
    · rw [hoth x hx]
      rcases hfire with ⟨h1, _⟩ | ⟨h1, _, _⟩ | ⟨h1, _⟩
      · rw [h1]; exact hb x
      · rw [h1]; simp [hx, hb x]
      · rw [h1]; simp [hx, hb x, hn.mem_erase_iff]
  · rcases hfire with ⟨h1, _⟩ | ⟨h1, h2, _⟩ | ⟨h1, _⟩
    · rw [h1]; exact hn
    · rw [h1]
      have : ev ∉ s.evb_fire := fun hm => (hb ev).2 hm h2
      exact List.Nodup.append hn (List.nodup_singleton ev) (by simpa using this)
    · rw [h1]; exact hn.erase ev
  · intro x hx
    rw [hlen]
    rcases hheap x hx with h1 | h1
    · exact hh x h1
    · exact h1 ▸ hv
  · intro sig x hx
    rw [hlen]
    rcases hsig sig x hx with h1 | h1
    · exact hs sig x h1
    · exact h1 ▸ hv

theorem fire_inv_evtimer_del (s : event_base) (ev : Nat) (hv : ev < s.mem.length)
    (h : fire_inv s) : fire_inv (evtimer_del s ev).2 := by
  unfold evtimer_del
  simp only [ISSET_or_eq_zero]
  by_cases h1 : ISSET (getEv s ev).ev_event EV_ON_HEAP = 0 <;>
  by_cases h2 : ISSET (getEv s ev).ev_event EV_ON_FIRE = 0 <;>
  simp only [h1, h2, and_self, and_true, and_false, true_and, false_and, if_true, if_false, ite_true, ite_false, ne_eq, not_true_eq_false, not_false_eq_true, getEv_nevents_dec, getEv_nevents_inc, getEv_event_heap_remove, getEv_event_fire_remove, getEv_event_fire_insert, getEv_event_op, getEv_event_list_insert, getEv_event_list_remove, getEv_setSignals, setFires_get_ev_event] <;>
  first
  | exact h
  | (apply fire_inv_step ev h hv
     · simp
     · simp only [event_op_evb_heap, event_op_evb_signals, event_heap_remove_evb_heap, event_heap_remove_evb_signals, event_fire_insert_evb_heap, event_fire_insert_evb_signals, event_fire_remove_evb_heap, event_fire_remove_evb_signals, event_list_insert_evb_heap, event_list_insert_evb_signals, event_list_remove_evb_heap, event_list_remove_evb_signals, nevents_inc_evb_heap, nevents_inc_evb_signals, nevents_dec_evb_heap, nevents_dec_evb_signals, setSignals_evb_heap, setSignals_evb_signals, setEv_evb_heap, setEv_evb_signals, setFlags_evb_heap, setFlags_evb_signals, setFires_evb_heap, setFires_evb_signals, event_heap_insert_evb_heap, event_heap_insert_evb_signals]
       first
       | exact sub_self _ _
       | exact sub_erase _ _ _
       | exact sub_append _ _
       | exact sub_erase_append _ _ _
     · simp only [event_op_evb_heap, event_op_evb_signals, event_heap_remove_evb_heap, event_heap_remove_evb_signals, event_fire_insert_evb_heap, event_fire_insert_evb_signals, event_fire_remove_evb_heap, event_fire_remove_evb_signals, event_list_insert_evb_heap, event_list_insert_evb_signals, event_list_remove_evb_heap, event_list_remove_evb_signals, nevents_inc_evb_heap, nevents_inc_evb_signals, nevents_dec_evb_heap, nevents_dec_evb_signals, setSignals_evb_heap, setSignals_evb_signals, setEv_evb_heap, setEv_evb_signals, setFlags_evb_heap, setFlags_evb_signals, setFires_evb_heap, setFires_evb_signals, event_heap_insert_evb_heap, event_heap_insert_evb_signals]
       first
       | exact sigs_self _ _
       | exact sigs_append _ _ _
       | exact sigs_erase _ _ _ _
       | exact sigs_update _ _ _ _ (fun x hx => by
           first
           | exact sub_append _ _ x hx
           | exact sub_erase _ _ _ x hx
           | exact Or.inr (by simpa [TAILQ_INSERT_TAIL] using hx))
     · intro x hx
       simp [hx]
     · simp +decide [hv, ISSET_CLR_of_sub, ISSET_CLR_of_disj, ISSET_SET_of_sub,
         ISSET_SET_of_disj, *])

theorem fire_inv_event_del (s : event_base) (ev : Nat) (oprv : Int) (hv : ev < s.mem.length)
    (h : fire_inv s) : fire_inv (event_del s ev oprv).2 := by
  unfold event_del
  by_cases h0 : ISSET (getEv s ev).ev_event EV_ON_LIST = 0 <;>
  by_cases h1 : ISSET (getEv s ev).ev_event EV_ON_HEAP = 0 <;>
  by_cases h2 : ISSET (getEv s ev).ev_event EV_ON_FIRE = 0 <;>
  by_cases h3 : oprv = 0 <;>
  simp only [h0, h1, h2, h3, and_self, and_true, and_false, true_and, false_and, if_true, if_false, ite_true, ite_false, ne_eq, not_true_eq_false, not_false_eq_true, getEv_nevents_dec, getEv_nevents_inc, getEv_event_heap_remove, getEv_event_fire_remove, getEv_event_fire_insert, getEv_event_op, getEv_event_list_insert, getEv_event_list_remove, getEv_setSignals, setFires_get_ev_event] <;>
  first
  | exact h
  | (apply fire_inv_step ev h hv
     · simp
     · simp only [event_op_evb_heap, event_op_evb_signals, event_heap_remove_evb_heap, event_heap_remove_evb_signals, event_fire_insert_evb_heap, event_fire_insert_evb_signals, event_fire_remove_evb_heap, event_fire_remove_evb_signals, event_list_insert_evb_heap, event_list_insert_evb_signals, event_list_remove_evb_heap, event_list_remove_evb_signals, nevents_inc_evb_heap, nevents_inc_evb_signals, nevents_dec_evb_heap, nevents_dec_evb_signals, setSignals_evb_heap, setSignals_evb_signals, setEv_evb_heap, setEv_evb_signals, setFlags_evb_heap, setFlags_evb_signals, setFires_evb_heap, setFires_evb_signals, event_heap_insert_evb_heap, event_heap_insert_evb_signals]
       first
       | exact sub_self _ _
       | exact sub_erase _ _ _
       | exact sub_append _ _
       | exact sub_erase_append _ _ _
     · simp only [event_op_evb_heap, event_op_evb_signals, event_heap_remove_evb_heap, event_heap_remove_evb_signals, event_fire_insert_evb_heap, event_fire_insert_evb_signals, event_fire_remove_evb_heap, event_fire_remove_evb_signals, event_list_insert_evb_heap, event_list_insert_evb_signals, event_list_remove_evb_heap, event_list_remove_evb_signals, nevents_inc_evb_heap, nevents_inc_evb_signals, nevents_dec_evb_heap, nevents_dec_evb_signals, setSignals_evb_heap, setSignals_evb_signals, setEv_evb_heap, setEv_evb_signals, setFlags_evb_heap, setFlags_evb_signals, setFires_evb_heap, setFires_evb_signals, event_heap_insert_evb_heap, event_heap_insert_evb_signals]
       first
       | exact sigs_self _ _
       | exact sigs_append _ _ _
       | exact sigs_erase _ _ _ _
       | exact sigs_update _ _ _ _ (fun x hx => by
           first
           | exact sub_append _ _ x hx
           | exact sub_erase _ _ _ x hx
           | exact Or.inr (by simpa [TAILQ_INSERT_TAIL] using hx))
     · intro x hx
       simp [hx]
     · simp +decide [hv, ISSET_CLR_of_sub, ISSET_CLR_of_disj, ISSET_SET_of_sub,
         ISSET_SET_of_disj, *])

theorem fire_inv_evtimer_add (s : event_base) (ev : Nat) (tv : timeval) (now : Option timespec)
    (hv : ev < s.mem.length) (h : fire_inv s) : fire_inv (evtimer_add s ev tv now).2 := by
  unfold evtimer_add event_deadline
  cases now with
  | none => exact h
  | some n =>
    by_cases h1 : ISSET (getEv s ev).ev_event EV_ON_HEAP = 0 <;>
    simp only [h1, and_self, and_true, and_false, true_and, false_and, if_true, if_false, ite_true, ite_false, ne_eq, not_true_eq_false, not_false_eq_true, getEv_nevents_dec, getEv_nevents_inc, getEv_event_heap_remove, getEv_event_fire_remove, getEv_event_fire_insert, getEv_event_op, getEv_event_list_insert, getEv_event_list_remove, getEv_setSignals, setFires_get_ev_event] <;>
    first
    | exact h
    | (apply fire_inv_step ev h hv
       · simp
       · simp only [event_op_evb_heap, event_op_evb_signals, event_heap_remove_evb_heap, event_heap_remove_evb_signals, event_fire_insert_evb_heap, event_fire_insert_evb_signals, event_fire_remove_evb_heap, event_fire_remove_evb_signals, event_list_insert_evb_heap, event_list_insert_evb_signals, event_list_remove_evb_heap, event_list_remove_evb_signals, nevents_inc_evb_heap, nevents_inc_evb_signals, nevents_dec_evb_heap, nevents_dec_evb_signals, setSignals_evb_heap, setSignals_evb_signals, setEv_evb_heap, setEv_evb_signals, setFlags_evb_heap, setFlags_evb_signals, setFires_evb_heap, setFires_evb_signals, event_heap_insert_evb_heap, event_heap_insert_evb_signals]
         first
         | exact sub_self _ _
         | exact sub_erase _ _ _
         | exact sub_append _ _
         | exact sub_erase_append _ _ _
       · simp only [event_op_evb_heap, event_op_evb_signals, event_heap_remove_evb_heap, event_heap_remove_evb_signals, event_fire_insert_evb_heap, event_fire_insert_evb_signals, event_fire_remove_evb_heap, event_fire_remove_evb_signals, event_list_insert_evb_heap, event_list_insert_evb_signals, event_list_remove_evb_heap, event_list_remove_evb_signals, nevents_inc_evb_heap, nevents_inc_evb_signals, nevents_dec_evb_heap, nevents_dec_evb_signals, setSignals_evb_heap, setSignals_evb_signals, setEv_evb_heap, setEv_evb_signals, setFlags_evb_heap, setFlags_evb_signals, setFires_evb_heap, setFires_evb_signals, event_heap_insert_evb_heap, event_heap_insert_evb_signals]
         first
         | exact sigs_self _ _
         | exact sigs_append _ _ _
         | exact sigs_erase _ _ _ _
         | exact sigs_update _ _ _ _ (fun x hx => by
             first
             | exact sub_append _ _ x hx
             | exact sub_erase _ _ _ x hx
             | exact Or.inr (by simpa [TAILQ_INSERT_TAIL] using hx))
       · intro x hx
         simp [hx]
       · simp +decide [hv, ISSET_CLR_of_sub, ISSET_CLR_of_disj, ISSET_SET_of_sub,
           ISSET_SET_of_disj, *])

theorem fire_inv_event_add (s : event_base) (ev : Nat) (tv : Option timeval)
    (now : Option timespec) (oprv rv0 : Int) (hv : ev < s.mem.length) (h : fire_inv s) :
    fire_inv (event_add s ev tv now oprv rv0).2 := by
  unfold event_add event_deadline
  by_cases h0 : ISSET (getEv s ev).ev_event EV_ON_LIST = 0 <;>
  by_cases h1 : ISSET (getEv s ev).ev_event EV_ON_HEAP = 0 <;>
  by_cases h2 : ISSET (getEv s ev).ev_event (EV_ON_LIST ||| EV_ON_HEAP) = EV_ON_LIST <;>
  by_cases h3 : oprv = 0 <;>
  rcases tv with _ | t <;>
  rcases now with _ | n <;>
  simp only [h0, h1, h2, h3, and_self, and_true, and_false, true_and, false_and, if_true, if_false, ite_true, ite_false, ne_eq, not_true_eq_false, not_false_eq_true, getEv_nevents_dec, getEv_nevents_inc, getEv_event_heap_remove, getEv_event_fire_remove, getEv_event_fire_insert, getEv_event_op, getEv_event_list_insert, getEv_event_list_remove, getEv_setSignals, setFires_get_ev_event] <;>
  first
  | exact h
  | (apply fire_inv_step ev h hv
     · simp
     · simp only [event_op_evb_heap, event_op_evb_signals, event_heap_remove_evb_heap, event_heap_remove_evb_signals, event_fire_insert_evb_heap, event_fire_insert_evb_signals, event_fire_remove_evb_heap, event_fire_remove_evb_signals, event_list_insert_evb_heap, event_list_insert_evb_signals, event_list_remove_evb_heap, event_list_remove_evb_signals, nevents_inc_evb_heap, nevents_inc_evb_signals, nevents_dec_evb_heap, nevents_dec_evb_signals, setSignals_evb_heap, setSignals_evb_signals, setEv_evb_heap, setEv_evb_signals, setFlags_evb_heap, setFlags_evb_signals, setFires_evb_heap, setFires_evb_signals, event_heap_insert_evb_heap, event_heap_insert_evb_signals]
       first
       | exact sub_self _ _
       | exact sub_erase _ _ _
       | exact sub_append _ _
       | exact sub_erase_append _ _ _
     · simp only [event_op_evb_heap, event_op_evb_signals, event_heap_remove_evb_heap, event_heap_remove_evb_signals, event_fire_insert_evb_heap, event_fire_insert_evb_signals, event_fire_remove_evb_heap, event_fire_remove_evb_signals, event_list_insert_evb_heap, event_list_insert_evb_signals, event_list_remove_evb_heap, event_list_remove_evb_signals, nevents_inc_evb_heap, nevents_inc_evb_signals, nevents_dec_evb_heap, nevents_dec_evb_signals, setSignals_evb_heap, setSignals_evb_signals, setEv_evb_heap, setEv_evb_signals, setFlags_evb_heap, setFlags_evb_signals, setFires_evb_heap, setFires_evb_signals, event_heap_insert_evb_heap, event_heap_insert_evb_signals]
       first
       | exact sigs_self _ _
       | exact sigs_append _ _ _
       | exact sigs_erase _ _ _ _
       | exact sigs_update _ _ _ _ (fun x hx => by
           first
           | exact sub_append _ _ x hx
           | exact sub_erase _ _ _ x hx
           | exact Or.inr (by simpa [TAILQ_INSERT_TAIL] using hx))
     · intro x hx
       simp [hx]
     · simp +decide [hv, ISSET_CLR_of_sub, ISSET_CLR_of_disj, ISSET_SET_of_sub,
         ISSET_SET_of_disj, *])

theorem fire_inv_signal_add (s : event_base) (ev : Nat) (tv : Option timeval)
    (now : Option timespec) (oprv : Int) (hv : ev < s.mem.length) (h : fire_inv s) :
    fire_inv (signal_add s ev tv now oprv).2 := by
  unfold signal_add event_deadline
  by_cases h0 : ISSET (getEv s ev).ev_event EV_ON_LIST = 0 <;>
  by_cases h1 : ISSET (getEv s ev).ev_event EV_ON_HEAP = 0 <;>
  by_cases h2 : ISSET (getEv s ev).ev_event (EV_ON_LIST ||| EV_ON_HEAP) = EV_ON_LIST <;>
  by_cases h3 : oprv = 0 <;>
  by_cases h4 : s.evb_signals (sigOf s ev) = [] <;>
  rcases tv with _ | t <;>
  rcases now with _ | n <;>
  simp only [h0, h1, h2, h3, h4, event_op_evb_signals, and_self, and_true, and_false, true_and, false_and, if_true, if_false, ite_true, ite_false, ne_eq, not_true_eq_false, not_false_eq_true, getEv_nevents_dec, getEv_nevents_inc, getEv_event_heap_remove, getEv_event_fire_remove, getEv_event_fire_insert, getEv_event_op, getEv_event_list_insert, getEv_event_list_remove, getEv_setSignals, setFires_get_ev_event] <;>
  first
  | exact h
  | (apply fire_inv_step ev h hv
     · simp
     · simp only [event_op_evb_heap, event_op_evb_signals, event_heap_remove_evb_heap, event_heap_remove_evb_signals, event_fire_insert_evb_heap, event_fire_insert_evb_signals, event_fire_remove_evb_heap, event_fire_remove_evb_signals, event_list_insert_evb_heap, event_list_insert_evb_signals, event_list_remove_evb_heap, event_list_remove_evb_signals, nevents_inc_evb_heap, nevents_inc_evb_signals, nevents_dec_evb_heap, nevents_dec_evb_signals, setSignals_evb_heap, setSignals_evb_signals, setEv_evb_heap, setEv_evb_signals, setFlags_evb_heap, setFlags_evb_signals, setFires_evb_heap, setFires_evb_signals, event_heap_insert_evb_heap, event_heap_insert_evb_signals]
       first
       | exact sub_self _ _
       | exact sub_erase _ _ _
       | exact sub_append _ _
       | exact sub_erase_append _ _ _
     · simp only [event_op_evb_heap, event_op_evb_signals, event_heap_remove_evb_heap, event_heap_remove_evb_signals, event_fire_insert_evb_heap, event_fire_insert_evb_signals, event_fire_remove_evb_heap, event_fire_remove_evb_signals, event_list_insert_evb_heap, event_list_insert_evb_signals, event_list_remove_evb_heap, event_list_remove_evb_signals, nevents_inc_evb_heap, nevents_inc_evb_signals, nevents_dec_evb_heap, nevents_dec_evb_signals, setSignals_evb_heap, setSignals_evb_signals, setEv_evb_heap, setEv_evb_signals, setFlags_evb_heap, setFlags_evb_signals, setFires_evb_heap, setFires_evb_signals, event_heap_insert_evb_heap, event_heap_insert_evb_signals]
       first
       | exact sigs_self _ _
       | exact sigs_append _ _ _
       | exact sigs_erase _ _ _ _
       | exact sigs_update _ _ _ _ (fun x hx => by
           first
           | exact sub_append _ _ x hx
           | exact sub_erase _ _ _ x hx
           | exact Or.inr (by simpa [TAILQ_INSERT_TAIL] using hx))
     · intro x hx
       simp [hx]
     · simp +decide [hv, ISSET_CLR_of_sub, ISSET_CLR_of_disj, ISSET_SET_of_sub,
         ISSET_SET_of_disj, *])

theorem fire_inv_signal_del (s : event_base) (ev : Nat) (oprv : Int) (hv : ev < s.mem.length)
    (h : fire_inv s) : fire_inv (signal_del s ev oprv).2 := by
  unfold signal_del
  simp only [ISSET_or_eq_zero]
  by_cases h0 : ISSET (getEv s ev).ev_event EV_ON_LIST = 0 <;>
  by_cases h1 : ISSET (getEv s ev).ev_event EV_ON_HEAP = 0 <;>
  by_cases h2 : ISSET (getEv s ev).ev_event EV_ON_FIRE = 0 <;>
  by_cases h3 : oprv = 0 <;>
  by_cases h4 : TAILQ_FIRST (s.evb_signals (sigOf s ev)) = some ev ∧
      TAILQ_NEXT (s.evb_signals (sigOf s ev)) ev = none <;>
  simp only [h0, h1, h2, h3, h4, event_op_evb_signals, and_self, and_true, and_false, true_and, false_and, if_true, if_false, ite_true, ite_false, ne_eq, not_true_eq_false, not_false_eq_true, getEv_nevents_dec, getEv_nevents_inc, getEv_event_heap_remove, getEv_event_fire_remove, getEv_event_fire_insert, getEv_event_op, getEv_event_list_insert, getEv_event_list_remove, getEv_setSignals, setFires_get_ev_event] <;>
  first
  | exact h
  | (apply fire_inv_step ev h hv
     · simp
     · simp only [event_op_evb_heap, event_op_evb_signals, event_heap_remove_evb_heap, event_heap_remove_evb_signals, event_fire_insert_evb_heap, event_fire_insert_evb_signals, event_fire_remove_evb_heap, event_fire_remove_evb_signals, event_list_insert_evb_heap, event_list_insert_evb_signals, event_list_remove_evb_heap, event_list_remove_evb_signals, nevents_inc_evb_heap, nevents_inc_evb_signals, nevents_dec_evb_heap, nevents_dec_evb_signals, setSignals_evb_heap, setSignals_evb_signals, setEv_evb_heap, setEv_evb_signals, setFlags_evb_heap, setFlags_evb_signals, setFires_evb_heap, setFires_evb_signals, event_heap_insert_evb_heap, event_heap_insert_evb_signals]
       first
       | exact sub_self _ _
       | exact sub_erase _ _ _
       | exact sub_append _ _
       | exact sub_erase_append _ _ _
     · simp only [event_op_evb_heap, event_op_evb_signals, event_heap_remove_evb_heap, event_heap_remove_evb_signals, event_fire_insert_evb_heap, event_fire_insert_evb_signals, event_fire_remove_evb_heap, event_fire_remove_evb_signals, event_list_insert_evb_heap, event_list_insert_evb_signals, event_list_remove_evb_heap, event_list_remove_evb_signals, nevents_inc_evb_heap, nevents_inc_evb_signals, nevents_dec_evb_heap, nevents_dec_evb_signals, setSignals_evb_heap, setSignals_evb_signals, setEv_evb_heap, setEv_evb_signals, setFlags_evb_heap, setFlags_evb_signals, setFires_evb_heap, setFires_evb_signals, event_heap_insert_evb_heap, event_heap_insert_evb_signals]
       first
       | exact sigs_self _ _
       | exact sigs_append _ _ _
       | exact sigs_erase _ _ _ _
       | exact sigs_update _ _ _ _ (fun x hx => by
           first
           | exact sub_append _ _ x hx
           | exact sub_erase _ _ _ x hx
           | exact Or.inr (by simpa [TAILQ_INSERT_TAIL] using hx))
     · intro x hx
       simp [hx]
     · simp +decide [hv, ISSET_CLR_of_sub, ISSET_CLR_of_disj, ISSET_SET_of_sub,
         ISSET_SET_of_disj, *])

theorem fire_inv_event_fire_event (s : event_base) (ev event : Nat) (oprv : Int)
    (hv : ev < s.mem.length) (h : fire_inv s) :
    fire_inv (event_fire_event s ev event oprv) := by
  unfold event_fire_event
  by_cases h1 : ISSET (getEv s ev).ev_event EV_ON_HEAP = 0 <;>
  by_cases h2 : ISSET (getEv s ev).ev_event EV_ON_FIRE = 0 <;>
  by_cases h3 : oprv = 0 <;>
  by_cases h4 : ISSET (getEv s ev).ev_event EV_PERSIST = 0 ∧ ISSET event EV_PERSIST ≠ 0 <;>
  simp only [h1, h2, h3, h4, and_self, and_true, and_false, true_and, false_and, if_true, if_false, ite_true, ite_false, ne_eq, not_true_eq_false, not_false_eq_true, getEv_nevents_dec, getEv_nevents_inc, getEv_event_heap_remove, getEv_event_fire_remove, getEv_event_fire_insert, getEv_event_op, getEv_event_list_insert, getEv_event_list_remove, getEv_setSignals, setFires_get_ev_event] <;>
  first
  | exact h
  | (apply fire_inv_step ev h hv
     · simp
     · simp only [event_op_evb_heap, event_op_evb_signals, event_heap_remove_evb_heap, event_heap_remove_evb_signals, event_fire_insert_evb_heap, event_fire_insert_evb_signals, event_fire_remove_evb_heap, event_fire_remove_evb_signals, event_list_insert_evb_heap, event_list_insert_evb_signals, event_list_remove_evb_heap, event_list_remove_evb_signals, nevents_inc_evb_heap, nevents_inc_evb_signals, nevents_dec_evb_heap, nevents_dec_evb_signals, setSignals_evb_heap, setSignals_evb_signals, setEv_evb_heap, setEv_evb_signals, setFlags_evb_heap, setFlags_evb_signals, setFires_evb_heap, setFires_evb_signals, event_heap_insert_evb_heap, event_heap_insert_evb_signals]
       first
       | exact sub_self _ _
       | exact sub_erase _ _ _
       | exact sub_append _ _
       | exact sub_erase_append _ _ _
     · simp only [event_op_evb_heap, event_op_evb_signals, event_heap_remove_evb_heap, event_heap_remove_evb_signals, event_fire_insert_evb_heap, event_fire_insert_evb_signals, event_fire_remove_evb_heap, event_fire_remove_evb_signals, event_list_insert_evb_heap, event_list_insert_evb_signals, event_list_remove_evb_heap, event_list_remove_evb_signals, nevents_inc_evb_heap, nevents_inc_evb_signals, nevents_dec_evb_heap, nevents_dec_evb_signals, setSignals_evb_heap, setSignals_evb_signals, setEv_evb_heap, setEv_evb_signals, setFlags_evb_heap, setFlags_evb_signals, setFires_evb_heap, setFires_evb_signals, event_heap_insert_evb_heap, event_heap_insert_evb_signals]
       first
       | exact sigs_self _ _
       | exact sigs_append _ _ _
       | exact sigs_erase _ _ _ _
       | exact sigs_update _ _ _ _ (fun x hx => by
           first
           | exact sub_append _ _ x hx
           | exact sub_erase _ _ _ x hx
           | exact Or.inr (by simpa [TAILQ_INSERT_TAIL] using hx))
     · intro x hx
       simp [hx]
     · simp +decide [hv, ISSET_CLR_of_sub, ISSET_CLR_of_disj, ISSET_SET_of_sub,
         ISSET_SET_of_disj, *])

theorem fire_inv_event_fire_signal_one (s : event_base) (ev : Nat)
    (hv : ev < s.mem.length) (h : fire_inv s) :
    fire_inv (event_fire_signal_one s ev) := by
  unfold event_fire_signal_one
  by_cases h2 : ISSET (getEv s ev).ev_event EV_ON_FIRE = 0 <;>
  simp only [h2, and_self, and_true, and_false, true_and, false_and, if_true, if_false, ite_true, ite_false, ne_eq, not_true_eq_false, not_false_eq_true, getEv_nevents_dec, getEv_nevents_inc, getEv_event_heap_remove, getEv_event_fire_remove, getEv_event_fire_insert, getEv_event_op, getEv_event_list_insert, getEv_event_list_remove, getEv_setSignals, setFires_get_ev_event] <;>
  first
  | exact h
  | (apply fire_inv_step ev h hv
     · simp
     · simp only [event_op_evb_heap, event_op_evb_signals, event_heap_remove_evb_heap, event_heap_remove_evb_signals, event_fire_insert_evb_heap, event_fire_insert_evb_signals, event_fire_remove_evb_heap, event_fire_remove_evb_signals, event_list_insert_evb_heap, event_list_insert_evb_signals, event_list_remove_evb_heap, event_list_remove_evb_signals, nevents_inc_evb_heap, nevents_inc_evb_signals, nevents_dec_evb_heap, nevents_dec_evb_signals, setSignals_evb_heap, setSignals_evb_signals, setEv_evb_heap, setEv_evb_signals, setFlags_evb_heap, setFlags_evb_signals, setFires_evb_heap, setFires_evb_signals, event_heap_insert_evb_heap, event_heap_insert_evb_signals]
       first
       | exact sub_self _ _
       | exact sub_erase _ _ _
       | exact sub_append _ _
       | exact sub_erase_append _ _ _
     · simp only [event_op_evb_heap, event_op_evb_signals, event_heap_remove_evb_heap, event_heap_remove_evb_signals, event_fire_insert_evb_heap, event_fire_insert_evb_signals, event_fire_remove_evb_heap, event_fire_remove_evb_signals, event_list_insert_evb_heap, event_list_insert_evb_signals, event_list_remove_evb_heap, event_list_remove_evb_signals, nevents_inc_evb_heap, nevents_inc_evb_signals, nevents_dec_evb_heap, nevents_dec_evb_signals, setSignals_evb_heap, setSignals_evb_signals, setEv_evb_heap, setEv_evb_signals, setFlags_evb_heap, setFlags_evb_signals, setFires_evb_heap, setFires_evb_signals, event_heap_insert_evb_heap, event_heap_insert_evb_signals]
       first
       | exact sigs_self _ _
       | exact sigs_append _ _ _
       | exact sigs_erase _ _ _ _
       | exact sigs_update _ _ _ _ (fun x hx => by
           first
           | exact sub_append _ _ x hx
           | exact sub_erase _ _ _ x hx
           | exact Or.inr (by simpa [TAILQ_INSERT_TAIL] using hx))
     · intro x hx
       simp [hx]
     · simp +decide [hv, ISSET_CLR_of_sub, ISSET_CLR_of_disj, ISSET_SET_of_sub,
         ISSET_SET_of_disj, *])

theorem fire_inv_expire_fin (s : event_base) (ev : Nat)
    (hv : ev < s.mem.length) (h : fire_inv s) :
    fire_inv
      (if ISSET (getEv (setFires (nevents_dec (setFlags s ev
            (fun v => CLR v (EV_ON_LIST ||| EV_ON_HEAP)))) ev
            (fun f => SET f EV_TIMEOUT)) ev).ev_event EV_ON_FIRE = 0 then
        setFlags (event_fire_insert (setFires (nevents_dec (setFlags s ev
            (fun v => CLR v (EV_ON_LIST ||| EV_ON_HEAP)))) ev
            (fun f => SET f EV_TIMEOUT)) ev) ev (fun v => SET v EV_ON_FIRE)
      else setFires (nevents_dec (setFlags s ev
            (fun v => CLR v (EV_ON_LIST ||| EV_ON_HEAP)))) ev
            (fun f => SET f EV_TIMEOUT)) := by
  have key : ISSET (getEv (setFires (nevents_dec (setFlags s ev
            (fun v => CLR v (EV_ON_LIST ||| EV_ON_HEAP)))) ev
            (fun f => SET f EV_TIMEOUT)) ev).ev_event EV_ON_FIRE =
      ISSET (getEv s ev).ev_event EV_ON_FIRE := by
    simp +decide [hv, ISSET_CLR_of_disj]
  rw [key]
  by_cases h2 : ISSET (getEv s ev).ev_event EV_ON_FIRE = 0 <;>
  simp only [h2, and_self, and_true, and_false, true_and, false_and, if_true, if_false, ite_true, ite_false, ne_eq, not_true_eq_false, not_false_eq_true, getEv_nevents_dec, getEv_nevents_inc, getEv_event_heap_remove, getEv_event_fire_remove, getEv_event_fire_insert, getEv_event_op, getEv_event_list_insert, getEv_event_list_remove, getEv_setSignals, setFires_get_ev_event] <;>
  first
  | exact h
  | (apply fire_inv_step ev h hv
     · simp
     · simp only [event_op_evb_heap, event_op_evb_signals, event_heap_remove_evb_heap, event_heap_remove_evb_signals, event_fire_insert_evb_heap, event_fire_insert_evb_signals, event_fire_remove_evb_heap, event_fire_remove_evb_signals, event_list_insert_evb_heap, event_list_insert_evb_signals, event_list_remove_evb_heap, event_list_remove_evb_signals, nevents_inc_evb_heap, nevents_inc_evb_signals, nevents_dec_evb_heap, nevents_dec_evb_signals, setSignals_evb_heap, setSignals_evb_signals, setEv_evb_heap, setEv_evb_signals, setFlags_evb_heap, setFlags_evb_signals, setFires_evb_heap, setFires_evb_signals, event_heap_insert_evb_heap, event_heap_insert_evb_signals]
       first
       | exact sub_self _ _
       | exact sub_erase _ _ _
       | exact sub_append _ _
       | exact sub_erase_append _ _ _
     · simp only [event_op_evb_heap, event_op_evb_signals, event_heap_remove_evb_heap, event_heap_remove_evb_signals, event_fire_insert_evb_heap, event_fire_insert_evb_signals, event_fire_remove_evb_heap, event_fire_remove_evb_signals, event_list_insert_evb_heap, event_list_insert_evb_signals, event_list_remove_evb_heap, event_list_remove_evb_signals, nevents_inc_evb_heap, nevents_inc_evb_signals, nevents_dec_evb_heap, nevents_dec_evb_signals, setSignals_evb_heap, setSignals_evb_signals, setEv_evb_heap, setEv_evb_signals, setFlags_evb_heap, setFlags_evb_signals, setFires_evb_heap, setFires_evb_signals, event_heap_insert_evb_heap, event_heap_insert_evb_signals]
       first
       | exact sigs_self _ _
       | exact sigs_append _ _ _
       | exact sigs_erase _ _ _ _
       | exact sigs_update _ _ _ _ (fun x hx => by
           first
           | exact sub_append _ _ x hx
           | exact sub_erase _ _ _ x hx
           | exact Or.inr (by simpa [TAILQ_INSERT_TAIL] using hx))
     · intro x hx
       simp [hx]
     · simp +decide [hv, ISSET_CLR_of_sub, ISSET_CLR_of_disj, ISSET_SET_of_sub,
         ISSET_SET_of_disj, *])

theorem fire_inv_event_dispatch_expire (s : event_base) (ev : Nat) (oprv : Int)
    (hv : ev < s.mem.length) (h : fire_inv s) :
    fire_inv (event_dispatch_expire s ev oprv).2 := by
  have hop : ∀ c rv, fire_inv (event_op s c rv) := by
    intro c rv
    first
    | exact h
    | (apply fire_inv_step ev h hv
       · simp
       · simp only [event_op_evb_heap, event_op_evb_signals, event_heap_remove_evb_heap, event_heap_remove_evb_signals, event_fire_insert_evb_heap, event_fire_insert_evb_signals, event_fire_remove_evb_heap, event_fire_remove_evb_signals, event_list_insert_evb_heap, event_list_insert_evb_signals, event_list_remove_evb_heap, event_list_remove_evb_signals, nevents_inc_evb_heap, nevents_inc_evb_signals, nevents_dec_evb_heap, nevents_dec_evb_signals, setSignals_evb_heap, setSignals_evb_signals, setEv_evb_heap, setEv_evb_signals, setFlags_evb_heap, setFlags_evb_signals, setFires_evb_heap, setFires_evb_signals, event_heap_insert_evb_heap, event_heap_insert_evb_signals]
         first
         | exact sub_self _ _
         | exact sub_erase _ _ _
         | exact sub_append _ _
         | exact sub_erase_append _ _ _
       · simp only [event_op_evb_heap, event_op_evb_signals, event_heap_remove_evb_heap, event_heap_remove_evb_signals, event_fire_insert_evb_heap, event_fire_insert_evb_signals, event_fire_remove_evb_heap, event_fire_remove_evb_signals, event_list_insert_evb_heap, event_list_insert_evb_signals, event_list_remove_evb_heap, event_list_remove_evb_signals, nevents_inc_evb_heap, nevents_inc_evb_signals, nevents_dec_evb_heap, nevents_dec_evb_signals, setSignals_evb_heap, setSignals_evb_signals, setEv_evb_heap, setEv_evb_signals, setFlags_evb_heap, setFlags_evb_signals, setFires_evb_heap, setFires_evb_signals, event_heap_insert_evb_heap, event_heap_insert_evb_signals]
         first
         | exact sigs_self _ _
         | exact sigs_append _ _ _
         | exact sigs_erase _ _ _ _
         | exact sigs_update _ _ _ _ (fun x hx => by
             first
             | exact sub_append _ _ x hx
             | exact sub_erase _ _ _ x hx
             | exact Or.inr (by simpa [TAILQ_INSERT_TAIL] using hx))
       · intro x hx
         simp [hx]
       · simp +decide [hv, ISSET_CLR_of_sub, ISSET_CLR_of_disj, ISSET_SET_of_sub,
           ISSET_SET_of_disj, *])
  have hrem : ∀ rv, fire_inv (event_list_remove (event_op s (.event_del ev) rv) ev) := by
    intro rv
    first
    | exact h
    | (apply fire_inv_step ev h hv
       · simp
       · simp only [event_op_evb_heap, event_op_evb_signals, event_heap_remove_evb_heap, event_heap_remove_evb_signals, event_fire_insert_evb_heap, event_fire_insert_evb_signals, event_fire_remove_evb_heap, event_fire_remove_evb_signals, event_list_insert_evb_heap, event_list_insert_evb_signals, event_list_remove_evb_heap, event_list_remove_evb_signals, nevents_inc_evb_heap, nevents_inc_evb_signals, nevents_dec_evb_heap, nevents_dec_evb_signals, setSignals_evb_heap, setSignals_evb_signals, setEv_evb_heap, setEv_evb_signals, setFlags_evb_heap, setFlags_evb_signals, setFires_evb_heap, setFires_evb_signals, event_heap_insert_evb_heap, event_heap_insert_evb_signals]
         first
         | exact sub_self _ _
         | exact sub_erase _ _ _
         | exact sub_append _ _
         | exact sub_erase_append _ _ _
       · simp only [event_op_evb_heap, event_op_evb_signals, event_heap_remove_evb_heap, event_heap_remove_evb_signals, event_fire_insert_evb_heap, event_fire_insert_evb_signals, event_fire_remove_evb_heap, event_fire_remove_evb_signals, event_list_insert_evb_heap, event_list_insert_evb_signals, event_list_remove_evb_heap, event_list_remove_evb_signals, nevents_inc_evb_heap, nevents_inc_evb_signals, nevents_dec_evb_heap, nevents_dec_evb_signals, setSignals_evb_heap, setSignals_evb_signals, setEv_evb_heap, setEv_evb_signals, setFlags_evb_heap, setFlags_evb_signals, setFires_evb_heap, setFires_evb_signals, event_heap_insert_evb_heap, event_heap_insert_evb_signals]
         first
         | exact sigs_self _ _
         | exact sigs_append _ _ _
         | exact sigs_erase _ _ _ _
         | exact sigs_update _ _ _ _ (fun x hx => by
             first
             | exact sub_append _ _ x hx
             | exact sub_erase _ _ _ x hx
             | exact Or.inr (by simpa [TAILQ_INSERT_TAIL] using hx))
       · intro x hx
         simp [hx]
       · simp +decide [hv, ISSET_CLR_of_sub, ISSET_CLR_of_disj, ISSET_SET_of_sub,
           ISSET_SET_of_disj, *])
  have hsg : fire_inv (setSignals s (sigOf s ev)
      (TAILQ_REMOVE (s.evb_signals (sigOf s ev)) ev)) := by
    first
    | exact h
    | (apply fire_inv_step ev h hv
       · simp
       · simp only [event_op_evb_heap, event_op_evb_signals, event_heap_remove_evb_heap, event_heap_remove_evb_signals, event_fire_insert_evb_heap, event_fire_insert_evb_signals, event_fire_remove_evb_heap, event_fire_remove_evb_signals, event_list_insert_evb_heap, event_list_insert_evb_signals, event_list_remove_evb_heap, event_list_remove_evb_signals, nevents_inc_evb_heap, nevents_inc_evb_signals, nevents_dec_evb_heap, nevents_dec_evb_signals, setSignals_evb_heap, setSignals_evb_signals, setEv_evb_heap, setEv_evb_signals, setFlags_evb_heap, setFlags_evb_signals, setFires_evb_heap, setFires_evb_signals, event_heap_insert_evb_heap, event_heap_insert_evb_signals]
         first
         | exact sub_self _ _
         | exact sub_erase _ _ _
         | exact sub_append _ _
         | exact sub_erase_append _ _ _
       · simp only [event_op_evb_heap, event_op_evb_signals, event_heap_remove_evb_heap, event_heap_remove_evb_signals, event_fire_insert_evb_heap, event_fire_insert_evb_signals, event_fire_remove_evb_heap, event_fire_remove_evb_signals, event_list_insert_evb_heap, event_list_insert_evb_signals, event_list_remove_evb_heap, event_list_remove_evb_signals, nevents_inc_evb_heap, nevents_inc_evb_signals, nevents_dec_evb_heap, nevents_dec_evb_signals, setSignals_evb_heap, setSignals_evb_signals, setEv_evb_heap, setEv_evb_signals, setFlags_evb_heap, setFlags_evb_signals, setFires_evb_heap, setFires_evb_signals, event_heap_insert_evb_heap, event_heap_insert_evb_signals]
         first
         | exact sigs_self _ _
         | exact sigs_append _ _ _
         | exact sigs_erase _ _ _ _
         | exact sigs_update _ _ _ _ (fun x hx => by
             first
             | exact sub_append _ _ x hx
             | exact sub_erase _ _ _ x hx
             | exact Or.inr (by simpa [TAILQ_INSERT_TAIL] using hx))
       · intro x hx
         simp [hx]
       · simp +decide [hv, ISSET_CLR_of_sub, ISSET_CLR_of_disj, ISSET_SET_of_sub,
           ISSET_SET_of_disj, *])
  have hsg2 : ∀ c rv, fire_inv (event_op (setSignals s (sigOf s ev)
      (TAILQ_REMOVE (s.evb_signals (sigOf s ev)) ev)) c rv) := by
    intro c rv
    first
    | exact h
    | (apply fire_inv_step ev h hv
       · simp
       · simp only [event_op_evb_heap, event_op_evb_signals, event_heap_remove_evb_heap, event_heap_remove_evb_signals, event_fire_insert_evb_heap, event_fire_insert_evb_signals, event_fire_remove_evb_heap, event_fire_remove_evb_signals, event_list_insert_evb_heap, event_list_insert_evb_signals, event_list_remove_evb_heap, event_list_remove_evb_signals, nevents_inc_evb_heap, nevents_inc_evb_signals, nevents_dec_evb_heap, nevents_dec_evb_signals, setSignals_evb_heap, setSignals_evb_signals, setEv_evb_heap, setEv_evb_signals, setFlags_evb_heap, setFlags_evb_signals, setFires_evb_heap, setFires_evb_signals, event_heap_insert_evb_heap, event_heap_insert_evb_signals]
         first
         | exact sub_self _ _
         | exact sub_erase _ _ _
         | exact sub_append _ _
         | exact sub_erase_append _ _ _
       · simp only [event_op_evb_heap, event_op_evb_signals, event_heap_remove_evb_heap, event_heap_remove_evb_signals, event_fire_insert_evb_heap, event_fire_insert_evb_signals, event_fire_remove_evb_heap, event_fire_remove_evb_signals, event_list_insert_evb_heap, event_list_insert_evb_signals, event_list_remove_evb_heap, event_list_remove_evb_signals, nevents_inc_evb_heap, nevents_inc_evb_signals, nevents_dec_evb_heap, nevents_dec_evb_signals, setSignals_evb_heap, setSignals_evb_signals, setEv_evb_heap, setEv_evb_signals, setFlags_evb_heap, setFlags_evb_signals, setFires_evb_heap, setFires_evb_signals, event_heap_insert_evb_heap, event_heap_insert_evb_signals]
         first
         | exact sigs_self _ _
         | exact sigs_append _ _ _
         | exact sigs_erase _ _ _ _
         | exact sigs_update _ _ _ _ (fun x hx => by
             first
             | exact sub_append _ _ x hx
             | exact sub_erase _ _ _ x hx
             | exact Or.inr (by simpa [TAILQ_INSERT_TAIL] using hx))
       · intro x hx
         simp [hx]
       · simp +decide [hv, ISSET_CLR_of_sub, ISSET_CLR_of_disj, ISSET_SET_of_sub,
           ISSET_SET_of_disj, *])
  unfold event_dispatch_expire
  by_cases h3 : oprv = 0 <;>
  by_cases h4 : ISSET (getEv s ev).ev_event EV_TYPE_MASK = EV_IO <;>
  by_cases h5 : ISSET (getEv s ev).ev_event EV_TYPE_MASK = EV_SIGNAL <;>
  by_cases h6 : ISSET (getEv s ev).ev_event EV_TYPE_MASK = EV_TIMEOUT <;>
  by_cases h7 : (setSignals s (sigOf s ev)
      (TAILQ_REMOVE (s.evb_signals (sigOf s ev)) ev)).evb_signals (sigOf s ev) = [] <;>
  simp only [h3, h4, h5, h6, h7, if_true, if_false, ne_eq, not_true_eq_false,
    not_false_eq_true] <;>
  first
  | exact h
  | exact hop _ _
  | exact hsg2 _ _
  | exact fire_inv_expire_fin _ ev (by simpa using hv) (hrem _)
  | exact fire_inv_expire_fin _ ev (by simpa using hv) hsg
  | exact fire_inv_expire_fin _ ev (by simpa using hv) (hsg2 _ _)
  | exact fire_inv_expire_fin _ ev hv h

theorem fire_inv_event_dispatch_pop (s : event_base) (ev : Nat)
    (hv : ev < s.mem.length) (h : fire_inv s) :
    fire_inv (event_dispatch_pop s ev).2 := by
  unfold event_dispatch_pop
  simp only []
  first
  | exact h
  | (apply fire_inv_step ev h hv
     · simp
     · simp only [event_op_evb_heap, event_op_evb_signals, event_heap_remove_evb_heap, event_heap_remove_evb_signals, event_fire_insert_evb_heap, event_fire_insert_evb_signals, event_fire_remove_evb_heap, event_fire_remove_evb_signals, event_list_insert_evb_heap, event_list_insert_evb_signals, event_list_remove_evb_heap, event_list_remove_evb_signals, nevents_inc_evb_heap, nevents_inc_evb_signals, nevents_dec_evb_heap, nevents_dec_evb_signals, setSignals_evb_heap, setSignals_evb_signals, setEv_evb_heap, setEv_evb_signals, setFlags_evb_heap, setFlags_evb_signals, setFires_evb_heap, setFires_evb_signals, event_heap_insert_evb_heap, event_heap_insert_evb_signals]
       first
       | exact sub_self _ _
       | exact sub_erase _ _ _
       | exact sub_append _ _
       | exact sub_erase_append _ _ _
     · simp only [event_op_evb_heap, event_op_evb_signals, event_heap_remove_evb_heap, event_heap_remove_evb_signals, event_fire_insert_evb_heap, event_fire_insert_evb_signals, event_fire_remove_evb_heap, event_fire_remove_evb_signals, event_list_insert_evb_heap, event_list_insert_evb_signals, event_list_remove_evb_heap, event_list_remove_evb_signals, nevents_inc_evb_heap, nevents_inc_evb_signals, nevents_dec_evb_heap, nevents_dec_evb_signals, setSignals_evb_heap, setSignals_evb_signals, setEv_evb_heap, setEv_evb_signals, setFlags_evb_heap, setFlags_evb_signals, setFires_evb_heap, setFires_evb_signals, event_heap_insert_evb_heap, event_heap_insert_evb_signals]
       first
       | exact sigs_self _ _
       | exact sigs_append _ _ _
       | exact sigs_erase _ _ _ _
       | exact sigs_update _ _ _ _ (fun x hx => by
           first
           | exact sub_append _ _ x hx
           | exact sub_erase _ _ _ x hx
           | exact Or.inr (by simpa [TAILQ_INSERT_TAIL] using hx))
     · intro x hx
       simp [hx]
     · simp +decide [hv, ISSET_CLR_of_sub, ISSET_CLR_of_disj, ISSET_SET_of_sub,
         ISSET_SET_of_disj, *])

theorem fire_inv_set (s : event_base) (ev : Nat) (e : event)
    (hv : ev < s.mem.length) (h : fire_inv s)
    (h0 : ISSET (getEv s ev).ev_event EV_ON_FIRE = 0) (h1 : ISSET e.ev_event EV_ON_FIRE = 0) :
    fire_inv (setEv s ev e) := by
  apply fire_inv_step ev h hv
  · simp
  · exact sub_self _ _
  · exact sigs_self _ _
  · intro x hx
    rw [getEv_setEv]
    simp [hx]
  · left
    refine ⟨rfl, ?_⟩
    rw [getEv_setEv]
    simp [hv, h0, h1]

theorem ISSET_zero (b : Nat) : ISSET 0 b = 0 := by
  unfold ISSET; simp

theorem lt_of_flag {s : event_base} {x b : Nat} (h : ISSET (getEv s x).ev_event b ≠ 0) :
    x < s.mem.length := by
  by_contra hx
  apply h
  rw [getEv_of_length_le s x (Nat.le_of_not_lt hx)]
  exact ISSET_zero b

theorem fire_inv_init (mem : List event)
    (h : mem.all (fun e => decide (ISSET e.ev_event EV_PLACEMENT = 0)) = true) :
    fire_inv (event_init mem) := by
  refine ⟨fun x => ?_, ?_, ?_, ?_⟩
  · simp only [event_init, List.not_mem_nil, iff_false, ne_eq, not_not]
    by_cases hx : x < mem.length
    · have hm : (getEv (event_init mem) x) ∈ mem := by
        unfold getEv event_init
        simp only [List.getD_eq_getElem?_getD, List.getElem?_eq_getElem hx, Option.getD_some]
        exact List.getElem_mem hx
      have := List.all_eq_true.1 h _ hm
      exact (ISSET_of_placement (of_decide_eq_true this)).2.2
    · rw [getEv_of_length_le _ x (by simpa [event_init] using hx)]
      exact ISSET_zero _
  · simp [event_init]
  · simp [event_init]
  · simp [event_init]

theorem fire_inv_event_fire_signal (l : List Nat) :
    ∀ s : event_base, fire_inv s → (∀ x ∈ l, x < s.mem.length) →
      fire_inv (l.foldl event_fire_signal_one s) ∧
        (l.foldl event_fire_signal_one s).mem.length = s.mem.length := by
  induction l with
  | nil => intro s h _; exact ⟨h, rfl⟩
  | cons a l ih =>
    intro s h hl
    have ha : a < s.mem.length := hl a (List.mem_cons_self _ _)
    have hlen : (event_fire_signal_one s a).mem.length = s.mem.length := by
      unfold event_fire_signal_one
      simp only []
      split <;> simp
    have := ih (event_fire_signal_one s a) (fire_inv_event_fire_signal_one s a ha h)
      (fun x hx => by rw [hlen]; exact hl x (List.mem_cons_of_mem _ hx))
    exact ⟨this.1, by rw [List.foldl_cons, this.2, hlen]⟩

theorem HEAP_FIRST_mem (cmp : Nat → Nat → Int) :
    ∀ (l : List Nat) (m : Nat), HEAP_FIRST cmp l = some m → m ∈ l := by
  intro l
  induction l with
  | nil => intro m h; simp [HEAP_FIRST] at h
  | cons x xs ih =>
    intro m h
    unfold HEAP_FIRST at h
    cases hr : HEAP_FIRST cmp xs with
    | none =>
      rw [hr] at h
      simp at h
      simp [h]
    | some y =>
      rw [hr] at h
      simp only at h
      split at h
      · have := Option.some.inj h
        subst this
        exact List.mem_cons_of_mem _ (ih y hr)
      · have := Option.some.inj h
        subst this
        exact List.mem_cons_self _ _

theorem event_heap_cextract_some {s s1 : event_base} {now : event} {ev : Nat}
    (h : event_heap_cextract s now = (some ev, s1)) :
    ev ∈ s.evb_heap ∧ s1 = event_heap_remove s ev := by
  unfold event_heap_cextract HEAP_CEXTRACT at h
  cases hr : HEAP_FIRST (event_heap_cmp s) s.evb_heap with
  | none => rw [hr] at h; simp at h
  | some n =>
    rw [hr] at h
    simp only at h
    split at h
    · simp at h
    · simp only [Prod.mk.injEq, Option.some.injEq] at h
      obtain ⟨h1, h2⟩ := h
      subst h1
      exact ⟨HEAP_FIRST_mem _ _ _ hr, h2.symm⟩

theorem fire_inv_drain_step (s : event_base) (now : timespec) (oprv : Int)
    (h : fire_inv s) : fire_inv (event_dispatch_drain_step s now oprv).2 := by
  unfold event_dispatch_drain_step
  rcases hc : event_heap_cextract s (now_event now) with ⟨_ | ev, s1⟩
  · exact h
  · obtain ⟨hm, rfl⟩ := event_heap_cextract_some hc
    have hv : ev < s.mem.length := h.heap ev hm
    have h1 : fire_inv (event_heap_remove s ev) := by
      first
      | exact h
      | (apply fire_inv_step ev h hv
         · simp
         · simp only [event_op_evb_heap, event_op_evb_signals, event_heap_remove_evb_heap, event_heap_remove_evb_signals, event_fire_insert_evb_heap, event_fire_insert_evb_signals, event_fire_remove_evb_heap, event_fire_remove_evb_signals, event_list_insert_evb_heap, event_list_insert_evb_signals, event_list_remove_evb_heap, event_list_remove_evb_signals, nevents_inc_evb_heap, nevents_inc_evb_signals, nevents_dec_evb_heap, nevents_dec_evb_signals, setSignals_evb_heap, setSignals_evb_signals, setEv_evb_heap, setEv_evb_signals, setFlags_evb_heap, setFlags_evb_signals, setFires_evb_heap, setFires_evb_signals, event_heap_insert_evb_heap, event_heap_insert_evb_signals]
           first
           | exact sub_self _ _
           | exact sub_erase _ _ _
           | exact sub_append _ _
           | exact sub_erase_append _ _ _
         · simp only [event_op_evb_heap, event_op_evb_signals, event_heap_remove_evb_heap, event_heap_remove_evb_signals, event_fire_insert_evb_heap, event_fire_insert_evb_signals, event_fire_remove_evb_heap, event_fire_remove_evb_signals, event_list_insert_evb_heap, event_list_insert_evb_signals, event_list_remove_evb_heap, event_list_remove_evb_signals, nevents_inc_evb_heap, nevents_inc_evb_signals, nevents_dec_evb_heap, nevents_dec_evb_signals, setSignals_evb_heap, setSignals_evb_signals, setEv_evb_heap, setEv_evb_signals, setFlags_evb_heap, setFlags_evb_signals, setFires_evb_heap, setFires_evb_signals, event_heap_insert_evb_heap, event_heap_insert_evb_signals]
           first
           | exact sigs_self _ _
           | exact sigs_append _ _ _
           | exact sigs_erase _ _ _ _
           | exact sigs_update _ _ _ _ (fun x hx => by
               first
               | exact sub_append _ _ x hx
               | exact sub_erase _ _ _ x hx
               | exact Or.inr (by simpa [TAILQ_INSERT_TAIL] using hx))
         · intro x hx
           simp [hx]
         · simp +decide [hv, ISSET_CLR_of_sub, ISSET_CLR_of_disj, ISSET_SET_of_sub,
             ISSET_SET_of_disj, *])
    simp only []
    exact fire_inv_event_dispatch_expire _ ev oprv (by simpa using hv) h1

theorem fire_inv_deliver (s : event_base) (h : fire_inv s) :
    fire_inv (step.run s .deliver) := by
  unfold step.run
  cases hf : event_fire_first s with
  | none => exact h
  | some ev =>
    have hm : ev ∈ s.evb_fire := by
      unfold event_fire_first TAILQ_FIRST at hf
      exact List.mem_of_mem_head? hf
    exact fire_inv_event_dispatch_pop s ev (lt_of_flag ((h.bit ev).2 hm)) h

theorem fire_inv_api (s : event_base) (c : api_call) (hv : c.valid s = true)
    (h : fire_inv s) : fire_inv (c.run s) := by
  unfold api_call.valid at hv
  simp only [Bool.and_eq_true, decide_eq_true_eq, Bool.or_eq_true, Bool.not_eq_true'] at hv
  obtain ⟨hlt, hset⟩ := hv
  cases c with
  | event_set ev fd events fn arg =>
    have h0 := (ISSET_of_placement (hset.resolve_left (by simp [api_call.is_set]))).2.2
    exact fire_inv_set s ev _ hlt h h0 (ISSET_set_word (by decide) (by decide) _)
  | evtimer_set ev fn arg =>
    have h0 := (ISSET_of_placement (hset.resolve_left (by simp [api_call.is_set]))).2.2
    exact fire_inv_set s ev _ hlt h h0 (show ISSET (EV_INITIALIZED ||| EV_TIMEOUT) _ = 0 by decide)
  | signal_set ev sg fn arg =>
    have h0 := (ISSET_of_placement (hset.resolve_left (by simp [api_call.is_set]))).2.2
    exact fire_inv_set s ev _ hlt h h0
      (show ISSET (EV_INITIALIZED ||| EV_SIGNAL ||| EV_PERSIST) _ = 0 by decide)
  | event_add ev tv now oprv rv0 => exact fire_inv_event_add s ev tv now oprv rv0 hlt h
  | event_del ev oprv => exact fire_inv_event_del s ev oprv hlt h
  | evtimer_add ev tv now => exact fire_inv_evtimer_add s ev tv now hlt h
  | evtimer_del ev => exact fire_inv_evtimer_del s ev hlt h
  | signal_add ev tv now oprv => exact fire_inv_signal_add s ev tv now oprv hlt h
  | signal_del ev oprv => exact fire_inv_signal_del s ev oprv hlt h

theorem fire_inv_step_run (s : event_base) (st : step) (hv : st.valid s = true)
    (h : fire_inv s) : fire_inv (st.run s) := by
  cases st with
  | api c => exact fire_inv_api s c hv h
  | fire_event ev event oprv =>
    exact fire_inv_event_fire_event s ev event oprv (by simpa [step.valid] using hv) h
  | fire_signal sig =>
    exact (fire_inv_event_fire_signal _ s h (h.sigs sig)).1
  | dispatch_start => exact ⟨h.bit, h.nodup, h.heap, h.sigs⟩
  | drain now oprv => exact fire_inv_drain_step s now oprv h
  | deliver => exact fire_inv_deliver s h
  | op_dispatch ts rv =>
    unfold step.run
    exact ⟨by simpa using h.bit, by simpa using h.nodup, by simpa using h.heap,
      by simpa using h.sigs⟩

theorem reachable_fire_inv {s : event_base} (h : reachable s) : fire_inv s := by
  induction h with
  | init mem h => exact fire_inv_init mem h
  | step st _ hv ih => exact fire_inv_step_run _ st hv ih

/-! ## The delivery loop invokes queued events only -/

theorem api_call_fire_sublist (s : event_base) (c : api_call) :
    (c.run s).evb_fire.Sublist s.evb_fire := by
  cases c with
  | event_set ev fd events fn arg => exact List.Sublist.refl _
  | evtimer_set ev fn arg => exact List.Sublist.refl _
  | signal_set ev sg fn arg => exact List.Sublist.refl _
  | event_add ev tv now oprv rv0 =>
    unfold api_call.run event_add event_deadline
    by_cases h0 : ISSET (getEv s ev).ev_event EV_ON_LIST = 0 <;>
    by_cases h1 : ISSET (getEv s ev).ev_event EV_ON_HEAP = 0 <;>
    by_cases h2 : ISSET (getEv s ev).ev_event (EV_ON_LIST ||| EV_ON_HEAP) = EV_ON_LIST <;>
    by_cases h3 : oprv = 0 <;>
    rcases tv with _ | t <;>
    rcases now with _ | n <;>
    simp only [h0, h1, h2, h3, and_self, and_true, and_false, true_and, false_and, if_true, if_false, ite_true, ite_false, ne_eq, not_true_eq_false, not_false_eq_true, getEv_nevents_dec, getEv_nevents_inc, getEv_event_heap_remove, getEv_event_fire_remove, getEv_event_fire_insert, getEv_event_op, getEv_event_list_insert, getEv_event_list_remove, getEv_setSignals, setFires_get_ev_event, event_op_evb_fire, event_heap_remove_evb_fire, event_fire_insert_evb_fire, event_fire_remove_evb_fire, event_list_insert_evb_fire, event_list_remove_evb_fire, nevents_inc_evb_fire, nevents_dec_evb_fire, setSignals_evb_fire, setEv_evb_fire, setFlags_evb_fire, setFires_evb_fire, event_heap_insert_evb_fire] <;>
    exact List.Sublist.refl _
  | event_del ev oprv =>
    unfold api_call.run event_del
    by_cases h0 : ISSET (getEv s ev).ev_event EV_ON_LIST = 0 <;>
    by_cases h1 : ISSET (getEv s ev).ev_event EV_ON_HEAP = 0 <;>
    by_cases h2 : ISSET (getEv s ev).ev_event EV_ON_FIRE = 0 <;>
    by_cases h3 : oprv = 0 <;>
    simp only [h0, h1, h2, h3, and_self, and_true, and_false, true_and, false_and, if_true, if_false, ite_true, ite_false, ne_eq, not_true_eq_false, not_false_eq_true, getEv_nevents_dec, getEv_nevents_inc, getEv_event_heap_remove, getEv_event_fire_remove, getEv_event_fire_insert, getEv_event_op, getEv_event_list_insert, getEv_event_list_remove, getEv_setSignals, setFires_get_ev_event, event_op_evb_fire, event_heap_remove_evb_fire, event_fire_insert_evb_fire, event_fire_remove_evb_fire, event_list_insert_evb_fire, event_list_remove_evb_fire, nevents_inc_evb_fire, nevents_dec_evb_fire, setSignals_evb_fire, setEv_evb_fire, setFlags_evb_fire, setFires_evb_fire, event_heap_insert_evb_fire] <;>
    first
    | exact List.Sublist.refl _
    | exact List.erase_sublist _ _
  | evtimer_add ev tv now =>
    unfold api_call.run evtimer_add event_deadline
    by_cases h1 : ISSET (getEv s ev).ev_event EV_ON_HEAP = 0 <;>
    rcases now with _ | n <;>
    simp only [h1, and_self, and_true, and_false, true_and, false_and, if_true, if_false, ite_true, ite_false, ne_eq, not_true_eq_false, not_false_eq_true, getEv_nevents_dec, getEv_nevents_inc, getEv_event_heap_remove, getEv_event_fire_remove, getEv_event_fire_insert, getEv_event_op, getEv_event_list_insert, getEv_event_list_remove, getEv_setSignals, setFires_get_ev_event, event_op_evb_fire, event_heap_remove_evb_fire, event_fire_insert_evb_fire, event_fire_remove_evb_fire, event_list_insert_evb_fire, event_list_remove_evb_fire, nevents_inc_evb_fire, nevents_dec_evb_fire, setSignals_evb_fire, setEv_evb_fire, setFlags_evb_fire, setFires_evb_fire, event_heap_insert_evb_fire] <;>
    exact List.Sublist.refl _
  | evtimer_del ev =>
    unfold api_call.run evtimer_del
    simp only [ISSET_or_eq_zero]
    by_cases h1 : ISSET (getEv s ev).ev_event EV_ON_HEAP = 0 <;>
    by_cases h2 : ISSET (getEv s ev).ev_event EV_ON_FIRE = 0 <;>
    simp only [h1, h2, and_self, and_true, and_false, true_and, false_and, if_true, if_false, ite_true, ite_false, ne_eq, not_true_eq_false, not_false_eq_true, getEv_nevents_dec, getEv_nevents_inc, getEv_event_heap_remove, getEv_event_fire_remove, getEv_event_fire_insert, getEv_event_op, getEv_event_list_insert, getEv_event_list_remove, getEv_setSignals, setFires_get_ev_event, event_op_evb_fire, event_heap_remove_evb_fire, event_fire_insert_evb_fire, event_fire_remove_evb_fire, event_list_insert_evb_fire, event_list_remove_evb_fire, nevents_inc_evb_fire, nevents_dec_evb_fire, setSignals_evb_fire, setEv_evb_fire, setFlags_evb_fire, setFires_evb_fire, event_heap_insert_evb_fire] <;>
    first
    | exact List.Sublist.refl _
    | exact List.erase_sublist _ _
  | signal_add ev tv now oprv =>
    unfold api_call.run signal_add event_deadline
    by_cases h0 : ISSET (getEv s ev).ev_event EV_ON_LIST = 0 <;>
    by_cases h1 : ISSET (getEv s ev).ev_event EV_ON_HEAP = 0 <;>
    by_cases h2 : ISSET (getEv s ev).ev_event (EV_ON_LIST ||| EV_ON_HEAP) = EV_ON_LIST <;>
    by_cases h3 : oprv = 0 <;>
    by_cases h4 : s.evb_signals (sigOf s ev) = [] <;>
    rcases tv with _ | t <;>
    rcases now with _ | n <;>
    simp only [h0, h1, h2, h3, h4, and_self, and_true, and_false, true_and, false_and, if_true, if_false, ite_true, ite_false, ne_eq, not_true_eq_false, not_false_eq_true, getEv_nevents_dec, getEv_nevents_inc, getEv_event_heap_remove, getEv_event_fire_remove, getEv_event_fire_insert, getEv_event_op, getEv_event_list_insert, getEv_event_list_remove, getEv_setSignals, setFires_get_ev_event, event_op_evb_fire, event_heap_remove_evb_fire, event_fire_insert_evb_fire, event_fire_remove_evb_fire, event_list_insert_evb_fire, event_list_remove_evb_fire, nevents_inc_evb_fire, nevents_dec_evb_fire, setSignals_evb_fire, setEv_evb_fire, setFlags_evb_fire, setFires_evb_fire, event_heap_insert_evb_fire] <;>
    exact List.Sublist.refl _
  | signal_del ev oprv =>
    unfold api_call.run signal_del
    simp only [ISSET_or_eq_zero]
    by_cases h0 : ISSET (getEv s ev).ev_event EV_ON_LIST = 0 <;>
    by_cases h1 : ISSET (getEv s ev).ev_event EV_ON_HEAP = 0 <;>
    by_cases h2 : ISSET (getEv s ev).ev_event EV_ON_FIRE = 0 <;>
    by_cases h3 : oprv = 0 <;>
    by_cases h4 : TAILQ_FIRST (s.evb_signals (sigOf s ev)) = some ev ∧
        TAILQ_NEXT (s.evb_signals (sigOf s ev)) ev = none <;>
    simp only [h0, h1, h2, h3, h4, and_self, and_true, and_false, true_and, false_and, if_true, if_false, ite_true, ite_false, ne_eq, not_true_eq_false, not_false_eq_true, getEv_nevents_dec, getEv_nevents_inc, getEv_event_heap_remove, getEv_event_fire_remove, getEv_event_fire_insert, getEv_event_op, getEv_event_list_insert, getEv_event_list_remove, getEv_setSignals, setFires_get_ev_event, event_op_evb_fire, event_heap_remove_evb_fire, event_fire_insert_evb_fire, event_fire_remove_evb_fire, event_list_insert_evb_fire, event_list_remove_evb_fire, nevents_inc_evb_fire, nevents_dec_evb_fire, setSignals_evb_fire, setEv_evb_fire, setFlags_evb_fire, setFires_evb_fire, event_heap_insert_evb_fire] <;>
    first
    | exact List.Sublist.refl _
    | exact List.erase_sublist _ _

theorem api_calls_fire_sublist (l : List api_call) :
    ∀ s : event_base, (l.foldl api_call.run s).evb_fire.Sublist s.evb_fire := by
  induction l with
  | nil => exact fun _ => List.Sublist.refl _
  | cons c l ih =>
    intro s
    exact (ih (c.run s)).trans (api_call_fire_sublist s c)

theorem event_dispatch_pop_fire (s : event_base) (ev : Nat) :
    (event_dispatch_pop s ev).2.evb_fire = s.evb_fire.erase ev ∧ (event_dispatch_pop s ev).1.ev = ev := by
  unfold event_dispatch_pop
  simp

theorem event_dispatch_expire_heap (s : event_base) (ev : Nat) (oprv : Int) :
    (event_dispatch_expire s ev oprv).2.evb_heap = s.evb_heap := by
  unfold event_dispatch_expire
  simp only []
  split_ifs <;> simp

/-- The timer-drain loop stops because `event_heap_cextract` returns nothing
(or because its body returned from `event_dispatch`), never for want of
fuel. -/
theorem event_dispatch_drain_complete (oprv : Nat → Int) (now : timespec) (fuel : Nat) :
    ∀ s s1 : event_base, s.evb_heap.length ≤ fuel →
      event_dispatch_drain oprv now fuel s = (none, s1) →
      (event_heap_cextract s1 (now_event now)).1 = none := by
  induction fuel with
  | zero =>
    intro s s1 hl h
    have hnil : s.evb_heap = [] := List.length_eq_zero.1 (Nat.le_zero.1 hl)
    simp only [event_dispatch_drain, Prod.mk.injEq, true_and] at h
    subst h
    unfold event_heap_cextract HEAP_CEXTRACT
    rw [hnil]
    rfl
  | succ n ih =>
    intro s s1 hl h
    unfold event_dispatch_drain at h
    rcases hc : event_heap_cextract s (now_event now) with ⟨_ | ev, s2⟩
    · rw [hc] at h
      simp only [Prod.mk.injEq, true_and] at h
      subst h
      rw [hc]
    · rw [hc] at h
      simp only [] at h
      obtain ⟨hm, rfl⟩ := event_heap_cextract_some hc
      rcases he : event_dispatch_expire (event_heap_remove s ev) ev (oprv ev) with ⟨_ | e, s3⟩
      · rw [he] at h
        simp only [] at h
        refine ih s3 s1 ?_ h
        have h3 : s3.evb_heap = s.evb_heap.erase ev := by
          have := event_dispatch_expire_heap (event_heap_remove s ev) ev (oprv ev)
          rw [he] at this
          simpa using this
        rw [h3, List.length_erase_of_mem hm]
        omega
      · rw [he] at h
        simp at h

/-- The delivery loop stops because the fire queue is empty (or because
`evb_running` was cleared), never for want of fuel. -/
theorem event_dispatch_fire_complete (env : dispatch_env) (fuel : Nat) :
    ∀ (s s1 : event_base) (tr tr1 : List invocation), s.evb_fire.length ≤ fuel →
      event_dispatch_fire env fuel s tr = (none, s1, tr1) → s1.evb_fire = [] := by
  induction fuel with
  | zero =>
    intro s s1 tr tr1 hl h
    simp only [event_dispatch_fire, Prod.mk.injEq, true_and] at h
    rw [← h.1]
    exact List.length_eq_zero.1 (Nat.le_zero.1 hl)
  | succ n ih =>
    intro s s1 tr tr1 hl h
    unfold event_dispatch_fire at h
    cases hf : event_fire_first s with
    | none =>
      rw [hf] at h
      simp only [Prod.mk.injEq, true_and] at h
      rw [← h.1]
      unfold event_fire_first TAILQ_FIRST at hf
      exact List.head?_eq_none_iff.1 hf
    | some ev =>
      rw [hf] at h
      simp only [] at h
      have hm : ev ∈ s.evb_fire := by
        unfold event_fire_first TAILQ_FIRST at hf
        exact List.mem_of_mem_head? hf
      split at h
      · simp at h
      · refine ih _ s1 _ tr1 ?_ h
        have h1 := (api_calls_fire_sublist (env.callback (event_dispatch_pop s ev).2
          (event_dispatch_pop s ev).1) (event_dispatch_pop s ev).2).length_le
        rw [(event_dispatch_pop_fire s ev).1, List.length_erase_of_mem hm] at h1
        omega

/-! ## The states `event_dispatch` passes through are reachable -/

theorem event_fire_event_mem_length (s : event_base) (ev event : Nat) (oprv : Int) :
    (event_fire_event s ev event oprv).mem.length = s.mem.length := by
  unfold event_fire_event
  simp only []
  split_ifs <;> simp

theorem event_fire_signal_mem_length (s : event_base) (sig : Nat) :
    (event_fire_signal s sig).mem.length = s.mem.length := by
  unfold event_fire_signal
  generalize s.evb_signals sig = l
  induction l generalizing s with
  | nil => rfl
  | cons a l ih =>
    rw [List.foldl_cons, ih]
    unfold event_fire_signal_one
    simp only []
    split <;> simp

theorem reachable_api_calls (l : List api_call) :
    ∀ s : event_base, reachable s → api_calls_valid s l = true →
      reachable (l.foldl api_call.run s) := by
  induction l with
  | nil => intro s h _; exact h
  | cons c l ih =>
    intro s h hv
    simp only [api_calls_valid, Bool.and_eq_true] at hv
    exact ih (c.run s) (reachable.step (.api c) h hv.1) hv.2

theorem reachable_poller_reports (l : List poller_report) :
    ∀ s : event_base, reachable s →
      (∀ ev event oprv, poller_report.fire_event ev event oprv ∈ l → ev < s.mem.length) →
      reachable (l.foldl poller_report.run s) := by
  induction l with
  | nil => intro s h _; exact h
  | cons r l ih =>
    intro s h hv
    rw [List.foldl_cons]
    cases r with
    | fire_event ev event oprv =>
      have hlt := hv ev event oprv (List.mem_cons_self _ _)
      refine ih _ (reachable.step (.fire_event ev event oprv) h (by simpa [step.valid] using hlt))
        ?_
      intro ev2 event2 oprv2 hm
      show ev2 < (event_fire_event s ev event oprv).mem.length
      rw [event_fire_event_mem_length]
      exact hv _ _ _ (List.mem_cons_of_mem _ hm)
    | fire_signal sig =>
      refine ih _ (reachable.step (.fire_signal sig) h rfl) ?_
      intro ev2 event2 oprv2 hm
      show ev2 < (event_fire_signal s sig).mem.length
      rw [event_fire_signal_mem_length]
      exact hv _ _ _ (List.mem_cons_of_mem _ hm)

theorem reachable_event_dispatch_drain (oprv : Nat → Int) (now : timespec) (fuel : Nat) :
    ∀ s : event_base, reachable s → reachable (event_dispatch_drain oprv now fuel s).2 := by
  induction fuel with
  | zero => intro s h; exact h
  | succ n ih =>
    intro s h
    unfold event_dispatch_drain
    rcases hc : event_heap_cextract s (now_event now) with ⟨_ | ev, s1⟩
    · exact h
    · have hstep : reachable (event_dispatch_expire s1 ev (oprv ev)).2 := by
        have := reachable.step (.drain now (oprv ev)) h rfl
        simpa [step.run, event_dispatch_drain_step, hc] using this
      simp only []
      rcases he : event_dispatch_expire s1 ev (oprv ev) with ⟨_ | e, s2⟩
      · rw [he] at hstep
        exact ih s2 hstep
      · rw [he] at hstep
        exact hstep

theorem reachable_event_dispatch_fire (env : dispatch_env)
    (hcb : ∀ s i, reachable s → api_calls_valid s (env.callback s i) = true) (fuel : Nat) :
    ∀ (s : event_base) (tr : List invocation), reachable s →
      reachable (event_dispatch_fire env fuel s tr).2.1 := by
  induction fuel with
  | zero => intro s tr h; exact h
  | succ n ih =>
    intro s tr h
    unfold event_dispatch_fire
    cases hf : event_fire_first s with
    | none => exact h
    | some ev =>
      have hpop : reachable (event_dispatch_pop s ev).2 := by
        have := reachable.step .deliver h rfl
        simpa [step.run, hf] using this
      have hrun := reachable_api_calls _ _ hpop (hcb _ (event_dispatch_pop s ev).1 hpop)
      simp only []
      split
      · exact hrun
      · exact ih _ _ hrun

theorem reachable_event_dispatch_loop (env : dispatch_env)
    (hcb : ∀ s i, reachable s → api_calls_valid s (env.callback s i) = true)
    (hpoll : ∀ runs s ts ev event oprv, reachable s →
      poller_report.fire_event ev event oprv ∈ (env.poll runs s ts).2 → ev < s.mem.length)
    (left : Nat) :
    ∀ (s : event_base) (tr : List invocation), reachable s →
      reachable (event_dispatch_loop env left s tr).2.1 := by
  induction left with
  | zero => intro s tr h; exact h
  | succ n ih =>
    intro s tr h
    unfold event_dispatch_loop
    simp only []
    cases hm : env.monotime (29 - n) with
    | none => exact h
    | some now =>
      simp only []
      have h1 := reachable_event_dispatch_drain (env.op_del (29 - n)) now s.evb_heap.length s h
      rcases hd : event_dispatch_drain (env.op_del (29 - n)) now s.evb_heap.length s
        with ⟨_ | e, s1⟩
      · rw [hd] at h1
        simp only [] at h1 ⊢
        have h2 := reachable_event_dispatch_fire env hcb s1.evb_fire.length s1 tr h1
        rcases hfr : event_dispatch_fire env s1.evb_fire.length s1 tr with ⟨_ | e, s2, tr2⟩
        · rw [hfr] at h2
          simp only [] at h2 ⊢
          have h3 : ∀ ts, reachable (event_op_dispatch env (29 - n) s2 ts).2 := by
            intro ts
            unfold event_op_dispatch
            refine reachable_poller_reports _ _
              (reachable.step (.op_dispatch ts (env.poll (29 - n) s2 ts).1) h2 rfl) ?_
            intro ev event oprv hmem
            exact hpoll (29 - n) s2 ts ev event oprv h2 hmem
          split
          · exact h2
          · split
            · exact h3 _
            · exact ih _ _ (h3 _)
        · rw [hfr] at h2
          exact h2
      · rw [hd] at h1
        exact h1

/-- The state in which `event_dispatch` ends is reachable by the steps of
`step`, when the callbacks make well-formed API calls and the poller reports
existing event objects. -/
theorem reachable_event_dispatch (env : dispatch_env) (s : event_base)
    (hcb : ∀ s i, reachable s → api_calls_valid s (env.callback s i) = true)
    (hpoll : ∀ runs s ts ev event oprv, reachable s →
      poller_report.fire_event ev event oprv ∈ (env.poll runs s ts).2 → ev < s.mem.length)
    (h : reachable s) : reachable (event_dispatch env s).2.1 :=
  reachable_event_dispatch_loop env hcb hpoll 29 _ _ (reachable.step .dispatch_start h rfl)

theorem reachable_run_steps (l : List step) :
    ∀ s : event_base, reachable s → steps_valid s l = true → reachable (run_steps s l) := by
  induction l with
  | nil => intro s h _; exact h
  | cons st l ih =>
    intro s h hv
    simp only [steps_valid, Bool.and_eq_true] at hv
    exact ih (st.run s) (reachable.step st h hv.1) hv.2

theorem reachable_ex_timer_fired : reachable ex_timer_fired :=
  reachable_run_steps _ _ (reachable.init ex_mem (by decide)) (by decide)

/-- C1 (code defect): `evtimer_del` on a timer that the drain already moved to the
fire queue (and already took out of the count) decrements `evb_nevents` again.
The state is reached by well-formed steps without any failing poller
operation; no event has `EV_ON_LIST` or `EV_ON_HEAP` set, yet the count has
wrapped around to `UINT_MAX`. -/
theorem evtimer_del_on_fire_miscounts :
    steps_valid (event_init ex_mem) (ex_timer_fired_steps ++ [step.api (.evtimer_del 0)]) = true ∧
    (ex_timer_fired_steps ++ [step.api (.evtimer_del 0)]).all step.ops_succeed = true ∧
    ex_timer_fired.evb_nevents = 0 ∧ placed_count ex_timer_fired = 0 ∧
    (evtimer_del ex_timer_fired 0).1 = 0 ∧
    (evtimer_del ex_timer_fired 0).2.evb_nevents = 4294967295 ∧
    placed_count (evtimer_del ex_timer_fired 0).2 = 0 := by
  decide

/-- C4 (code defect): `event_add` and `signal_add` with a null timeout on an event
that is on the list and on the heap take the event out of the heap but leave
`EV_ON_HEAP` set. -/
theorem add_null_timeout_leaves_on_heap :
    steps_valid (event_init ex_mem) ex_io_timeout_steps = true ∧
    ISSET (getEv ex_io_timeout 0).ev_event (EV_ON_LIST ||| EV_ON_HEAP) =
      EV_ON_LIST ||| EV_ON_HEAP ∧
    0 ∈ ex_io_timeout.evb_heap ∧
    ISSET (getEv (event_add ex_io_timeout 0 none none 0 0).2 0).ev_event EV_ON_HEAP ≠ 0 ∧
    0 ∉ (event_add ex_io_timeout 0 none none 0 0).2.evb_heap ∧
    steps_valid (event_init ex_mem) ex_sig_timeout_steps = true ∧
    ISSET (getEv ex_sig_timeout 0).ev_event (EV_ON_LIST ||| EV_ON_HEAP) =
      EV_ON_LIST ||| EV_ON_HEAP ∧
    0 ∈ ex_sig_timeout.evb_heap ∧
    ISSET (getEv (signal_add ex_sig_timeout 0 none none 0).2 0).ev_event EV_ON_HEAP ≠ 0 ∧
    0 ∉ (signal_add ex_sig_timeout 0 none none 0).2.evb_heap := by
  decide

/-- C6 (code defect): when the timer drain expires the last event of a signal list
and the poller's `evo_signal_del` fails, `event_dispatch` returns -1 with the
event already taken off `evb_signals[ev_ident]` but `EV_ON_LIST` still set. -/
theorem dispatch_signal_del_failure_leaves_on_list :
    steps_valid (event_init ex_mem) ex_sig_timeout_steps = true ∧
    ISSET (getEv ex_sig_timeout 0).ev_event EV_TYPE_MASK = EV_SIGNAL ∧
    (getEv ex_sig_timeout 0).ev_ident = 2 ∧
    ex_sig_timeout.evb_signals 2 = [0] ∧
    (event_dispatch env_del_fails ex_sig_timeout).1 = .ret (-1) ∧
    ISSET (getEv (event_dispatch env_del_fails ex_sig_timeout).2.1 0).ev_event EV_ON_LIST ≠ 0 ∧
    0 ∉ (event_dispatch env_del_fails ex_sig_timeout).2.1.evb_signals 2 := by
  decide

/-- C8 (code defect): two expired timers and a registered read event; the callback
of the first timer calls `evtimer_del` on the second, which is on the fire
queue.  `event_dispatch` then leaves through its `evb_nevents == 0` exit and
returns 0 although the read event still is on the I/O list with `EV_ON_LIST`
set. -/
theorem dispatch_returns_with_registered_event :
    steps_valid (event_init ex_mem) ex_two_timers_steps = true ∧
    ex_two_timers.evb_nevents = 3 ∧
    (event_dispatch env_del_other ex_two_timers).1 = .ret 0 ∧
    (event_dispatch env_del_other ex_two_timers).2.1.evb_nevents = 0 ∧
    (event_dispatch env_del_other ex_two_timers).2.1.evb_running = 1 ∧
    (event_dispatch env_del_other ex_two_timers).2.1.evb_backend =
      [(poller_call.event_add 2, 0)] ∧
    (event_dispatch env_del_other ex_two_timers).2.2.map (fun i => i.ev) = [0] ∧
    (event_dispatch env_del_other ex_two_timers).2.1.evb_list = [2] ∧
    ISSET (getEv (event_dispatch env_del_other ex_two_timers).2.1 2).ev_event EV_ON_LIST ≠ 0 := by
  decide

/-- C5: in every reachable state an event has `EV_ON_FIRE` set if and only if
it is a member of the fire queue, and the fire queue holds no event twice. -/
theorem on_fire_iff_in_fire_queue (s : event_base) (hs : reachable s) :
    (∀ ev, ISSET (getEv s ev).ev_event EV_ON_FIRE ≠ 0 ↔ ev ∈ s.evb_fire) ∧
      s.evb_fire.Nodup :=
  ⟨(reachable_fire_inv hs).bit, (reachable_fire_inv hs).nodup⟩

theorem on_fire_iff_in_fire_queue_witness :
    reachable ex_timer_fired ∧ ex_timer_fired.evb_fire = [0] ∧
    (∀ ev, ISSET (getEv ex_timer_fired ev).ev_event EV_ON_FIRE ≠ 0 ↔
      ev ∈ ex_timer_fired.evb_fire) ∧ ex_timer_fired.evb_fire.Nodup :=
  ⟨reachable_ex_timer_fired, by decide,
    on_fire_iff_in_fire_queue ex_timer_fired reachable_ex_timer_fired⟩

theorem reachable_ex_io : reachable ex_io :=
  reachable_run_steps _ _ (reachable.init ex_mem (by decide)) (by decide)

theorem reachable_ex_io_timeout : reachable ex_io_timeout :=
  reachable_run_steps _ _ (reachable.init ex_mem (by decide)) (by decide)

theorem reachable_ex_sig : reachable ex_sig :=
  reachable_run_steps _ _ (reachable.init ex_mem (by decide)) (by decide)

/-- The unregistering of a non-persistent event does not hold for every
condition set: when the poller passes a set without `EV_PERSIST` (as the kqueue
poller does for a one-shot registration), `event_fire_event` leaves a registered
non-persistent event on the I/O list. -/
theorem event_fire_event_without_persist_keeps_event :
    ¬ ∀ (s : event_base) (ev event : Nat), reachable s → s.evb_list.Nodup →
      ISSET (getEv s ev).ev_event EV_TYPE_MASK = EV_IO →
      ISSET (getEv s ev).ev_event EV_ON_LIST ≠ 0 →
      ISSET (getEv s ev).ev_event EV_PERSIST = 0 →
      ISSET (getEv s ev).ev_event EV_ON_FIRE = 0 →
      ev ∉ (event_fire_event s ev event 0).evb_list ∧
        ISSET (getEv (event_fire_event s ev event 0) ev).ev_event EV_ON_LIST = 0 ∧
        (event_fire_event s ev event 0).evb_nevents = udec s.evb_nevents := by
  intro h
  have := (h ex_io 0 EV_READ reachable_ex_io (by decide) (by decide) (by decide) (by decide)
    (by decide)).1
  revert this
  decide

/-- The unregistering branch of `event_fire_event`: for a registered IO event with
`EV_PERSIST` clear that is not on the fire queue, if the poller passes
`EV_PERSIST` in the condition set and its delete succeeds, then once
`event_fire_event` returns the poller's delete has been called, the event is off
the I/O list, `EV_ON_LIST` is clear and `evb_nevents` and `evb_list_len` have been
decremented, while the event is on the fire queue; a turn of the delivery loop
up to the invocation of a callback changes none of this. -/
theorem event_fire_event_one_shot (s : event_base) (ev event : Nat)
    (hnd : s.evb_list.Nodup)
    (hl : ISSET (getEv s ev).ev_event EV_ON_LIST ≠ 0)
    (hp : ISSET (getEv s ev).ev_event EV_PERSIST = 0)
    (hf : ISSET (getEv s ev).ev_event EV_ON_FIRE = 0)
    (he : ISSET event EV_PERSIST ≠ 0) :
    (event_fire_event s ev event 0).evb_backend = s.evb_backend ++ [(.event_del ev, 0)] ∧
    ev ∉ (event_fire_event s ev event 0).evb_list ∧
    ISSET (getEv (event_fire_event s ev event 0) ev).ev_event EV_ON_LIST = 0 ∧
    (event_fire_event s ev event 0).evb_nevents = udec s.evb_nevents ∧
    (event_fire_event s ev event 0).evb_list_len = udec s.evb_list_len ∧
    ev ∈ (event_fire_event s ev event 0).evb_fire ∧
    ∀ x, ev ∉ (event_dispatch_pop (event_fire_event s ev event 0) x).2.evb_list ∧
      ISSET (getEv (event_dispatch_pop (event_fire_event s ev event 0) x).2 ev).ev_event
        EV_ON_LIST = 0 ∧
      (event_dispatch_pop (event_fire_event s ev event 0) x).2.evb_nevents =
        udec s.evb_nevents := by
  have hv := lt_of_flag hl
  have hnot : ev ∉ s.evb_list.erase ev := fun hm => (hnd.mem_erase_iff.1 hm).1 rfl
  unfold event_dispatch_pop event_fire_event
  by_cases h1 : ISSET (getEv s ev).ev_event EV_ON_HEAP = 0 <;>
  simp only [h1, hf, hp, he, and_self, and_true, and_false, true_and, false_and, if_true, if_false, ite_true, ite_false, ne_eq, not_true_eq_false, not_false_eq_true, getEv_nevents_dec, getEv_nevents_inc, getEv_event_heap_remove, getEv_event_fire_remove, getEv_event_fire_insert, getEv_event_op, getEv_event_list_insert, getEv_event_list_remove, getEv_setSignals, setFires_get_ev_event] <;>
  simp +decide [hv, hnot, ISSET_CLR_of_sub, ISSET_CLR_of_disj, ISSET_SET_of_sub,
    ISSET_SET_of_disj] <;>
  intro x <;>
  rcases eq_or_ne ev x with rfl | hx <;>
  simp +decide [hv, *, ISSET_CLR_of_sub, ISSET_CLR_of_disj, ISSET_SET_of_sub,
    ISSET_SET_of_disj]

theorem event_fire_event_one_shot_witness :
    reachable ex_io ∧ ex_io.evb_list = [0] ∧ ex_io.evb_nevents = 1 ∧
    (event_fire_event ex_io 0 (EV_READ ||| EV_PERSIST) 0).evb_backend =
      ex_io.evb_backend ++ [(.event_del 0, 0)] ∧
    0 ∉ (event_fire_event ex_io 0 (EV_READ ||| EV_PERSIST) 0).evb_list ∧
    ISSET (getEv (event_fire_event ex_io 0 (EV_READ ||| EV_PERSIST) 0) 0).ev_event
      EV_ON_LIST = 0 ∧
    (event_fire_event ex_io 0 (EV_READ ||| EV_PERSIST) 0).evb_nevents = udec ex_io.evb_nevents ∧
    (event_fire_event ex_io 0 (EV_READ ||| EV_PERSIST) 0).evb_list_len =
      udec ex_io.evb_list_len ∧
    0 ∈ (event_fire_event ex_io 0 (EV_READ ||| EV_PERSIST) 0).evb_fire ∧
    ∀ x, 0 ∉ (event_dispatch_pop (event_fire_event ex_io 0 (EV_READ ||| EV_PERSIST) 0)
        x).2.evb_list ∧
      ISSET (getEv (event_dispatch_pop (event_fire_event ex_io 0 (EV_READ ||| EV_PERSIST) 0)
        x).2 0).ev_event EV_ON_LIST = 0 ∧
      (event_dispatch_pop (event_fire_event ex_io 0 (EV_READ ||| EV_PERSIST) 0)
        x).2.evb_nevents = udec ex_io.evb_nevents :=
  ⟨reachable_ex_io, by decide, by decide,
    event_fire_event_one_shot ex_io 0 (EV_READ ||| EV_PERSIST) (by decide) (by decide)
      (by decide) (by decide) (by decide)⟩

/-- C2, evaluation of the code: a read event without `EV_PERSIST` is registered with
the KQ poller as a one-shot filter, and when the filter fires `event_kq_fire_event`
hands `EV_READ` alone to `event_fire_event`; the guard of the unregistering branch is
then false, so the event goes to the fire queue while it stays on the I/O list
with `EV_ON_LIST` set, `evb_nevents` and `evb_list_len` undecremented and no poller
delete recorded.  After the delivery a new `event_add` is a no-op that makes no
poller call, and `event_dispatch` aborts on its 30th turn with the event still
counted.  The same report with the conditions the POLL poller passes takes the
event off the list, and `event_dispatch` returns 0. -/
theorem kq_one_shot_fire_keeps_event_listed :
    ISSET (getEv ex_io 0).ev_event (EV_ON_LIST ||| EV_PERSIST ||| EV_ON_FIRE) = EV_ON_LIST ∧
    ISSET (event_kq_event_add_flags (getEv ex_io 0).ev_event) EV_ONESHOT ≠ 0 ∧
    event_kq_fire_event_flags EV_READ (getEv ex_io 0).ev_event = EV_READ ∧
    ((event_kq_fire_event ex_io EV_READ 0 0).evb_fire = [0] ∧
      (event_kq_fire_event ex_io EV_READ 0 0).evb_list = [0] ∧
      ISSET (getEv (event_kq_fire_event ex_io EV_READ 0 0) 0).ev_event EV_ON_LIST ≠ 0) ∧
    ((event_kq_fire_event ex_io EV_READ 0 0).evb_nevents = ex_io.evb_nevents ∧
      (event_kq_fire_event ex_io EV_READ 0 0).evb_list_len = ex_io.evb_list_len ∧
      (event_kq_fire_event ex_io EV_READ 0 0).evb_backend = ex_io.evb_backend) ∧
    ((event_dispatch_pop (event_kq_fire_event ex_io EV_READ 0 0) 0).1.event = EV_READ ∧
      (event_dispatch_pop (event_kq_fire_event ex_io EV_READ 0 0) 0).2.evb_list = [0] ∧
      (event_dispatch_pop (event_kq_fire_event ex_io EV_READ 0 0) 0).2.evb_nevents = 1) ∧
    ((event_add (event_dispatch_pop (event_kq_fire_event ex_io EV_READ 0 0) 0).2
        0 none none 0 0).1 = 0 ∧
      (event_add (event_dispatch_pop (event_kq_fire_event ex_io EV_READ 0 0) 0).2
        0 none none 0 0).2.evb_backend = ex_io.evb_backend) ∧
    ((event_dispatch env_kq_read_once ex_io).1 = .abort ∧
      (event_dispatch env_kq_read_once ex_io).2.2 =
        [{ ev := 0, fn := 7, ident := 3, event := EV_READ, arg := 42 }] ∧
      (event_dispatch env_kq_read_once ex_io).2.1.evb_list = [0] ∧
      (event_dispatch env_kq_read_once ex_io).2.1.evb_nevents = 1) ∧
    ((event_fire_event ex_io 0 (event_poll_conditions POLLIN ||| EV_PERSIST) 0).evb_list = [] ∧
      ISSET (getEv (event_fire_event ex_io 0 (event_poll_conditions POLLIN ||| EV_PERSIST) 0)
        0).ev_event EV_ON_LIST = 0 ∧
      (event_fire_event ex_io 0 (event_poll_conditions POLLIN ||| EV_PERSIST) 0).evb_nevents = 0 ∧
      (event_fire_event ex_io 0 (event_poll_conditions POLLIN ||| EV_PERSIST) 0).evb_backend =
        ex_io.evb_backend ++ [(.event_del 0, 0)]) ∧
    ((event_dispatch env_poll_read_once ex_io).1 = .ret 0 ∧
      (event_dispatch env_poll_read_once ex_io).2.2 =
        [{ ev := 0, fn := 7, ident := 3, event := EV_READ, arg := 42 }] ∧
      (event_dispatch env_poll_read_once ex_io).2.1.evb_list = []) := by
  refine ⟨by decide, by decide, by decide, by decide, by decide, by decide, by decide,
    by decide, by decide, by decide⟩

theorem ISSET_bit_of_ne_zero (v k : Nat) (h : ISSET v (2 ^ k) ≠ 0) : ISSET v (2 ^ k) = 2 ^ k := by
  unfold ISSET at h ⊢
  rw [Nat.and_two_pow] at h ⊢
  cases hb : v.testBit k
  · rw [hb] at h; simp at h
  · simp

theorem ISSET_list_heap (v : Nat) (h1 : ISSET v EV_ON_LIST ≠ 0) (h2 : ISSET v EV_ON_HEAP = 0) :
    ISSET v (EV_ON_LIST ||| EV_ON_HEAP) = EV_ON_LIST := by
  have h3 : ISSET v EV_ON_LIST = EV_ON_LIST := ISSET_bit_of_ne_zero v 1 h1
  unfold ISSET at h2 h3 ⊢
  rw [Nat.and_or_distrib_left, h2, h3, Nat.or_zero]

theorem ISSET_list_heap_ne (v : Nat) (h1 : ISSET v EV_ON_LIST = 0) :
    ISSET v (EV_ON_LIST ||| EV_ON_HEAP) ≠ EV_ON_LIST := by
  intro h
  have h3 : ISSET (ISSET v (EV_ON_LIST ||| EV_ON_HEAP)) EV_ON_LIST = ISSET v EV_ON_LIST := by
    unfold ISSET
    rw [Nat.and_assoc]
    rfl
  rw [h, h1] at h3
  revert h3
  decide

/-- C9 as stated fails: on an event that is on the list and on the heap,
`event_add` and `signal_add` with a null timeout take the event out of the
timeout heap. -/
theorem add_null_timeout_not_noop_on_heap :
    (¬ ∀ (s : event_base) (ev : Nat) (now : Option timespec) (oprv rv0 : Int),
      reachable s → ISSET (getEv s ev).ev_event EV_TYPE_MASK = EV_IO →
      ISSET (getEv s ev).ev_event EV_ON_LIST ≠ 0 →
      (event_add s ev none now oprv rv0).2.evb_heap = s.evb_heap) ∧
    (¬ ∀ (s : event_base) (ev : Nat) (now : Option timespec) (oprv : Int),
      reachable s → ISSET (getEv s ev).ev_event EV_TYPE_MASK = EV_SIGNAL →
      ISSET (getEv s ev).ev_event EV_ON_LIST ≠ 0 →
      (signal_add s ev none now oprv).2.evb_heap = s.evb_heap) := by
  constructor
  · intro h
    have := h ex_io_timeout 0 none 0 0 reachable_ex_io_timeout (by decide) (by decide)
    revert this
    decide
  · intro h
    have := h ex_sig_timeout 0 none 0
      (reachable_run_steps _ _ (reachable.init ex_mem (by decide)) (by decide))
      (by decide) (by decide)
    revert this
    decide

/-- C9, amended: for an event that is registered (`EV_ON_LIST` set) and has no
pending timeout (`EV_ON_HEAP` clear), `event_add(ev, NULL)` and
`signal_add(ev, NULL)` return 0 and leave the whole state unchanged: the base
with all its containers and counters, the poller, and every event object. -/
theorem add_null_timeout_noop (s : event_base) (ev : Nat) (now : Option timespec)
    (oprv rv0 : Int)
    (hl : ISSET (getEv s ev).ev_event EV_ON_LIST ≠ 0)
    (hh : ISSET (getEv s ev).ev_event EV_ON_HEAP = 0) :
    event_add s ev none now oprv rv0 = (0, s) ∧ signal_add s ev none now oprv = (0, s) := by
  have h := ISSET_list_heap _ hl hh
  unfold event_add signal_add
  simp only [h, if_true, and_self]

theorem add_null_timeout_noop_witness :
    ISSET (getEv ex_io 0).ev_event EV_ON_LIST ≠ 0 ∧
    ISSET (getEv ex_io 0).ev_event EV_ON_HEAP = 0 ∧
    ISSET (getEv ex_sig 0).ev_event EV_ON_LIST ≠ 0 ∧
    ISSET (getEv ex_sig 0).ev_event EV_ON_HEAP = 0 ∧
    (event_add ex_io 0 none none 0 0 = (0, ex_io) ∧
      signal_add ex_io 0 none none 0 = (0, ex_io)) ∧
    (event_add ex_sig 0 none none 0 0 = (0, ex_sig) ∧
      signal_add ex_sig 0 none none 0 = (0, ex_sig)) :=
  ⟨by decide, by decide, by decide, by decide,
    add_null_timeout_noop ex_io 0 none 0 0 (by decide) (by decide),
    add_null_timeout_noop ex_sig 0 none 0 0 (by decide) (by decide)⟩

theorem erase_append_self {l : List Nat} {a : Nat} (h : a ∉ l) : (l ++ [a]).erase a = l := by
  rw [List.erase_append_right _ h]
  simp

theorem udec_uinc {x : Nat} (h : x < UINT_MOD) : udec (uinc x) = x := by
  unfold udec uinc
  unfold UINT_MOD at *
  by_cases h1 : x + 1 = 2 ^ 32
  · rw [h1]
    simp
    omega
  · have h2 : (x + 1) % 2 ^ 32 = x + 1 := Nat.mod_eq_of_lt (by omega)
    rw [h2]
    simp

theorem TAILQ_NEXT_append_self {l : List Nat} {a : Nat} (h : a ∉ l) :
    TAILQ_NEXT (l ++ [a]) a = none := by
  induction l with
  | nil => simp [TAILQ_NEXT]
  | cons y ys ih =>
    have hy : y ≠ a := fun e => h (e ▸ List.mem_cons_self _ _)
    simp only [List.cons_append, TAILQ_NEXT, hy, if_false]
    exact ih (fun hm => h (List.mem_cons_of_mem _ hm))

theorem CLR_placement_zero (v m : Nat) : ISSET (CLR v EV_PLACEMENT) EV_PLACEMENT = 0 :=
  ISSET_CLR_of_sub (by decide) v

theorem event_add_del_round_trip (s : event_base) (ev : Nat) (tv : Option timeval)
    (now : Option timespec) (rv0 : Int)
    (hv : ev < s.mem.length)
    (h0 : ISSET (getEv s ev).ev_event EV_PLACEMENT = 0)
    (hheap : ev ∉ s.evb_heap) (hlist : ev ∉ s.evb_list)
    (hlen : s.evb_list_len < UINT_MOD) (hn : s.evb_nevents < UINT_MOD) :
    (event_del (event_add s ev tv now 0 rv0).2 ev 0).2.evb_heap = s.evb_heap ∧
    (event_del (event_add s ev tv now 0 rv0).2 ev 0).2.evb_list = s.evb_list ∧
    (event_del (event_add s ev tv now 0 rv0).2 ev 0).2.evb_signals = s.evb_signals ∧
    (event_del (event_add s ev tv now 0 rv0).2 ev 0).2.evb_fire = s.evb_fire ∧
    (event_del (event_add s ev tv now 0 rv0).2 ev 0).2.evb_list_len = s.evb_list_len ∧
    (event_del (event_add s ev tv now 0 rv0).2 ev 0).2.evb_nevents = s.evb_nevents ∧
    ISSET (getEv (event_del (event_add s ev tv now 0 rv0).2 ev 0).2 ev).ev_event
      EV_PLACEMENT = 0 := by
  obtain ⟨hL, hH, hF⟩ := ISSET_of_placement h0
  have hLH := ISSET_list_heap_ne _ hL
  unfold event_del event_add event_deadline
  rcases tv with _ | t <;>
  rcases now with _ | n <;>
  simp only [hL, hH, hF, hLH, and_self, and_true, and_false, true_and, false_and, if_true, if_false, ite_true, ite_false, ne_eq, not_true_eq_false, not_false_eq_true, getEv_nevents_dec, getEv_nevents_inc, getEv_event_heap_remove, getEv_event_fire_remove, getEv_event_fire_insert, getEv_event_op, getEv_event_list_insert, getEv_event_list_remove, getEv_setSignals, setFires_get_ev_event] <;>
  simp +decide [hv, hL, hH, hF, ISSET_CLR_of_sub, ISSET_CLR_of_disj, ISSET_SET_of_sub,
    ISSET_SET_of_disj, erase_append_self, hheap, hlist, udec_uinc, hlen, hn,
    show EV_PLACEMENT = EV_ON_LIST ||| EV_ON_HEAP ||| EV_ON_FIRE from rfl]

theorem evtimer_add_del_round_trip (s : event_base) (ev : Nat) (tv : timeval)
    (now : Option timespec)
    (hv : ev < s.mem.length)
    (h0 : ISSET (getEv s ev).ev_event EV_PLACEMENT = 0)
    (hheap : ev ∉ s.evb_heap) (hn : s.evb_nevents < UINT_MOD) :
    (evtimer_del (evtimer_add s ev tv now).2 ev).2.evb_heap = s.evb_heap ∧
    (evtimer_del (evtimer_add s ev tv now).2 ev).2.evb_list = s.evb_list ∧
    (evtimer_del (evtimer_add s ev tv now).2 ev).2.evb_signals = s.evb_signals ∧
    (evtimer_del (evtimer_add s ev tv now).2 ev).2.evb_fire = s.evb_fire ∧
    (evtimer_del (evtimer_add s ev tv now).2 ev).2.evb_list_len = s.evb_list_len ∧
    (evtimer_del (evtimer_add s ev tv now).2 ev).2.evb_nevents = s.evb_nevents ∧
    ISSET (getEv (evtimer_del (evtimer_add s ev tv now).2 ev).2 ev).ev_event
      EV_PLACEMENT = 0 := by
  obtain ⟨hL, hH, hF⟩ := ISSET_of_placement h0
  unfold evtimer_del evtimer_add event_deadline
  simp only [ISSET_or_eq_zero]
  rcases now with _ | n <;>
  simp only [hL, hH, hF, and_self, and_true, and_false, true_and, false_and, if_true, if_false, ite_true, ite_false, ne_eq, not_true_eq_false, not_false_eq_true, getEv_nevents_dec, getEv_nevents_inc, getEv_event_heap_remove, getEv_event_fire_remove, getEv_event_fire_insert, getEv_event_op, getEv_event_list_insert, getEv_event_list_remove, getEv_setSignals, setFires_get_ev_event] <;>
  simp +decide [hv, hL, hH, hF, ISSET_CLR_of_sub, ISSET_CLR_of_disj, ISSET_SET_of_sub,
    ISSET_SET_of_disj, erase_append_self, hheap, udec_uinc, hn, ISSET_or_eq_zero,
    show EV_PLACEMENT = EV_ON_LIST ||| EV_ON_HEAP ||| EV_ON_FIRE from rfl]

theorem signal_del_registered (s : event_base) (ev : Nat)
    (hv : ev < s.mem.length)
    (hL : ISSET (getEv s ev).ev_event EV_ON_LIST ≠ 0)
    (hF : ISSET (getEv s ev).ev_event EV_ON_FIRE = 0) :
    (signal_del s ev 0).2.evb_heap =
      (if ISSET (getEv s ev).ev_event EV_ON_HEAP ≠ 0 then s.evb_heap.erase ev
       else s.evb_heap) ∧
    (signal_del s ev 0).2.evb_list = s.evb_list ∧
    (signal_del s ev 0).2.evb_signals =
      (fun j => if j = sigOf s ev then (s.evb_signals (sigOf s ev)).erase ev
        else s.evb_signals j) ∧
    (signal_del s ev 0).2.evb_fire = s.evb_fire ∧
    (signal_del s ev 0).2.evb_list_len = s.evb_list_len ∧
    (signal_del s ev 0).2.evb_nevents = udec s.evb_nevents ∧
    ISSET (getEv (signal_del s ev 0).2 ev).ev_event EV_PLACEMENT = 0 := by
  unfold signal_del
  simp only [ISSET_or_eq_zero]
  by_cases h1 : ISSET (getEv s ev).ev_event EV_ON_HEAP = 0 <;>
  by_cases h4 : TAILQ_FIRST (s.evb_signals (sigOf s ev)) = some ev ∧
      TAILQ_NEXT (s.evb_signals (sigOf s ev)) ev = none <;>
  simp only [hL, hF, h1, h4, and_self, and_true, and_false, true_and, false_and, if_true, if_false, ite_true, ite_false, ne_eq, not_true_eq_false, not_false_eq_true, getEv_nevents_dec, getEv_nevents_inc, getEv_event_heap_remove, getEv_event_fire_remove, getEv_event_fire_insert, getEv_event_op, getEv_event_list_insert, getEv_event_list_remove, getEv_setSignals, setFires_get_ev_event] <;>
  simp +decide [hv, ISSET_CLR_of_sub, TAILQ_REMOVE,
    show EV_PLACEMENT = EV_ON_LIST ||| EV_ON_HEAP ||| EV_ON_FIRE from rfl]

theorem signal_add_fresh (s : event_base) (ev : Nat) (tv : Option timeval)
    (now : Option timespec) (hv : ev < s.mem.length)
    (h0 : ISSET (getEv s ev).ev_event EV_PLACEMENT = 0)
    (hc : ¬ (tv.isSome = true ∧ now.isNone = true)) :
    (signal_add s ev tv now 0).2.mem.length = s.mem.length ∧
    ISSET (getEv (signal_add s ev tv now 0).2 ev).ev_event EV_ON_LIST ≠ 0 ∧
    ISSET (getEv (signal_add s ev tv now 0).2 ev).ev_event EV_ON_FIRE = 0 ∧
    (ISSET (getEv (signal_add s ev tv now 0).2 ev).ev_event EV_ON_HEAP ≠ 0 ↔
      tv.isSome = true) ∧
    sigOf (signal_add s ev tv now 0).2 ev = sigOf s ev ∧
    (signal_add s ev tv now 0).2.evb_heap =
      (if tv.isSome = true then s.evb_heap ++ [ev] else s.evb_heap) ∧
    (signal_add s ev tv now 0).2.evb_list = s.evb_list ∧
    (signal_add s ev tv now 0).2.evb_signals =
      (fun j => if j = sigOf s ev then s.evb_signals (sigOf s ev) ++ [ev]
        else s.evb_signals j) ∧
    (signal_add s ev tv now 0).2.evb_fire = s.evb_fire ∧
    (signal_add s ev tv now 0).2.evb_list_len = s.evb_list_len ∧
    (signal_add s ev tv now 0).2.evb_nevents = uinc s.evb_nevents := by
  obtain ⟨hL, hH, hF⟩ := ISSET_of_placement h0
  have hLH := ISSET_list_heap_ne _ hL
  unfold sigOf signal_add event_deadline
  by_cases h4 : s.evb_signals (sigOf s ev) = [] <;>
  rcases tv with _ | t <;>
  rcases now with _ | n <;>
  simp only [hL, hH, hF, hLH, h4, and_self, and_true, and_false, true_and, false_and, if_true, if_false, ite_true, ite_false, ne_eq, not_true_eq_false, not_false_eq_true, getEv_nevents_dec, getEv_nevents_inc, getEv_event_heap_remove, getEv_event_fire_remove, getEv_event_fire_insert, getEv_event_op, getEv_event_list_insert, getEv_event_list_remove, getEv_setSignals, setFires_get_ev_event] <;>
  first
  | (exfalso; apply hc; constructor <;> rfl)
  | simp +decide [hv, hL, hH, hF, h4, ISSET_SET_of_sub, ISSET_SET_of_disj, TAILQ_INSERT_TAIL,
      sigOf]

theorem signal_add_del_round_trip (s : event_base) (ev : Nat) (tv : Option timeval)
    (now : Option timespec)
    (hv : ev < s.mem.length)
    (h0 : ISSET (getEv s ev).ev_event EV_PLACEMENT = 0)
    (hheap : ev ∉ s.evb_heap) (hsig : ev ∉ s.evb_signals (sigOf s ev))
    (hn : s.evb_nevents < UINT_MOD) :
    (signal_del (signal_add s ev tv now 0).2 ev 0).2.evb_heap = s.evb_heap ∧
    (signal_del (signal_add s ev tv now 0).2 ev 0).2.evb_list = s.evb_list ∧
    (signal_del (signal_add s ev tv now 0).2 ev 0).2.evb_signals = s.evb_signals ∧
    (signal_del (signal_add s ev tv now 0).2 ev 0).2.evb_fire = s.evb_fire ∧
    (signal_del (signal_add s ev tv now 0).2 ev 0).2.evb_list_len = s.evb_list_len ∧
    (signal_del (signal_add s ev tv now 0).2 ev 0).2.evb_nevents = s.evb_nevents ∧
    ISSET (getEv (signal_del (signal_add s ev tv now 0).2 ev 0).2 ev).ev_event
      EV_PLACEMENT = 0 := by
  obtain ⟨hL, hH, hF⟩ := ISSET_of_placement h0
  by_cases hc : tv.isSome = true ∧ now.isNone = true
  · have e1 : (signal_add s ev tv now 0).2 = s := by
      rcases tv with _ | t
      · simp at hc
      · rcases now with _ | n
        · simp [signal_add, event_deadline]
        · simp at hc
    have e2 : (signal_del s ev 0).2 = s := by
      unfold signal_del
      simp only [ISSET_or_eq_zero, hL, hF, and_self, if_true]
    rw [e1, e2]
    exact ⟨rfl, rfl, rfl, rfl, rfl, rfl, h0⟩
  · obtain ⟨a1, a2, a3, a4, a5, a6, a7, a8, a9, a10, a11⟩ :=
      signal_add_fresh s ev tv now hv h0 hc
    obtain ⟨d1, d2, d3, d4, d5, d6, d7⟩ :=
      signal_del_registered (signal_add s ev tv now 0).2 ev (by rw [a1]; exact hv) a2 a3
    refine ⟨?_, ?_, ?_, ?_, ?_, ?_, d7⟩
    · rw [d1, a6]
      by_cases ht : tv.isSome = true
      · rw [if_pos (a4.2 ht), if_pos ht, erase_append_self hheap]
      · rw [if_neg (fun h => ht (a4.1 h)), if_neg ht]
    · rw [d2, a7]
    · rw [d3, a5, a8]
      funext j
      by_cases hj : j = sigOf s ev
      · subst hj
        simp only [if_true]
        exact erase_append_self hsig
      · simp only [hj, if_false]
    · rw [d4, a9]
    · rw [d5, a10]
    · rw [d6, a11, udec_uinc hn]

/-- C10: for an event with no placement bit set that no container of the base
holds, with counters in the range of `unsigned int` and no poller operation
failing, an add followed by the matching delete (`event_add`/`event_del`,
`evtimer_add`/`evtimer_del`, `signal_add`/`signal_del`, with or without a
timeout where it is optional, whether or not the clock can be read) restores
the timeout heap, the I/O list, the signal lists, the fire queue,
`evb_list_len` and `evb_nevents`, and leaves the event without a placement
bit. -/
theorem add_del_round_trip (s : event_base) (ev : Nat) (tv : Option timeval) (tv1 : timeval)
    (now : Option timespec) (rv0 : Int)
    (hv : ev < s.mem.length)
    (h0 : ISSET (getEv s ev).ev_event EV_PLACEMENT = 0)
    (hheap : ev ∉ s.evb_heap) (hlist : ev ∉ s.evb_list)
    (hsig : ev ∉ s.evb_signals (sigOf s ev))
    (hlen : s.evb_list_len < UINT_MOD) (hn : s.evb_nevents < UINT_MOD) :
    ∀ r ∈ [(event_del (event_add s ev tv now 0 rv0).2 ev 0).2,
        (evtimer_del (evtimer_add s ev tv1 now).2 ev).2,
        (signal_del (signal_add s ev tv now 0).2 ev 0).2],
      r.evb_heap = s.evb_heap ∧ r.evb_list = s.evb_list ∧ r.evb_signals = s.evb_signals ∧
      r.evb_fire = s.evb_fire ∧ r.evb_list_len = s.evb_list_len ∧
      r.evb_nevents = s.evb_nevents ∧ ISSET (getEv r ev).ev_event EV_PLACEMENT = 0 := by
  intro r hr
  simp only [List.mem_cons, List.mem_singleton, List.not_mem_nil, or_false] at hr
  rcases hr with rfl | rfl | rfl
  · exact event_add_del_round_trip s ev tv now rv0 hv h0 hheap hlist hlen hn
  · exact evtimer_add_del_round_trip s ev tv1 now hv h0 hheap hn
  · exact signal_add_del_round_trip s ev tv now hv h0 hheap hsig hn

theorem add_del_round_trip_witness :
    1 < ex_io_timeout.mem.length ∧
    ISSET (getEv ex_io_timeout 1).ev_event EV_PLACEMENT = 0 ∧
    ex_io_timeout.evb_heap = [0] ∧ ex_io_timeout.evb_list = [0] ∧
    ∀ r ∈ [(event_del (event_add ex_io_timeout 1 (some ⟨2, 0⟩) (some ⟨100, 0⟩) 0 0).2 1 0).2,
        (evtimer_del (evtimer_add ex_io_timeout 1 ⟨3, 0⟩ (some ⟨100, 0⟩)).2 1).2,
        (signal_del (signal_add ex_io_timeout 1 (some ⟨2, 0⟩) (some ⟨100, 0⟩) 0).2 1 0).2],
      r.evb_heap = ex_io_timeout.evb_heap ∧ r.evb_list = ex_io_timeout.evb_list ∧
      r.evb_signals = ex_io_timeout.evb_signals ∧
      r.evb_fire = ex_io_timeout.evb_fire ∧ r.evb_list_len = ex_io_timeout.evb_list_len ∧
      r.evb_nevents = ex_io_timeout.evb_nevents ∧
      ISSET (getEv r 1).ev_event EV_PLACEMENT = 0 :=
  ⟨by decide, by decide, by decide, by decide,
    add_del_round_trip ex_io_timeout 1 (some ⟨2, 0⟩) ⟨3, 0⟩ (some ⟨100, 0⟩) 0 (by decide)
      (by decide) (by decide) (by decide) (by decide) (by decide) (by decide)⟩

/-! ## The order of the timeout heap -/

theorem event_heap_compare_le (a b : event) :
    event_heap_compare a b ≤ 0 ↔
      a.ev_deadline.tv_sec < b.ev_deadline.tv_sec ∨
        (a.ev_deadline.tv_sec = b.ev_deadline.tv_sec ∧
          a.ev_deadline.tv_nsec ≤ b.ev_deadline.tv_nsec) := by
  unfold event_heap_compare
  split_ifs <;> constructor <;> intro h <;> first | omega | (exfalso; omega) | (revert h; decide)

theorem event_heap_compare_lt (a b : event) :
    event_heap_compare a b < 0 ↔
      a.ev_deadline.tv_sec < b.ev_deadline.tv_sec ∨
        (a.ev_deadline.tv_sec = b.ev_deadline.tv_sec ∧
          a.ev_deadline.tv_nsec < b.ev_deadline.tv_nsec) := by
  unfold event_heap_compare
  split_ifs <;> constructor <;> intro h <;> first | omega | (exfalso; omega) | (revert h; decide)

theorem event_heap_compare_total (a b : event) (h : ¬ event_heap_compare a b < 0) :
    event_heap_compare b a ≤ 0 := by
  rw [event_heap_compare_lt] at h
  rw [event_heap_compare_le]
  omega

theorem event_heap_compare_trans (a b c : event) (h1 : event_heap_compare a b ≤ 0)
    (h2 : event_heap_compare b c ≤ 0) : event_heap_compare a c ≤ 0 := by
  rw [event_heap_compare_le] at h1 h2 ⊢
  omega

theorem event_heap_compare_refl (a : event) : event_heap_compare a a ≤ 0 := by
  rw [event_heap_compare_le]
  omega

theorem event_heap_compare_congr (a b a1 b1 : event)
    (ha : a1.ev_deadline = a.ev_deadline) (hb : b1.ev_deadline = b.ev_deadline) :
    event_heap_compare a1 b1 = event_heap_compare a b := by
  unfold event_heap_compare
  rw [ha, hb]

/-- `HEAP_FIRST` returns a member that no member is below, for a comparison
that is total and transitive. -/
theorem HEAP_FIRST_min (cmp : Nat → Nat → Int)
    (htot : ∀ a b, ¬ cmp a b < 0 → cmp b a ≤ 0)
    (htrans : ∀ a b c, cmp a b ≤ 0 → cmp b c ≤ 0 → cmp a c ≤ 0)
    (hrefl : ∀ a, cmp a a ≤ 0) :
    ∀ (l : List Nat) (m : Nat), HEAP_FIRST cmp l = some m → ∀ x ∈ l, cmp m x ≤ 0 := by
  intro l
  induction l with
  | nil => intro m h; simp [HEAP_FIRST] at h
  | cons y ys ih =>
    intro m h x hx
    unfold HEAP_FIRST at h
    cases hr : HEAP_FIRST cmp ys with
    | none =>
      rw [hr] at h
      have hm : y = m := by simpa using h
      subst hm
      have hys : ys = [] := by
        cases ys with
        | nil => rfl
        | cons z zs =>
          exfalso
          unfold HEAP_FIRST at hr
          cases h2 : HEAP_FIRST cmp zs <;> rw [h2] at hr <;> simp at hr
          split at hr <;> simp at hr
      subst hys
      have : x = y := by simpa using hx
      subst this
      exact hrefl x
    | some z =>
      rw [hr] at h
      simp only at h
      have ihz := ih z hr
      split at h
      · next hlt =>
        have hm : z = m := by simpa using h
        subst hm
        rcases List.mem_cons.1 hx with rfl | hx
        · exact Int.le_of_lt hlt
        · exact ihz x hx
      · next hnlt =>
        have hm : y = m := by simpa using h
        subst hm
        rcases List.mem_cons.1 hx with rfl | hx
        · exact hrefl _
        · exact htrans _ _ _ (htot _ _ hnlt) (ihz x hx)

theorem event_heap_first_min (s : event_base) (m : Nat)
    (h : HEAP_FIRST (event_heap_cmp s) s.evb_heap = some m) :
    ∀ x ∈ s.evb_heap, event_heap_cmp s m x ≤ 0 :=
  HEAP_FIRST_min (event_heap_cmp s)
    (fun a b => event_heap_compare_total _ _)
    (fun a b c => event_heap_compare_trans _ _ _)
    (fun a => event_heap_compare_refl _) _ _ h

/-! ## The timer drain and the delivery loop over timers -/

theorem event_dispatch_expire_timer (s : event_base) (ev : Nat) (oprv : Int)
    (ht : ISSET (getEv s ev).ev_event EV_TYPE_MASK = EV_TIMEOUT)
    (hf : ISSET (getEv s ev).ev_event EV_ON_FIRE = 0) :
    event_dispatch_expire s ev oprv =
      (none, setFlags (event_fire_insert (setFires (nevents_dec (setFlags s ev
        (fun v => CLR v (EV_ON_LIST ||| EV_ON_HEAP)))) ev (fun f => SET f EV_TIMEOUT)) ev) ev
        (fun v => SET v EV_ON_FIRE)) := by
  have hv : ev < s.mem.length := lt_of_flag (b := EV_TYPE_MASK) (by rw [ht]; decide)
  have h1 : ¬ EV_TIMEOUT = EV_IO := by decide
  have h2 : ¬ EV_TIMEOUT = EV_SIGNAL := by decide
  unfold event_dispatch_expire
  simp only [ht, h1, h2, if_true, if_false]
  have key : ISSET (getEv (setFires (nevents_dec (setFlags s ev
            (fun v => CLR v (EV_ON_LIST ||| EV_ON_HEAP)))) ev
            (fun f => SET f EV_TIMEOUT)) ev).ev_event EV_ON_FIRE = 0 := by
    simp +decide [hv, ISSET_CLR_of_disj, hf]
  rw [if_pos key]

theorem timer_inv_drain_step {s0 s : event_base} {tr : List invocation}
    (h : timer_inv s0 s tr) (now : timespec) (oprv : Int) (ev : Nat) (s1 : event_base)
    (hc : event_heap_cextract s (now_event now) = (some ev, s1)) :
    ∃ s2, event_dispatch_expire s1 ev oprv = (none, s2) ∧ timer_inv s0 s2 tr := by
  obtain ⟨hlen, hst, hli, hsg, hhp, hfi, hnd, hsub, hso, hbe, har⟩ := h
  have hmin : ∀ x ∈ s.evb_heap, event_heap_cmp s ev x ≤ 0 := by
    unfold event_heap_cextract HEAP_CEXTRACT at hc
    cases hr : HEAP_FIRST (event_heap_cmp s) s.evb_heap with
    | none => rw [hr] at hc; simp at hc
    | some n =>
      rw [hr] at hc
      simp only at hc
      split at hc
      · simp at hc
      · simp only [Prod.mk.injEq, Option.some.injEq] at hc
        rw [← hc.1]
        exact event_heap_first_min s n hr
  obtain ⟨hm, rfl⟩ := event_heap_cextract_some hc
  obtain ⟨ht, hf, hfz, hid⟩ := hhp ev hm
  have hv : ev < s.mem.length := lt_of_flag (b := EV_TYPE_MASK) (by rw [ht]; decide)
  refine ⟨_, event_dispatch_expire_timer _ ev oprv (by simpa using ht) (by simpa using hf), ?_⟩
  have hcmp : ∀ x y, event_heap_cmp s x y = event_heap_cmp s0 x y := by
    intro x y
    unfold event_heap_cmp
    exact event_heap_compare_congr _ _ _ _ (hst x).1 (hst y).1
  have hev_not : ev ∉ tr.map (fun i => i.ev) ++ s.evb_fire := by
    intro hmem
    exact (List.nodup_append.1 hnd).2.2 hmem hm
  have hperm : (tr.map (fun i => i.ev) ++ (s.evb_fire ++ [ev]) ++ s.evb_heap.erase ev).Perm
      (tr.map (fun i => i.ev) ++ s.evb_fire ++ s.evb_heap) := by
    have h1 : (ev :: s.evb_heap.erase ev).Perm s.evb_heap := (List.perm_cons_erase hm).symm
    rw [← List.append_assoc, List.append_assoc _ [ev]]
    exact List.Perm.append_left _ h1
  have hH : (s.evb_heap.erase ev).Nodup := (List.nodup_append.1 hnd).2.1.erase ev
  have hHne : ∀ x ∈ s.evb_heap.erase ev, x ≠ ev := fun x hx =>
    ((List.nodup_append.1 hnd).2.1.mem_erase_iff.1 hx).1
  refine ⟨by simpa using hlen, ?_, by simpa using hli, by simpa using hsg, ?_, ?_, ?_, ?_, ?_,
    ?_, har⟩
  · intro x
    simpa using hst x
  · intro x hx
    simp only [event_fire_insert_evb_heap, setFlags_evb_heap, setFires_evb_heap,
      nevents_dec_evb_heap, event_heap_remove_evb_heap] at hx
    have hne := hHne x hx
    have := hhp x (List.mem_of_mem_erase hx)
    simpa [hne] using this
  · intro x hx
    simp only [event_fire_insert_evb_fire, setFlags_evb_fire, setFires_evb_fire,
      nevents_dec_evb_fire, event_heap_remove_evb_fire] at hx
    rcases List.mem_append.1 hx with hx | hx
    · have hne : x ≠ ev := fun e => hev_not (List.mem_append_right _ (e ▸ hx))
      simpa [hne] using hfi x hx
    · have hxe : x = ev := by simpa using hx
      subst hxe
      simp +decide [hv, hfz, hid]
  · simp only [event_fire_insert_evb_heap, setFlags_evb_heap, setFires_evb_heap,
      nevents_dec_evb_heap, event_heap_remove_evb_heap, event_fire_insert_evb_fire,
      setFlags_evb_fire, setFires_evb_fire, nevents_dec_evb_fire, event_heap_remove_evb_fire]
    exact hperm.nodup_iff.2 hnd
  · intro x hx
    simp only [event_fire_insert_evb_heap, setFlags_evb_heap, setFires_evb_heap,
      nevents_dec_evb_heap, event_heap_remove_evb_heap, event_fire_insert_evb_fire,
      setFlags_evb_fire, setFires_evb_fire, nevents_dec_evb_fire, event_heap_remove_evb_fire]
      at hx
    exact hsub x (hperm.mem_iff.1 hx)
  · simp only [event_fire_insert_evb_fire, setFlags_evb_fire, setFires_evb_fire,
      nevents_dec_evb_fire, event_heap_remove_evb_fire]
    rw [← List.append_assoc]
    refine List.pairwise_append.2 ⟨hso, List.pairwise_singleton _ _, ?_⟩
    intro a ha b hb
    have hbe2 : b = ev := by simpa using hb
    subst hbe2
    exact hbe a ha b hm
  · intro a ha y hy
    simp only [event_fire_insert_evb_heap, setFlags_evb_heap, setFires_evb_heap,
      nevents_dec_evb_heap, event_heap_remove_evb_heap, event_fire_insert_evb_fire,
      setFlags_evb_fire, setFires_evb_fire, nevents_dec_evb_fire, event_heap_remove_evb_fire]
      at ha hy
    have hy2 := List.mem_of_mem_erase hy
    rw [← List.append_assoc] at ha
    rcases List.mem_append.1 ha with ha | ha
    · exact hbe a ha y hy2
    · have hae : a = ev := by simpa using ha
      subst hae
      unfold dl_le
      rw [← hcmp]
      exact hmin y hy2

theorem timer_inv_drain {s0 : event_base} {tr : List invocation} (oprv : Nat → Int)
    (now : timespec) (fuel : Nat) :
    ∀ s : event_base, timer_inv s0 s tr →
      ∃ s1, event_dispatch_drain oprv now fuel s = (none, s1) ∧ timer_inv s0 s1 tr := by
  induction fuel with
  | zero => intro s h; exact ⟨s, rfl, h⟩
  | succ n ih =>
    intro s h
    unfold event_dispatch_drain
    rcases hc : event_heap_cextract s (now_event now) with ⟨_ | ev, s1⟩
    · exact ⟨s, rfl, h⟩
    · obtain ⟨s2, he, h2⟩ := timer_inv_drain_step h now (oprv ev) ev s1 hc
      simp only [he]
      exact ih s2 h2

theorem timer_inv_pop {s0 s : event_base} {tr : List invocation}
    (h : timer_inv s0 s tr) (ev : Nat) (hf : event_fire_first s = some ev) :
    timer_inv s0 (event_dispatch_pop s ev).2 (tr ++ [(event_dispatch_pop s ev).1]) := by
  obtain ⟨hlen, hst, hli, hsg, hhp, hfi, hnd, hsub, hso, hbe, har⟩ := h
  obtain ⟨rest, hrest⟩ : ∃ rest, s.evb_fire = ev :: rest := by
    unfold event_fire_first TAILQ_FIRST at hf
    cases hq : s.evb_fire with
    | nil => rw [hq] at hf; simp at hf
    | cons a l =>
      rw [hq] at hf
      simp at hf
      exact ⟨l, by rw [hf]⟩
  obtain ⟨hfz, hid, hv⟩ := hfi ev (by rw [hrest]; exact List.mem_cons_self _ _)
  have herase : s.evb_fire.erase ev = rest := by rw [hrest]; simp
  have hlist : (tr ++ [(event_dispatch_pop s ev).1]).map (fun i => i.ev) ++
      (event_dispatch_pop s ev).2.evb_fire = tr.map (fun i => i.ev) ++ s.evb_fire := by
    unfold event_dispatch_pop
    simp only [setFires_evb_fire, setFlags_evb_fire, event_fire_remove_evb_fire, herase,
      List.map_append, List.map_cons, List.map_nil, List.append_assoc, List.singleton_append]
    rw [hrest]
  have hheap : (event_dispatch_pop s ev).2.evb_heap = s.evb_heap := by
    unfold event_dispatch_pop
    simp
  have hnd2 := hnd
  rw [hrest] at hnd2
  have hev_rest : ev ∉ rest := by
    have := (List.nodup_append.1 (List.nodup_append.1 hnd2).1).2.1
    exact (List.nodup_cons.1 this).1
  have hev_heap : ev ∉ s.evb_heap := by
    intro hm
    exact (List.nodup_append.1 hnd).2.2 (List.mem_append_right _
      (by rw [hrest]; exact List.mem_cons_self _ _)) hm
  refine ⟨?_, ?_, ?_, ?_, ?_, ?_, ?_, ?_, ?_, ?_, ?_⟩
  · unfold event_dispatch_pop; simpa using hlen
  · intro x
    unfold event_dispatch_pop
    simpa using hst x
  · unfold event_dispatch_pop; simpa using hli
  · unfold event_dispatch_pop; simpa using hsg
  · intro x hx
    rw [hheap] at hx
    have hne : x ≠ ev := fun e => hev_heap (e ▸ hx)
    unfold event_dispatch_pop
    simpa [hne] using hhp x hx
  · intro x hx
    have hx2 : x ∈ rest := by
      unfold event_dispatch_pop at hx
      simpa [herase] using hx
    have hne : x ≠ ev := fun e => hev_rest (e ▸ hx2)
    have := hfi x (by rw [hrest]; exact List.mem_cons_of_mem _ hx2)
    unfold event_dispatch_pop
    simpa [hne] using this
  · rw [hlist, hheap]; exact hnd
  · rw [hlist, hheap]; exact hsub
  · rw [hlist]; exact hso
  · rw [hlist, hheap]; exact hbe
  · intro i hi
    rcases List.mem_append.1 hi with hi | hi
    · exact har i hi
    · have hie : i = (event_dispatch_pop s ev).1 := by simpa using hi
      subst hie
      have h1 := hst ev
      unfold event_dispatch_pop
      simp +decide [hv, hfz, ISSET_CLR_of_sub, ← h1.2.1, hid, h1.2.2.1, h1.2.2.2]

theorem timer_inv_fire {s0 : event_base} (env : dispatch_env)
    (hcb : ∀ s i, env.callback s i = []) (fuel : Nat) :
    ∀ (s : event_base) (tr : List invocation), timer_inv s0 s tr →
      timer_inv s0 (event_dispatch_fire env fuel s tr).2.1
        (event_dispatch_fire env fuel s tr).2.2 := by
  induction fuel with
  | zero => intro s tr h; exact h
  | succ n ih =>
    intro s tr h
    unfold event_dispatch_fire
    cases hf : event_fire_first s with
    | none => exact h
    | some ev =>
      have hp := timer_inv_pop h ev hf
      simp only [hcb, List.foldl_nil]
      split
      · exact hp
      · exact ih _ _ hp

theorem timer_inv_poll {s0 s : event_base} {tr : List invocation} (env : dispatch_env)
    (hpoll : ∀ runs s ts ev event oprv,
      poller_report.fire_event ev event oprv ∈ (env.poll runs s ts).2 → ev ∈ s.evb_list)
    (h : timer_inv s0 s tr) (runs : Nat) (ts : Option timespec) :
    timer_inv s0 (event_op_dispatch env runs s ts).2 tr := by
  have hrep : ∀ (l : List poller_report) (s1 : event_base),
      (∀ r ∈ l, ∀ ev event oprv, r ≠ poller_report.fire_event ev event oprv) →
      timer_inv s0 s1 tr → timer_inv s0 (l.foldl poller_report.run s1) tr := by
    intro l
    induction l with
    | nil => intro s1 _ h1; exact h1
    | cons r l ih =>
      intro s1 hl h1
      rw [List.foldl_cons]
      apply ih
      · exact fun r2 hr2 => hl r2 (List.mem_cons_of_mem _ hr2)
      · cases r with
        | fire_event ev event oprv => exact absurd rfl (hl _ (List.mem_cons_self _ _) ev event oprv)
        | fire_signal sig =>
          unfold poller_report.run event_fire_signal
          simp only []
          rw [h1.sigs sig]
          exact h1
  unfold event_op_dispatch
  apply hrep
  · intro r hr ev event oprv he
    subst he
    have := hpoll runs s ts ev event oprv hr
    rw [h.list] at this
    simp at this
  · obtain ⟨hlen, hst, hli, hsg, hhp, hfi, hnd, hsub, hso, hbe, har⟩ := h
    exact ⟨by simpa using hlen, by simpa using hst, by simpa using hli, by simpa using hsg,
      by simpa using hhp, by simpa using hfi, by simpa using hnd, by simpa using hsub,
      by simpa using hso, by simpa using hbe, har⟩

theorem timer_inv_loop {s0 : event_base} (env : dispatch_env)
    (hcb : ∀ s i, env.callback s i = [])
    (hpoll : ∀ runs s ts ev event oprv,
      poller_report.fire_event ev event oprv ∈ (env.poll runs s ts).2 → ev ∈ s.evb_list)
    (left : Nat) :
    ∀ (s : event_base) (tr : List invocation), timer_inv s0 s tr →
      timer_inv s0 (event_dispatch_loop env left s tr).2.1
        (event_dispatch_loop env left s tr).2.2 := by
  induction left with
  | zero => intro s tr h; exact h
  | succ n ih =>
    intro s tr h
    unfold event_dispatch_loop
    simp only []
    cases hm : env.monotime (29 - n) with
    | none => exact h
    | some now =>
      simp only []
      obtain ⟨s1, hd, h1⟩ := timer_inv_drain (env.op_del (29 - n)) now s.evb_heap.length s h
      rw [hd]
      simp only []
      have h2 := timer_inv_fire env hcb s1.evb_fire.length s1 tr h1
      rcases hfr : event_dispatch_fire env s1.evb_fire.length s1 tr with ⟨_ | e, s2, tr2⟩
      · rw [hfr] at h2
        simp only [] at h2 ⊢
        split
        · exact h2
        · split
          · exact timer_inv_poll env hpoll h2 _ _
          · exact ih _ _ (timer_inv_poll env hpoll h2 _ _)
      · rw [hfr] at h2
        exact h2

/-- C7: when the base holds timers only (every member of the heap is a
`TIMEOUT` event as `evtimer_set` and `evtimer_add` leave it, with no condition
other than `EV_TIMEOUT` in `ev_fires`, once in the heap;
the fire queue, the I/O list and the signal lists are empty), the callbacks
make no API call and the poller reports only events on the I/O list, then
whatever the clock reads and however the dispatch ends, `event_dispatch`
invokes callbacks in non-decreasing order of `ev_deadline`
(`event_heap_compare`), each event at most once, each an event of the heap,
with the arguments `(-1, EV_TIMEOUT, ev_arg)`. -/
theorem timers_fire_in_deadline_order (env : dispatch_env) (s : event_base)
    (hfire : s.evb_fire = []) (hlist : s.evb_list = [])
    (hsigs : ∀ sig, s.evb_signals sig = []) (hnodup : s.evb_heap.Nodup)
    (hheap : ∀ x ∈ s.evb_heap, ISSET (getEv s x).ev_event EV_TYPE_MASK = EV_TIMEOUT ∧
      ISSET (getEv s x).ev_event EV_ON_FIRE = 0 ∧
      ((getEv s x).ev_fires = 0 ∨ (getEv s x).ev_fires = EV_TIMEOUT) ∧
      (getEv s x).ev_ident = -1)
    (hcb : ∀ s i, env.callback s i = [])
    (hpoll : ∀ runs s ts ev event oprv,
      poller_report.fire_event ev event oprv ∈ (env.poll runs s ts).2 → ev ∈ s.evb_list) :
    (event_dispatch env s).2.2.Pairwise
      (fun i j => event_heap_compare (getEv s i.ev) (getEv s j.ev) ≤ 0) ∧
    ((event_dispatch env s).2.2.map (fun i => i.ev)).Nodup ∧
    ∀ i ∈ (event_dispatch env s).2.2, i.ev ∈ s.evb_heap ∧ i.ident = -1 ∧
      i.event = EV_TIMEOUT ∧ i.arg = (getEv s i.ev).ev_arg ∧
      i.fn = (getEv s i.ev).ev_fn := by
  have h0 : timer_inv s { s with evb_running := 1 } [] := by
    refine ⟨rfl, fun x => ⟨rfl, rfl, rfl, rfl⟩, hlist, hsigs, ?_, ?_, ?_, ?_, ?_, ?_, ?_⟩
    · intro x hx
      obtain ⟨h1, h2, h3, h4⟩ := hheap x hx
      refine ⟨h1, h2, ?_, h4⟩
      show SET (getEv s x).ev_fires EV_TIMEOUT = EV_TIMEOUT
      rcases h3 with h3 | h3 <;> rw [h3] <;> decide
    · intro x hx
      have : x ∈ s.evb_fire := hx
      rw [hfire] at this
      simp at this
    · show (List.map (fun i : invocation => i.ev) [] ++ s.evb_fire ++ s.evb_heap).Nodup
      rw [hfire]
      simpa using hnodup
    · intro x hx
      have : x ∈ List.map (fun i : invocation => i.ev) [] ++ s.evb_fire ++ s.evb_heap := hx
      rw [hfire] at this
      simpa using this
    · show List.Pairwise (dl_le s) (List.map (fun i : invocation => i.ev) [] ++ s.evb_fire)
      rw [hfire]
      simp
    · intro a ha
      have : a ∈ List.map (fun i : invocation => i.ev) [] ++ s.evb_fire := ha
      rw [hfire] at this
      simp at this
    · intro i hi
      simp at hi
  have h := timer_inv_loop env hcb hpoll 29 _ _ h0
  refine ⟨?_, ?_, ?_⟩
  · have h1 := (List.pairwise_append.1 h.sorted).1
    rw [List.pairwise_map] at h1
    exact h1
  · exact (List.nodup_append.1 (List.nodup_append.1 h.nodup).1).1
  · intro i hi
    refine ⟨?_, h.args i hi⟩
    apply h.sub
    apply List.mem_append_left
    apply List.mem_append_left
    exact List.mem_map_of_mem _ hi

theorem timers_fire_in_deadline_order_witness :
    steps_valid (event_init ex_mem) ex_three_timers_steps = true ∧
    (event_dispatch env_ticks ex_three_timers).1 = .ret 0 ∧
    (event_dispatch env_ticks ex_three_timers).2.2.map (fun i => (i.ident, i.event, i.arg)) =
      [(-1, EV_TIMEOUT, 11), (-1, EV_TIMEOUT, 12), (-1, EV_TIMEOUT, 10)] ∧
    ((event_dispatch env_ticks ex_three_timers).2.2.Pairwise
      (fun i j => event_heap_compare (getEv ex_three_timers i.ev)
        (getEv ex_three_timers j.ev) ≤ 0) ∧
    ((event_dispatch env_ticks ex_three_timers).2.2.map (fun i => i.ev)).Nodup ∧
    ∀ i ∈ (event_dispatch env_ticks ex_three_timers).2.2, i.ev ∈ ex_three_timers.evb_heap ∧
      i.ident = -1 ∧ i.event = EV_TIMEOUT ∧ i.arg = (getEv ex_three_timers i.ev).ev_arg ∧
      i.fn = (getEv ex_three_timers i.ev).ev_fn) :=
  ⟨by decide, by decide, by decide,
    timers_fire_in_deadline_order env_ticks ex_three_timers (by decide) (by decide)
      (fun _ => rfl) (by decide) (by decide) (fun _ _ => rfl)
      (fun _ _ _ _ _ _ h => by simp [env_ticks] at h)⟩

theorem pending_mask_and (x e k : Nat) (hk : EV_PENDING_MASK &&& k = 0) :
    ((x &&& EV_PENDING_MASK) &&& e) &&& k = 0 := by
  rw [Nat.and_assoc, Nat.and_assoc, ← Nat.and_assoc EV_PENDING_MASK e k,
    Nat.and_comm EV_PENDING_MASK e, Nat.and_assoc e EV_PENDING_MASK k, hk, Nat.and_zero,
    Nat.and_zero]

/-- The flags `event_pending` computes before it looks at the timeout never have
a bit outside `EV_PENDING_MASK`. -/
theorem event_pending_flags (v e k : Nat) (c : Prop) [Decidable c]
    (hk : EV_PENDING_MASK &&& k = 0) :
    ISSET ((if c then v &&& EV_PENDING_MASK else 0) &&& e) k = 0 := by
  unfold ISSET
  split
  · exact pending_mask_and v e k hk
  · simp

/-- C13 (code defect): `event_pending` never reports `EV_TIMEOUT` and never stores a
remaining time, whatever the event and the mask: it tests `EV_ON_HEAP` in the
flags it has already masked with `EV_PENDING_MASK`, which does not hold that
bit.  `signal_pending` inherits this.  On the read event of `ex_io_timeout`, which
is on the list and on the heap, `event_pending` with the mask
`EV_READ | EV_TIMEOUT` returns `EV_READ` alone, while `evtimer_pending`, which
tests the flag word of the event, returns `EV_TIMEOUT` and stores the time. -/
theorem event_pending_never_reports_timeout :
    (∀ (s : event_base) (ev events : Nat) (tv : Bool) (mono wall : timespec),
      ISSET (event_pending s ev events tv mono wall).1 EV_TIMEOUT = 0 ∧
      (event_pending s ev events tv mono wall).2 = none ∧
      ISSET (signal_pending s ev tv mono wall).1 EV_TIMEOUT = 0 ∧
      (signal_pending s ev tv mono wall).2 = none) ∧
    ISSET (getEv ex_io_timeout 0).ev_event EV_ON_LIST ≠ 0 ∧
    ISSET (getEv ex_io_timeout 0).ev_event EV_ON_HEAP ≠ 0 ∧
    event_pending ex_io_timeout 0 (EV_READ ||| EV_TIMEOUT) true ⟨100, 500000000⟩ ⟨1700000000, 0⟩
      = (EV_READ, none) ∧
    evtimer_pending ex_io_timeout 0 true ⟨100, 500000000⟩ ⟨1700000000, 0⟩
      = (EV_TIMEOUT, some ⟨1700000000, 500000⟩) := by
  refine ⟨fun s ev events tv mono wall => ?_, by decide, by decide, by decide, by decide⟩
  have key : ∀ events, ISSET (event_pending s ev events tv mono wall).1 EV_TIMEOUT = 0 ∧
      (event_pending s ev events tv mono wall).2 = none := by
    intro events
    unfold event_pending
    simp only [event_pending_flags _ _ EV_ON_HEAP _ (by decide), ne_eq, not_true_eq_false,
      and_false, if_false, and_true]
    exact event_pending_flags _ _ EV_TIMEOUT _ (by decide)
  exact ⟨(key events).1, (key events).2, (key _).1, (key _).2⟩

/-- C14 (code defect): `event_add` with a timeout on an event that already is on the
list makes no poller call and the clock read succeeds, yet it returns the
content of its local `rv`, which was never assigned: whatever value `rv0` that
storage holds is the result, for example -1.  `signal_add` returns 0 in the
same situation. -/
theorem event_add_on_list_returns_indeterminate :
    (∀ rv0 : Int, (event_add ex_io 0 (some ⟨1, 0⟩) (some ⟨100, 0⟩) 0 rv0).1 = rv0) ∧
    (event_add ex_io 0 (some ⟨1, 0⟩) (some ⟨100, 0⟩) 0 (-1)).1 = -1 ∧
    (event_add ex_io 0 (some ⟨1, 0⟩) (some ⟨100, 0⟩) 0 (-1)).2.evb_backend = ex_io.evb_backend ∧
    (event_add ex_io 0 (some ⟨1, 0⟩) (some ⟨100, 0⟩) 0 (-1)).2.evb_heap = [0] ∧
    (signal_add ex_sig 0 (some ⟨1, 0⟩) (some ⟨100, 0⟩) 0).1 = 0 :=
  ⟨fun _ => rfl, by decide, by decide, by decide, by decide⟩

/-- C17 (code defect): the deletes take an event off the fire queue without
resetting `ev_fires`.  After the first four steps of `ex_stale_fires_steps` (the
event is reported readable, then deleted) the event has `ev_fires = EV_READ` and
no `EV_ON_FIRE`; the state is reached by well-formed steps and no callback is
running.  When the event is added again and its timeout expires, the callback
is invoked with `EV_READ | EV_TIMEOUT`: the read condition dates from before the
delete. -/
theorem del_leaves_ev_fires :
    reachable (run_steps (event_init ex_mem) (ex_stale_fires_steps.take 4)) ∧
    (getEv (run_steps (event_init ex_mem) (ex_stale_fires_steps.take 4)) 0).ev_fires = EV_READ ∧
    ISSET (getEv (run_steps (event_init ex_mem) (ex_stale_fires_steps.take 4)) 0).ev_event
      EV_ON_FIRE = 0 ∧
    reachable ex_stale_fires ∧
    event_fire_first ex_stale_fires = some 0 ∧
    (event_dispatch_pop ex_stale_fires 0).1.event = EV_READ ||| EV_TIMEOUT :=
  ⟨reachable_run_steps _ _ (reachable.init ex_mem (by decide)) (by decide), by decide, by decide,
    reachable_run_steps _ _ (reachable.init ex_mem (by decide)) (by decide), by decide,
    by decide⟩

theorem list_set_getD_self (l : List event) (i : Nat) (d : event) : l.set i (l.getD i d) = l := by
  induction l generalizing i with
  | nil => rfl
  | cons a l ih =>
    cases i with
    | zero => rfl
    | succ i => simp only [List.set_cons_succ, List.getD_cons_succ, ih]

theorem setEv_getEv_self (s : event_base) (ev : Nat) : setEv s ev (getEv s ev) = s := by
  unfold setEv getEv
  rw [list_set_getD_self]

theorem setEv_of_length_le (s : event_base) (ev : Nat) (e : event) (h : s.mem.length ≤ ev) :
    setEv s ev e = s := by
  unfold setEv
  rw [List.set_eq_of_length_le h]

/-- Applying an idempotent update of the flag word a second time changes nothing. -/
theorem setFlags_idem (s : event_base) (ev : Nat) (f : Nat → Nat) (hf : ∀ v, f (f v) = f v) :
    setFlags (setFlags s ev f) ev f = setFlags s ev f := by
  by_cases h : ev < s.mem.length
  · have e1 : getEv (setFlags s ev f) ev = { getEv s ev with ev_event := f (getEv s ev).ev_event } := by
      rw [getEv_setFlags, if_pos ⟨rfl, h⟩]
    have e2 : ({ getEv (setFlags s ev f) ev with
        ev_event := f (getEv (setFlags s ev f) ev).ev_event } : event) =
        getEv (setFlags s ev f) ev := by
      rw [e1]
      simp only [hf]
    show setEv (setFlags s ev f) ev _ = _
    rw [e2, setEv_getEv_self]
  · show setEv (setFlags s ev f) ev _ = _
    rw [setEv_of_length_le _ _ _ (by simpa using Nat.le_of_not_lt h)]

theorem CLR_idem (m v : Nat) : CLR (CLR v m) m = CLR v m := by
  unfold CLR
  rw [Nat.and_assoc, Nat.and_self]

/-- The bits a `CLR` cleared in the flag word of `ev` are clear. -/
theorem ISSET_getEv_setFlags_CLR (s : event_base) (ev m b : Nat)
    (h : (0xffff ^^^ m) &&& b = 0) :
    ISSET (getEv (setFlags s ev (fun v => CLR v m)) ev).ev_event b = 0 := by
  rw [getEv_setFlags]
  split
  · exact ISSET_CLR_of_sub h _
  · next hn =>
    have : s.mem.length ≤ ev := Nat.le_of_not_lt (fun hlt => hn ⟨rfl, hlt⟩)
    rw [getEv_of_length_le s ev this]
    exact ISSET_zero b

/-- A second `event_del` after the flags were cleared. -/
theorem event_del_cleared (s : event_base) (ev : Nat) (oprv : Int) :
    event_del (setFlags s ev (fun v => CLR v (EV_ON_LIST ||| EV_ON_HEAP ||| EV_ON_FIRE))) ev oprv =
      (0, setFlags s ev (fun v => CLR v (EV_ON_LIST ||| EV_ON_HEAP ||| EV_ON_FIRE))) := by
  unfold event_del
  simp only [ISSET_getEv_setFlags_CLR s ev (EV_ON_LIST ||| EV_ON_HEAP ||| EV_ON_FIRE) EV_ON_LIST
      (by decide),
    ISSET_getEv_setFlags_CLR s ev (EV_ON_LIST ||| EV_ON_HEAP ||| EV_ON_FIRE) EV_ON_HEAP (by decide),
    ISSET_getEv_setFlags_CLR s ev (EV_ON_LIST ||| EV_ON_HEAP ||| EV_ON_FIRE) EV_ON_FIRE (by decide),
    ne_eq, not_true_eq_false, if_false,
    setFlags_idem s ev (fun v => CLR v (EV_ON_LIST ||| EV_ON_HEAP ||| EV_ON_FIRE))
      (fun v => CLR_idem _ v)]

theorem signal_del_cleared (s : event_base) (ev : Nat) (oprv : Int) :
    signal_del (setFlags s ev (fun v => CLR v (EV_ON_LIST ||| EV_ON_HEAP ||| EV_ON_FIRE))) ev oprv =
      (0, setFlags s ev (fun v => CLR v (EV_ON_LIST ||| EV_ON_HEAP ||| EV_ON_FIRE))) := by
  unfold signal_del
  simp only [ISSET_getEv_setFlags_CLR s ev (EV_ON_LIST ||| EV_ON_HEAP ||| EV_ON_FIRE)
    (EV_ON_LIST ||| EV_ON_FIRE) (by decide), if_true]

theorem evtimer_del_cleared (s : event_base) (ev : Nat) :
    evtimer_del (setFlags s ev (fun v => CLR v (EV_ON_HEAP ||| EV_ON_FIRE))) ev =
      (0, setFlags s ev (fun v => CLR v (EV_ON_HEAP ||| EV_ON_FIRE))) := by
  unfold evtimer_del
  simp only [ISSET_getEv_setFlags_CLR s ev (EV_ON_HEAP ||| EV_ON_FIRE)
    (EV_ON_HEAP ||| EV_ON_FIRE) (by decide), if_true]

/-- An `event_del` that returns 0 ends with the `CLR` of the placement bits. -/
theorem event_del_shape (s : event_base) (ev : Nat) (oprv : Int)
    (h : (event_del s ev oprv).1 = 0) :
    ∃ s3, (event_del s ev oprv).2 =
      setFlags s3 ev (fun v => CLR v (EV_ON_LIST ||| EV_ON_HEAP ||| EV_ON_FIRE)) := by
  unfold event_del at h ⊢
  by_cases h0 : ISSET (getEv s ev).ev_event EV_ON_LIST = 0 <;>
  by_cases h3 : oprv = 0 <;>
  simp only [h0, h3, and_self, and_true, and_false, true_and, false_and, if_true, if_false, ite_true, ite_false, ne_eq, not_true_eq_false, not_false_eq_true, getEv_nevents_dec, getEv_nevents_inc, getEv_event_heap_remove, getEv_event_fire_remove, getEv_event_fire_insert, getEv_event_op, getEv_event_list_insert, getEv_event_list_remove, getEv_setSignals, setFires_get_ev_event] at h ⊢ <;>
  first
  | exact ⟨_, rfl⟩
  | (exfalso; exact h3 h)

theorem signal_del_shape (s : event_base) (ev : Nat) (oprv : Int)
    (h : (signal_del s ev oprv).1 = 0) :
    (signal_del s ev oprv).2 = s ∧ ISSET (getEv s ev).ev_event (EV_ON_LIST ||| EV_ON_FIRE) = 0 ∨
    ∃ s3, (signal_del s ev oprv).2 =
      setFlags s3 ev (fun v => CLR v (EV_ON_LIST ||| EV_ON_HEAP ||| EV_ON_FIRE)) := by
  by_cases hg : ISSET (getEv s ev).ev_event (EV_ON_LIST ||| EV_ON_FIRE) = 0
  · left
    refine ⟨?_, hg⟩
    unfold signal_del
    rw [if_pos hg]
  · right
    unfold signal_del at h ⊢
    by_cases h0 : ISSET (getEv s ev).ev_event EV_ON_LIST = 0 <;>
    by_cases h3 : oprv = 0 <;>
    by_cases h4 : TAILQ_FIRST (s.evb_signals (sigOf s ev)) = some ev ∧
        TAILQ_NEXT (s.evb_signals (sigOf s ev)) ev = none <;>
    simp only [hg, h0, h3, h4, and_self, and_true, and_false, true_and, false_and, if_true, if_false, ite_true, ite_false, ne_eq, not_true_eq_false, not_false_eq_true, getEv_nevents_dec, getEv_nevents_inc, getEv_event_heap_remove, getEv_event_fire_remove, getEv_event_fire_insert, getEv_event_op, getEv_event_list_insert, getEv_event_list_remove, getEv_setSignals, setFires_get_ev_event] at h ⊢ <;>
    first
    | exact ⟨_, rfl⟩
    | (exfalso; exact h3 h)

/-- C11 (amended): a delete that follows a delete which returned 0 (as `evtimer_del`
always does) returns 0 and leaves the whole state as it is: the event
objects, the containers, the counters and the history of poller calls. -/
theorem del_twice_eq_once (s : event_base) (ev : Nat) (o1 o2 : Int) :
    ((event_del s ev o1).1 = 0 →
      event_del (event_del s ev o1).2 ev o2 = (0, (event_del s ev o1).2)) ∧
    evtimer_del (evtimer_del s ev).2 ev = (0, (evtimer_del s ev).2) ∧
    ((signal_del s ev o1).1 = 0 →
      signal_del (signal_del s ev o1).2 ev o2 = (0, (signal_del s ev o1).2)) := by
  refine ⟨fun h => ?_, ?_, fun h => ?_⟩
  · obtain ⟨s3, e⟩ := event_del_shape s ev o1 h
    rw [e]
    exact event_del_cleared s3 ev o2
  · by_cases hg : ISSET (getEv s ev).ev_event (EV_ON_HEAP ||| EV_ON_FIRE) = 0
    · have e : evtimer_del s ev = (0, s) := by
        unfold evtimer_del
        rw [if_pos hg]
      rw [e]
      exact e
    · have e : ∃ s3, (evtimer_del s ev).2 =
          setFlags s3 ev (fun v => CLR v (EV_ON_HEAP ||| EV_ON_FIRE)) := by
        unfold evtimer_del
        rw [if_neg hg]
        exact ⟨_, rfl⟩
      obtain ⟨s3, e⟩ := e
      rw [e]
      exact evtimer_del_cleared s3 ev
  · rcases signal_del_shape s ev o1 h with ⟨e, hg⟩ | ⟨s3, e⟩
    · rw [e]
      unfold signal_del
      rw [if_pos hg]
    · rw [e]
      exact signal_del_cleared s3 ev o2

/-- Witness of `del_twice_eq_once` on the read event of `ex_io_timeout`. -/
theorem del_twice_eq_once_witness :
    ((event_del ex_io_timeout 0 0).1 = 0 →
      event_del (event_del ex_io_timeout 0 0).2 0 0 = (0, (event_del ex_io_timeout 0 0).2)) ∧
    evtimer_del (evtimer_del ex_io_timeout 0).2 0 = (0, (evtimer_del ex_io_timeout 0).2) ∧
    ((signal_del ex_io_timeout 0 0).1 = 0 →
      signal_del (signal_del ex_io_timeout 0 0).2 0 0 = (0, (signal_del ex_io_timeout 0 0).2)) :=
  del_twice_eq_once ex_io_timeout 0 0 0

/-- C11 (counterexample): on the registered read event of `ex_io`, an `event_del` that
the poller refuses returns -1 and leaves the event registered; the `event_del`
that follows calls the poller again and takes the event off the list and
out of the count, so the second call is not without effect. -/
theorem event_del_twice_after_refusal :
    reachable ex_io ∧ event_initialized ex_io 0 ≠ 0 ∧
    (event_del ex_io 0 (-1)).1 = -1 ∧
    (event_del (event_del ex_io 0 (-1)).2 0 0).1 = 0 ∧
    (event_del ex_io 0 (-1)).2.evb_list = [0] ∧
    (event_del (event_del ex_io 0 (-1)).2 0 0).2.evb_list = [] ∧
    (event_del ex_io 0 (-1)).2.evb_nevents = 1 ∧
    (event_del (event_del ex_io 0 (-1)).2 0 0).2.evb_nevents = 0 ∧
    (event_del (event_del ex_io 0 (-1)).2 0 0).2.evb_backend =
      (event_del ex_io 0 (-1)).2.evb_backend ++ [(poller_call.event_del 0, 0)] :=
  ⟨reachable_ex_io, by decide, by decide, by decide, by decide, by decide, by decide, by decide,
    by decide⟩

theorem count_erase_append_self {l : List Nat} {a : Nat} (h : l.Nodup) :
    (l.erase a ++ [a]).count a = 1 := by
  have : a ∉ l.erase a := fun hm => (h.mem_erase_iff.1 hm).1 rfl
  rw [List.count_append, List.count_eq_zero.2 this]
  simp

theorem count_append_self {l : List Nat} {a : Nat} (h : a ∉ l) : (l ++ [a]).count a = 1 := by
  rw [List.count_append, List.count_eq_zero.2 h]
  simp

/-- C18: `evtimer_add` whose clock read succeeds returns 0 and leaves the event
with `EV_ON_HEAP` set, with the deadline `now + timeout`, and in the heap exactly
once; the event count goes up by one (in `unsigned int` arithmetic) if the
event did not have `EV_ON_HEAP` set before, and is unchanged if it had.  The
heap holds no event twice, and holds `ev` only if its `EV_ON_HEAP` is set. -/
theorem evtimer_add_rekeys (s : event_base) (ev : Nat) (tv : timeval) (now : timespec)
    (hv : ev < s.mem.length) (hn : s.evb_heap.Nodup)
    (hb : ISSET (getEv s ev).ev_event EV_ON_HEAP = 0 → ev ∉ s.evb_heap) :
    (evtimer_add s ev tv (some now)).1 = 0 ∧
    ISSET (getEv (evtimer_add s ev tv (some now)).2 ev).ev_event EV_ON_HEAP ≠ 0 ∧
    (getEv (evtimer_add s ev tv (some now)).2 ev).ev_deadline =
      timespecadd (TIMEVAL_TO_TIMESPEC tv) now ∧
    (evtimer_add s ev tv (some now)).2.evb_heap.count ev = 1 ∧
    (evtimer_add s ev tv (some now)).2.evb_nevents =
      (if ISSET (getEv s ev).ev_event EV_ON_HEAP = 0 then uinc s.evb_nevents
       else s.evb_nevents) := by
  unfold evtimer_add event_deadline
  by_cases h1 : ISSET (getEv s ev).ev_event EV_ON_HEAP = 0
  · simp only [h1, if_true]
    refine ⟨trivial, ?_, ?_, ?_, ?_⟩
    · simp +decide [hv, ISSET_SET_of_sub]
    · simp [hv]
    · simp only [event_heap_insert_evb_heap, setFlags_evb_heap, nevents_inc_evb_heap]
      exact count_append_self (hb h1)
    · simp
  · simp only [h1, if_false]
    refine ⟨trivial, ?_, ?_, ?_, ?_⟩
    · simpa [hv] using h1
    · simp [hv]
    · simp only [event_heap_insert_evb_heap, event_heap_remove_evb_heap]
      exact count_erase_append_self hn
    · simp

/-- Witness of `evtimer_add_rekeys` on the fired timer of `ex_timer_fired`. -/
theorem evtimer_add_rekeys_witness :
    (evtimer_add ex_timer_fired 0 ⟨0, 10000⟩ (some ⟨200, 0⟩)).1 = 0 ∧
    ISSET (getEv (evtimer_add ex_timer_fired 0 ⟨0, 10000⟩ (some ⟨200, 0⟩)).2 0).ev_event
      EV_ON_HEAP ≠ 0 ∧
    (getEv (evtimer_add ex_timer_fired 0 ⟨0, 10000⟩ (some ⟨200, 0⟩)).2 0).ev_deadline =
      timespecadd (TIMEVAL_TO_TIMESPEC ⟨0, 10000⟩) ⟨200, 0⟩ ∧
    (evtimer_add ex_timer_fired 0 ⟨0, 10000⟩ (some ⟨200, 0⟩)).2.evb_heap.count 0 = 1 ∧
    (evtimer_add ex_timer_fired 0 ⟨0, 10000⟩ (some ⟨200, 0⟩)).2.evb_nevents =
      (if ISSET (getEv ex_timer_fired 0).ev_event EV_ON_HEAP = 0 then uinc ex_timer_fired.evb_nevents
       else ex_timer_fired.evb_nevents) :=
  evtimer_add_rekeys ex_timer_fired 0 ⟨0, 10000⟩ ⟨200, 0⟩ (by decide) (by decide) (by decide)

theorem signal_add_count_append (s s' : event_base) (c : poller_call) (rv : Int) (sig : Int)
    (h : s'.evb_backend = s.evb_backend ++ [(c, rv)]) :
    signal_add_count s' sig =
      signal_add_count s sig + (if c = poller_call.signal_add sig ∧ rv = 0 then 1 else 0) := by
  unfold signal_add_count
  rw [h, List.count_append, List.count_singleton]
  congr 1
  by_cases hc : c = poller_call.signal_add sig ∧ rv = 0
  · rw [if_pos hc]
    obtain ⟨rfl, rfl⟩ := hc
    simp
  · rw [if_neg hc]
    have : ((c, rv) == (poller_call.signal_add sig, (0 : Int))) = false := by
      simp only [beq_eq_false_iff_ne, ne_eq, Prod.mk.injEq]
      exact hc
    rw [this]
    rfl

theorem signal_del_count_append (s s' : event_base) (c : poller_call) (rv : Int) (sig : Int)
    (h : s'.evb_backend = s.evb_backend ++ [(c, rv)]) :
    signal_del_count s' sig =
      signal_del_count s sig + (if c = poller_call.signal_del sig then 1 else 0) := by
  unfold signal_del_count
  rw [h, List.filter_append, List.length_append]
  congr 1
  by_cases hc : c = poller_call.signal_del sig
  · simp [hc]
  · simp [hc]

theorem TAILQ_sole {l : List Nat} {ev : Nat}
    (h : TAILQ_FIRST l = some ev ∧ TAILQ_NEXT l ev = none) : l = [ev] := by
  cases l with
  | nil => simp [TAILQ_FIRST] at h
  | cons a t =>
    obtain ⟨h1, h2⟩ := h
    simp only [TAILQ_FIRST, List.head?_cons, Option.some.injEq] at h1
    subst h1
    simp only [TAILQ_NEXT, if_true] at h2
    cases t with
    | nil => rfl
    | cons b t => simp at h2

theorem TAILQ_not_sole {l : List Nat} {ev : Nat} (hm : ev ∈ l)
    (h : ¬ (TAILQ_FIRST l = some ev ∧ TAILQ_NEXT l ev = none)) : l.erase ev ≠ [] := by
  cases l with
  | nil => simp at hm
  | cons a t =>
    by_cases ha : a = ev
    · subst ha
      cases t with
      | nil => exact absurd ⟨rfl, by simp [TAILQ_NEXT]⟩ h
      | cons b t => simp
    · have : (a == ev) = false := by simpa using ha
      simp [List.erase_cons, this]

theorem sigOf_cast {s : event_base} {ev : Nat} (h : 0 ≤ (getEv s ev).ev_ident) :
    ((sigOf s ev : Nat) : Int) = (getEv s ev).ev_ident := Int.toNat_of_nonneg h

theorem sigOf_of_ident {s : event_base} {x sig : Nat} (h : (getEv s x).ev_ident = (sig : Int)) :
    sigOf s x = sig := by
  unfold sigOf
  rw [h]
  exact Int.toNat_natCast sig

/-- How one operation on the event `ev` may change what `sig_inv` speaks of. -/
theorem sig_inv_step {s s' : event_base} (ev : Nat) (h : sig_inv s)
    (hoth : ∀ x, x ≠ ev → (getEv s' x).ev_event = (getEv s x).ev_event ∧
      (getEv s' x).ev_ident = (getEv s x).ev_ident)
    (hid : (getEv s' ev).ev_ident = (getEv s ev).ev_ident)
    (hty : ISSET (getEv s' ev).ev_event EV_TYPE_MASK = ISSET (getEv s ev).ev_event EV_TYPE_MASK)
    (hsigs : ∀ sig, sig ≠ sigOf s ev → s'.evb_signals sig = s.evb_signals sig)
    (hlist :
      (s'.evb_signals (sigOf s ev) = s.evb_signals (sigOf s ev) ∧
        ISSET (getEv s' ev).ev_event EV_ON_LIST = ISSET (getEv s ev).ev_event EV_ON_LIST) ∨
      (s'.evb_signals (sigOf s ev) = s.evb_signals (sigOf s ev) ++ [ev] ∧
        ISSET (getEv s ev).ev_event EV_ON_LIST = 0 ∧
        ISSET (getEv s' ev).ev_event EV_ON_LIST ≠ 0 ∧
        ISSET (getEv s ev).ev_event EV_TYPE_MASK = EV_SIGNAL ∧ 0 ≤ (getEv s ev).ev_ident) ∨
      (s'.evb_signals (sigOf s ev) = (s.evb_signals (sigOf s ev)).erase ev ∧
        ISSET (getEv s' ev).ev_event EV_ON_LIST = 0))
    (hheap :
      (s'.evb_heap = s.evb_heap ∧
        ((ISSET (getEv s' ev).ev_event EV_ON_LIST = ISSET (getEv s ev).ev_event EV_ON_LIST ∧
          ISSET (getEv s' ev).ev_event EV_ON_HEAP = ISSET (getEv s ev).ev_event EV_ON_HEAP) ∨
         ISSET (getEv s ev).ev_event EV_ON_LIST = 0 ∨
         ISSET (getEv s ev).ev_event EV_ON_HEAP = 0 ∨ ev ∉ s.evb_heap)) ∨
      s'.evb_heap = s.evb_heap.erase ev ∨
      (s'.evb_heap = s.evb_heap ++ [ev] ∧
        (ISSET (getEv s ev).ev_event EV_ON_LIST = 0 ∨
         ISSET (getEv s ev).ev_event EV_ON_HEAP = 0) ∧
        ISSET (getEv s' ev).ev_event EV_ON_LIST ≠ 0 ∧
        ISSET (getEv s' ev).ev_event EV_ON_HEAP ≠ 0) ∨
      (s'.evb_heap = s.evb_heap.erase ev ++ [ev] ∧
        ISSET (getEv s' ev).ev_event EV_ON_LIST ≠ 0 ∧
        ISSET (getEv s' ev).ev_event EV_ON_HEAP ≠ 0))
    (hlog :
      (s'.evb_backend = s.evb_backend ∧
        (s'.evb_signals (sigOf s ev) = [] ↔ s.evb_signals (sigOf s ev) = [])) ∨
      (s'.evb_backend = s.evb_backend ++ [(poller_call.signal_add (getEv s ev).ev_ident, 0)] ∧
        0 ≤ (getEv s ev).ev_ident ∧
        s.evb_signals (sigOf s ev) = [] ∧ s'.evb_signals (sigOf s ev) ≠ []) ∨
      (s'.evb_backend = s.evb_backend ++ [(poller_call.signal_del (getEv s ev).ev_ident, 0)] ∧
        0 ≤ (getEv s ev).ev_ident ∧
        s.evb_signals (sigOf s ev) ≠ [] ∧ s'.evb_signals (sigOf s ev) = [])) :
    sig_inv s' := by
  have hsame : ∀ x, sigOf s' x = sigOf s x := by
    intro x
    unfold sigOf
    by_cases hx : x = ev
    · rw [hx, hid]
    · rw [(hoth x hx).2]
  have hevsig : ∀ sig, ev ∈ s.evb_signals sig → sig = sigOf s ev := fun sig hm =>
    (sigOf_of_ident (h.memb sig ev hm).2).symm
  have hnotin : ISSET (getEv s ev).ev_event EV_ON_LIST = 0 → ∀ sig, ev ∉ s.evb_signals sig :=
    fun h0 sig hm => (h.memb sig ev hm).1 h0
  have hevheap : ev ∈ s.evb_heap → ISSET (getEv s ev).ev_event EV_ON_LIST ≠ 0 ∧
      ISSET (getEv s ev).ev_event EV_ON_HEAP ≠ 0 := h.heap ev
  refine ⟨?_, ?_, ?_, ?_, ?_, ?_⟩
  · -- memb
    intro sig x hx
    by_cases hs : sig = sigOf s ev
    · rw [hs] at hx
      rcases hlist with ⟨e, hb⟩ | ⟨e, h0, h1, _, hi⟩ | ⟨e, _⟩
      · rw [e] at hx
        have := h.memb _ x hx
        by_cases hxe : x = ev
        · rw [hxe] at this ⊢
          rw [hb, hid, hs]
          exact this
        · rw [(hoth x hxe).1, (hoth x hxe).2, hs]
          exact this
      · rw [e] at hx
        rcases List.mem_append.1 hx with hx | hx
        · have hxe : x ≠ ev := fun hxe => hnotin h0 _ (hxe ▸ hx)
          rw [(hoth x hxe).1, (hoth x hxe).2, hs]
          exact h.memb _ x hx
        · have hxe : x = ev := by simpa using hx
          rw [hxe, hid, hs]
          exact ⟨h1, (sigOf_cast hi).symm⟩
      · rw [e] at hx
        have hx2 := ((h.nodup _).mem_erase_iff.1 hx)
        rw [(hoth x hx2.1).1, (hoth x hx2.1).2, hs]
        exact h.memb _ x hx2.2
    · rw [hsigs sig hs] at hx
      have hxe : x ≠ ev := fun hxe => hs (hevsig sig (hxe ▸ hx))
      rw [(hoth x hxe).1, (hoth x hxe).2]
      exact h.memb sig x hx
  · -- listed
    intro x hx
    rw [hsame x]
    by_cases hxe : x = ev
    · rw [hxe] at hx ⊢
      rw [hty]
      rcases hlist with ⟨e, hb⟩ | ⟨e, h0, h1, ht, hi⟩ | ⟨e, hb⟩
      · rw [hb] at hx
        rw [e]
        exact h.listed ev hx
      · rw [e]
        exact ⟨ht, by simp⟩
      · exact absurd hb hx
    · rw [(hoth x hxe).1] at hx ⊢
      have := h.listed x hx
      refine ⟨this.1, ?_⟩
      by_cases hs : sigOf s x = sigOf s ev
      · rw [hs] at this ⊢
        rcases hlist with ⟨e, _⟩ | ⟨e, _⟩ | ⟨e, _⟩
        · rw [e]; exact this.2
        · rw [e]; exact List.mem_append_left _ this.2
        · rw [e]; exact (List.mem_erase_of_ne hxe).2 this.2
      · rw [hsigs _ hs]
        exact this.2
  · -- nodup
    intro sig
    by_cases hs : sig = sigOf s ev
    · rw [hs]
      rcases hlist with ⟨e, _⟩ | ⟨e, h0, _⟩ | ⟨e, _⟩
      · rw [e]; exact h.nodup _
      · rw [e]
        exact List.Nodup.append (h.nodup _) (List.nodup_singleton ev)
          (by simpa using hnotin h0 _)
      · rw [e]; exact (h.nodup _).erase ev
    · rw [hsigs sig hs]
      exact h.nodup sig
  · -- heap
    intro x hx
    have keep : x ≠ ev → x ∈ s.evb_heap →
        ISSET (getEv s' x).ev_event EV_ON_LIST ≠ 0 ∧ ISSET (getEv s' x).ev_event EV_ON_HEAP ≠ 0 := by
      intro hxe hm
      rw [(hoth x hxe).1]
      exact h.heap x hm
    rcases hheap with ⟨e, hc⟩ | e | ⟨e, _, h1, h2⟩ | ⟨e, h1, h2⟩
    · rw [e] at hx
      by_cases hxe : x = ev
      · rw [hxe] at hx ⊢
        rcases hc with ⟨c1, c2⟩ | c | c | c
        · rw [c1, c2]; exact hevheap hx
        · exact absurd c (hevheap hx).1
        · exact absurd c (hevheap hx).2
        · exact absurd hx c
      · exact keep hxe hx
    · rw [e] at hx
      have hx2 := (h.hnodup.mem_erase_iff.1 hx)
      exact keep hx2.1 hx2.2
    · rw [e] at hx
      rcases List.mem_append.1 hx with hx | hx
      · by_cases hxe : x = ev
        · rw [hxe]; exact ⟨h1, h2⟩
        · exact keep hxe hx
      · have hxe : x = ev := by simpa using hx
        rw [hxe]; exact ⟨h1, h2⟩
    · rw [e] at hx
      rcases List.mem_append.1 hx with hx | hx
      · have hx2 := (h.hnodup.mem_erase_iff.1 hx)
        exact keep hx2.1 hx2.2
      · have hxe : x = ev := by simpa using hx
        rw [hxe]; exact ⟨h1, h2⟩
  · -- hnodup
    rcases hheap with ⟨e, _⟩ | e | ⟨e, hc, _⟩ | ⟨e, _⟩
    · rw [e]; exact h.hnodup
    · rw [e]; exact h.hnodup.erase ev
    · rw [e]
      have : ev ∉ s.evb_heap := by
        intro hm
        rcases hc with c | c
        · exact (hevheap hm).1 c
        · exact (hevheap hm).2 c
      exact List.Nodup.append h.hnodup (List.nodup_singleton ev) (by simpa using this)
    · rw [e]
      have : ev ∉ s.evb_heap.erase ev := fun hm => (h.hnodup.mem_erase_iff.1 hm).1 rfl
      exact List.Nodup.append (h.hnodup.erase ev) (List.nodup_singleton ev) (by simpa using this)
  · -- count
    intro sig
    have hc := h.count sig
    rcases hlog with ⟨e, hiff⟩ | ⟨e, hi, hl, hl'⟩ | ⟨e, hi, hl, hl'⟩
    · have e1 : signal_add_count s' sig = signal_add_count s sig := by
        unfold signal_add_count; rw [e]
      have e2 : signal_del_count s' sig = signal_del_count s sig := by
        unfold signal_del_count; rw [e]
      rw [e1, e2, hc]
      by_cases hs : sig = sigOf s ev
      · rw [hs]
        by_cases hl : s.evb_signals (sigOf s ev) = []
        · rw [if_pos hl, if_pos (hiff.2 hl)]
        · rw [if_neg hl, if_neg (fun h' => hl (hiff.1 h'))]
      · rw [hsigs sig hs]
    · rw [signal_add_count_append s s' _ _ _ e, signal_del_count_append s s' _ _ _ e, hc]
      by_cases hs : sig = sigOf s ev
      · rw [hs, if_pos hl, if_neg hl']
        simp [sigOf_cast hi]
      · rw [hsigs sig hs]
        have : ¬ ((getEv s ev).ev_ident = (sig : Int)) := fun h' => hs (sigOf_of_ident h').symm
        simp [this]
    · rw [signal_add_count_append s s' _ _ _ e, signal_del_count_append s s' _ _ _ e, hc]
      by_cases hs : sig = sigOf s ev
      · rw [hs, if_neg hl, if_pos hl']
        simp [sigOf_cast hi]
      · rw [hsigs sig hs]
        have : ¬ ((getEv s ev).ev_ident = (sig : Int)) := fun h' => hs (sigOf_of_ident h').symm
        simp [this]

theorem sig_inv_signal_add (s : event_base) (ev : Nat) (tv : Option timeval)
    (now : Option timespec) (hv : ev < s.mem.length) (hk : is_signal_event s ev = true)
    (h : sig_inv s) : sig_inv (signal_add s ev tv now 0).2 := by
  unfold is_signal_event at hk
  simp only [Bool.and_eq_true, decide_eq_true_eq] at hk
  obtain ⟨hty, hid⟩ := hk
  unfold signal_add event_deadline
  by_cases h0 : ISSET (getEv s ev).ev_event EV_ON_LIST = 0 <;>
  by_cases h1 : ISSET (getEv s ev).ev_event EV_ON_HEAP = 0 <;>
  by_cases h2 : ISSET (getEv s ev).ev_event (EV_ON_LIST ||| EV_ON_HEAP) = EV_ON_LIST <;>
  by_cases h4 : s.evb_signals (sigOf s ev) = [] <;>
  rcases tv with _ | t <;>
  rcases now with _ | n <;>
  simp only [h0, h1, h2, h4, event_op_evb_signals, and_self, and_true, and_false, true_and, false_and, if_true, if_false, ite_true, ite_false, ne_eq, not_true_eq_false, not_false_eq_true, getEv_nevents_dec, getEv_nevents_inc, getEv_event_heap_remove, getEv_event_fire_remove, getEv_event_fire_insert, getEv_event_op, getEv_event_list_insert, getEv_event_list_remove, getEv_setSignals, setFires_get_ev_event] <;>
  first
  | exact h
  | (exfalso; exact h2 (ISSET_list_heap _ h0 h1))
  | (exfalso; exact ISSET_list_heap_ne _ h0 h2)
  | (have hL := ISSET_bit_of_ne_zero (getEv s ev).ev_event 1
     have hH := ISSET_bit_of_ne_zero (getEv s ev).ev_event 3
     apply sig_inv_step ev h
     · intro x hx
       simp [hx]
     · simp
     · simp +decide [hv, ISSET_SET_of_disj]
     · intro sig hs
       simp [hs, setSignals]
     · simp +decide [hv, ISSET_SET_of_disj, ISSET_SET_of_sub, setSignals, TAILQ_INSERT_TAIL, *]
       try exact (hL h0).symm
     · simp +decide [hv, ISSET_SET_of_disj, ISSET_SET_of_sub, HEAP_INSERT, HEAP_REMOVE, *]
       try exact ⟨(hL h0).symm, (hH h1).symm⟩
       try exact (hL h0).symm
       try exact (hH h1).symm
     · simp +decide [hv, setSignals, TAILQ_INSERT_TAIL, *])

theorem sig_inv_signal_del (s : event_base) (ev : Nat) (hv : ev < s.mem.length)
    (hk : is_signal_event s ev = true) (h : sig_inv s) : sig_inv (signal_del s ev 0).2 := by
  unfold is_signal_event at hk
  simp only [Bool.and_eq_true, decide_eq_true_eq] at hk
  obtain ⟨hty, hid⟩ := hk
  have hm : ISSET (getEv s ev).ev_event EV_ON_LIST ≠ 0 → ev ∈ s.evb_signals (sigOf s ev) :=
    fun h0 => (h.listed ev h0).2
  have hs : (TAILQ_FIRST (s.evb_signals (sigOf s ev)) = some ev ∧
      TAILQ_NEXT (s.evb_signals (sigOf s ev)) ev = none) → s.evb_signals (sigOf s ev) = [ev] :=
    TAILQ_sole
  have hns : ev ∈ s.evb_signals (sigOf s ev) →
      ¬ (TAILQ_FIRST (s.evb_signals (sigOf s ev)) = some ev ∧
        TAILQ_NEXT (s.evb_signals (sigOf s ev)) ev = none) →
      (s.evb_signals (sigOf s ev)).erase ev ≠ [] := TAILQ_not_sole
  unfold signal_del
  simp only [ISSET_or_eq_zero]
  by_cases h0 : ISSET (getEv s ev).ev_event EV_ON_LIST = 0 <;>
  by_cases h1 : ISSET (getEv s ev).ev_event EV_ON_HEAP = 0 <;>
  by_cases h2 : ISSET (getEv s ev).ev_event EV_ON_FIRE = 0 <;>
  by_cases h4 : TAILQ_FIRST (s.evb_signals (sigOf s ev)) = some ev ∧
      TAILQ_NEXT (s.evb_signals (sigOf s ev)) ev = none <;>
  simp only [h0, h1, h2, h4, event_op_evb_signals, and_self, and_true, and_false, true_and, false_and, if_true, if_false, ite_true, ite_false, ne_eq, not_true_eq_false, not_false_eq_true, getEv_nevents_dec, getEv_nevents_inc, getEv_event_heap_remove, getEv_event_fire_remove, getEv_event_fire_insert, getEv_event_op, getEv_event_list_insert, getEv_event_list_remove, getEv_setSignals, setFires_get_ev_event] <;>
  first
  | exact h
  | (apply sig_inv_step ev h
     · intro x hx
       simp [hx]
     · simp
     · simp +decide [hv, ISSET_CLR_of_disj]
     · intro sig hs
       simp [hs, setSignals]
     · simp +decide [hv, ISSET_CLR_of_sub, setSignals, TAILQ_REMOVE, *]
     · simp +decide [hv, ISSET_CLR_of_sub, HEAP_REMOVE, *]
     · simp +decide [hv, setSignals, TAILQ_REMOVE, hid, *]
       try first
         | (rw [hs h4]; simp)
         | exact List.ne_nil_of_mem (hm h0))

theorem sig_inv_ident_nonneg {s : event_base} (h : sig_inv s) {ev : Nat}
    (hl : ISSET (getEv s ev).ev_event EV_ON_LIST ≠ 0) : 0 ≤ (getEv s ev).ev_ident := by
  rw [(h.memb _ ev (h.listed ev hl).2).2]
  exact Int.natCast_nonneg _

/-- The test of `EV_ON_FIRE` at the end of the body of the timer drain sees the bit
the event had before. -/
theorem expire_fire_cond (s : event_base) (ev : Nat) (f : Nat → Nat) :
    ISSET (getEv (setFires (nevents_dec (setFlags s ev
      (fun v => CLR v (EV_ON_LIST ||| EV_ON_HEAP)))) ev f) ev).ev_event EV_ON_FIRE =
    ISSET (getEv s ev).ev_event EV_ON_FIRE := by
  by_cases hv : ev < s.mem.length
  · simp +decide [hv, ISSET_CLR_of_disj]
  · simp [hv]

theorem sig_inv_expire (s : event_base) (ev : Nat) (hv : ev < s.mem.length) (h : sig_inv s)
    (hl : ISSET (getEv s ev).ev_event EV_ON_LIST ≠ 0) (hnh : ev ∉ s.evb_heap) :
    sig_inv (event_dispatch_expire s ev 0).2 := by
  have hty := (h.listed ev hl).1
  have hm := (h.listed ev hl).2
  have hid := sig_inv_ident_nonneg h hl
  have hne : s.evb_signals (sigOf s ev) ≠ [] := List.ne_nil_of_mem hm
  have hio : ¬ EV_SIGNAL = EV_IO := by decide
  unfold event_dispatch_expire
  by_cases h2 : ISSET (getEv s ev).ev_event EV_ON_FIRE = 0 <;>
  by_cases h4 : (setSignals s (sigOf s ev)
      (TAILQ_REMOVE (s.evb_signals (sigOf s ev)) ev)).evb_signals (sigOf s ev) = [] <;>
  simp only [hty, hio, h4, expire_fire_cond, getEv_event_op, getEv_setSignals, h2, if_true,
    if_false, ite_true, ite_false, ne_eq, not_true_eq_false, not_false_eq_true] <;>
  (apply sig_inv_step ev h
   · intro x hx
     simp [hx]
   · simp
   · simp +decide [hv, ISSET_CLR_of_disj, ISSET_SET_of_disj]
   · intro sig hs
     simp [hs]
   · simp +decide [hv, ISSET_CLR_of_sub, ISSET_SET_of_disj, TAILQ_REMOVE, *]
   · simp +decide [hv, ISSET_CLR_of_sub, ISSET_SET_of_disj, HEAP_REMOVE, *]
   · simp only [setSignals_evb_signals, if_true] at h4
     simp +decide [hv, TAILQ_REMOVE, hid, *]
     try first
       | (intro e; apply h4; rw [e]; simp [TAILQ_REMOVE]; done)
       | (have h5 : s.evb_signals (sigOf s ev) = [] ∨ s.evb_signals (sigOf s ev) = [ev] := by
            simpa [TAILQ_REMOVE] using h4
          exact h5.resolve_left hne))

theorem sig_inv_drain_step (s : event_base) (now : timespec) (h : sig_inv s) :
    sig_inv (event_dispatch_drain_step s now 0).2 := by
  unfold event_dispatch_drain_step
  rcases hc : event_heap_cextract s (now_event now) with ⟨_ | ev, s1⟩
  · exact h
  · obtain ⟨hm, rfl⟩ := event_heap_cextract_some hc
    have hl := (h.heap ev hm).1
    have hv : ev < s.mem.length := lt_of_flag hl
    have h1 : sig_inv (event_heap_remove s ev) := by
      apply sig_inv_step ev h
      · intro x hx
        simp
      · simp
      · simp
      · intro sig hs
        simp
      · simp
      · simp
      · simp
    simp only []
    exact sig_inv_expire _ ev (by simpa using hv) h1 (by simpa using hl)
      (fun hm2 => (h.hnodup.mem_erase_iff.1 (by simpa using hm2)).1 rfl)

theorem sig_inv_pop (s : event_base) (ev : Nat) (h : sig_inv s) :
    sig_inv (event_dispatch_pop s ev).2 := by
  unfold event_dispatch_pop
  simp only []
  by_cases hv : ev < s.mem.length
  · apply sig_inv_step ev h
    · intro x hx
      simp [hx]
    · simp
    · simp +decide [hv, ISSET_CLR_of_disj]
    · intro sig hs
      simp
    · simp +decide [hv, ISSET_CLR_of_disj]
    · simp +decide [hv, ISSET_CLR_of_disj]
    · simp
  · apply sig_inv_step ev h
    · intro x hx
      simp [hx]
    · simp
    · simp +decide [hv, ISSET_CLR_of_disj]
    · intro sig hs
      simp
    · simp +decide [hv, ISSET_CLR_of_disj]
    · simp +decide [hv, ISSET_CLR_of_disj]
    · simp

theorem sig_inv_fire_signal_one (s : event_base) (ev : Nat) (h : sig_inv s) :
    sig_inv (event_fire_signal_one s ev) := by
  unfold event_fire_signal_one
  by_cases hv : ev < s.mem.length <;>
  by_cases h2 : ISSET (getEv s ev).ev_event EV_ON_FIRE = 0 <;>
  simp only [h2, and_self, and_true, and_false, true_and, false_and, if_true, if_false, ite_true, ite_false, ne_eq, not_true_eq_false, not_false_eq_true, getEv_nevents_dec, getEv_nevents_inc, getEv_event_heap_remove, getEv_event_fire_remove, getEv_event_fire_insert, getEv_event_op, getEv_event_list_insert, getEv_event_list_remove, getEv_setSignals, setFires_get_ev_event] <;>
  (apply sig_inv_step ev h
   · intro x hx
     simp [hx]
   · simp
   · simp +decide [hv, ISSET_SET_of_disj]
   · intro sig hs
     simp
   · simp +decide [hv, ISSET_SET_of_disj]
   · simp +decide [hv, ISSET_SET_of_disj]
   · simp)

theorem sig_inv_fire_signal (l : List Nat) :
    ∀ s : event_base, sig_inv s → sig_inv (l.foldl event_fire_signal_one s) := by
  induction l with
  | nil => intro s h; exact h
  | cons a l ih => intro s h; exact ih _ (sig_inv_fire_signal_one s a h)

theorem sig_inv_setEv (s : event_base) (ev : Nat) (e : event)
    (h0 : ISSET (getEv s ev).ev_event EV_ON_LIST = 0) (he : ISSET e.ev_event EV_ON_LIST = 0)
    (h : sig_inv s) : sig_inv (setEv s ev e) := by
  have hoth : ∀ x, x ≠ ev → getEv (setEv s ev e) x = getEv s x := by
    intro x hx
    rw [getEv_setEv]
    simp [hx]
  have hev : ∀ x, ISSET (getEv s x).ev_event EV_ON_LIST ≠ 0 → x ≠ ev := by
    intro x hx hxe
    rw [hxe] at hx
    exact hx h0
  refine ⟨?_, ?_, ?_, ?_, ?_, ?_⟩
  · intro sig x hx
    have hx' : x ∈ s.evb_signals sig := hx
    rw [hoth x (hev x (h.memb sig x hx').1)]
    exact h.memb sig x hx'
  · intro x hx
    by_cases hxe : x = ev
    · exfalso
      apply hx
      rw [hxe, getEv_setEv]
      split
      · exact he
      · exact h0
    · rw [hoth x hxe] at hx
      have e : sigOf (setEv s ev e) x = sigOf s x := by
        unfold sigOf
        rw [hoth x hxe]
      rw [hoth x hxe, e]
      exact h.listed x hx
  · exact h.nodup
  · intro x hx
    have hx' : x ∈ s.evb_heap := hx
    rw [hoth x (hev x (h.heap x hx').1)]
    exact h.heap x hx'
  · exact h.hnodup
  · exact h.count

theorem sig_inv_signal_set (s : event_base) (ev : Nat) (signal : Int) (fn arg : Nat)
    (h0 : ISSET (getEv s ev).ev_event EV_ON_LIST = 0) (h : sig_inv s) :
    sig_inv (signal_set s ev signal fn arg) :=
  sig_inv_setEv s ev _ h0 (show ISSET (EV_INITIALIZED ||| EV_SIGNAL ||| EV_PERSIST) EV_ON_LIST = 0
    by decide) h

theorem sig_inv_init (mem : List event)
    (h : mem.all (fun e => decide (ISSET e.ev_event EV_PLACEMENT = 0)) = true) :
    sig_inv (event_init mem) := by
  have hb := (fire_inv_init mem h).bit
  have h0 : ∀ x, ISSET (getEv (event_init mem) x).ev_event EV_ON_LIST = 0 := by
    intro x
    by_cases hx : x < mem.length
    · have hm : (getEv (event_init mem) x) ∈ mem := by
        unfold getEv event_init
        simp only [List.getD_eq_getElem?_getD, List.getElem?_eq_getElem hx, Option.getD_some]
        exact List.getElem_mem hx
      have := List.all_eq_true.1 h _ hm
      exact (ISSET_of_placement (of_decide_eq_true this)).1
    · rw [getEv_of_length_le _ x (by simpa [event_init] using hx)]
      exact ISSET_zero _
  refine ⟨?_, ?_, ?_, ?_, ?_, ?_⟩
  · intro sig x hx
    simp [event_init] at hx
  · intro x hx
    exact absurd (h0 x) hx
  · intro sig
    simp [event_init]
  · intro x hx
    simp [event_init] at hx
  · simp [event_init]
  · intro sig
    simp [event_init, signal_add_count, signal_del_count]

theorem sig_inv_op_dispatch (s : event_base) (ts : Option timespec) (rv : Int) (h : sig_inv s) :
    sig_inv (event_op s (.dispatch ts) rv) := by
  refine ⟨h.memb, h.listed, h.nodup, h.heap, h.hnodup, ?_⟩
  intro sig
  rw [signal_add_count_append s _ _ _ _ rfl, signal_del_count_append s _ _ _ _ rfl]
  simpa using h.count sig

theorem sig_inv_step_run (s : event_base) (st : step) (hv : st.valid s = true)
    (hk : st.signal_only s = true) (ho : st.ops_succeed = true) (h : sig_inv s) :
    sig_inv (st.run s) := by
  cases st with
  | api c =>
    unfold step.valid api_call.valid at hv
    simp only [Bool.and_eq_true, decide_eq_true_eq, Bool.or_eq_true, Bool.not_eq_true'] at hv
    obtain ⟨hlt, hset⟩ := hv
    cases c with
    | signal_set ev sg fn arg =>
      have h0 := (ISSET_of_placement (hset.resolve_left (by simp [api_call.is_set]))).1
      exact sig_inv_signal_set s ev sg fn arg h0 h
    | signal_add ev tv now oprv =>
      have e : oprv = 0 := by simpa [step.ops_succeed] using ho
      subst e
      exact sig_inv_signal_add s ev tv now hlt hk h
    | signal_del ev oprv =>
      have e : oprv = 0 := by simpa [step.ops_succeed] using ho
      subst e
      exact sig_inv_signal_del s ev hlt hk h
    | event_set ev fd events fn arg => simp [step.signal_only] at hk
    | event_add ev tv now oprv rv0 => simp [step.signal_only] at hk
    | event_del ev oprv => simp [step.signal_only] at hk
    | evtimer_set ev fn arg => simp [step.signal_only] at hk
    | evtimer_add ev tv now => simp [step.signal_only] at hk
    | evtimer_del ev => simp [step.signal_only] at hk
  | fire_event ev event oprv => simp [step.signal_only] at hk
  | fire_signal sig => exact sig_inv_fire_signal _ s h
  | dispatch_start => exact ⟨h.memb, h.listed, h.nodup, h.heap, h.hnodup, h.count⟩
  | drain now oprv =>
    have e : oprv = 0 := by simpa [step.ops_succeed] using ho
    subst e
    exact sig_inv_drain_step s now h
  | deliver =>
    unfold step.run
    cases hf : event_fire_first s with
    | none => exact h
    | some ev => exact sig_inv_pop s ev h
  | op_dispatch ts rv => exact sig_inv_op_dispatch s ts rv h

theorem signal_reachable_sig_inv {s : event_base} (h : signal_reachable s) : sig_inv s := by
  induction h with
  | init mem h => exact sig_inv_init mem h
  | step st _ hv hk ho ih => exact sig_inv_step_run _ st hv hk ho ih

theorem signal_reachable_run_steps (l : List step) :
    ∀ s : event_base, signal_reachable s → steps_valid s l = true →
      steps_signal_only s l = true → l.all step.ops_succeed = true →
      signal_reachable (run_steps s l) := by
  induction l with
  | nil => intro s h _ _ _; exact h
  | cons st l ih =>
    intro s h hv hk ho
    simp only [steps_valid, steps_signal_only, List.all_cons, Bool.and_eq_true] at hv hk ho
    exact ih (st.run s) (signal_reachable.step st h hv.1 hk.1 ho.1) hv.2 hk.2 ho.2

/-- C16: in every state reachable by the signal API and the steps of
`event_dispatch`, with the poller operations succeeding, the number of
accepted `add_signal(sig)` calls exceeds the number of `del_signal(sig)` calls
by exactly one if and only if the list `evb_signals[sig]` is not empty, and
the two numbers are equal when the list is empty. -/
theorem signal_registered_iff_listed {s : event_base} (h : signal_reachable s) (sig : Nat) :
    (signal_add_count s sig = signal_del_count s sig + 1 ↔ s.evb_signals sig ≠ []) ∧
    (s.evb_signals sig = [] → signal_add_count s sig = signal_del_count s sig) := by
  have hc := (signal_reachable_sig_inv h).count sig
  by_cases hl : s.evb_signals sig = []
  · rw [if_pos hl] at hc
    refine ⟨⟨fun e => ?_, fun e => absurd hl e⟩, fun _ => hc⟩
    omega
  · rw [if_neg hl] at hc
    exact ⟨⟨fun _ => hl, fun _ => hc⟩, fun e => absurd e hl⟩

/-- Witness of `signal_registered_iff_listed`: after two events for signal 2 were
added and the first was deleted, the signal is still registered. -/
theorem signal_registered_iff_listed_witness :
    (signal_add_count ex_two_signals ((2 : Nat) : Int) =
        signal_del_count ex_two_signals ((2 : Nat) : Int) + 1 ↔
      ex_two_signals.evb_signals 2 ≠ []) ∧
    (ex_two_signals.evb_signals 2 = [] →
      signal_add_count ex_two_signals ((2 : Nat) : Int) =
        signal_del_count ex_two_signals ((2 : Nat) : Int)) :=
  signal_registered_iff_listed
    (signal_reachable_run_steps ex_two_signals_steps _ (signal_reachable.init ex_mem (by decide))
      (by decide) (by decide) (by decide)) 2

/-- How one operation on the event `ev` may change the heap and the deadlines. -/
theorem heap_dl_step {s s' : event_base} (P : timespec → Prop) (ev : Nat)
    (h : heap_deadlines P s)
    (hoth : ∀ x, x ≠ ev → (getEv s' x).ev_deadline = (getEv s x).ev_deadline)
    (hcase : ((getEv s' ev).ev_deadline = (getEv s ev).ev_deadline ∧
        (s'.evb_heap = s.evb_heap ∨ s'.evb_heap = s.evb_heap.erase ev)) ∨
      (P (getEv s' ev).ev_deadline ∧
        (s'.evb_heap = s.evb_heap ++ [ev] ∨ s'.evb_heap = s.evb_heap.erase ev ++ [ev]))) :
    heap_deadlines P s' := by
  intro x hx
  by_cases hxe : x = ev
  · rw [hxe] at hx ⊢
    rcases hcase with ⟨e, hh⟩ | ⟨hp, _⟩
    · rw [e]
      rcases hh with hh | hh
      · exact h ev (hh ▸ hx)
      · exact h ev (List.mem_of_mem_erase (hh ▸ hx))
    · exact hp
  · rw [hoth x hxe]
    apply h
    rcases hcase with ⟨_, hh | hh⟩ | ⟨_, hh | hh⟩
    · exact hh ▸ hx
    · exact List.mem_of_mem_erase (hh ▸ hx)
    · rw [hh] at hx
      rcases List.mem_append.1 hx with hx | hx
      · exact hx
      · exact absurd (by simpa using hx) hxe
    · rw [hh] at hx
      rcases List.mem_append.1 hx with hx | hx
      · exact List.mem_of_mem_erase hx
      · exact absurd (by simpa using hx) hxe

theorem heap_deadlines_setEv (P : timespec → Prop) (s : event_base) (ev : Nat) (e : event)
    (he : e.ev_deadline = (getEv s ev).ev_deadline) (h : heap_deadlines P s) :
    heap_deadlines P (setEv s ev e) := by
  intro x hx
  have : (getEv (setEv s ev e) x).ev_deadline = (getEv s x).ev_deadline := by
    rw [getEv_setEv]
    split
    · next hc => rw [he, hc.1]
    · rfl
  rw [this]
  exact h x hx

theorem heap_deadlines_evtimer_add (P : timespec → Prop) (s : event_base) (ev : Nat)
    (tv : timeval) (now : Option timespec) (hv : ev < s.mem.length)
    (hP : ∀ d, event_deadline now tv = some d → P d) (h : heap_deadlines P s) :
    heap_deadlines P (evtimer_add s ev tv now).2 := by
  unfold evtimer_add
  rcases now with _ | n
  · exact h
  · have hd := hP _ rfl
    unfold event_deadline at hd ⊢
    by_cases h1 : ISSET (getEv s ev).ev_event EV_ON_HEAP = 0 <;>
    simp only [h1, and_self, and_true, and_false, true_and, false_and, if_true, if_false, ite_true, ite_false, ne_eq, not_true_eq_false, not_false_eq_true, getEv_nevents_dec, getEv_nevents_inc, getEv_event_heap_remove, getEv_event_fire_remove, getEv_event_fire_insert, getEv_event_op, getEv_event_list_insert, getEv_event_list_remove, getEv_setSignals, setFires_get_ev_event] <;>
    (apply heap_dl_step P ev h
     · intro x hx
       simp [hx]
     · simp [hv, hd, HEAP_INSERT, HEAP_REMOVE])

theorem heap_deadlines_event_add (P : timespec → Prop) (s : event_base) (ev : Nat)
    (tv : Option timeval) (now : Option timespec) (oprv rv0 : Int) (hv : ev < s.mem.length)
    (hP : ∀ t d, tv = some t → event_deadline now t = some d → P d) (h : heap_deadlines P s) :
    heap_deadlines P (event_add s ev tv now oprv rv0).2 := by
  unfold event_add
  rcases tv with _ | t <;> rcases now with _ | n
  all_goals
    have hd := hP
    unfold event_deadline at hd ⊢
    by_cases h0 : ISSET (getEv s ev).ev_event EV_ON_LIST = 0 <;>
    by_cases h1 : ISSET (getEv s ev).ev_event EV_ON_HEAP = 0 <;>
    by_cases h2 : ISSET (getEv s ev).ev_event (EV_ON_LIST ||| EV_ON_HEAP) = EV_ON_LIST <;>
    by_cases h3 : oprv = 0 <;>
    simp only [h0, h1, h2, h3, and_self, and_true, and_false, true_and, false_and, if_true, if_false, ite_true, ite_false, ne_eq, not_true_eq_false, not_false_eq_true, getEv_nevents_dec, getEv_nevents_inc, getEv_event_heap_remove, getEv_event_fire_remove, getEv_event_fire_insert, getEv_event_op, getEv_event_list_insert, getEv_event_list_remove, getEv_setSignals, setFires_get_ev_event] <;>
    first
    | exact h
    | (apply heap_dl_step P ev h
       · intro x hx
         simp [hx]
       · simp [hv, hd, HEAP_INSERT, HEAP_REMOVE])

theorem heap_deadlines_signal_add (P : timespec → Prop) (s : event_base) (ev : Nat)
    (tv : Option timeval) (now : Option timespec) (oprv : Int) (hv : ev < s.mem.length)
    (hP : ∀ t d, tv = some t → event_deadline now t = some d → P d) (h : heap_deadlines P s) :
    heap_deadlines P (signal_add s ev tv now oprv).2 := by
  unfold signal_add
  rcases tv with _ | t <;> rcases now with _ | n
  all_goals
    have hd := hP
    unfold event_deadline at hd ⊢
    by_cases h0 : ISSET (getEv s ev).ev_event EV_ON_LIST = 0 <;>
    by_cases h1 : ISSET (getEv s ev).ev_event EV_ON_HEAP = 0 <;>
    by_cases h2 : ISSET (getEv s ev).ev_event (EV_ON_LIST ||| EV_ON_HEAP) = EV_ON_LIST <;>
    by_cases h3 : oprv = 0 <;>
    by_cases h4 : s.evb_signals (sigOf s ev) = [] <;>
    simp only [h0, h1, h2, h3, h4, event_op_evb_signals, and_self, and_true, and_false, true_and, false_and, if_true, if_false, ite_true, ite_false, ne_eq, not_true_eq_false, not_false_eq_true, getEv_nevents_dec, getEv_nevents_inc, getEv_event_heap_remove, getEv_event_fire_remove, getEv_event_fire_insert, getEv_event_op, getEv_event_list_insert, getEv_event_list_remove, getEv_setSignals, setFires_get_ev_event] <;>
    first
    | exact h
    | (apply heap_dl_step P ev h
       · intro x hx
         simp [hx]
       · simp [hv, hd, HEAP_INSERT, HEAP_REMOVE])

theorem heap_deadlines_event_del (P : timespec → Prop) (s : event_base) (ev : Nat)
    (oprv : Int) (h : heap_deadlines P s) : heap_deadlines P (event_del s ev oprv).2 := by
  unfold event_del
  by_cases h0 : ISSET (getEv s ev).ev_event EV_ON_LIST = 0 <;>
  by_cases h1 : ISSET (getEv s ev).ev_event EV_ON_HEAP = 0 <;>
  by_cases h2 : ISSET (getEv s ev).ev_event EV_ON_FIRE = 0 <;>
  by_cases h3 : oprv = 0 <;>
  simp only [h0, h1, h2, h3, and_self, and_true, and_false, true_and, false_and, if_true, if_false, ite_true, ite_false, ne_eq, not_true_eq_false, not_false_eq_true, getEv_nevents_dec, getEv_nevents_inc, getEv_event_heap_remove, getEv_event_fire_remove, getEv_event_fire_insert, getEv_event_op, getEv_event_list_insert, getEv_event_list_remove, getEv_setSignals, setFires_get_ev_event] <;>
  first
  | exact h
  | (apply heap_dl_step P ev h
     · intro x hx
       simp [hx]
     · simp [HEAP_REMOVE])

theorem heap_deadlines_evtimer_del (P : timespec → Prop) (s : event_base) (ev : Nat)
    (h : heap_deadlines P s) : heap_deadlines P (evtimer_del s ev).2 := by
  unfold evtimer_del
  simp only [ISSET_or_eq_zero]
  by_cases h1 : ISSET (getEv s ev).ev_event EV_ON_HEAP = 0 <;>
  by_cases h2 : ISSET (getEv s ev).ev_event EV_ON_FIRE = 0 <;>
  simp only [h1, h2, and_self, and_true, and_false, true_and, false_and, if_true, if_false, ite_true, ite_false, ne_eq, not_true_eq_false, not_false_eq_true, getEv_nevents_dec, getEv_nevents_inc, getEv_event_heap_remove, getEv_event_fire_remove, getEv_event_fire_insert, getEv_event_op, getEv_event_list_insert, getEv_event_list_remove, getEv_setSignals, setFires_get_ev_event] <;>
  first
  | exact h
  | (apply heap_dl_step P ev h
     · intro x hx
       simp [hx]
     · simp [HEAP_REMOVE])

theorem heap_deadlines_signal_del (P : timespec → Prop) (s : event_base) (ev : Nat)
    (oprv : Int) (h : heap_deadlines P s) : heap_deadlines P (signal_del s ev oprv).2 := by
  unfold signal_del
  simp only [ISSET_or_eq_zero]
  by_cases h0 : ISSET (getEv s ev).ev_event EV_ON_LIST = 0 <;>
  by_cases h1 : ISSET (getEv s ev).ev_event EV_ON_HEAP = 0 <;>
  by_cases h2 : ISSET (getEv s ev).ev_event EV_ON_FIRE = 0 <;>
  by_cases h3 : oprv = 0 <;>
  by_cases h4 : TAILQ_FIRST (s.evb_signals (sigOf s ev)) = some ev ∧
      TAILQ_NEXT (s.evb_signals (sigOf s ev)) ev = none <;>
  simp only [h0, h1, h2, h3, h4, event_op_evb_signals, and_self, and_true, and_false, true_and, false_and, if_true, if_false, ite_true, ite_false, ne_eq, not_true_eq_false, not_false_eq_true, getEv_nevents_dec, getEv_nevents_inc, getEv_event_heap_remove, getEv_event_fire_remove, getEv_event_fire_insert, getEv_event_op, getEv_event_list_insert, getEv_event_list_remove, getEv_setSignals, setFires_get_ev_event] <;>
  first
  | exact h
  | (apply heap_dl_step P ev h
     · intro x hx
       simp [hx]
     · simp [HEAP_REMOVE])

theorem heap_deadlines_pop (P : timespec → Prop) (s : event_base) (ev : Nat)
    (h : heap_deadlines P s) : heap_deadlines P (event_dispatch_pop s ev).2 := by
  unfold event_dispatch_pop
  simp only []
  apply heap_dl_step P ev h
  · intro x hx
    simp [hx]
  · simp

theorem setEv_mem_length (s : event_base) (ev : Nat) (e : event) :
    (setEv s ev e).mem.length = s.mem.length := by
  simp [setEv]

theorem api_call_mem_length (s : event_base) (c : api_call) :
    (c.run s).mem.length = s.mem.length := by
  cases c with
  | event_set ev fd events fn arg => exact setEv_mem_length _ _ _
  | evtimer_set ev fn arg => exact setEv_mem_length _ _ _
  | signal_set ev sg fn arg => exact setEv_mem_length _ _ _
  | event_add ev tv now oprv rv0 =>
    unfold api_call.run event_add event_deadline
    by_cases h0 : ISSET (getEv s ev).ev_event EV_ON_LIST = 0 <;>
    by_cases h1 : ISSET (getEv s ev).ev_event EV_ON_HEAP = 0 <;>
    by_cases h2 : ISSET (getEv s ev).ev_event (EV_ON_LIST ||| EV_ON_HEAP) = EV_ON_LIST <;>
    by_cases h3 : oprv = 0 <;>
    rcases tv with _ | t <;>
    rcases now with _ | n <;>
    simp only [h0, h1, h2, h3, and_self, and_true, and_false, true_and, false_and, if_true, if_false, ite_true, ite_false, ne_eq, not_true_eq_false, not_false_eq_true, getEv_nevents_dec, getEv_nevents_inc, getEv_event_heap_remove, getEv_event_fire_remove, getEv_event_fire_insert, getEv_event_op, getEv_event_list_insert, getEv_event_list_remove, getEv_setSignals, setFires_get_ev_event] <;>
    simp
  | event_del ev oprv =>
    unfold api_call.run event_del
    by_cases h0 : ISSET (getEv s ev).ev_event EV_ON_LIST = 0 <;>
    by_cases h1 : ISSET (getEv s ev).ev_event EV_ON_HEAP = 0 <;>
    by_cases h2 : ISSET (getEv s ev).ev_event EV_ON_FIRE = 0 <;>
    by_cases h3 : oprv = 0 <;>
    simp only [h0, h1, h2, h3, and_self, and_true, and_false, true_and, false_and, if_true, if_false, ite_true, ite_false, ne_eq, not_true_eq_false, not_false_eq_true, getEv_nevents_dec, getEv_nevents_inc, getEv_event_heap_remove, getEv_event_fire_remove, getEv_event_fire_insert, getEv_event_op, getEv_event_list_insert, getEv_event_list_remove, getEv_setSignals, setFires_get_ev_event] <;>
    simp
  | evtimer_add ev tv now =>
    unfold api_call.run evtimer_add event_deadline
    by_cases h1 : ISSET (getEv s ev).ev_event EV_ON_HEAP = 0 <;>
    rcases now with _ | n <;>
    simp only [h1, and_self, and_true, and_false, true_and, false_and, if_true, if_false, ite_true, ite_false, ne_eq, not_true_eq_false, not_false_eq_true, getEv_nevents_dec, getEv_nevents_inc, getEv_event_heap_remove, getEv_event_fire_remove, getEv_event_fire_insert, getEv_event_op, getEv_event_list_insert, getEv_event_list_remove, getEv_setSignals, setFires_get_ev_event] <;>
    simp
  | evtimer_del ev =>
    unfold api_call.run evtimer_del
    simp only [ISSET_or_eq_zero]
    by_cases h1 : ISSET (getEv s ev).ev_event EV_ON_HEAP = 0 <;>
    by_cases h2 : ISSET (getEv s ev).ev_event EV_ON_FIRE = 0 <;>
    simp only [h1, h2, and_self, and_true, and_false, true_and, false_and, if_true, if_false, ite_true, ite_false, ne_eq, not_true_eq_false, not_false_eq_true, getEv_nevents_dec, getEv_nevents_inc, getEv_event_heap_remove, getEv_event_fire_remove, getEv_event_fire_insert, getEv_event_op, getEv_event_list_insert, getEv_event_list_remove, getEv_setSignals, setFires_get_ev_event] <;>
    simp
  | signal_add ev tv now oprv =>
    unfold api_call.run signal_add event_deadline
    by_cases h0 : ISSET (getEv s ev).ev_event EV_ON_LIST = 0 <;>
    by_cases h1 : ISSET (getEv s ev).ev_event EV_ON_HEAP = 0 <;>
    by_cases h2 : ISSET (getEv s ev).ev_event (EV_ON_LIST ||| EV_ON_HEAP) = EV_ON_LIST <;>
    by_cases h3 : oprv = 0 <;>
    by_cases h4 : s.evb_signals (sigOf s ev) = [] <;>
    rcases tv with _ | t <;>
    rcases now with _ | n <;>
    simp only [h0, h1, h2, h3, h4, event_op_evb_signals, and_self, and_true, and_false, true_and, false_and, if_true, if_false, ite_true, ite_false, ne_eq, not_true_eq_false, not_false_eq_true, getEv_nevents_dec, getEv_nevents_inc, getEv_event_heap_remove, getEv_event_fire_remove, getEv_event_fire_insert, getEv_event_op, getEv_event_list_insert, getEv_event_list_remove, getEv_setSignals, setFires_get_ev_event] <;>
    simp
  | signal_del ev oprv =>
    unfold api_call.run signal_del
    simp only [ISSET_or_eq_zero]
    by_cases h0 : ISSET (getEv s ev).ev_event EV_ON_LIST = 0 <;>
    by_cases h1 : ISSET (getEv s ev).ev_event EV_ON_HEAP = 0 <;>
    by_cases h2 : ISSET (getEv s ev).ev_event EV_ON_FIRE = 0 <;>
    by_cases h3 : oprv = 0 <;>
    by_cases h4 : TAILQ_FIRST (s.evb_signals (sigOf s ev)) = some ev ∧
        TAILQ_NEXT (s.evb_signals (sigOf s ev)) ev = none <;>
    simp only [h0, h1, h2, h3, h4, event_op_evb_signals, and_self, and_true, and_false, true_and, false_and, if_true, if_false, ite_true, ite_false, ne_eq, not_true_eq_false, not_false_eq_true, getEv_nevents_dec, getEv_nevents_inc, getEv_event_heap_remove, getEv_event_fire_remove, getEv_event_fire_insert, getEv_event_op, getEv_event_list_insert, getEv_event_list_remove, getEv_setSignals, setFires_get_ev_event] <;>
    simp

theorem event_dispatch_pop_mem_length (s : event_base) (ev : Nat) :
    (event_dispatch_pop s ev).2.mem.length = s.mem.length := by
  unfold event_dispatch_pop
  simp

theorem event_dispatch_expire_mem_length (s : event_base) (ev : Nat) (oprv : Int) :
    (event_dispatch_expire s ev oprv).2.mem.length = s.mem.length := by
  unfold event_dispatch_expire
  simp only []
  split_ifs <;> simp

theorem event_dispatch_expire_deadline (s : event_base) (ev : Nat) (oprv : Int) (x : Nat) :
    (getEv (event_dispatch_expire s ev oprv).2 x).ev_deadline = (getEv s x).ev_deadline := by
  unfold event_dispatch_expire
  simp only []
  split_ifs <;> simp

/-- A well-formed call of the public API keeps a property of the deadlines in the
heap when the deadline it stores, if it stores one, has the property. -/
theorem heap_deadlines_api (P : timespec → Prop) (s : event_base) (c : api_call)
    (hv : c.valid s = true) (hP : ∀ d, c.new_deadline = some d → P d)
    (h : heap_deadlines P s) : heap_deadlines P (c.run s) := by
  unfold api_call.valid at hv
  simp only [Bool.and_eq_true, decide_eq_true_eq] at hv
  obtain ⟨hlt, _⟩ := hv
  cases c with
  | event_set ev fd events fn arg => exact heap_deadlines_setEv P s ev _ rfl h
  | evtimer_set ev fn arg => exact heap_deadlines_setEv P s ev _ rfl h
  | signal_set ev sg fn arg => exact heap_deadlines_setEv P s ev _ rfl h
  | event_add ev tv now oprv rv0 =>
    refine heap_deadlines_event_add P s ev tv now oprv rv0 hlt ?_ h
    intro t d ht hd
    subst ht
    exact hP d hd
  | event_del ev oprv => exact heap_deadlines_event_del P s ev oprv h
  | evtimer_add ev tv now => exact heap_deadlines_evtimer_add P s ev tv now hlt hP h
  | evtimer_del ev => exact heap_deadlines_evtimer_del P s ev h
  | signal_add ev tv now oprv =>
    refine heap_deadlines_signal_add P s ev tv now oprv hlt ?_ h
    intro t d ht hd
    subst ht
    exact hP d hd
  | signal_del ev oprv => exact heap_deadlines_signal_del P s ev oprv h

theorem heap_deadlines_api_calls (P : timespec → Prop) (l : List api_call) :
    ∀ s : event_base, api_calls_valid s l = true →
      (∀ c ∈ l, ∀ d, c.new_deadline = some d → P d) → heap_deadlines P s →
      heap_deadlines P (l.foldl api_call.run s) ∧
        (l.foldl api_call.run s).mem.length = s.mem.length := by
  induction l with
  | nil => intro s _ _ h; exact ⟨h, rfl⟩
  | cons c l ih =>
    intro s hv hP h
    simp only [api_calls_valid, Bool.and_eq_true] at hv
    have h1 := heap_deadlines_api P s c hv.1 (hP c (List.mem_cons_self _ _)) h
    have h2 := ih (c.run s) hv.2 (fun c' hc' => hP c' (List.mem_cons_of_mem _ hc')) h1
    exact ⟨h2.1, by rw [List.foldl_cons, h2.2, api_call_mem_length]⟩

/-- The deadline an add stores is in normal form and not before `now`, when the
timeout is not negative and the clock reading is in normal form and not
before `now`. -/
theorem timeout_ok_deadline (now : timespec) (c : api_call) (h : c.timeout_ok now = true) :
    ∀ d, c.new_deadline = some d → timespec_normal d ∧ timespec_le now d := by
  have key : ∀ (tv : timeval) (n : timespec),
      timeval_nonneg tv ∧ timespec_normal n ∧ timespec_le now n →
      timespec_normal (timespecadd (TIMEVAL_TO_TIMESPEC tv) n) ∧
        timespec_le now (timespecadd (TIMEVAL_TO_TIMESPEC tv) n) := by
    intro tv n
    unfold timeval_nonneg timespec_normal timespec_le timespecadd TIMEVAL_TO_TIMESPEC
    simp only []
    intro hh
    split_ifs <;> simp only [] <;> constructor <;> omega
  intro d hd
  cases c with
  | event_add ev tv n oprv rv0 =>
    rcases tv with _ | t <;> rcases n with _ | n <;>
      simp [api_call.new_deadline, event_deadline] at hd
    subst hd
    exact key t n (by simpa [api_call.timeout_ok] using h)
  | evtimer_add ev t n =>
    cases n with
    | none => simp [api_call.new_deadline, event_deadline] at hd
    | some n =>
      simp [api_call.new_deadline, event_deadline] at hd
      subst hd
      exact key t n (by simpa [api_call.timeout_ok] using h)
  | signal_add ev tv n oprv =>
    rcases tv with _ | t <;> rcases n with _ | n <;>
      simp [api_call.new_deadline, event_deadline] at hd
    subst hd
    exact key t n (by simpa [api_call.timeout_ok] using h)
  | event_set ev fd events fn arg => simp [api_call.new_deadline] at hd
  | evtimer_set ev fn arg => simp [api_call.new_deadline] at hd
  | signal_set ev sg fn arg => simp [api_call.new_deadline] at hd
  | event_del ev oprv => simp [api_call.new_deadline] at hd
  | evtimer_del ev => simp [api_call.new_deadline] at hd
  | signal_del ev oprv => simp [api_call.new_deadline] at hd

/-- The difference of two times in normal form, the second not after the first,
is not negative and in normal form. -/
theorem timespecsub_nonneg (d now : timespec) (hd : timespec_normal d)
    (hn : timespec_normal now) (hle : timespec_le now d) :
    0 ≤ (timespecsub d now).tv_sec ∧ timespec_normal (timespecsub d now) := by
  unfold timespec_normal timespec_le at *
  unfold timespecsub
  simp only []
  split_ifs <;> simp only [] <;> omega

theorem heap_deadlines_drain (P : timespec → Prop) (oprv : Nat → Int) (now : timespec)
    (fuel : Nat) :
    ∀ (s s1 : event_base) (e : Option dispatch_end),
      event_dispatch_drain oprv now fuel s = (e, s1) → heap_deadlines P s →
      heap_deadlines P s1 ∧ s1.mem.length = s.mem.length := by
  induction fuel with
  | zero =>
    intro s s1 e h hp
    simp only [event_dispatch_drain, Prod.mk.injEq] at h
    rw [← h.2]
    exact ⟨hp, rfl⟩
  | succ n ih =>
    intro s s1 e h hp
    unfold event_dispatch_drain at h
    rcases hc : event_heap_cextract s (now_event now) with ⟨_ | ev, s2⟩
    · rw [hc] at h
      simp only [Prod.mk.injEq] at h
      rw [← h.2]
      exact ⟨hp, rfl⟩
    · rw [hc] at h
      simp only [] at h
      obtain ⟨hm, rfl⟩ := event_heap_cextract_some hc
      have hp3 : heap_deadlines P (event_dispatch_expire (event_heap_remove s ev) ev (oprv ev)).2 := by
        intro x hx
        rw [event_dispatch_expire_heap] at hx
        rw [event_dispatch_expire_deadline]
        have hx2 : x ∈ s.evb_heap := List.mem_of_mem_erase (by simpa using hx)
        simpa using hp x hx2
      have hl3 : (event_dispatch_expire (event_heap_remove s ev) ev (oprv ev)).2.mem.length =
          s.mem.length := by
        rw [event_dispatch_expire_mem_length]
        rfl
      rcases he : event_dispatch_expire (event_heap_remove s ev) ev (oprv ev) with ⟨_ | e3, s3⟩
      · rw [he] at h hp3 hl3
        simp only [] at h
        have := ih s3 s1 e h hp3
        exact ⟨this.1, by rw [this.2, hl3]⟩
      · rw [he] at h hp3 hl3
        simp only [Prod.mk.injEq] at h
        rw [← h.2]
        exact ⟨hp3, hl3⟩

theorem HEAP_FIRST_none (cmp : Nat → Nat → Int) (l : List Nat) (h : HEAP_FIRST cmp l = none) :
    l = [] := by
  cases l with
  | nil => rfl
  | cons a l =>
    exfalso
    unfold HEAP_FIRST at h
    cases h2 : HEAP_FIRST cmp l with
    | none => rw [h2] at h; simp at h
    | some y =>
      rw [h2] at h
      simp only [] at h
      split at h <;> simp at h

/-- When the timer drain has stopped because `event_heap_cextract` returns
nothing, every deadline in the heap is after `now`. -/
theorem heap_deadlines_drained (s : event_base) (now : timespec)
    (h : (event_heap_cextract s (now_event now)).1 = none) :
    heap_deadlines (fun d => timespec_le now d) s := by
  intro x hx
  unfold event_heap_cextract HEAP_CEXTRACT at h
  cases hr : HEAP_FIRST (event_heap_cmp s) s.evb_heap with
  | none =>
    rw [HEAP_FIRST_none _ _ hr] at hx
    simp at hx
  | some m =>
    rw [hr] at h
    simp only [] at h
    split at h
    · next hlt =>
      have hmin := event_heap_first_min s m hr x hx
      unfold event_heap_cmp at hmin
      rw [event_heap_compare_lt] at hlt
      rw [event_heap_compare_le] at hmin
      unfold timespec_le
      simp only [now_event] at hlt
      omega
    · simp at h

theorem heap_deadlines_and {P Q : timespec → Prop} {s : event_base}
    (h1 : heap_deadlines P s) (h2 : heap_deadlines Q s) :
    heap_deadlines (fun d => P d ∧ Q d) s :=
  fun x hx => ⟨h1 x hx, h2 x hx⟩

theorem heap_deadlines_fire (P : timespec → Prop) (env : dispatch_env) (n : Nat)
    (hcb : ∀ s i, s.mem.length = n → api_calls_valid s (env.callback s i) = true ∧
      ∀ c ∈ env.callback s i, ∀ d, c.new_deadline = some d → P d) (fuel : Nat) :
    ∀ (s : event_base) (tr : List invocation), s.mem.length = n → heap_deadlines P s →
      heap_deadlines P (event_dispatch_fire env fuel s tr).2.1 := by
  induction fuel with
  | zero => intro s tr _ h; exact h
  | succ k ih =>
    intro s tr hl h
    unfold event_dispatch_fire
    cases hf : event_fire_first s with
    | none => exact h
    | some ev =>
      have hl1 : (event_dispatch_pop s ev).2.mem.length = n := by
        rw [event_dispatch_pop_mem_length, hl]
      have h1 := heap_deadlines_pop P s ev h
      have hc := hcb (event_dispatch_pop s ev).2 (event_dispatch_pop s ev).1 hl1
      have h2 := heap_deadlines_api_calls P _ _ hc.1 hc.2 h1
      simp only []
      split
      · exact h2.1
      · exact ih _ _ (by rw [h2.2, hl1]) h2.1

theorem event_dispatch_timeout_none (s : event_base) (now : timespec) :
    event_dispatch_timeout s now = none ↔ s.evb_heap = [] := by
  unfold event_dispatch_timeout event_heap_first
  constructor
  · intro h
    cases hr : HEAP_FIRST (event_heap_cmp s) s.evb_heap with
    | none => exact HEAP_FIRST_none _ _ hr
    | some m => rw [hr] at h; simp at h
  · intro h
    rw [h]
    rfl

/-- A turn of the loop of `event_dispatch` whose timer drain and delivery loop do
not leave `event_dispatch` and that finds events registered calls the poller
with `event_dispatch_timeout`. -/
theorem event_dispatch_loop_poll (env : dispatch_env) (left : Nat) (s : event_base)
    (tr : List invocation) (now : timespec)
    (hm : env.monotime (29 - left) = some now)
    (hd : (event_dispatch_drained env (29 - left) now s).1 = none)
    (hf : (event_dispatch_delivered env (29 - left) now s tr).1 = none)
    (hne : (event_dispatch_delivered env (29 - left) now s tr).2.1.evb_nevents ≠ 0) :
    event_dispatch_loop env (left + 1) s tr =
      (if (event_op_dispatch env (29 - left)
            (event_dispatch_delivered env (29 - left) now s tr).2.1
            (event_dispatch_timeout (event_dispatch_delivered env (29 - left) now s tr).2.1
              now)).1 = -1 then
        (dispatch_end.ret (-1),
          (event_op_dispatch env (29 - left)
            (event_dispatch_delivered env (29 - left) now s tr).2.1
            (event_dispatch_timeout (event_dispatch_delivered env (29 - left) now s tr).2.1
              now)).2,
          (event_dispatch_delivered env (29 - left) now s tr).2.2)
      else
        event_dispatch_loop env left
          (event_op_dispatch env (29 - left)
            (event_dispatch_delivered env (29 - left) now s tr).2.1
            (event_dispatch_timeout (event_dispatch_delivered env (29 - left) now s tr).2.1
              now)).2
          (event_dispatch_delivered env (29 - left) now s tr).2.2) := by
  unfold event_dispatch_delivered at hf hne ⊢
  unfold event_dispatch_drained at hd hf hne ⊢
  rw [event_dispatch_loop]
  simp only [hm]
  rcases hD : event_dispatch_drain (env.op_del (29 - left)) now s.evb_heap.length s
    with ⟨e, s1⟩
  rw [hD] at hd hf hne
  simp only [] at hd hf hne ⊢
  subst hd
  simp only []
  rcases hF : event_dispatch_fire env s1.evb_fire.length s1 tr with ⟨e, s2, tr2⟩
  rw [hF] at hf hne
  simp only [] at hf hne ⊢
  subst hf
  simp only [hne, if_false]
  rfl

/-- C20 (amended): in a turn of the loop of `event_dispatch` that reaches the poller,
the timeout handed to the poller is null exactly when the heap is empty, and
otherwise is the deadline at the head of the heap minus the `now` read at the
top of the turn.  It is not negative (and in normal form) when `now` and the
deadlines in the heap at the top of the turn are in normal form and every
add a callback of the turn makes passes a timeout that is not negative and
reads the clock not before `now`; `event_dispatch` does not clamp. -/
theorem dispatch_timeout_nonneg (env : dispatch_env) (left : Nat) (s : event_base)
    (tr : List invocation) (now : timespec)
    (hm : env.monotime (29 - left) = some now)
    (hd : (event_dispatch_drained env (29 - left) now s).1 = none)
    (hf : (event_dispatch_delivered env (29 - left) now s tr).1 = none)
    (hne : (event_dispatch_delivered env (29 - left) now s tr).2.1.evb_nevents ≠ 0)
    (hnow : timespec_normal now) (hheap : heap_deadlines timespec_normal s)
    (hcb : ∀ s' i, s'.mem.length = s.mem.length →
      api_calls_valid s' (env.callback s' i) = true ∧
        ∀ c ∈ env.callback s' i, c.timeout_ok now = true) :
    event_dispatch_loop env (left + 1) s tr =
      (if (event_op_dispatch env (29 - left)
            (event_dispatch_delivered env (29 - left) now s tr).2.1
            (event_dispatch_timeout (event_dispatch_delivered env (29 - left) now s tr).2.1
              now)).1 = -1 then
        (dispatch_end.ret (-1),
          (event_op_dispatch env (29 - left)
            (event_dispatch_delivered env (29 - left) now s tr).2.1
            (event_dispatch_timeout (event_dispatch_delivered env (29 - left) now s tr).2.1
              now)).2,
          (event_dispatch_delivered env (29 - left) now s tr).2.2)
      else
        event_dispatch_loop env left
          (event_op_dispatch env (29 - left)
            (event_dispatch_delivered env (29 - left) now s tr).2.1
            (event_dispatch_timeout (event_dispatch_delivered env (29 - left) now s tr).2.1
              now)).2
          (event_dispatch_delivered env (29 - left) now s tr).2.2) ∧
    (event_dispatch_timeout (event_dispatch_delivered env (29 - left) now s tr).2.1 now = none ↔
      (event_dispatch_delivered env (29 - left) now s tr).2.1.evb_heap = []) ∧
    (∀ ev, event_heap_first (event_dispatch_delivered env (29 - left) now s tr).2.1 = some ev →
      event_dispatch_timeout (event_dispatch_delivered env (29 - left) now s tr).2.1 now =
        some (timespecsub
          (getEv (event_dispatch_delivered env (29 - left) now s tr).2.1 ev).ev_deadline now)) ∧
    (∀ ts, event_dispatch_timeout (event_dispatch_delivered env (29 - left) now s tr).2.1 now =
        some ts → 0 ≤ ts.tv_sec ∧ timespec_normal ts) := by
  refine ⟨event_dispatch_loop_poll env left s tr now hm hd hf hne,
    event_dispatch_timeout_none _ _, ?_, ?_⟩
  · intro ev hev
    unfold event_dispatch_timeout
    rw [hev]
  · intro ts hts
    -- the drain leaves deadlines in normal form that are after `now`
    have hdr : ∀ e s1, event_dispatch_drained env (29 - left) now s = (e, s1) →
        e = none → heap_deadlines (fun d => timespec_normal d ∧ timespec_le now d) s1 ∧
          s1.mem.length = s.mem.length := by
      intro e s1 he hnone
      subst hnone
      unfold event_dispatch_drained at he
      have h1 := heap_deadlines_drain timespec_normal _ now _ s s1 none he hheap
      have h2 := heap_deadlines_drained s1 now
        (event_dispatch_drain_complete _ now _ s s1 (Nat.le_refl _) he)
      exact ⟨heap_deadlines_and h1.1 h2, h1.2⟩
    have hdr2 := hdr _ _ rfl hd
    have hfi := heap_deadlines_fire (fun d => timespec_normal d ∧ timespec_le now d) env
      s.mem.length
      (fun s' i hl => ⟨(hcb s' i hl).1, fun c hc => timeout_ok_deadline now c ((hcb s' i hl).2 c hc)⟩)
      (event_dispatch_drained env (29 - left) now s).2.evb_fire.length
      (event_dispatch_drained env (29 - left) now s).2 tr hdr2.2 hdr2.1
    unfold event_dispatch_timeout event_heap_first at hts
    cases hr : HEAP_FIRST (event_heap_cmp (event_dispatch_delivered env (29 - left) now s tr).2.1)
        (event_dispatch_delivered env (29 - left) now s tr).2.1.evb_heap with
    | none => rw [hr] at hts; simp at hts
    | some m =>
      rw [hr] at hts
      simp only [Option.some.injEq] at hts
      rw [← hts]
      have hmem := HEAP_FIRST_mem _ _ _ hr
      have := hfi m hmem
      exact timespecsub_nonneg _ _ this.1 hnow this.2

/-- Witness of `dispatch_timeout_nonneg`: the timer of `ex_timer_io` expires in the
first turn and its callback adds it again with a timeout of 2 s. -/
theorem dispatch_timeout_nonneg_witness :
    event_dispatch_timeout (event_dispatch_delivered env_readd 1 ⟨101, 0⟩
      { ex_timer_io with evb_running := 1 } []).2.1 ⟨101, 0⟩ = some ⟨2, 500000000⟩ ∧
    ∀ ts, event_dispatch_timeout (event_dispatch_delivered env_readd (29 - 28) ⟨101, 0⟩
        { ex_timer_io with evb_running := 1 } []).2.1 ⟨101, 0⟩ = some ts →
      0 ≤ ts.tv_sec ∧ timespec_normal ts :=
  ⟨by decide,
    (dispatch_timeout_nonneg env_readd 28 { ex_timer_io with evb_running := 1 } [] ⟨101, 0⟩
      (by decide) (by decide) (by decide) (by decide) (by decide)
      (by unfold heap_deadlines; decide)
      (fun s' i hl => by
        have hl' : s'.mem.length = 3 := hl
        simp only [env_readd]
        split
        · simp [api_calls_valid, api_call.valid, api_call.target, api_call.is_set, hl',
            api_call.run, api_call.timeout_ok]
          decide
        · simp [api_calls_valid])).2.2.2⟩

/-- C20 (counterexample): the callback of the timer of `ex_timer_io`, invoked in a
dispatch at time 101 s, adds the timer again with a timeout of -5 s; the
turn reaches the poller and hands it the timeout -5 s, which the poller
refuses, and `event_dispatch` returns -1. -/
theorem dispatch_timeout_negative :
    steps_valid (event_init ex_mem) ex_timer_io_steps = true ∧
    (event_dispatch env_negative_timeout ex_timer_io).1 = dispatch_end.ret (-1) ∧
    (event_dispatch env_negative_timeout ex_timer_io).2.1.evb_backend =
      ex_timer_io.evb_backend ++ [(poller_call.dispatch (some ⟨-5, 0⟩), -1)] := by
  decide

@[simp] theorem setPfd_evp_pfds (evp : event_poll) (i : Nat) (e : event_pfd) :
    (setPfd evp i e).evp_pfds = evp.evp_pfds := rfl

@[simp] theorem setPfd_evp_pfdlen (evp : event_poll) (i : Nat) (e : event_pfd) :
    (setPfd evp i e).evp_pfdlen = evp.evp_pfdlen := rfl

@[simp] theorem setPfd_evp_nfds (evp : event_poll) (i : Nat) (e : event_pfd) :
    (setPfd evp i e).evp_nfds = evp.evp_nfds := rfl

@[simp] theorem setPfd_evp_evpfds (evp : event_poll) (i : Nat) (e : event_pfd) :
    (setPfd evp i e).evp_evpfds = evp.evp_evpfds.set i e := rfl

@[simp] theorem setPfd_evp_live (evp : event_poll) (i : Nat) (e : event_pfd) :
    (setPfd evp i e).evp_live = evp.evp_live := rfl

@[simp] theorem setPfd_evp_free (evp : event_poll) (i : Nat) (e : event_pfd) :
    (setPfd evp i e).evp_free = evp.evp_free := rfl

@[simp] theorem setPfd_evp_gen (evp : event_poll) (i : Nat) (e : event_pfd) :
    (setPfd evp i e).evp_gen = evp.evp_gen := rfl

@[simp] theorem setPfd_evp_signals (evp : event_poll) (i : Nat) (e : event_pfd) :
    (setPfd evp i e).evp_signals = evp.evp_signals := rfl

@[simp] theorem setPollfd_evp_pfds (evp : event_poll) (i : Nat) (p : pollfd) :
    (setPollfd evp i p).evp_pfds = evp.evp_pfds.set i p := rfl

@[simp] theorem setPollfd_evp_pfdlen (evp : event_poll) (i : Nat) (p : pollfd) :
    (setPollfd evp i p).evp_pfdlen = evp.evp_pfdlen := rfl

@[simp] theorem setPollfd_evp_nfds (evp : event_poll) (i : Nat) (p : pollfd) :
    (setPollfd evp i p).evp_nfds = evp.evp_nfds := rfl

@[simp] theorem setPollfd_evp_evpfds (evp : event_poll) (i : Nat) (p : pollfd) :
    (setPollfd evp i p).evp_evpfds = evp.evp_evpfds := rfl

@[simp] theorem setPollfd_evp_live (evp : event_poll) (i : Nat) (p : pollfd) :
    (setPollfd evp i p).evp_live = evp.evp_live := rfl

@[simp] theorem setPollfd_evp_free (evp : event_poll) (i : Nat) (p : pollfd) :
    (setPollfd evp i p).evp_free = evp.evp_free := rfl

@[simp] theorem setPollfd_evp_gen (evp : event_poll) (i : Nat) (p : pollfd) :
    (setPollfd evp i p).evp_gen = evp.evp_gen := rfl

@[simp] theorem setPollfd_evp_signals (evp : event_poll) (i : Nat) (p : pollfd) :
    (setPollfd evp i p).evp_signals = evp.evp_signals := rfl

@[simp] theorem getPfd_setPollfd (evp : event_poll) (i : Nat) (p : pollfd) (x : Nat) :
    getPfd (setPollfd evp i p) x = getPfd evp x := rfl

@[simp] theorem evp_set_nfds_evp_pfds (evp : event_poll) (n : Nat) :
    (evp_set_nfds evp n).evp_pfds = evp.evp_pfds := rfl

@[simp] theorem evp_set_nfds_evp_pfdlen (evp : event_poll) (n : Nat) :
    (evp_set_nfds evp n).evp_pfdlen = evp.evp_pfdlen := rfl

@[simp] theorem evp_set_nfds_evp_nfds (evp : event_poll) (n : Nat) :
    (evp_set_nfds evp n).evp_nfds = n := rfl

@[simp] theorem evp_set_nfds_evp_evpfds (evp : event_poll) (n : Nat) :
    (evp_set_nfds evp n).evp_evpfds = evp.evp_evpfds := rfl

@[simp] theorem evp_set_nfds_evp_live (evp : event_poll) (n : Nat) :
    (evp_set_nfds evp n).evp_live = evp.evp_live := rfl

@[simp] theorem evp_set_nfds_evp_free (evp : event_poll) (n : Nat) :
    (evp_set_nfds evp n).evp_free = evp.evp_free := rfl

@[simp] theorem evp_set_nfds_evp_gen (evp : event_poll) (n : Nat) :
    (evp_set_nfds evp n).evp_gen = evp.evp_gen := rfl

@[simp] theorem evp_set_nfds_evp_signals (evp : event_poll) (n : Nat) :
    (evp_set_nfds evp n).evp_signals = evp.evp_signals := rfl

@[simp] theorem getPfd_evp_set_nfds (evp : event_poll) (n : Nat) (x : Nat) :
    getPfd (evp_set_nfds evp n) x = getPfd evp x := rfl

@[simp] theorem evp_set_pfdlen_evp_pfds (evp : event_poll) (n : Nat) :
    (evp_set_pfdlen evp n).evp_pfds = evp.evp_pfds := rfl

@[simp] theorem evp_set_pfdlen_evp_pfdlen (evp : event_poll) (n : Nat) :
    (evp_set_pfdlen evp n).evp_pfdlen = n := rfl

@[simp] theorem evp_set_pfdlen_evp_nfds (evp : event_poll) (n : Nat) :
    (evp_set_pfdlen evp n).evp_nfds = evp.evp_nfds := rfl

@[simp] theorem evp_set_pfdlen_evp_evpfds (evp : event_poll) (n : Nat) :
    (evp_set_pfdlen evp n).evp_evpfds = evp.evp_evpfds := rfl

@[simp] theorem evp_set_pfdlen_evp_live (evp : event_poll) (n : Nat) :
    (evp_set_pfdlen evp n).evp_live = evp.evp_live := rfl

@[simp] theorem evp_set_pfdlen_evp_free (evp : event_poll) (n : Nat) :
    (evp_set_pfdlen evp n).evp_free = evp.evp_free := rfl

@[simp] theorem evp_set_pfdlen_evp_gen (evp : event_poll) (n : Nat) :
    (evp_set_pfdlen evp n).evp_gen = evp.evp_gen := rfl

@[simp] theorem evp_set_pfdlen_evp_signals (evp : event_poll) (n : Nat) :
    (evp_set_pfdlen evp n).evp_signals = evp.evp_signals := rfl

@[simp] theorem getPfd_evp_set_pfdlen (evp : event_poll) (n : Nat) (x : Nat) :
    getPfd (evp_set_pfdlen evp n) x = getPfd evp x := rfl

@[simp] theorem evp_set_free_evp_pfds (evp : event_poll) (l : List Nat) :
    (evp_set_free evp l).evp_pfds = evp.evp_pfds := rfl

@[simp] theorem evp_set_free_evp_pfdlen (evp : event_poll) (l : List Nat) :
    (evp_set_free evp l).evp_pfdlen = evp.evp_pfdlen := rfl

@[simp] theorem evp_set_free_evp_nfds (evp : event_poll) (l : List Nat) :
    (evp_set_free evp l).evp_nfds = evp.evp_nfds := rfl

@[simp] theorem evp_set_free_evp_evpfds (evp : event_poll) (l : List Nat) :
    (evp_set_free evp l).evp_evpfds = evp.evp_evpfds := rfl

@[simp] theorem evp_set_free_evp_live (evp : event_poll) (l : List Nat) :
    (evp_set_free evp l).evp_live = evp.evp_live := rfl

@[simp] theorem evp_set_free_evp_free (evp : event_poll) (l : List Nat) :
    (evp_set_free evp l).evp_free = l := rfl

@[simp] theorem evp_set_free_evp_gen (evp : event_poll) (l : List Nat) :
    (evp_set_free evp l).evp_gen = evp.evp_gen := rfl

@[simp] theorem evp_set_free_evp_signals (evp : event_poll) (l : List Nat) :
    (evp_set_free evp l).evp_signals = evp.evp_signals := rfl

@[simp] theorem getPfd_evp_set_free (evp : event_poll) (l : List Nat) (x : Nat) :
    getPfd (evp_set_free evp l) x = getPfd evp x := rfl

@[simp] theorem evp_realloc_evpfds_evp_pfds (evp : event_poll) (n : Nat) :
    (evp_realloc_evpfds evp n).evp_pfds = evp.evp_pfds := rfl

@[simp] theorem evp_realloc_evpfds_evp_pfdlen (evp : event_poll) (n : Nat) :
    (evp_realloc_evpfds evp n).evp_pfdlen = evp.evp_pfdlen := rfl

@[simp] theorem evp_realloc_evpfds_evp_nfds (evp : event_poll) (n : Nat) :
    (evp_realloc_evpfds evp n).evp_nfds = evp.evp_nfds := rfl

@[simp] theorem evp_realloc_evpfds_evp_evpfds (evp : event_poll) (n : Nat) :
    (evp_realloc_evpfds evp n).evp_evpfds = reallocarray evp.evp_evpfds n default := rfl

@[simp] theorem evp_realloc_evpfds_evp_live (evp : event_poll) (n : Nat) :
    (evp_realloc_evpfds evp n).evp_live = evp.evp_live := rfl

@[simp] theorem evp_realloc_evpfds_evp_free (evp : event_poll) (n : Nat) :
    (evp_realloc_evpfds evp n).evp_free = evp.evp_free := rfl

@[simp] theorem evp_realloc_evpfds_evp_gen (evp : event_poll) (n : Nat) :
    (evp_realloc_evpfds evp n).evp_gen = evp.evp_gen := rfl

@[simp] theorem evp_realloc_evpfds_evp_signals (evp : event_poll) (n : Nat) :
    (evp_realloc_evpfds evp n).evp_signals = evp.evp_signals := rfl

@[simp] theorem evp_realloc_pfds_evp_pfds (evp : event_poll) (n : Nat) :
    (evp_realloc_pfds evp n).evp_pfds = reallocarray evp.evp_pfds n default := rfl

@[simp] theorem evp_realloc_pfds_evp_pfdlen (evp : event_poll) (n : Nat) :
    (evp_realloc_pfds evp n).evp_pfdlen = evp.evp_pfdlen := rfl

@[simp] theorem evp_realloc_pfds_evp_nfds (evp : event_poll) (n : Nat) :
    (evp_realloc_pfds evp n).evp_nfds = evp.evp_nfds := rfl

@[simp] theorem evp_realloc_pfds_evp_evpfds (evp : event_poll) (n : Nat) :
    (evp_realloc_pfds evp n).evp_evpfds = evp.evp_evpfds := rfl

@[simp] theorem evp_realloc_pfds_evp_live (evp : event_poll) (n : Nat) :
    (evp_realloc_pfds evp n).evp_live = evp.evp_live := rfl

@[simp] theorem evp_realloc_pfds_evp_free (evp : event_poll) (n : Nat) :
    (evp_realloc_pfds evp n).evp_free = evp.evp_free := rfl

@[simp] theorem evp_realloc_pfds_evp_gen (evp : event_poll) (n : Nat) :
    (evp_realloc_pfds evp n).evp_gen = evp.evp_gen := rfl

@[simp] theorem evp_realloc_pfds_evp_signals (evp : event_poll) (n : Nat) :
    (evp_realloc_pfds evp n).evp_signals = evp.evp_signals := rfl

@[simp] theorem getPfd_evp_realloc_pfds (evp : event_poll) (n : Nat) (x : Nat) :
    getPfd (evp_realloc_pfds evp n) x = getPfd evp x := rfl

@[simp] theorem evpfd_live_remove_evp_pfds (evp : event_poll) (e : Nat) :
    (evpfd_live_remove evp e).evp_pfds = evp.evp_pfds := rfl

@[simp] theorem evpfd_live_remove_evp_pfdlen (evp : event_poll) (e : Nat) :
    (evpfd_live_remove evp e).evp_pfdlen = evp.evp_pfdlen := rfl

@[simp] theorem evpfd_live_remove_evp_nfds (evp : event_poll) (e : Nat) :
    (evpfd_live_remove evp e).evp_nfds = evp.evp_nfds := rfl

@[simp] theorem evpfd_live_remove_evp_evpfds (evp : event_poll) (e : Nat) :
    (evpfd_live_remove evp e).evp_evpfds = evp.evp_evpfds := rfl

@[simp] theorem evpfd_live_remove_evp_live (evp : event_poll) (e : Nat) :
    (evpfd_live_remove evp e).evp_live = evp.evp_live.erase e := rfl

@[simp] theorem evpfd_live_remove_evp_free (evp : event_poll) (e : Nat) :
    (evpfd_live_remove evp e).evp_free = evp.evp_free := rfl

@[simp] theorem evpfd_live_remove_evp_gen (evp : event_poll) (e : Nat) :
    (evpfd_live_remove evp e).evp_gen = evp.evp_gen := rfl

@[simp] theorem evpfd_live_remove_evp_signals (evp : event_poll) (e : Nat) :
    (evpfd_live_remove evp e).evp_signals = evp.evp_signals := rfl

@[simp] theorem getPfd_evpfd_live_remove (evp : event_poll) (e : Nat) (x : Nat) :
    getPfd (evpfd_live_remove evp e) x = getPfd evp x := rfl

@[simp] theorem evpfd_live_insert_evp_pfds (evp : event_poll) (e : Nat) :
    (evpfd_live_insert evp e).evp_pfds = evp.evp_pfds := rfl

@[simp] theorem evpfd_live_insert_evp_pfdlen (evp : event_poll) (e : Nat) :
    (evpfd_live_insert evp e).evp_pfdlen = evp.evp_pfdlen := rfl

@[simp] theorem evpfd_live_insert_evp_nfds (evp : event_poll) (e : Nat) :
    (evpfd_live_insert evp e).evp_nfds = evp.evp_nfds := rfl

@[simp] theorem evpfd_live_insert_evp_evpfds (evp : event_poll) (e : Nat) :
    (evpfd_live_insert evp e).evp_evpfds = evp.evp_evpfds := rfl

@[simp] theorem evpfd_live_insert_evp_live (evp : event_poll) (e : Nat) :
    (evpfd_live_insert evp e).evp_live = evp.evp_live ++ [e] := rfl

@[simp] theorem evpfd_live_insert_evp_free (evp : event_poll) (e : Nat) :
    (evpfd_live_insert evp e).evp_free = evp.evp_free := rfl

@[simp] theorem evpfd_live_insert_evp_gen (evp : event_poll) (e : Nat) :
    (evpfd_live_insert evp e).evp_gen = evp.evp_gen := rfl

@[simp] theorem evpfd_live_insert_evp_signals (evp : event_poll) (e : Nat) :
    (evpfd_live_insert evp e).evp_signals = evp.evp_signals := rfl

@[simp] theorem getPfd_evpfd_live_insert (evp : event_poll) (e : Nat) (x : Nat) :
    getPfd (evpfd_live_insert evp e) x = getPfd evp x := rfl

@[simp] theorem evpfd_free_insert_evp_pfds (evp : event_poll) (e : Nat) :
    (evpfd_free_insert evp e).evp_pfds = evp.evp_pfds := rfl

@[simp] theorem evpfd_free_insert_evp_pfdlen (evp : event_poll) (e : Nat) :
    (evpfd_free_insert evp e).evp_pfdlen = evp.evp_pfdlen := rfl

@[simp] theorem evpfd_free_insert_evp_nfds (evp : event_poll) (e : Nat) :
    (evpfd_free_insert evp e).evp_nfds = evp.evp_nfds := rfl

@[simp] theorem evpfd_free_insert_evp_evpfds (evp : event_poll) (e : Nat) :
    (evpfd_free_insert evp e).evp_evpfds = evp.evp_evpfds := rfl

@[simp] theorem evpfd_free_insert_evp_live (evp : event_poll) (e : Nat) :
    (evpfd_free_insert evp e).evp_live = evp.evp_live := rfl

@[simp] theorem evpfd_free_insert_evp_free (evp : event_poll) (e : Nat) :
    (evpfd_free_insert evp e).evp_free = evp.evp_free ++ [e] := rfl

@[simp] theorem evpfd_free_insert_evp_gen (evp : event_poll) (e : Nat) :
    (evpfd_free_insert evp e).evp_gen = evp.evp_gen := rfl

@[simp] theorem evpfd_free_insert_evp_signals (evp : event_poll) (e : Nat) :
    (evpfd_free_insert evp e).evp_signals = evp.evp_signals := rfl

@[simp] theorem getPfd_evpfd_free_insert (evp : event_poll) (e : Nat) (x : Nat) :
    getPfd (evpfd_free_insert evp e) x = getPfd evp x := rfl

/-! ## The slots of the POLL poller -/

theorem getPfd_setPfd (evp : event_poll) (i j : Nat) (e : event_pfd) :
    getPfd (setPfd evp i e) j =
      if j = i ∧ i < evp.evp_evpfds.length then e else getPfd evp j := by
  unfold getPfd setPfd
  simp only [List.getD_eq_getElem?_getD, List.getElem?_set]
  by_cases h : i = j
  · subst h
    by_cases h2 : i < evp.evp_evpfds.length
    · simp [h2]
    · simp [h2, List.getElem?_eq_none (Nat.le_of_not_lt h2)]
  · have : ¬ j = i := fun h3 => h h3.symm
    simp [h, this]

theorem getD_reallocarray (l : List event_pfd) (n i : Nat) (d : event_pfd)
    (h1 : i < l.length) (h2 : i < n) : (reallocarray l n d).getD i default = l.getD i default := by
  unfold reallocarray
  simp only [List.getD_eq_getElem?_getD]
  rw [List.getElem?_append_left (by simp [h1, h2]), List.getElem?_take_of_lt h2]

theorem length_reallocarray {α : Type} (l : List α) (n : Nat) (d : α) :
    (reallocarray l n d).length = n := by
  unfold reallocarray
  simp only [List.length_append, List.length_take, List.length_replicate]
  omega

theorem nodup_length_le {l : List Nat} {n : Nat} (h : l.Nodup) (hs : ∀ x ∈ l, x < n) :
    l.length ≤ n := by
  have := (List.subperm_of_subset h (fun x hx => List.mem_range.2 (hs x hx))).length_le
  simpa using this

theorem length_ge_of_range {l : List Nat} {n : Nat} (hs : ∀ x, x < n → x ∈ l) :
    n ≤ l.length := by
  have := (List.subperm_of_subset (List.nodup_range n)
    (fun x hx => hs x (List.mem_range.1 hx))).length_le
  simpa using this

theorem event_pfd_free_cmp_le (a b : event_pfd) :
    event_pfd_free_cmp a b ≤ 0 ↔ a.evpfd_idx ≤ b.evpfd_idx := by
  unfold event_pfd_free_cmp
  split_ifs <;> constructor <;> intro h <;> first | omega | (exfalso; omega) | (revert h; decide)

theorem event_pfd_free_cmp_lt (a b : event_pfd) :
    event_pfd_free_cmp a b < 0 ↔ a.evpfd_idx < b.evpfd_idx := by
  unfold event_pfd_free_cmp
  split_ifs <;> constructor <;> intro h <;> first | omega | (exfalso; omega) | (revert h; decide)

theorem event_pfd_live_cmp_le (a b : event_pfd) :
    event_pfd_live_cmp a b ≤ 0 ↔ b.evpfd_idx ≤ a.evpfd_idx := by
  unfold event_pfd_live_cmp
  split_ifs <;> constructor <;> intro h <;> first | omega | (exfalso; omega) | (revert h; decide)

theorem event_pfd_live_cmp_lt (a b : event_pfd) :
    event_pfd_live_cmp a b < 0 ↔ b.evpfd_idx < a.evpfd_idx := by
  unfold event_pfd_live_cmp
  split_ifs <;> constructor <;> intro h <;> first | omega | (exfalso; omega) | (revert h; decide)

/-- The first member of the free heap is its lowest index. -/
theorem evpfd_free_first_min (evp : event_poll) (f : Nat) (h : evpfd_free_first evp = some f) :
    f ∈ evp.evp_free ∧
      ∀ y ∈ evp.evp_free, (getPfd evp f).evpfd_idx ≤ (getPfd evp y).evpfd_idx := by
  unfold evpfd_free_first at h
  refine ⟨HEAP_FIRST_mem _ _ _ h, fun y hy => ?_⟩
  have := HEAP_FIRST_min (fun a b => event_pfd_free_cmp (getPfd evp a) (getPfd evp b))
    (fun a b hab => by
      simp only [event_pfd_free_cmp_lt, event_pfd_free_cmp_le] at hab ⊢
      omega)
    (fun a b c hab hbc => by
      simp only [event_pfd_free_cmp_le] at hab hbc ⊢
      omega)
    (fun a => by simp only [event_pfd_free_cmp_le]; exact Nat.le_refl _) _ _ h y hy
  simpa only [event_pfd_free_cmp_le] using this

/-- The first member of the live heap is its highest index. -/
theorem evpfd_live_first_max (evp : event_poll) (l : Nat) (h : evpfd_live_first evp = some l) :
    l ∈ evp.evp_live ∧
      ∀ x ∈ evp.evp_live, (getPfd evp x).evpfd_idx ≤ (getPfd evp l).evpfd_idx := by
  unfold evpfd_live_first at h
  refine ⟨HEAP_FIRST_mem _ _ _ h, fun y hy => ?_⟩
  have := HEAP_FIRST_min (fun a b => event_pfd_live_cmp (getPfd evp a) (getPfd evp b))
    (fun a b hab => by
      simp only [event_pfd_live_cmp_lt, event_pfd_live_cmp_le] at hab ⊢
      omega)
    (fun a b c hab hbc => by
      simp only [event_pfd_live_cmp_le] at hab hbc ⊢
      omega)
    (fun a => by simp only [event_pfd_live_cmp_le]; exact Nat.le_refl _) _ _ h y hy
  simpa only [event_pfd_live_cmp_le] using this

theorem poll_inv_lt {evp : event_poll} (h : poll_inv evp) {i : Nat}
    (hi : i ∈ evp.evp_live ∨ i ∈ evp.evp_free) : i < evp.evp_pfdlen := (h.cover i).2 hi

theorem poll_inv_idx {evp : event_poll} (h : poll_inv evp) {i : Nat}
    (hi : i ∈ evp.evp_live ∨ i ∈ evp.evp_free) : (getPfd evp i).evpfd_idx = i :=
  h.idx i (poll_inv_lt h hi)

theorem poll_inv_nfds_le {evp : event_poll} (h : poll_inv evp) :
    evp.evp_nfds ≤ evp.evp_pfdlen := by
  rw [h.nfds]
  exact nodup_length_le h.live (fun x hx => poll_inv_lt h (Or.inl hx))

theorem poll_inv_init : poll_inv event_poll_init := by
  refine ⟨?_, ?_, ?_, ?_, ?_, ?_, ?_, ?_⟩ <;> simp [event_poll_init]

theorem poll_inv_reuse {evp evp1 : event_poll} (h : poll_inv evp) (f : Nat)
    (hf : f ∈ evp.evp_free)
    (hlive : evp1.evp_live = evp.evp_live ++ [f]) (hfree : evp1.evp_free = evp.evp_free.erase f)
    (hnfds : evp1.evp_nfds = evp.evp_nfds + 1) (hpfdlen : evp1.evp_pfdlen = evp.evp_pfdlen)
    (hidx : ∀ i, i < evp1.evp_pfdlen → (getPfd evp1 i).evpfd_idx = i)
    (hlen : evp1.evp_pfdlen ≤ evp1.evp_evpfds.length)
    (hown : ∀ i ∈ evp1.evp_live, (getPfd evp1 i).evpfd_ev ≠ none) : poll_inv evp1 := by
  have hfl : f ∉ evp.evp_live := fun hm => h.disj f hm hf
  refine ⟨?_, ?_, ?_, ?_, ?_, hidx, hlen, hown⟩
  · rw [hlive]
    exact List.Nodup.append h.live (List.nodup_singleton f) (by simpa using hfl)
  · rw [hfree]
    exact h.free.erase f
  · intro i hi
    rw [hlive] at hi
    rw [hfree]
    rcases List.mem_append.1 hi with hi | hi
    · exact fun hm => h.disj i hi (List.mem_of_mem_erase hm)
    · have : i = f := by simpa using hi
      rw [this]
      exact fun hm => (h.free.mem_erase_iff.1 hm).1 rfl
  · intro i
    rw [hpfdlen, hlive, hfree, h.cover i]
    by_cases hif : i = f
    · subst hif
      simp [hf]
    · simp [hif, List.mem_erase_of_ne hif]
  · rw [hnfds, hlive, h.nfds]
    simp

theorem poll_inv_alloc {evp evp1 : event_poll} (h : poll_inv evp)
    (hfull : evp.evp_nfds + 1 > evp.evp_pfdlen)
    (hlive : evp1.evp_live = evp.evp_live ++ [evp.evp_nfds]) (hfree : evp1.evp_free = evp.evp_free)
    (hnfds : evp1.evp_nfds = evp.evp_nfds + 1) (hpfdlen : evp1.evp_pfdlen = evp.evp_nfds + 1)
    (hidx : ∀ i, i < evp1.evp_pfdlen → (getPfd evp1 i).evpfd_idx = i)
    (hlen : evp1.evp_pfdlen ≤ evp1.evp_evpfds.length)
    (hown : ∀ i ∈ evp1.evp_live, (getPfd evp1 i).evpfd_ev ≠ none) : poll_inv evp1 := by
  have hn : evp.evp_nfds = evp.evp_pfdlen := by
    have := poll_inv_nfds_le h
    omega
  have hnl : evp.evp_nfds ∉ evp.evp_live := fun hm => by
    have := poll_inv_lt h (Or.inl hm)
    omega
  have hnf : evp.evp_nfds ∉ evp.evp_free := fun hm => by
    have := poll_inv_lt h (Or.inr hm)
    omega
  refine ⟨?_, ?_, ?_, ?_, ?_, hidx, hlen, hown⟩
  · rw [hlive]
    exact List.Nodup.append h.live (List.nodup_singleton _) (by simpa using hnl)
  · rw [hfree]
    exact h.free
  · intro i hi
    rw [hlive] at hi
    rw [hfree]
    rcases List.mem_append.1 hi with hi | hi
    · exact h.disj i hi
    · have : i = evp.evp_nfds := by simpa using hi
      rw [this]
      exact hnf
  · intro i
    rw [hpfdlen, hlive, hfree]
    have := h.cover i
    simp only [List.mem_append, List.mem_singleton]
    constructor
    · intro hi
      by_cases hi2 : i = evp.evp_nfds
      · exact Or.inl (Or.inr hi2)
      · rcases this.1 (by omega) with h1 | h1
        · exact Or.inl (Or.inl h1)
        · exact Or.inr h1
    · rintro ((h1 | h1) | h1)
      · have := this.2 (Or.inl h1)
        omega
      · omega
      · have := this.2 (Or.inr h1)
        omega
  · rw [hnfds, hlive, h.nfds]
    simp

theorem poll_inv_del {evp evp1 : event_poll} (h : poll_inv evp) (c : Nat)
    (hc : c ∈ evp.evp_live)
    (hlive : evp1.evp_live = evp.evp_live.erase c) (hfree : evp1.evp_free = evp.evp_free ++ [c])
    (hnfds : evp1.evp_nfds = evp.evp_nfds - 1) (hpfdlen : evp1.evp_pfdlen = evp.evp_pfdlen)
    (hidx : ∀ i, i < evp1.evp_pfdlen → (getPfd evp1 i).evpfd_idx = i)
    (hlen : evp1.evp_pfdlen ≤ evp1.evp_evpfds.length)
    (hown : ∀ i ∈ evp1.evp_live, (getPfd evp1 i).evpfd_ev ≠ none) : poll_inv evp1 := by
  have hcf : c ∉ evp.evp_free := h.disj c hc
  refine ⟨?_, ?_, ?_, ?_, ?_, hidx, hlen, hown⟩
  · rw [hlive]
    exact h.live.erase c
  · rw [hfree]
    exact List.Nodup.append h.free (List.nodup_singleton c) (by simpa using hcf)
  · intro i hi
    rw [hlive] at hi
    rw [hfree]
    have hi2 := h.live.mem_erase_iff.1 hi
    simp only [List.mem_append, List.mem_singleton, not_or]
    exact ⟨h.disj i hi2.2, hi2.1⟩
  · intro i
    rw [hpfdlen, hlive, hfree, h.cover i]
    by_cases hic : i = c
    · subst hic
      simp [hc]
    · simp [hic, List.mem_erase_of_ne hic]
  · rw [hnfds, hlive, h.nfds, List.length_erase_of_mem hc]

theorem poll_inv_swap {evp evp1 : event_poll} (h : poll_inv evp) (l f : Nat)
    (hl : l ∈ evp.evp_live) (hf : f ∈ evp.evp_free)
    (hlive : evp1.evp_live = evp.evp_live.erase l ++ [f])
    (hfree : evp1.evp_free = evp.evp_free.erase f ++ [l])
    (hnfds : evp1.evp_nfds = evp.evp_nfds) (hpfdlen : evp1.evp_pfdlen = evp.evp_pfdlen)
    (hidx : ∀ i, i < evp1.evp_pfdlen → (getPfd evp1 i).evpfd_idx = i)
    (hlen : evp1.evp_pfdlen ≤ evp1.evp_evpfds.length)
    (hown : ∀ i ∈ evp1.evp_live, (getPfd evp1 i).evpfd_ev ≠ none) : poll_inv evp1 := by
  have hlf : l ∉ evp.evp_free := h.disj l hl
  have hfl : f ∉ evp.evp_live := fun hm => h.disj f hm hf
  have hne : l ≠ f := fun e => hlf (e ▸ hf)
  refine ⟨?_, ?_, ?_, ?_, ?_, hidx, hlen, hown⟩
  · rw [hlive]
    exact List.Nodup.append (h.live.erase l) (List.nodup_singleton f)
      (by simpa using fun hm => hfl (List.mem_of_mem_erase hm))
  · rw [hfree]
    exact List.Nodup.append (h.free.erase f) (List.nodup_singleton l)
      (by simpa using fun hm => hlf (List.mem_of_mem_erase hm))
  · intro i hi
    rw [hlive] at hi
    rw [hfree]
    simp only [List.mem_append, List.mem_singleton, not_or]
    rcases List.mem_append.1 hi with hi | hi
    · have hi2 := h.live.mem_erase_iff.1 hi
      exact ⟨fun hm => h.disj i hi2.2 (List.mem_of_mem_erase hm), hi2.1⟩
    · have : i = f := by simpa using hi
      rw [this]
      exact ⟨fun hm => (h.free.mem_erase_iff.1 hm).1 rfl, fun e => hne e.symm⟩
  · intro i
    rw [hpfdlen, hlive, hfree, h.cover i]
    simp only [List.mem_append, List.mem_singleton]
    by_cases hil : i = l
    · subst hil
      simp [hl]
    · by_cases hif : i = f
      · subst hif
        simp [hf]
      · simp [hil, hif, List.mem_erase_of_ne hil, List.mem_erase_of_ne hif]
  · rw [hnfds, hlive, h.nfds, List.length_append, List.length_erase_of_mem hl]
    have := List.length_pos_of_mem hl
    simp
    omega

theorem poll_inv_event_del (evp : event_poll) (s : event_base) (ev c : Nat)
    (hck : (getEv s ev).ev_cookie = some c) (hc : c ∈ evp.evp_live) (h : poll_inv evp) :
    ∃ evp1 s1, event_poll_event_del evp s ev = some (0, evp1, s1) ∧ poll_inv evp1 := by
  unfold event_poll_event_del
  rw [hck]
  refine ⟨_, _, rfl, ?_⟩
  have hcl := poll_inv_lt h (Or.inl hc)
  refine poll_inv_del h c hc ?_ ?_ ?_ ?_ ?_ ?_ ?_
  · simp [HEAP_REMOVE]
  · simp [HEAP_INSERT]
  · simp
  · simp
  · intro i hi
    simp only [getPfd_evp_set_nfds, getPfd_evpfd_free_insert, getPfd_setPfd,
      getPfd_evpfd_live_remove]
    split
    · next hic =>
      rw [hic.1]
      exact h.idx c hcl
    · exact h.idx i (by simpa using hi)
  · simpa using h.len
  · intro i hi
    have hi2 := h.live.mem_erase_iff.1 (by simpa [HEAP_REMOVE] using hi)
    simp only [getPfd_evp_set_nfds, getPfd_evpfd_free_insert, getPfd_setPfd,
      getPfd_evpfd_live_remove]
    split
    · next hic => exact absurd hic.1 hi2.1
    · exact h.owner i hi2.2

/-- The part of `event_poll_event_add` that follows the choice of the
descriptor keeps the invariant when it is given a descriptor outside the live
heap, already out of the free heap. -/
theorem poll_inv_realloc (evp : event_poll) (n : Nat) (hn : evp.evp_pfdlen < n)
    (h : poll_inv evp) : poll_inv (evp_realloc_evpfds evp n) := by
  refine ⟨h.live, h.free, h.disj, h.cover, h.nfds, ?_, ?_, ?_⟩
  · intro i hi
    have hi' : i < evp.evp_pfdlen := hi
    show ((reallocarray evp.evp_evpfds n default).getD i default).evpfd_idx = i
    rw [getD_reallocarray _ _ _ _ (Nat.lt_of_lt_of_le hi' h.len) (by omega)]
    exact h.idx i hi'
  · show evp.evp_pfdlen ≤ (reallocarray evp.evp_evpfds n default).length
    rw [length_reallocarray]
    omega
  · intro i hi
    have hi' : i ∈ evp.evp_live := hi
    have hlt := poll_inv_lt h (Or.inl hi')
    show ((reallocarray evp.evp_evpfds n default).getD i default).evpfd_ev ≠ none
    rw [getD_reallocarray _ _ _ _ (Nat.lt_of_lt_of_le hlt h.len) (by omega)]
    exact h.owner i hi'

theorem evpfd_free_extract_some {evp evp1 : event_poll} {f : Nat}
    (h : evpfd_free_extract evp = (some f, evp1)) :
    evpfd_free_first evp = some f ∧ evp1 = evp_set_free evp (evp.evp_free.erase f) := by
  unfold evpfd_free_extract HEAP_EXTRACT at h
  unfold evpfd_free_first
  cases hr : HEAP_FIRST (fun a b => event_pfd_free_cmp (getPfd evp a) (getPfd evp b))
      evp.evp_free with
  | none => rw [hr] at h; simp at h
  | some n =>
    rw [hr] at h
    simp only [Prod.mk.injEq, Option.some.injEq] at h
    obtain ⟨h1, h2⟩ := h
    subst h1
    exact ⟨rfl, h2.symm⟩

theorem poll_inv_event_add (evp : event_poll) (s : event_base) (ev : Nat) (a1 a2 a3 : Bool)
    (h : poll_inv evp) :
    ∃ rv evp1 s1, event_poll_event_add evp s ev a1 a2 a3 = some (rv, evp1, s1) ∧
      poll_inv evp1 := by
  unfold event_poll_event_add
  simp only []
  by_cases hfull : evp.evp_nfds + 1 > evp.evp_pfdlen
  · rw [if_pos hfull]
    have hn : evp.evp_nfds = evp.evp_pfdlen := by
      have := poll_inv_nfds_le h
      omega
    have hre := poll_inv_realloc evp (evp.evp_nfds + 1) (by omega) h
    cases a1
    · exact ⟨_, _, _, rfl, h⟩
    · cases a2
      · exact ⟨_, _, _, rfl, h⟩
      · cases a3
        · exact ⟨_, _, _, rfl, hre⟩
        · refine ⟨_, _, _, rfl, ?_⟩
          have hlen : evp.evp_nfds < (reallocarray evp.evp_evpfds (evp.evp_nfds + 1)
              (default : event_pfd)).length := by
            rw [length_reallocarray]
            omega
          refine poll_inv_alloc h hfull ?_ ?_ ?_ ?_ ?_ ?_ ?_
          · simp [HEAP_INSERT]
          · simp
          · simp
          · simp
          · intro i hi
            simp only [getPfd_evp_set_nfds, getPfd_evpfd_live_insert, getPfd_setPollfd,
              getPfd_setPfd, getPfd_evp_set_pfdlen, getPfd_evp_realloc_pfds, setPfd_evp_evpfds,
              evp_set_pfdlen_evp_evpfds, evp_realloc_pfds_evp_evpfds, List.length_set,
              evp_realloc_evpfds_evp_evpfds]
            by_cases hi2 : i = evp.evp_nfds
            · simp [hi2, hlen]
            · have hi3 : i < evp.evp_pfdlen := by
                have : i < evp.evp_nfds + 1 := by simpa using hi
                omega
              simp only [hi2, false_and, if_false]
              exact hre.idx i hi3
          · simp [length_reallocarray]
          · intro i hi
            simp only [getPfd_evp_set_nfds, getPfd_evpfd_live_insert, getPfd_setPollfd,
              getPfd_setPfd, getPfd_evp_set_pfdlen, getPfd_evp_realloc_pfds, setPfd_evp_evpfds,
              evp_set_pfdlen_evp_evpfds, evp_realloc_pfds_evp_evpfds, List.length_set,
              evp_realloc_evpfds_evp_evpfds]
            by_cases hi2 : i = evp.evp_nfds
            · simp [hi2, hlen]
            · have hi3 : i ∈ evp.evp_live := by
                have : i ∈ evp.evp_live ++ [evp.evp_nfds] := by simpa [HEAP_INSERT] using hi
                rcases List.mem_append.1 this with h1 | h1
                · exact h1
                · exact absurd (by simpa using h1) hi2
              simp only [hi2, false_and, if_false]
              exact hre.owner i hi3
  · rw [if_neg hfull]
    have hne : evp.evp_free ≠ [] := by
      intro hnil
      have : evp.evp_pfdlen ≤ evp.evp_live.length := length_ge_of_range (fun x hx => by
        rcases (h.cover x).1 hx with h1 | h1
        · exact h1
        · rw [hnil] at h1; simp at h1)
      rw [← h.nfds] at this
      omega
    rcases hx : evpfd_free_extract evp with ⟨_ | f, evp1⟩
    · exfalso
      unfold evpfd_free_extract HEAP_EXTRACT at hx
      cases hr : HEAP_FIRST (fun a b => event_pfd_free_cmp (getPfd evp a) (getPfd evp b))
          evp.evp_free with
      | none => exact hne (HEAP_FIRST_none _ _ hr)
      | some n => rw [hr] at hx; simp at hx
    · obtain ⟨hfirst, rfl⟩ := evpfd_free_extract_some hx
      have hf := (evpfd_free_first_min evp f hfirst).1
      have hfl := poll_inv_lt h (Or.inr hf)
      have hflen : f < evp.evp_evpfds.length := Nat.lt_of_lt_of_le hfl h.len
      refine ⟨_, _, _, rfl, ?_⟩
      refine poll_inv_reuse h f hf ?_ ?_ ?_ ?_ ?_ ?_ ?_
      · simp [HEAP_INSERT]
      · simp
      · simp
      · simp
      · intro i hi
        simp only [getPfd_evp_set_nfds, getPfd_evpfd_live_insert, getPfd_setPollfd,
          getPfd_setPfd, getPfd_evp_set_free, evp_set_free_evp_evpfds]
        by_cases hi2 : i = f
        · simp [hi2, hflen, h.idx f hfl]
        · simp only [hi2, false_and, if_false]
          exact h.idx i (by simpa using hi)
      · simpa using h.len
      · intro i hi
        simp only [getPfd_evp_set_nfds, getPfd_evpfd_live_insert, getPfd_setPollfd,
          getPfd_setPfd, getPfd_evp_set_free, evp_set_free_evp_evpfds]
        by_cases hi2 : i = f
        · simp [hi2, hflen]
        · have hi3 : i ∈ evp.evp_live := by
            have : i ∈ evp.evp_live ++ [f] := by simpa [HEAP_INSERT] using hi
            rcases List.mem_append.1 this with h1 | h1
            · exact h1
            · exact absurd (by simpa using h1) hi2
          simp only [hi2, false_and, if_false]
          exact h.owner i hi3

theorem evpfd_free_cextract_some {evp evp1 : event_poll} {l f : Nat}
    (h : evpfd_free_cextract evp l = (some f, evp1)) :
    evpfd_free_first evp = some f ∧ evp1 = evp_set_free evp (evp.evp_free.erase f) ∧
      (getPfd evp f).evpfd_idx ≤ (getPfd evp l).evpfd_idx := by
  unfold evpfd_free_cextract HEAP_CEXTRACT at h
  unfold evpfd_free_first
  cases hr : HEAP_FIRST (fun a b => event_pfd_free_cmp (getPfd evp a) (getPfd evp b))
      evp.evp_free with
  | none => rw [hr] at h; simp at h
  | some n =>
    rw [hr] at h
    simp only [] at h
    split at h
    · simp at h
    · next hlt =>
      simp only [Prod.mk.injEq, Option.some.injEq] at h
      obtain ⟨h1, h2⟩ := h
      subst h1
      rw [event_pfd_free_cmp_lt] at hlt
      exact ⟨rfl, h2.symm, by omega⟩

theorem evpfd_free_cextract_none {evp evp1 : event_poll} {l : Nat}
    (h : evpfd_free_cextract evp l = (none, evp1)) :
    evp.evp_free = [] ∨ ∃ f, evpfd_free_first evp = some f ∧
      (getPfd evp l).evpfd_idx < (getPfd evp f).evpfd_idx := by
  unfold evpfd_free_cextract HEAP_CEXTRACT at h
  unfold evpfd_free_first
  cases hr : HEAP_FIRST (fun a b => event_pfd_free_cmp (getPfd evp a) (getPfd evp b))
      evp.evp_free with
  | none => exact Or.inl (HEAP_FIRST_none _ _ hr)
  | some n =>
    rw [hr] at h
    simp only [] at h
    split at h
    · next hlt =>
      rw [event_pfd_free_cmp_lt] at hlt
      exact Or.inr ⟨n, rfl, hlt⟩
    · simp at h

theorem poll_inv_pack_move (evp : event_poll) (s : event_base) (gen l f : Nat)
    (h : poll_inv evp) (hl : l ∈ evp.evp_live) (hf : f ∈ evp.evp_free) :
    ∃ evp2 s1, event_poll_pack_move (evp_set_free evp (evp.evp_free.erase f)) s gen l f =
        some (evp2, s1) ∧ poll_inv evp2 ∧ evp2.evp_live = evp.evp_live.erase l ++ [f] ∧
      evp2.evp_nfds = evp.evp_nfds ∧ evp2.evp_pfdlen = evp.evp_pfdlen := by
  have hfl := poll_inv_lt h (Or.inr hf)
  have hll := poll_inv_lt h (Or.inl hl)
  have hflen : f < evp.evp_evpfds.length := Nat.lt_of_lt_of_le hfl h.len
  have hllen : l < evp.evp_evpfds.length := Nat.lt_of_lt_of_le hll h.len
  have hne : l ≠ f := fun e => h.disj l hl (e ▸ hf)
  obtain ⟨o, ho⟩ : ∃ o, (getPfd evp l).evpfd_ev = some o :=
    Option.ne_none_iff_exists'.1 (h.owner l hl)
  unfold event_poll_pack_move
  simp only [getPfd_setPfd, getPfd_setPollfd, getPfd_evpfd_live_remove, getPfd_evp_set_free,
    setPollfd_evp_evpfds, evpfd_live_remove_evp_evpfds, evp_set_free_evp_evpfds, hflen,
    and_self, and_true, if_true, ho, hne, if_false, false_and]
  refine ⟨_, _, rfl, ?_, ?_, ?_, ?_⟩
  · refine poll_inv_swap h l f hl hf ?_ ?_ ?_ ?_ ?_ ?_ ?_
    · simp [HEAP_INSERT, HEAP_REMOVE]
    · simp [HEAP_INSERT]
    · simp
    · simp
    · intro i hi
      simp only [getPfd_evpfd_free_insert, getPfd_evpfd_live_insert, getPfd_setPfd,
        getPfd_setPollfd, getPfd_evpfd_live_remove, getPfd_evp_set_free, setPfd_evp_evpfds,
        setPollfd_evp_evpfds, evpfd_live_remove_evp_evpfds, evp_set_free_evp_evpfds,
        List.length_set]
      by_cases hi1 : i = l
      · simp [hi1, hllen, hflen, hne, h.idx l hll]
      · by_cases hi2 : i = f
        · simp [hi2, hllen, hflen, hne.symm, h.idx f hfl]
        · simp only [hi1, hi2, false_and, if_false]
          exact h.idx i (by simpa using hi)
    · simpa using h.len
    · intro i hi
      have hi' : i ∈ evp.evp_live.erase l ++ [f] := by simpa [HEAP_INSERT, HEAP_REMOVE] using hi
      simp only [getPfd_evpfd_free_insert, getPfd_evpfd_live_insert, getPfd_setPfd,
        getPfd_setPollfd, getPfd_evpfd_live_remove, getPfd_evp_set_free, setPfd_evp_evpfds,
        setPollfd_evp_evpfds, evpfd_live_remove_evp_evpfds, evp_set_free_evp_evpfds,
        List.length_set]
      rcases List.mem_append.1 hi' with h1 | h1
      · have h2 := h.live.mem_erase_iff.1 h1
        have hif : i ≠ f := fun e => h.disj i h2.2 (e ▸ hf)
        simp only [h2.1, hif, false_and, if_false]
        exact h.owner i h2.2
      · have hif : i = f := by simpa using h1
        simp [hif, hne.symm, hflen, ho]
  · simp [HEAP_INSERT, HEAP_REMOVE]
  · simp
  · simp

theorem le_sum_of_mem {l : List Nat} {x : Nat} (h : x ∈ l) : x ≤ l.sum := by
  induction l with
  | nil => simp at h
  | cons a l ih =>
    rcases List.mem_cons.1 h with rfl | h
    · simp
    · have := ih h
      simp only [List.sum_cons]
      omega

/-- The loop of `event_poll_pack` ends, with enough fuel, because its condition
fails: no live position is above a free one.  It keeps the invariant, the
number of registered events and the number of slots. -/
theorem event_poll_pack_loop_spec (gen : Nat) (fuel : Nat) :
    ∀ (evp : event_poll) (s : event_base), poll_inv evp → evp.evp_live.sum ≤ fuel →
      ∃ evp1 s1, event_poll_pack_loop gen fuel evp s = some (evp1, s1) ∧ poll_inv evp1 ∧
        evp1.evp_nfds = evp.evp_nfds ∧ evp1.evp_pfdlen = evp.evp_pfdlen ∧
        ∀ x ∈ evp1.evp_live, ∀ y ∈ evp1.evp_free, x < y := by
  induction fuel with
  | zero =>
    intro evp s h hs
    refine ⟨evp, s, rfl, h, rfl, rfl, ?_⟩
    intro x hx y hy
    have hx0 : x = 0 := by
      have := le_sum_of_mem hx
      omega
    have hne : y ≠ x := fun e => h.disj x hx (e ▸ hy)
    omega
  | succ n ih =>
    intro evp s h hs
    unfold event_poll_pack_loop
    cases hlf : evpfd_live_first evp with
    | none =>
      refine ⟨evp, s, rfl, h, rfl, rfl, ?_⟩
      intro x hx
      unfold evpfd_live_first at hlf
      rw [HEAP_FIRST_none _ _ hlf] at hx
      simp at hx
    | some l =>
      obtain ⟨hl, hmax⟩ := evpfd_live_first_max evp l hlf
      simp only []
      rcases hc : evpfd_free_cextract evp l with ⟨_ | f, evp1⟩
      · refine ⟨evp, s, rfl, h, rfl, rfl, ?_⟩
        intro x hx y hy
        rcases evpfd_free_cextract_none hc with hnil | ⟨f, hff, hlt⟩
        · rw [hnil] at hy
          simp at hy
        · obtain ⟨hf, hmin⟩ := evpfd_free_first_min evp f hff
          have h1 := hmax x hx
          have h2 := hmin y hy
          rw [poll_inv_idx h (Or.inl hx), poll_inv_idx h (Or.inl hl)] at h1
          rw [poll_inv_idx h (Or.inr hf), poll_inv_idx h (Or.inr hy)] at h2
          rw [poll_inv_idx h (Or.inl hl), poll_inv_idx h (Or.inr hf)] at hlt
          omega
      · obtain ⟨hff, rfl, hle⟩ := evpfd_free_cextract_some hc
        obtain ⟨hf, _⟩ := evpfd_free_first_min evp f hff
        rw [poll_inv_idx h (Or.inl hl), poll_inv_idx h (Or.inr hf)] at hle
        have hne : l ≠ f := fun e => h.disj l hl (e ▸ hf)
        obtain ⟨evp2, s1, hm, hinv, hlive, hnfds, hpfdlen⟩ :=
          poll_inv_pack_move evp s gen l f h hl hf
        simp only [hm]
        have hsum : evp2.evp_live.sum ≤ n := by
          rw [hlive, List.sum_append]
          have := List.sum_erase hl
          simp only [List.sum_cons, List.sum_nil]
          omega
        obtain ⟨evp3, s3, hr, hinv3, hn3, hp3, hsep⟩ := ih evp2 s1 hinv hsum
        exact ⟨evp3, s3, hr, hinv3, by rw [hn3, hnfds], by rw [hp3, hpfdlen], hsep⟩

/-- When no live position is above a free one, the live positions are the first
`evp_nfds` and the free ones the rest. -/
theorem poll_inv_packed {evp : event_poll} (h : poll_inv evp)
    (hsep : ∀ x ∈ evp.evp_live, ∀ y ∈ evp.evp_free, x < y) :
    (∀ i, i ∈ evp.evp_live ↔ i < evp.evp_nfds) ∧
      (∀ i, i ∈ evp.evp_free ↔ evp.evp_nfds ≤ i ∧ i < evp.evp_pfdlen) := by
  have hle := poll_inv_nfds_le h
  have hlive : ∀ i, i ∈ evp.evp_live ↔ i < evp.evp_nfds := by
    intro i
    constructor
    · intro hi
      by_contra hge
      have : i + 1 ≤ evp.evp_live.length := length_ge_of_range (fun j hj => by
        have hjl : j < evp.evp_pfdlen := by
          have := poll_inv_lt h (Or.inl hi)
          omega
        rcases (h.cover j).1 hjl with h1 | h1
        · exact h1
        · have := hsep i hi j h1
          omega)
      rw [← h.nfds] at this
      omega
    · intro hi
      by_contra hni
      rcases (h.cover i).1 (by omega) with h1 | h1
      · exact hni h1
      · have : evp.evp_live.length ≤ i := nodup_length_le h.live (fun x hx => hsep x hx i h1)
        rw [← h.nfds] at this
        omega
  refine ⟨hlive, fun i => ⟨fun hi => ⟨?_, poll_inv_lt h (Or.inr hi)⟩, fun hi => ?_⟩⟩
  · by_contra hlt
    exact h.disj i ((hlive i).2 (by omega)) hi
  · rcases (h.cover i).1 hi.2 with h1 | h1
    · have := (hlive i).1 h1
      omega
    · exact h1

theorem poll_reachable_inv {p : event_poll × event_base} (h : poll_reachable p) :
    poll_inv p.1 := by
  induction h with
  | init s => exact poll_inv_init
  | base _ _ ih => exact ih
  | @step p p1 st _ hv hr ih =>
    cases st with
    | add ev a1 a2 a3 =>
      obtain ⟨rv, evp1, s1, he, hi⟩ := poll_inv_event_add p.1 p.2 ev a1 a2 a3 ih
      simp only [poll_step.run, he, Option.map_some', Option.some.injEq] at hr
      rw [← hr]
      exact hi
    | del ev =>
      simp only [poll_step.valid] at hv
      cases hck : (getEv p.2 ev).ev_cookie with
      | none => rw [hck] at hv; simp at hv
      | some c =>
        rw [hck] at hv
        have hc : c ∈ p.1.evp_live := by simpa using hv
        obtain ⟨evp1, s1, he, hi⟩ := poll_inv_event_del p.1 p.2 ev c hck hc ih
        simp only [poll_step.run, he, Option.map_some', Option.some.injEq] at hr
        rw [← hr]
        exact hi
    | pack =>
      obtain ⟨evp1, s1, he, hi, _⟩ :=
        event_poll_pack_loop_spec p.1.evp_gen _ p.1 p.2 ih (Nat.le_refl _)
      simp only [poll_step.run, event_poll_pack, he, Option.some.injEq] at hr
      rw [← hr]
      exact hi

theorem poll_reachable_run (l : List poll_step) :
    ∀ p p1 : event_poll × event_base, poll_reachable p → poll_steps_valid p l = true →
      poll_run p l = some p1 → poll_reachable p1 := by
  induction l with
  | nil =>
    intro p p1 h _ hr
    simp only [poll_run, Option.some.injEq] at hr
    rw [← hr]
    exact h
  | cons st l ih =>
    intro p p1 h hv hr
    simp only [poll_steps_valid, Bool.and_eq_true] at hv
    unfold poll_run at hr
    cases hs : st.run p with
    | none => rw [hs] at hr; simp at hr
    | some p2 =>
      rw [hs] at hr hv
      exact ih p2 p1 (poll_reachable.step st h hv.1 hs) hv.2 hr

/-- C12: in every state of the POLL poller reached by its slot operations, the
live heap and the free heap have no index in common and together hold
exactly the indices below `evp_pfdlen`; `event_poll_pack`, which
`event_poll_dispatch` runs before it calls `ppoll`, returns and leaves `evp_nfds` and
`evp_pfdlen` as they are, the live indices being exactly those below `evp_nfds`
and the free ones exactly the other indices below `evp_pfdlen`. -/
theorem poll_slots_partition (p : event_poll × event_base) (h : poll_reachable p) :
    (∀ i ∈ p.1.evp_live, i ∉ p.1.evp_free) ∧
    (∀ i, i < p.1.evp_pfdlen ↔ i ∈ p.1.evp_live ∨ i ∈ p.1.evp_free) ∧
    ∃ p1, event_poll_pack p.1 p.2 = some p1 ∧ p1.1.evp_nfds = p.1.evp_nfds ∧
      p1.1.evp_pfdlen = p.1.evp_pfdlen ∧
      (∀ i, i ∈ p1.1.evp_live ↔ i < p1.1.evp_nfds) ∧
      (∀ i, i ∈ p1.1.evp_free ↔ p1.1.evp_nfds ≤ i ∧ i < p1.1.evp_pfdlen) := by
  have hi := poll_reachable_inv h
  refine ⟨hi.disj, hi.cover, ?_⟩
  obtain ⟨evp1, s1, he, hi1, hn, hp, hsep⟩ :=
    event_poll_pack_loop_spec p.1.evp_gen _ p.1 p.2 hi (Nat.le_refl _)
  exact ⟨(evp1, s1), he, hn, hp, poll_inv_packed hi1 hsep⟩

theorem poll_reachable_ex_poll : poll_reachable ex_poll :=
  poll_reachable_run ex_poll_steps (event_poll_init, event_init ex_mem5) ex_poll
    (poll_reachable.init _) (by decide) rfl

/-- Witness of `poll_slots_partition`: four events are added, the middle two are
deleted and one more is added; the live slots are then 0, 3 and 1, and after
`event_poll_pack` `evp_nfds` is 3 and the live slots are 0, 1 and 2. -/
theorem poll_slots_partition_witness :
    ex_poll.1.evp_live = [0, 3, 1] ∧ ex_poll.1.evp_free = [2] ∧
    (event_poll_pack ex_poll.1 ex_poll.2).map
      (fun p => (p.1.evp_nfds, p.1.evp_pfdlen, p.1.evp_live, p.1.evp_free)) =
      some (3, 4, [0, 1, 2], [3]) ∧
    ((∀ i ∈ ex_poll.1.evp_live, i ∉ ex_poll.1.evp_free) ∧
    (∀ i, i < ex_poll.1.evp_pfdlen ↔ i ∈ ex_poll.1.evp_live ∨ i ∈ ex_poll.1.evp_free) ∧
    ∃ p1, event_poll_pack ex_poll.1 ex_poll.2 = some p1 ∧ p1.1.evp_nfds = ex_poll.1.evp_nfds ∧
      p1.1.evp_pfdlen = ex_poll.1.evp_pfdlen ∧
      (∀ i, i ∈ p1.1.evp_live ↔ i < p1.1.evp_nfds) ∧
      (∀ i, i ∈ p1.1.evp_free ↔ p1.1.evp_nfds ≤ i ∧ i < p1.1.evp_pfdlen)) :=
  ⟨by decide, by decide, by decide, poll_slots_partition ex_poll poll_reachable_ex_poll⟩

/-- C15: when `event_add` calls the poller's `evo_event_add` (the event is not on
the list and the clock read, if any, succeeds) and the call returns a value
that is not zero, `event_add` returns that value and the state is the one
before, but for the record of the call; the same holds of `signal_add` and
`evo_signal_add` (called when the list of the signal is empty).  So the flags of
every event, the lists, the heap, the fire queue and the counters are
unchanged.  When `event_poll_event_add` needs a new slot and an allocation fails,
it returns -1 and leaves `evp_nfds`, `evp_pfdlen`, the live heap, the free heap and
the event objects unchanged. -/
theorem add_failure_leaves_state (s : event_base) (ev : Nat) (tv : Option timeval)
    (now : Option timespec) (oprv rv0 : Int) (evp : event_poll) (a1 a2 a3 : Bool)
    (hrv : oprv ≠ 0) (h0 : ISSET (getEv s ev).ev_event EV_ON_LIST = 0)
    (hclk : tv ≠ none → now ≠ none) :
    event_add s ev tv now oprv rv0 = (oprv, event_op s (.event_add ev) oprv) ∧
    (s.evb_signals (sigOf s ev) = [] →
      signal_add s ev tv now oprv = (oprv, event_op s (.signal_add (getEv s ev).ev_ident) oprv)) ∧
    (∀ c x, getEv (event_op s c oprv) x = getEv s x ∧
      (event_op s c oprv).evb_list = s.evb_list ∧
      (event_op s c oprv).evb_signals = s.evb_signals ∧
      (event_op s c oprv).evb_heap = s.evb_heap ∧
      (event_op s c oprv).evb_fire = s.evb_fire ∧
      (event_op s c oprv).evb_list_len = s.evb_list_len ∧
      (event_op s c oprv).evb_nevents = s.evb_nevents) ∧
    (evp.evp_nfds + 1 > evp.evp_pfdlen → (a1 && a2 && a3) = false →
      ∃ evp1, event_poll_event_add evp s ev a1 a2 a3 = some (-1, evp1, s) ∧
        evp1.evp_nfds = evp.evp_nfds ∧ evp1.evp_pfdlen = evp.evp_pfdlen ∧
        evp1.evp_live = evp.evp_live ∧ evp1.evp_free = evp.evp_free) := by
  have hne : ¬ ISSET (getEv s ev).ev_event (EV_ON_LIST ||| EV_ON_HEAP) = EV_ON_LIST :=
    ISSET_list_heap_ne _ h0
  refine ⟨?_, ?_, fun c x => ⟨rfl, rfl, rfl, rfl, rfl, rfl, rfl⟩, ?_⟩
  · unfold event_add event_deadline
    rcases tv with _ | t <;> rcases now with _ | n <;>
      simp only [h0, hne, hrv, if_true, if_false, ne_eq, not_false_eq_true]
    exact absurd rfl (hclk (by simp))
  · intro h4
    unfold signal_add event_deadline
    rcases tv with _ | t <;> rcases now with _ | n <;>
      simp only [h0, hne, hrv, h4, if_true, if_false, ne_eq, not_false_eq_true]
    exact absurd rfl (hclk (by simp))
  · intro hfull ha
    unfold event_poll_event_add
    simp only [hfull, if_true]
    cases a1
    · exact ⟨evp, rfl, rfl, rfl, rfl, rfl⟩
    · cases a2
      · exact ⟨evp, rfl, rfl, rfl, rfl, rfl⟩
      · cases a3
        · exact ⟨_, rfl, rfl, rfl, rfl, rfl⟩
        · simp at ha

/-- Witness of `add_failure_leaves_state`: the first event of `ex_mem`, fresh after
`event_set`, is added with a timeout while the poller refuses; for the POLL
poller the second `reallocarray` fails. -/
theorem add_failure_leaves_state_witness :
    event_add (event_set (event_init ex_mem) 0 3 EV_READ 7 42) 0 (some ⟨1, 0⟩) (some ⟨100, 0⟩)
        (-1) 0 =
      (-1, event_op (event_set (event_init ex_mem) 0 3 EV_READ 7 42) (.event_add 0) (-1)) ∧
    ∃ evp1, event_poll_event_add event_poll_init (event_set (event_init ex_mem) 0 3 EV_READ 7 42)
        0 true true false = some (-1, evp1, event_set (event_init ex_mem) 0 3 EV_READ 7 42) ∧
      evp1.evp_nfds = 0 ∧ evp1.evp_pfdlen = 0 ∧ evp1.evp_live = [] ∧ evp1.evp_free = [] :=
  ⟨(add_failure_leaves_state (event_set (event_init ex_mem) 0 3 EV_READ 7 42) 0 (some ⟨1, 0⟩)
      (some ⟨100, 0⟩) (-1) 0 event_poll_init true true false (by decide) (by decide)
      (by simp)).1,
    (add_failure_leaves_state (event_set (event_init ex_mem) 0 3 EV_READ 7 42) 0 (some ⟨1, 0⟩)
      (some ⟨100, 0⟩) (-1) 0 event_poll_init true true false (by decide) (by decide)
      (by simp)).2.2.2 (by decide) (by decide)⟩

/-- C19 (code defect): `event_poll_signals_create` leaves `evs_handlers` with the
indeterminate content of the storage `malloc` returned, and
`event_poll_signals_destroy` installs every entry of it that is not `SIG_ERR`.  In a
process that has the handler at address 77 for signal 2, registering signal
30 creates the plumbing (and registers the event of the self-pipe);
unregistering it, the last registered signal, tears the plumbing down, puts
signal 30 back to its earlier default and, the storage having held zeroes,
sets signal 2, which was never registered, to `SIG_DFL`: the handler 77 is
lost. -/
theorem signals_destroy_installs_indeterminate_handlers :
    ((event_poll_signal_add ex_poll_base 30 (some ex_storage) (some (5, 6)) true true true).map
      (fun r => (r.1, r.2.evp.evp_signals.isSome, r.2.sigdisp 30, r.2.sigdisp 2))) =
      some (0, true, event_poll_signal_fn, 77) ∧
    ((event_poll_signal_add ex_poll_base 30 (some ex_storage) (some (5, 6)) true true true).map
      (fun r => (r.2.evb.evb_list, r.2.evb.evb_nevents, r.2.evp.evp_nfds))) =
      some ([2], 1, 1) ∧
    (ex_signal_add_del.map
      (fun r => (r.1, r.2.evp.evp_signals.isSome, r.2.sigdisp 30))) =
      some (0, false, SIG_DFL) ∧
    (ex_signal_add_del.map
      (fun r => (r.2.evb.evb_list, r.2.evb.evb_nevents, r.2.evp.evp_nfds))) = some ([], 0, 0) ∧
    ex_poll_base.sigdisp 30 = SIG_DFL ∧
    ex_poll_base.sigdisp 2 = 77 ∧
    (ex_signal_add_del.map (fun r => r.2.sigdisp 2)) = some SIG_DFL := by
  refine ⟨by decide, by decide, by decide, by decide, by decide, by decide, by decide⟩

theorem ISSET_SET_ISSET (flags w p : Nat) (h : ISSET flags p = 0) :
    ISSET (SET flags (ISSET w p)) p = ISSET w p := by
  unfold ISSET SET at *
  rw [Nat.and_distrib_right, h, Nat.and_assoc, Nat.and_self, Nat.zero_or]

theorem ISSET_SET_self_ne_zero (flags p : Nat) (hp : p ≠ 0) : ISSET (SET flags p) p ≠ 0 := by
  unfold ISSET SET
  rw [Nat.and_distrib_right, Nat.and_self]
  intro h
  apply hp
  apply Nat.eq_of_testBit_eq
  intro i
  have := congrArg (fun n => n.testBit i) h
  simp only [Nat.testBit_or, Nat.zero_testBit, Bool.or_eq_false_iff] at this
  simpa using this.2

/-- C26: for every flag word of an event, every change `event_kq_event_add` emits
carries the one-shot bit exactly when `EV_PERSIST` is clear and the event is not
registered for both `EV_READ` and `EV_WRITE`; and `event_kq_fire_event`, called as
`event_kq_dispatch` calls it (with `flags` not holding `EV_PERSIST`), passes
`EV_PERSIST` to `event_fire_event` exactly when that bit is not set. -/
theorem kq_oneshot_iff_not_persist (s : event_base) (ev flags : Nat)
    (hf : ISSET flags EV_PERSIST = 0) :
    (∀ k ∈ event_kq_event_add_changes s ev,
      (ISSET k.flags EV_ONESHOT ≠ 0 ↔
        ISSET (getEv s ev).ev_event EV_PERSIST = 0 ∧
          ISSET (getEv s ev).ev_event (EV_READ ||| EV_WRITE) ≠ (EV_READ ||| EV_WRITE)) ∧
      k.flags = event_kq_event_add_flags (getEv s ev).ev_event) ∧
    (ISSET (event_kq_event_add_flags (getEv s ev).ev_event) EV_ONESHOT ≠ 0 ↔
      ISSET (getEv s ev).ev_event EV_PERSIST = 0 ∧
        ISSET (getEv s ev).ev_event (EV_READ ||| EV_WRITE) ≠ (EV_READ ||| EV_WRITE)) ∧
    (ISSET (event_kq_fire_event_flags flags (getEv s ev).ev_event) EV_PERSIST ≠ 0 ↔
      ISSET (event_kq_event_add_flags (getEv s ev).ev_event) EV_ONESHOT = 0) ∧
    event_kq_fire_event s flags ev 0 =
      event_fire_event s ev (event_kq_fire_event_flags flags (getEv s ev).ev_event) 0 := by
  have key : ISSET (event_kq_event_add_flags (getEv s ev).ev_event) EV_ONESHOT ≠ 0 ↔
      ISSET (getEv s ev).ev_event EV_PERSIST = 0 ∧
        ISSET (getEv s ev).ev_event (EV_READ ||| EV_WRITE) ≠ (EV_READ ||| EV_WRITE) := by
    unfold event_kq_event_add_flags
    by_cases h1 : ISSET (getEv s ev).ev_event (EV_READ ||| EV_WRITE) = (EV_READ ||| EV_WRITE) <;>
    by_cases h2 : ISSET (getEv s ev).ev_event EV_PERSIST = 0 <;>
    simp +decide [h1, h2]
  refine ⟨?_, key, ?_, rfl⟩
  · intro k hk
    have hk2 : k.flags = event_kq_event_add_flags (getEv s ev).ev_event := by
      unfold event_kq_event_add_changes at hk
      rw [List.mem_append] at hk
      rcases hk with hk | hk
      · split at hk
        · rw [List.mem_singleton] at hk
          rw [hk]; rfl
        · exact absurd hk (List.not_mem_nil _)
      · split at hk
        · rw [List.mem_singleton] at hk
          rw [hk]; rfl
        · exact absurd hk (List.not_mem_nil _)
    rw [hk2]
    exact ⟨key, rfl⟩
  · unfold event_kq_fire_event_flags event_kq_event_add_flags
    by_cases h1 : ISSET (getEv s ev).ev_event (EV_READ ||| EV_WRITE) = (EV_READ ||| EV_WRITE)
    · have := ISSET_SET_self_ne_zero flags EV_PERSIST (by decide)
      simp +decide [h1, this]
    · rw [if_pos h1, ISSET_SET_ISSET _ _ _ hf]
      by_cases h2 : ISSET (getEv s ev).ev_event EV_PERSIST = 0
      · simp +decide [h1, h2]
      · simp +decide [h1, h2]

theorem kq_oneshot_iff_not_persist_witness :
    ISSET EV_READ EV_PERSIST = 0 ∧
    ISSET (event_kq_event_add_flags (getEv (event_init ex_mem_read) 0).ev_event) EV_ONESHOT ≠ 0 ∧
    ISSET (event_kq_fire_event_flags EV_READ (getEv (event_init ex_mem_read) 0).ev_event)
      EV_PERSIST = 0 :=
  ⟨by decide,
   ((kq_oneshot_iff_not_persist (event_init ex_mem_read) 0 EV_READ (by decide)).2.1).2
     ⟨by decide, by decide⟩,
   by
    have h := (kq_oneshot_iff_not_persist (event_init ex_mem_read) 0 EV_READ (by decide)).2.2.1
    by_contra hne
    exact absurd (h.1 hne) (by decide)⟩

theorem ISSET_drop_timeout (event : Nat) (h : ISSET event EV_TIMEOUT = 0) :
    ISSET event (EV_READ ||| EV_WRITE ||| EV_TIMEOUT) = ISSET event (EV_READ ||| EV_WRITE) := by
  unfold ISSET at *
  rw [Nat.and_or_distrib_left, h, Nat.or_zero]

theorem SET_of_ISSET_bit (v k : Nat) (h : ISSET v (2 ^ k) ≠ 0) : SET v (2 ^ k) = v := by
  have h2 := ISSET_bit_of_ne_zero v k h
  unfold ISSET at h2
  unfold SET
  apply Nat.eq_of_testBit_eq
  intro i
  have := congrArg (fun n => n.testBit i) h2
  simp only [Nat.testBit_and] at this
  rw [Nat.testBit_or]
  cases hv : v.testBit i <;> cases hk : (2 ^ k).testBit i <;> simp_all

/-- C22: for an event whose flag word has `EV_PERSIST` and a condition set without
`EV_TIMEOUT` (pollers pass `EV_READ`, `EV_WRITE` and `EV_PERSIST` only),
`event_fire_event` ORs the passed `EV_READ`/`EV_WRITE` bits into `ev_fires`, sets
`EV_ON_FIRE` and appends the event to the fire queue unless it is queued already;
the heap, the lists, `evb_list_len`, `evb_nevents`, `evb_running`, the history of
poller calls, every other field of the event (so `EV_ON_LIST`, `EV_ON_HEAP`,
`ev_deadline`) and every other event are unchanged. -/
theorem fire_event_persist_frame (s : event_base) (ev event : Nat) (oprv : Int)
    (hp : ISSET (getEv s ev).ev_event EV_PERSIST ≠ 0) (ht : ISSET event EV_TIMEOUT = 0) :
    (event_fire_event s ev event oprv).evb_heap = s.evb_heap ∧
    (event_fire_event s ev event oprv).evb_list = s.evb_list ∧
    (event_fire_event s ev event oprv).evb_list_len = s.evb_list_len ∧
    (event_fire_event s ev event oprv).evb_nevents = s.evb_nevents ∧
    (event_fire_event s ev event oprv).evb_signals = s.evb_signals ∧
    (event_fire_event s ev event oprv).evb_running = s.evb_running ∧
    (event_fire_event s ev event oprv).evb_backend = s.evb_backend ∧
    (event_fire_event s ev event oprv).evb_fire =
      (if ISSET (getEv s ev).ev_event EV_ON_FIRE ≠ 0 then s.evb_fire else s.evb_fire ++ [ev]) ∧
    getEv (event_fire_event s ev event oprv) ev =
      { getEv s ev with
        ev_fires := SET (getEv s ev).ev_fires (ISSET event (EV_READ ||| EV_WRITE))
        ev_event := SET (getEv s ev).ev_event EV_ON_FIRE } ∧
    ISSET (getEv (event_fire_event s ev event oprv) ev).ev_event (EV_ON_LIST ||| EV_ON_HEAP) =
      ISSET (getEv s ev).ev_event (EV_ON_LIST ||| EV_ON_HEAP) ∧
    ∀ x, x ≠ ev → getEv (event_fire_event s ev event oprv) x = getEv s x := by
  have hlt : ev < s.mem.length := lt_of_flag hp
  have hdisj : ISSET (SET (getEv s ev).ev_event EV_ON_FIRE) (EV_ON_LIST ||| EV_ON_HEAP) =
      ISSET (getEv s ev).ev_event (EV_ON_LIST ||| EV_ON_HEAP) :=
    ISSET_SET_of_disj (by decide) _
  unfold event_fire_event
  rw [ISSET_drop_timeout event ht]
  by_cases h1 : ISSET (getEv s ev).ev_event EV_ON_FIRE = 0
  · simp only [setFires_get_ev_event, h1, hp, ne_eq, not_true_eq_false, not_false_eq_true,
      if_true, if_false, false_and, true_and, and_false]
    refine ⟨rfl, rfl, rfl, rfl, rfl, rfl, rfl, rfl, ?_, ?_, ?_⟩
    · simp [getEv_setFlags, getEv_setFires, hlt]
    · simp only [getEv_event_fire_insert, getEv_setFlags, setFires_mem_length, hlt, and_self,
        if_true, setFires_get_ev_event]
      exact hdisj
    · intro x hx
      simp [getEv_setFlags, getEv_setFires, hx]
  · have hs : SET (getEv s ev).ev_event EV_ON_FIRE = (getEv s ev).ev_event :=
      SET_of_ISSET_bit _ 2 h1
    simp only [setFires_get_ev_event, h1, ne_eq, not_true_eq_false, not_false_eq_true,
      if_true, if_false]
    refine ⟨rfl, rfl, rfl, rfl, rfl, rfl, rfl, rfl, ?_, ?_, ?_⟩
    · rw [hs]
      simp [getEv_setFires, hlt]
    · simp [getEv_setFires, hlt]
    · intro x hx
      simp [getEv_setFires, hx]

theorem fire_event_persist_frame_witness :
    ISSET (getEv ex_io_persist 0).ev_event EV_PERSIST ≠ 0 ∧ ISSET (EV_READ ||| EV_PERSIST) EV_TIMEOUT = 0 ∧
    (event_fire_event ex_io_persist 0 (EV_READ ||| EV_PERSIST) 0).evb_list = [0] ∧
    (event_fire_event ex_io_persist 0 (EV_READ ||| EV_PERSIST) 0).evb_fire = [0] :=
  ⟨by decide, by decide,
   (fire_event_persist_frame ex_io_persist 0 (EV_READ ||| EV_PERSIST) 0 (by decide) (by decide)).2.1,
   by
    have h := (fire_event_persist_frame ex_io_persist 0 (EV_READ ||| EV_PERSIST) 0
      (by decide) (by decide)).2.2.2.2.2.2.2.1
    rw [h]
    decide⟩

theorem known_kind_zero : known_kind 0 := Or.inl (by decide)

theorem api_frame_setEv (s : event_base) (ev : Nat) (e : event) (b : Bool)
    (hk : known_kind e.ev_event) (hc : e.ev_cookie = (getEv s ev).ev_cookie) :
    api_frame s (setEv s ev e) ev true b := by
  refine ⟨rfl, rfl, ?_, ?_, ?_, fun _ => rfl, fun x hx _ => hx, ?_, Or.inl ⟨rfl, rfl⟩⟩
  · intro x hx
    simp [getEv_setEv, hx]
  · intro h; exact absurd h (by decide)
  rotate_left
  · intro x
    rw [getEv_setEv]
    split
    · next hx => rw [hx.1]; exact hc
    · rfl
  · intro _
    rw [getEv_setEv]
    split
    · exact hk
    · next h =>
      have hge : s.mem.length ≤ ev := by
        by_contra hlt
        exact h ⟨rfl, Nat.lt_of_not_le hlt⟩
      rw [getEv_of_length_le s ev hge]
      exact known_kind_zero

theorem dispatch_calls_event_op (s : event_base) (c : poller_call) (rv : Int) :
    dispatch_calls (event_op s c rv) = dispatch_calls s + (if c.is_dispatch then 1 else 0) := by
  unfold dispatch_calls
  rw [event_op_evb_backend, List.filter_append, List.length_append]
  cases h : c.is_dispatch <;> simp [h]

theorem dispatch_calls_congr {s s1 : event_base} (h : s1.evb_backend = s.evb_backend) :
    dispatch_calls s1 = dispatch_calls s := by
  unfold dispatch_calls
  rw [h]

/-- The shape of the states the `add` and `del` calls produce. -/
theorem dispatch_calls_event_heap_remove (s : event_base) (ev : Nat) :
    dispatch_calls (event_heap_remove s ev) = dispatch_calls s := rfl

theorem dispatch_calls_event_fire_insert (s : event_base) (ev : Nat) :
    dispatch_calls (event_fire_insert s ev) = dispatch_calls s := rfl

theorem dispatch_calls_event_fire_remove (s : event_base) (ev : Nat) :
    dispatch_calls (event_fire_remove s ev) = dispatch_calls s := rfl

theorem dispatch_calls_event_list_insert (s : event_base) (ev : Nat) :
    dispatch_calls (event_list_insert s ev) = dispatch_calls s := rfl

theorem dispatch_calls_event_list_remove (s : event_base) (ev : Nat) :
    dispatch_calls (event_list_remove s ev) = dispatch_calls s := rfl

theorem dispatch_calls_nevents_inc (s : event_base)  :
    dispatch_calls (nevents_inc s) = dispatch_calls s := rfl

theorem dispatch_calls_nevents_dec (s : event_base)  :
    dispatch_calls (nevents_dec s) = dispatch_calls s := rfl

theorem dispatch_calls_setSignals (s : event_base) (sig : Nat) (l : List Nat) :
    dispatch_calls (setSignals s sig l) = dispatch_calls s := rfl

theorem dispatch_calls_setEv (s : event_base) (ev : Nat) (e : event) :
    dispatch_calls (setEv s ev e) = dispatch_calls s := rfl

theorem dispatch_calls_setFlags (s : event_base) (ev : Nat) (f : Nat → Nat) :
    dispatch_calls (setFlags s ev f) = dispatch_calls s := rfl

theorem dispatch_calls_setFires (s : event_base) (ev : Nat) (f : Nat → Nat) :
    dispatch_calls (setFires s ev f) = dispatch_calls s := rfl

theorem dispatch_calls_event_heap_insert (s : event_base) (ev : Nat) (d : timespec) :
    dispatch_calls (event_heap_insert s ev d) = dispatch_calls s := rfl

theorem api_frame_step {s s1 : event_base} (ev : Nat) (b : Bool)
    (hr : s1.evb_running = s.evb_running)
    (hc : dispatch_calls s1 = dispatch_calls s)
    (ho : ∀ x, x ≠ ev → getEv s1 x = getEv s x)
    (hf : (getEv s1 ev).ev_fires = (getEv s ev).ev_fires)
    (hk : ISSET (getEv s1 ev).ev_event EV_TYPE_MASK = ISSET (getEv s ev).ev_event EV_TYPE_MASK)
    (hq : s1.evb_fire = s.evb_fire ∨ (b = true ∧ s1.evb_fire = s.evb_fire.erase ev))
    (hck : (getEv s1 ev).ev_cookie = (getEv s ev).ev_cookie)
    (hlog : (s1.evb_backend = s.evb_backend ∧ s1.evb_list_len = s.evb_list_len) ∨
      ∃ c rv, s1.evb_backend = s.evb_backend ++ [(c, rv)] ∧
        s1.evb_list_len = list_len_step c rv s.evb_list_len) :
    api_frame s s1 ev false b := by
  refine ⟨hr, hc, ho, ?_, fun h => absurd h (by decide), ?_, ?_, ?_, hlog⟩
  rotate_left 3
  · intro x
    by_cases hx : x = ev
    · rw [hx]; exact hck
    · rw [ho x hx]
  · intro _ x
    by_cases hx : x = ev
    · rw [hx]; exact ⟨hf, hk⟩
    · rw [ho x hx]; exact ⟨rfl, rfl⟩
  · intro hb
    rcases hq with hq | ⟨hq, _⟩
    · exact hq
    · rw [hb] at hq; exact absurd hq (by decide)
  · intro x hx hne
    rcases hq with hq | ⟨_, hq⟩
    · rw [hq]; exact hx
    · rw [hq]; exact (List.mem_erase_of_ne hne).2 hx

theorem api_frame_event_add (s : event_base) (ev : Nat) (tv : Option timeval) (now : Option timespec) (oprv : Int) (rv0 : Int) :
    api_frame s (event_add s ev tv now oprv rv0).2 ev false false := by
  have kS1 : ∀ v, ISSET (SET v (EV_ON_LIST ||| EV_ON_HEAP)) EV_TYPE_MASK = ISSET v EV_TYPE_MASK :=
    ISSET_SET_of_disj (by decide)
  have kS2 : ∀ v, ISSET (SET v EV_ON_LIST) EV_TYPE_MASK = ISSET v EV_TYPE_MASK :=
    ISSET_SET_of_disj (by decide)
  have kS3 : ∀ v, ISSET (SET v EV_ON_HEAP) EV_TYPE_MASK = ISSET v EV_TYPE_MASK :=
    ISSET_SET_of_disj (by decide)
  have kC1 : ∀ v, ISSET (CLR v (EV_ON_LIST ||| EV_ON_HEAP ||| EV_ON_FIRE)) EV_TYPE_MASK =
      ISSET v EV_TYPE_MASK := ISSET_CLR_of_disj (by decide)
  have kC2 : ∀ v, ISSET (CLR v (EV_ON_HEAP ||| EV_ON_FIRE)) EV_TYPE_MASK =
      ISSET v EV_TYPE_MASK := ISSET_CLR_of_disj (by decide)
  unfold event_add event_deadline
  by_cases h0 : ISSET (getEv s ev).ev_event EV_ON_LIST = 0 <;>
  by_cases h1 : ISSET (getEv s ev).ev_event EV_ON_HEAP = 0 <;>
  by_cases h2 : ISSET (getEv s ev).ev_event (EV_ON_LIST ||| EV_ON_HEAP) = EV_ON_LIST <;>
  by_cases h3 : oprv = 0 <;>
  rcases tv with _ | t <;>
  rcases now with _ | n <;>
  simp only [h0, h1, h2, h3, and_self, and_true, and_false, true_and, false_and, if_true, if_false, ite_true, ite_false, ne_eq, not_true_eq_false, not_false_eq_true, getEv_nevents_dec, getEv_nevents_inc, getEv_event_heap_remove, getEv_event_fire_remove, getEv_event_fire_insert, getEv_event_op, getEv_event_list_insert, getEv_event_list_remove, getEv_setSignals, setFires_get_ev_event] <;>
  (apply api_frame_step
   · simp
   · first
     | rfl
     | simp only [dispatch_calls_event_heap_remove, dispatch_calls_event_fire_insert, dispatch_calls_event_fire_remove, dispatch_calls_event_list_insert, dispatch_calls_event_list_remove, dispatch_calls_nevents_inc, dispatch_calls_nevents_dec, dispatch_calls_setSignals, dispatch_calls_setEv, dispatch_calls_setFlags, dispatch_calls_setFires, dispatch_calls_event_heap_insert, dispatch_calls_event_op, poller_call.is_dispatch,
         Bool.false_eq_true, if_false, Nat.add_zero]
   · intro x hx
     simp [getEv_setFlags, getEv_event_heap_insert, hx]
   · simp
   · first
     | rfl
     | (simp only [getEv_event_heap_insert, getEv_setFlags, and_self, and_true, and_false, true_and, false_and, if_true, if_false, ite_true, ite_false, ne_eq, not_true_eq_false, not_false_eq_true, getEv_nevents_dec, getEv_nevents_inc, getEv_event_heap_remove, getEv_event_fire_remove, getEv_event_fire_insert, getEv_event_op, getEv_event_list_insert, getEv_event_list_remove, getEv_setSignals, setFires_get_ev_event]; done)
     | (simp only [getEv_event_heap_insert, getEv_setFlags, and_self, and_true, and_false, true_and, false_and, if_true, if_false, ite_true, ite_false, ne_eq, not_true_eq_false, not_false_eq_true, getEv_nevents_dec, getEv_nevents_inc, getEv_event_heap_remove, getEv_event_fire_remove, getEv_event_fire_insert, getEv_event_op, getEv_event_list_insert, getEv_event_list_remove, getEv_setSignals, setFires_get_ev_event]
        split_ifs <;> first | rfl | simp only [kS1, kS2, kS3, kC1, kC2])
   · simp
   · simp
   · first
     | (left; constructor <;> (simp; done))
     | (right; refine ⟨.event_add ev, oprv, ?_, ?_⟩ <;> simp [list_len_step, h3]))

theorem api_frame_event_del (s : event_base) (ev : Nat) (oprv : Int) :
    api_frame s (event_del s ev oprv).2 ev false true := by
  have kS1 : ∀ v, ISSET (SET v (EV_ON_LIST ||| EV_ON_HEAP)) EV_TYPE_MASK = ISSET v EV_TYPE_MASK :=
    ISSET_SET_of_disj (by decide)
  have kS2 : ∀ v, ISSET (SET v EV_ON_LIST) EV_TYPE_MASK = ISSET v EV_TYPE_MASK :=
    ISSET_SET_of_disj (by decide)
  have kS3 : ∀ v, ISSET (SET v EV_ON_HEAP) EV_TYPE_MASK = ISSET v EV_TYPE_MASK :=
    ISSET_SET_of_disj (by decide)
  have kC1 : ∀ v, ISSET (CLR v (EV_ON_LIST ||| EV_ON_HEAP ||| EV_ON_FIRE)) EV_TYPE_MASK =
      ISSET v EV_TYPE_MASK := ISSET_CLR_of_disj (by decide)
  have kC2 : ∀ v, ISSET (CLR v (EV_ON_HEAP ||| EV_ON_FIRE)) EV_TYPE_MASK =
      ISSET v EV_TYPE_MASK := ISSET_CLR_of_disj (by decide)
  unfold event_del
  by_cases h0 : ISSET (getEv s ev).ev_event EV_ON_LIST = 0 <;>
  by_cases h1 : ISSET (getEv s ev).ev_event EV_ON_HEAP = 0 <;>
  by_cases h2 : ISSET (getEv s ev).ev_event EV_ON_FIRE = 0 <;>
  by_cases h3 : oprv = 0 <;>
  simp only [h0, h1, h2, h3, and_self, and_true, and_false, true_and, false_and, if_true, if_false, ite_true, ite_false, ne_eq, not_true_eq_false, not_false_eq_true, getEv_nevents_dec, getEv_nevents_inc, getEv_event_heap_remove, getEv_event_fire_remove, getEv_event_fire_insert, getEv_event_op, getEv_event_list_insert, getEv_event_list_remove, getEv_setSignals, setFires_get_ev_event] <;>
  (apply api_frame_step
   · simp
   · first
     | rfl
     | simp only [dispatch_calls_event_heap_remove, dispatch_calls_event_fire_insert, dispatch_calls_event_fire_remove, dispatch_calls_event_list_insert, dispatch_calls_event_list_remove, dispatch_calls_nevents_inc, dispatch_calls_nevents_dec, dispatch_calls_setSignals, dispatch_calls_setEv, dispatch_calls_setFlags, dispatch_calls_setFires, dispatch_calls_event_heap_insert, dispatch_calls_event_op, poller_call.is_dispatch,
         Bool.false_eq_true, if_false, Nat.add_zero]
   · intro x hx
     simp [getEv_setFlags, getEv_event_heap_insert, hx]
   · simp
   · first
     | rfl
     | (simp only [getEv_event_heap_insert, getEv_setFlags, and_self, and_true, and_false, true_and, false_and, if_true, if_false, ite_true, ite_false, ne_eq, not_true_eq_false, not_false_eq_true, getEv_nevents_dec, getEv_nevents_inc, getEv_event_heap_remove, getEv_event_fire_remove, getEv_event_fire_insert, getEv_event_op, getEv_event_list_insert, getEv_event_list_remove, getEv_setSignals, setFires_get_ev_event]; done)
     | (simp only [getEv_event_heap_insert, getEv_setFlags, and_self, and_true, and_false, true_and, false_and, if_true, if_false, ite_true, ite_false, ne_eq, not_true_eq_false, not_false_eq_true, getEv_nevents_dec, getEv_nevents_inc, getEv_event_heap_remove, getEv_event_fire_remove, getEv_event_fire_insert, getEv_event_op, getEv_event_list_insert, getEv_event_list_remove, getEv_setSignals, setFires_get_ev_event]
        split_ifs <;> first | rfl | simp only [kS1, kS2, kS3, kC1, kC2])
   · simp
   · simp
   · first
     | (left; constructor <;> (simp; done))
     | (right; refine ⟨.event_del ev, oprv, ?_, ?_⟩ <;> simp [list_len_step, h3]))

theorem api_frame_evtimer_add (s : event_base) (ev : Nat) (tv : timeval) (now : Option timespec) :
    api_frame s (evtimer_add s ev tv now).2 ev false false := by
  have kS1 : ∀ v, ISSET (SET v (EV_ON_LIST ||| EV_ON_HEAP)) EV_TYPE_MASK = ISSET v EV_TYPE_MASK :=
    ISSET_SET_of_disj (by decide)
  have kS2 : ∀ v, ISSET (SET v EV_ON_LIST) EV_TYPE_MASK = ISSET v EV_TYPE_MASK :=
    ISSET_SET_of_disj (by decide)
  have kS3 : ∀ v, ISSET (SET v EV_ON_HEAP) EV_TYPE_MASK = ISSET v EV_TYPE_MASK :=
    ISSET_SET_of_disj (by decide)
  have kC1 : ∀ v, ISSET (CLR v (EV_ON_LIST ||| EV_ON_HEAP ||| EV_ON_FIRE)) EV_TYPE_MASK =
      ISSET v EV_TYPE_MASK := ISSET_CLR_of_disj (by decide)
  have kC2 : ∀ v, ISSET (CLR v (EV_ON_HEAP ||| EV_ON_FIRE)) EV_TYPE_MASK =
      ISSET v EV_TYPE_MASK := ISSET_CLR_of_disj (by decide)
  unfold evtimer_add event_deadline
  by_cases h1 : ISSET (getEv s ev).ev_event EV_ON_HEAP = 0 <;>
  rcases now with _ | n <;>
  simp only [h1, and_self, and_true, and_false, true_and, false_and, if_true, if_false, ite_true, ite_false, ne_eq, not_true_eq_false, not_false_eq_true, getEv_nevents_dec, getEv_nevents_inc, getEv_event_heap_remove, getEv_event_fire_remove, getEv_event_fire_insert, getEv_event_op, getEv_event_list_insert, getEv_event_list_remove, getEv_setSignals, setFires_get_ev_event] <;>
  (apply api_frame_step
   · simp
   · first
     | rfl
     | simp only [dispatch_calls_event_heap_remove, dispatch_calls_event_fire_insert, dispatch_calls_event_fire_remove, dispatch_calls_event_list_insert, dispatch_calls_event_list_remove, dispatch_calls_nevents_inc, dispatch_calls_nevents_dec, dispatch_calls_setSignals, dispatch_calls_setEv, dispatch_calls_setFlags, dispatch_calls_setFires, dispatch_calls_event_heap_insert, dispatch_calls_event_op, poller_call.is_dispatch,
         Bool.false_eq_true, if_false, Nat.add_zero]
   · intro x hx
     simp [getEv_setFlags, getEv_event_heap_insert, hx]
   · simp
   · first
     | rfl
     | (simp only [getEv_event_heap_insert, getEv_setFlags, and_self, and_true, and_false, true_and, false_and, if_true, if_false, ite_true, ite_false, ne_eq, not_true_eq_false, not_false_eq_true, getEv_nevents_dec, getEv_nevents_inc, getEv_event_heap_remove, getEv_event_fire_remove, getEv_event_fire_insert, getEv_event_op, getEv_event_list_insert, getEv_event_list_remove, getEv_setSignals, setFires_get_ev_event]; done)
     | (simp only [getEv_event_heap_insert, getEv_setFlags, and_self, and_true, and_false, true_and, false_and, if_true, if_false, ite_true, ite_false, ne_eq, not_true_eq_false, not_false_eq_true, getEv_nevents_dec, getEv_nevents_inc, getEv_event_heap_remove, getEv_event_fire_remove, getEv_event_fire_insert, getEv_event_op, getEv_event_list_insert, getEv_event_list_remove, getEv_setSignals, setFires_get_ev_event]
        split_ifs <;> first | rfl | simp only [kS1, kS2, kS3, kC1, kC2])
   · simp
   · simp
   · left; constructor <;> simp)

theorem api_frame_evtimer_del (s : event_base) (ev : Nat) :
    api_frame s (evtimer_del s ev).2 ev false true := by
  have kS1 : ∀ v, ISSET (SET v (EV_ON_LIST ||| EV_ON_HEAP)) EV_TYPE_MASK = ISSET v EV_TYPE_MASK :=
    ISSET_SET_of_disj (by decide)
  have kS2 : ∀ v, ISSET (SET v EV_ON_LIST) EV_TYPE_MASK = ISSET v EV_TYPE_MASK :=
    ISSET_SET_of_disj (by decide)
  have kS3 : ∀ v, ISSET (SET v EV_ON_HEAP) EV_TYPE_MASK = ISSET v EV_TYPE_MASK :=
    ISSET_SET_of_disj (by decide)
  have kC1 : ∀ v, ISSET (CLR v (EV_ON_LIST ||| EV_ON_HEAP ||| EV_ON_FIRE)) EV_TYPE_MASK =
      ISSET v EV_TYPE_MASK := ISSET_CLR_of_disj (by decide)
  have kC2 : ∀ v, ISSET (CLR v (EV_ON_HEAP ||| EV_ON_FIRE)) EV_TYPE_MASK =
      ISSET v EV_TYPE_MASK := ISSET_CLR_of_disj (by decide)
  unfold evtimer_del
  simp only [ISSET_or_eq_zero]
  by_cases h1 : ISSET (getEv s ev).ev_event EV_ON_HEAP = 0 <;>
  by_cases h2 : ISSET (getEv s ev).ev_event EV_ON_FIRE = 0 <;>
  simp only [h1, h2, and_self, and_true, and_false, true_and, false_and, if_true, if_false, ite_true, ite_false, ne_eq, not_true_eq_false, not_false_eq_true, getEv_nevents_dec, getEv_nevents_inc, getEv_event_heap_remove, getEv_event_fire_remove, getEv_event_fire_insert, getEv_event_op, getEv_event_list_insert, getEv_event_list_remove, getEv_setSignals, setFires_get_ev_event] <;>
  (apply api_frame_step
   · simp
   · first
     | rfl
     | simp only [dispatch_calls_event_heap_remove, dispatch_calls_event_fire_insert, dispatch_calls_event_fire_remove, dispatch_calls_event_list_insert, dispatch_calls_event_list_remove, dispatch_calls_nevents_inc, dispatch_calls_nevents_dec, dispatch_calls_setSignals, dispatch_calls_setEv, dispatch_calls_setFlags, dispatch_calls_setFires, dispatch_calls_event_heap_insert, dispatch_calls_event_op, poller_call.is_dispatch,
         Bool.false_eq_true, if_false, Nat.add_zero]
   · intro x hx
     simp [getEv_setFlags, getEv_event_heap_insert, hx]
   · simp
   · first
     | rfl
     | (simp only [getEv_event_heap_insert, getEv_setFlags, and_self, and_true, and_false, true_and, false_and, if_true, if_false, ite_true, ite_false, ne_eq, not_true_eq_false, not_false_eq_true, getEv_nevents_dec, getEv_nevents_inc, getEv_event_heap_remove, getEv_event_fire_remove, getEv_event_fire_insert, getEv_event_op, getEv_event_list_insert, getEv_event_list_remove, getEv_setSignals, setFires_get_ev_event]; done)
     | (simp only [getEv_event_heap_insert, getEv_setFlags, and_self, and_true, and_false, true_and, false_and, if_true, if_false, ite_true, ite_false, ne_eq, not_true_eq_false, not_false_eq_true, getEv_nevents_dec, getEv_nevents_inc, getEv_event_heap_remove, getEv_event_fire_remove, getEv_event_fire_insert, getEv_event_op, getEv_event_list_insert, getEv_event_list_remove, getEv_setSignals, setFires_get_ev_event]
        split_ifs <;> first | rfl | simp only [kS1, kS2, kS3, kC1, kC2])
   · simp
   · simp
   · left; constructor <;> simp)

set_option maxHeartbeats 800000 in
theorem api_frame_signal_add (s : event_base) (ev : Nat) (tv : Option timeval) (now : Option timespec) (oprv : Int) :
    api_frame s (signal_add s ev tv now oprv).2 ev false false := by
  have kS1 : ∀ v, ISSET (SET v (EV_ON_LIST ||| EV_ON_HEAP)) EV_TYPE_MASK = ISSET v EV_TYPE_MASK :=
    ISSET_SET_of_disj (by decide)
  have kS2 : ∀ v, ISSET (SET v EV_ON_LIST) EV_TYPE_MASK = ISSET v EV_TYPE_MASK :=
    ISSET_SET_of_disj (by decide)
  have kS3 : ∀ v, ISSET (SET v EV_ON_HEAP) EV_TYPE_MASK = ISSET v EV_TYPE_MASK :=
    ISSET_SET_of_disj (by decide)
  have kC1 : ∀ v, ISSET (CLR v (EV_ON_LIST ||| EV_ON_HEAP ||| EV_ON_FIRE)) EV_TYPE_MASK =
      ISSET v EV_TYPE_MASK := ISSET_CLR_of_disj (by decide)
  have kC2 : ∀ v, ISSET (CLR v (EV_ON_HEAP ||| EV_ON_FIRE)) EV_TYPE_MASK =
      ISSET v EV_TYPE_MASK := ISSET_CLR_of_disj (by decide)
  unfold signal_add event_deadline
  by_cases h0 : ISSET (getEv s ev).ev_event EV_ON_LIST = 0 <;>
  by_cases h1 : ISSET (getEv s ev).ev_event EV_ON_HEAP = 0 <;>
  by_cases h2 : ISSET (getEv s ev).ev_event (EV_ON_LIST ||| EV_ON_HEAP) = EV_ON_LIST <;>
  by_cases h3 : oprv = 0 <;>
  by_cases h4 : s.evb_signals (sigOf s ev) = [] <;>
  rcases tv with _ | t <;>
  rcases now with _ | n <;>
  simp only [h0, h1, h2, h3, h4, event_op_evb_signals, and_self, and_true, and_false, true_and, false_and, if_true, if_false, ite_true, ite_false, ne_eq, not_true_eq_false, not_false_eq_true, getEv_nevents_dec, getEv_nevents_inc, getEv_event_heap_remove, getEv_event_fire_remove, getEv_event_fire_insert, getEv_event_op, getEv_event_list_insert, getEv_event_list_remove, getEv_setSignals, setFires_get_ev_event] <;>
  (apply api_frame_step
   · simp
   · first
     | rfl
     | simp only [dispatch_calls_event_heap_remove, dispatch_calls_event_fire_insert, dispatch_calls_event_fire_remove, dispatch_calls_event_list_insert, dispatch_calls_event_list_remove, dispatch_calls_nevents_inc, dispatch_calls_nevents_dec, dispatch_calls_setSignals, dispatch_calls_setEv, dispatch_calls_setFlags, dispatch_calls_setFires, dispatch_calls_event_heap_insert, dispatch_calls_event_op, poller_call.is_dispatch,
         Bool.false_eq_true, if_false, Nat.add_zero]
   · intro x hx
     simp [getEv_setFlags, getEv_event_heap_insert, hx]
   · simp
   · first
     | rfl
     | (simp only [getEv_event_heap_insert, getEv_setFlags, and_self, and_true, and_false, true_and, false_and, if_true, if_false, ite_true, ite_false, ne_eq, not_true_eq_false, not_false_eq_true, getEv_nevents_dec, getEv_nevents_inc, getEv_event_heap_remove, getEv_event_fire_remove, getEv_event_fire_insert, getEv_event_op, getEv_event_list_insert, getEv_event_list_remove, getEv_setSignals, setFires_get_ev_event]; done)
     | (simp only [getEv_event_heap_insert, getEv_setFlags, and_self, and_true, and_false, true_and, false_and, if_true, if_false, ite_true, ite_false, ne_eq, not_true_eq_false, not_false_eq_true, getEv_nevents_dec, getEv_nevents_inc, getEv_event_heap_remove, getEv_event_fire_remove, getEv_event_fire_insert, getEv_event_op, getEv_event_list_insert, getEv_event_list_remove, getEv_setSignals, setFires_get_ev_event]
        split_ifs <;> first | rfl | simp only [kS1, kS2, kS3, kC1, kC2])
   · simp
   · simp
   · first
     | (left; constructor <;> (simp; done))
     | (right; refine ⟨.signal_add (getEv s ev).ev_ident, oprv, ?_, ?_⟩ <;> simp [list_len_step, h3]))

theorem api_frame_signal_del (s : event_base) (ev : Nat) (oprv : Int) :
    api_frame s (signal_del s ev oprv).2 ev false true := by
  have kS1 : ∀ v, ISSET (SET v (EV_ON_LIST ||| EV_ON_HEAP)) EV_TYPE_MASK = ISSET v EV_TYPE_MASK :=
    ISSET_SET_of_disj (by decide)
  have kS2 : ∀ v, ISSET (SET v EV_ON_LIST) EV_TYPE_MASK = ISSET v EV_TYPE_MASK :=
    ISSET_SET_of_disj (by decide)
  have kS3 : ∀ v, ISSET (SET v EV_ON_HEAP) EV_TYPE_MASK = ISSET v EV_TYPE_MASK :=
    ISSET_SET_of_disj (by decide)
  have kC1 : ∀ v, ISSET (CLR v (EV_ON_LIST ||| EV_ON_HEAP ||| EV_ON_FIRE)) EV_TYPE_MASK =
      ISSET v EV_TYPE_MASK := ISSET_CLR_of_disj (by decide)
  have kC2 : ∀ v, ISSET (CLR v (EV_ON_HEAP ||| EV_ON_FIRE)) EV_TYPE_MASK =
      ISSET v EV_TYPE_MASK := ISSET_CLR_of_disj (by decide)
  unfold signal_del
  simp only [ISSET_or_eq_zero]
  by_cases h0 : ISSET (getEv s ev).ev_event EV_ON_LIST = 0 <;>
  by_cases h1 : ISSET (getEv s ev).ev_event EV_ON_HEAP = 0 <;>
  by_cases h2 : ISSET (getEv s ev).ev_event EV_ON_FIRE = 0 <;>
  by_cases h3 : oprv = 0 <;>
  by_cases h4 : TAILQ_FIRST (s.evb_signals (sigOf s ev)) = some ev ∧
      TAILQ_NEXT (s.evb_signals (sigOf s ev)) ev = none <;>
  simp only [h0, h1, h2, h3, h4, event_op_evb_signals, and_self, and_true, and_false, true_and, false_and, if_true, if_false, ite_true, ite_false, ne_eq, not_true_eq_false, not_false_eq_true, getEv_nevents_dec, getEv_nevents_inc, getEv_event_heap_remove, getEv_event_fire_remove, getEv_event_fire_insert, getEv_event_op, getEv_event_list_insert, getEv_event_list_remove, getEv_setSignals, setFires_get_ev_event] <;>
  (apply api_frame_step
   · simp
   · first
     | rfl
     | simp only [dispatch_calls_event_heap_remove, dispatch_calls_event_fire_insert, dispatch_calls_event_fire_remove, dispatch_calls_event_list_insert, dispatch_calls_event_list_remove, dispatch_calls_nevents_inc, dispatch_calls_nevents_dec, dispatch_calls_setSignals, dispatch_calls_setEv, dispatch_calls_setFlags, dispatch_calls_setFires, dispatch_calls_event_heap_insert, dispatch_calls_event_op, poller_call.is_dispatch,
         Bool.false_eq_true, if_false, Nat.add_zero]
   · intro x hx
     simp [getEv_setFlags, getEv_event_heap_insert, hx]
   · simp
   · first
     | rfl
     | (simp only [getEv_event_heap_insert, getEv_setFlags, and_self, and_true, and_false, true_and, false_and, if_true, if_false, ite_true, ite_false, ne_eq, not_true_eq_false, not_false_eq_true, getEv_nevents_dec, getEv_nevents_inc, getEv_event_heap_remove, getEv_event_fire_remove, getEv_event_fire_insert, getEv_event_op, getEv_event_list_insert, getEv_event_list_remove, getEv_setSignals, setFires_get_ev_event]; done)
     | (simp only [getEv_event_heap_insert, getEv_setFlags, and_self, and_true, and_false, true_and, false_and, if_true, if_false, ite_true, ite_false, ne_eq, not_true_eq_false, not_false_eq_true, getEv_nevents_dec, getEv_nevents_inc, getEv_event_heap_remove, getEv_event_fire_remove, getEv_event_fire_insert, getEv_event_op, getEv_event_list_insert, getEv_event_list_remove, getEv_setSignals, setFires_get_ev_event]
        split_ifs <;> first | rfl | simp only [kS1, kS2, kS3, kC1, kC2])
   · simp
   · simp
   · first
     | (left; constructor <;> (simp; done))
     | (right; refine ⟨.signal_del (getEv s ev).ev_ident, oprv, ?_, ?_⟩ <;> simp [list_len_step, h3]))

theorem api_call_frame (s : event_base) (c : api_call) :
    api_frame s (c.run s) c.target c.is_set c.is_del := by
  cases c with
  | event_set ev fd events fn arg =>
    exact api_frame_setEv _ _ _ _
      (show known_kind (EV_INITIALIZED ||| EV_IO ||| (events &&& (EV_READ ||| EV_WRITE ||| EV_PERSIST)))
        from Or.inl (ISSET_set_word (by decide) (by decide) events)) rfl
  | evtimer_set ev fn arg =>
    exact api_frame_setEv _ _ _ _
      (show known_kind (EV_INITIALIZED ||| EV_TIMEOUT) from Or.inr (Or.inl (by decide))) rfl
  | signal_set ev sg fn arg =>
    exact api_frame_setEv _ _ _ _
      (show known_kind (EV_INITIALIZED ||| EV_SIGNAL ||| EV_PERSIST) from
        Or.inr (Or.inr (by decide))) rfl
  | event_add ev tv now oprv rv0 => exact api_frame_event_add s ev tv now oprv rv0
  | event_del ev oprv => exact api_frame_event_del s ev oprv
  | evtimer_add ev tv now => exact api_frame_evtimer_add s ev tv now
  | evtimer_del ev => exact api_frame_evtimer_del s ev
  | signal_add ev tv now oprv => exact api_frame_signal_add s ev tv now oprv
  | signal_del ev oprv => exact api_frame_signal_del s ev oprv

theorem same_registration_refl (s : event_base) : same_registration s s :=
  ⟨rfl, rfl, rfl, rfl, rfl, rfl, rfl⟩

theorem same_registration_trans {s s1 s2 : event_base} (h1 : same_registration s s1)
    (h2 : same_registration s1 s2) : same_registration s s2 := by
  unfold same_registration at *
  obtain ⟨a1, a2, a3, a4, a5, a6, a7⟩ := h1
  obtain ⟨b1, b2, b3, b4, b5, b6, b7⟩ := h2
  exact ⟨b1.trans a1, b2.trans a2, b3.trans a3, b4.trans a4, b5.trans a5, b6.trans a6,
    b7.trans a7⟩

theorem SET_idem (v m : Nat) : SET (SET v m) m = SET v m := by
  unfold SET
  rw [Nat.or_assoc, Nat.or_self]

/-- One turn of the loop of `event_fire_signal`. -/
theorem event_fire_signal_one_spec (s : event_base) (a : Nat) (ha : a < s.mem.length) :
    same_registration s (event_fire_signal_one s a) ∧
    getEv (event_fire_signal_one s a) a =
      { getEv s a with
        ev_fires := SET (getEv s a).ev_fires EV_SIGNAL
        ev_event := SET (getEv s a).ev_event EV_ON_FIRE } ∧
    (∀ x, x ≠ a → getEv (event_fire_signal_one s a) x = getEv s x) ∧
    (event_fire_signal_one s a).evb_fire =
      (if ISSET (getEv s a).ev_event EV_ON_FIRE = 0 then s.evb_fire ++ [a] else s.evb_fire) := by
  unfold event_fire_signal_one
  by_cases h1 : ISSET (getEv s a).ev_event EV_ON_FIRE = 0
  · simp only [setFires_get_ev_event, h1, if_true]
    refine ⟨⟨rfl, rfl, rfl, rfl, rfl, rfl, rfl⟩, ?_, ?_, rfl⟩
    · simp [getEv_setFlags, getEv_setFires, ha]
    · intro x hx
      simp [getEv_setFlags, getEv_setFires, hx]
  · have hs : SET (getEv s a).ev_event EV_ON_FIRE = (getEv s a).ev_event :=
      SET_of_ISSET_bit _ 2 h1
    simp only [setFires_get_ev_event, h1, if_false]
    refine ⟨⟨rfl, rfl, rfl, rfl, rfl, rfl, rfl⟩, ?_, ?_, rfl⟩
    · rw [hs]
      simp [getEv_setFires, ha]
    · intro x hx
      simp [getEv_setFires, hx]

theorem event_fire_signal_fold (l : List Nat) :
    ∀ s : event_base, fire_inv s → (∀ x ∈ l, x < s.mem.length) →
      signal_fired s (l.foldl event_fire_signal_one s) l := by
  induction l with
  | nil =>
    intro s _ _
    exact ⟨same_registration_refl s, fun x hx => absurd hx (List.not_mem_nil _), fun _ _ => rfl,
      ⟨[], by simp, List.Sublist.refl _, by simp⟩⟩
  | cons a l ih =>
    intro s h hl
    have ha : a < s.mem.length := hl a (List.mem_cons_self _ _)
    obtain ⟨hreg, hga, hgo, hq⟩ := event_fire_signal_one_spec s a ha
    have hlen : (event_fire_signal_one s a).mem.length = s.mem.length := by
      unfold event_fire_signal_one
      simp only []
      split <;> simp
    have h1 := ih (event_fire_signal_one s a) (fire_inv_event_fire_signal_one s a ha h)
      (fun x hx => by rw [hlen]; exact hl x (List.mem_cons_of_mem _ hx))
    rw [List.foldl_cons]
    obtain ⟨r1, r2, r3, q, hq1, hq2, hq3⟩ := h1
    refine ⟨same_registration_trans hreg r1, ?_, ?_, ?_⟩
    · intro x hx
      by_cases hxl : x ∈ l
      · rw [r2 x hxl]
        by_cases hxa : x = a
        · subst hxa
          rw [hga]
          simp only [SET_idem]
        · rw [hgo x hxa]
      · have hxa : x = a := by
          rcases List.mem_cons.1 hx with h2 | h2
          · exact h2
          · exact absurd h2 hxl
        rw [r3 x hxl, hxa, hga]
    · intro x hx
      have hxa : x ≠ a := fun e => hx (e ▸ List.mem_cons_self _ _)
      have hxl : x ∉ l := fun e => hx (List.mem_cons_of_mem _ e)
      rw [r3 x hxl, hgo x hxa]
    · by_cases hon : ISSET (getEv s a).ev_event EV_ON_FIRE = 0
      · have hna : a ∉ s.evb_fire := fun hm => ((h.bit a).2 hm) hon
        rw [if_pos hon] at hq
        refine ⟨a :: q, ?_, hq2.cons₂ a, ?_⟩
        · rw [hq1, hq]
          simp
        · intro x
          rw [List.mem_cons, hq3, hq, List.mem_cons, List.mem_append, List.mem_singleton]
          constructor
          · rintro (e | ⟨e1, e2⟩)
            · exact ⟨Or.inl e, e ▸ hna⟩
            · exact ⟨Or.inr e1, fun e3 => e2 (Or.inl e3)⟩
          · rintro ⟨e1 | e1, e2⟩
            · exact Or.inl e1
            · by_cases hxa : x = a
              · exact Or.inl hxa
              · refine Or.inr ⟨e1, ?_⟩
                rintro (e3 | e3)
                · exact e2 e3
                · exact hxa e3
      · have hma : a ∈ s.evb_fire := (h.bit a).1 hon
        rw [if_neg hon] at hq
        refine ⟨q, ?_, hq2.cons a, ?_⟩
        · rw [hq1, hq]
        · intro x
          rw [hq3, hq, List.mem_cons]
          constructor
          · rintro ⟨e1, e2⟩
            exact ⟨Or.inr e1, e2⟩
          · rintro ⟨e1 | e1, e2⟩
            · exact absurd (e1 ▸ hma) e2
            · exact ⟨e1, e2⟩

/-- Firing a signal whose listed events all are queued with `EV_SIGNAL` accumulated
changes nothing. -/
theorem event_fire_signal_fold_fixed (l : List Nat) (s : event_base)
    (h : ∀ x ∈ l, ISSET (getEv s x).ev_event EV_ON_FIRE ≠ 0 ∧
      ISSET (getEv s x).ev_fires EV_SIGNAL ≠ 0) :
    l.foldl event_fire_signal_one s = s := by
  induction l with
  | nil => rfl
  | cons a l ih =>
    rw [List.foldl_cons]
    have ha := h a (List.mem_cons_self _ _)
    have h1 : event_fire_signal_one s a = s := by
      unfold event_fire_signal_one
      have hs : SET (getEv s a).ev_fires EV_SIGNAL = (getEv s a).ev_fires :=
        SET_of_ISSET_bit _ 5 ha.2
      have hfix : setFires s a (fun f => SET f EV_SIGNAL) = s := by
        show setEv s a { getEv s a with ev_fires := SET (getEv s a).ev_fires EV_SIGNAL } = s
        rw [hs]
        exact setEv_getEv_self s a
      simp only [hfix, ha.1, if_false]
    rw [h1]
    exact ih (fun x hx => h x (List.mem_cons_of_mem _ hx))


/-- A well-formed call that is no delete of the queued event `x` keeps `x` on the
fire queue with the conditions accumulated in its `ev_fires`. -/
theorem api_call_keeps_queued (s : event_base) (c : api_call) (x b : Nat)
    (hr : reachable s) (hv : c.valid s = true) (hd : c.is_del = true → c.target ≠ x)
    (hx : x ∈ s.evb_fire) (hb : ISSET (getEv s x).ev_fires b ≠ 0) :
    x ∈ (c.run s).evb_fire ∧ ISSET (getEv (c.run s) x).ev_fires b ≠ 0 ∧
      (c.run s).evb_running = s.evb_running := by
  have hf := api_call_frame s c
  refine ⟨?_, ?_, hf.running⟩
  · by_cases ht : c.target = x
    · have hnd : c.is_del = false := by
        cases hdel : c.is_del
        · rfl
        · exact absurd ht (hd hdel)
      rw [hf.queue hnd]
      exact hx
    · exact hf.keep x hx (fun e => ht e.symm)
  · by_cases ht : c.target = x
    · have hns : c.is_set = false := by
        cases hset : c.is_set
        · rfl
        · exfalso
          unfold api_call.valid at hv
          simp only [hset, Bool.not_true, Bool.false_or, Bool.and_eq_true,
            decide_eq_true_eq] at hv
          have hon := ((reachable_fire_inv hr).bit x).2 hx
          rw [ht] at hv
          exact hon (ISSET_of_placement hv.2).2.2
      rw [(hf.fires hns x).1]
      exact hb
    · rw [hf.others x (fun e => ht e.symm)]
      exact hb

theorem api_calls_keep_queued (x b : Nat) (l : List api_call) :
    ∀ s : event_base, reachable s → api_calls_valid s l = true →
      (∀ c ∈ l, c.is_del = true → c.target ≠ x) → x ∈ s.evb_fire →
      ISSET (getEv s x).ev_fires b ≠ 0 →
      x ∈ (l.foldl api_call.run s).evb_fire ∧
        ISSET (getEv (l.foldl api_call.run s) x).ev_fires b ≠ 0 ∧
        (l.foldl api_call.run s).evb_running = s.evb_running := by
  induction l with
  | nil => intro s _ _ _ hx hb; exact ⟨hx, hb, rfl⟩
  | cons c l ih =>
    intro s hr hv hd hx hb
    simp only [api_calls_valid, Bool.and_eq_true] at hv
    have h1 := api_call_keeps_queued s c x b hr hv.1 (hd c (List.mem_cons_self _ _)) hx hb
    have h2 := ih (c.run s) (reachable.step (.api c) hr hv.1) hv.2
      (fun c2 hc2 => hd c2 (List.mem_cons_of_mem _ hc2)) h1.1 h1.2.1
    rw [List.foldl_cons]
    exact ⟨h2.1, h2.2.1, h2.2.2.trans h1.2.2⟩

/-- The delivery loop only adds to the list of invocations. -/
theorem event_dispatch_fire_trace_mono (env : dispatch_env) (fuel : Nat) :
    ∀ (s : event_base) (tr : List invocation),
      ∀ i ∈ tr, i ∈ (event_dispatch_fire env fuel s tr).2.2 := by
  induction fuel with
  | zero => intro s tr i hi; exact hi
  | succ n ih =>
    intro s tr i hi
    unfold event_dispatch_fire
    cases hf : event_fire_first s with
    | none => exact hi
    | some ev =>
      simp only []
      split
      · exact List.mem_append_left _ hi
      · exact ih _ _ i (List.mem_append_left _ hi)

/-- An event on the fire queue is invoked by the delivery loop, with the conditions
accumulated in its `ev_fires`, when the loop runs (`evb_running` is set) with
callbacks whose calls are well-formed and do not delete the event while it is on
the fire queue. -/
theorem event_dispatch_fire_delivers (env : dispatch_env) (x b : Nat)
    (hcb : ∀ s i, reachable s → api_calls_valid s (env.callback s i) = true)
    (hdel : ∀ s0 ev, reachable s0 → event_fire_first s0 = some ev →
      ∀ c ∈ env.callback (event_dispatch_pop s0 ev).2 (event_dispatch_pop s0 ev).1,
        c.is_del = true → c.target = x → x ∉ (event_dispatch_pop s0 ev).2.evb_fire)
    (fuel : Nat) :
    ∀ (s : event_base) (tr : List invocation), reachable s → s.evb_running ≠ 0 →
      s.evb_fire.length ≤ fuel → x ∈ s.evb_fire → ISSET (getEv s x).ev_fires b ≠ 0 →
      ∃ i ∈ (event_dispatch_fire env fuel s tr).2.2, i.ev = x ∧ ISSET i.event b ≠ 0 := by
  induction fuel with
  | zero =>
    intro s tr _ _ hl hx _
    have : s.evb_fire = [] := List.length_eq_zero.1 (Nat.le_zero.1 hl)
    rw [this] at hx
    exact absurd hx (List.not_mem_nil _)
  | succ n ih =>
    intro s tr hr hrun hl hx hb
    unfold event_dispatch_fire
    cases hf : event_fire_first s with
    | none =>
      unfold event_fire_first TAILQ_FIRST at hf
      rw [List.head?_eq_none_iff] at hf
      rw [hf] at hx
      exact absurd hx (List.not_mem_nil _)
    | some ev =>
      have hev : ev ∈ s.evb_fire := by
        unfold event_fire_first TAILQ_FIRST at hf
        exact List.mem_of_mem_head? hf
      have hpop : reachable (event_dispatch_pop s ev).2 := by
        have := reachable.step .deliver hr rfl
        simpa [step.run, hf] using this
      have hpf := event_dispatch_pop_fire s ev
      by_cases hxe : ev = x
      · have hinv : (event_dispatch_pop s ev).1.ev = x ∧
            ISSET (event_dispatch_pop s ev).1.event b ≠ 0 := by
          refine ⟨hpf.2.trans hxe, ?_⟩
          unfold event_dispatch_pop
          simp only [setFlags_get_ev_fires, getEv_event_fire_remove]
          rw [hxe]
          exact hb
        simp only []
        split
        · exact ⟨_, List.mem_append_right _ (List.mem_singleton_self _), hinv⟩
        · exact ⟨_, event_dispatch_fire_trace_mono env n _ _ _
            (List.mem_append_right _ (List.mem_singleton_self _)), hinv⟩
      · have hx1 : x ∈ (event_dispatch_pop s ev).2.evb_fire := by
          rw [hpf.1]
          exact (List.mem_erase_of_ne (fun e => hxe e.symm)).2 hx
        have hb1 : ISSET (getEv (event_dispatch_pop s ev).2 x).ev_fires b ≠ 0 := by
          unfold event_dispatch_pop
          simp only [getEv_setFires, getEv_setFlags, getEv_event_fire_remove]
          have hne : ¬ (x = ev) := fun e => hxe e.symm
          simp only [hne, false_and, if_false]
          exact hb
        have hrun1 : (event_dispatch_pop s ev).2.evb_running = s.evb_running := by
          unfold event_dispatch_pop
          simp
        have hk := api_calls_keep_queued x b _ _ hpop
          (hcb _ (event_dispatch_pop s ev).1 hpop)
          (fun c hc hd e => hdel s ev hr hf c hc hd e hx1) hx1 hb1
        have hreach := reachable_api_calls _ _ hpop (hcb _ (event_dispatch_pop s ev).1 hpop)
        have hrun2 : ((env.callback (event_dispatch_pop s ev).2
            (event_dispatch_pop s ev).1).foldl api_call.run (event_dispatch_pop s ev).2).evb_running
            ≠ 0 := by
          rw [hk.2.2, hrun1]
          exact hrun
        have hlen : ((env.callback (event_dispatch_pop s ev).2
            (event_dispatch_pop s ev).1).foldl api_call.run
            (event_dispatch_pop s ev).2).evb_fire.length ≤ n := by
          have h1 := (api_calls_fire_sublist (env.callback (event_dispatch_pop s ev).2
            (event_dispatch_pop s ev).1) (event_dispatch_pop s ev).2).length_le
          rw [hpf.1, List.length_erase_of_mem hev] at h1
          omega
        simp only []
        rw [if_neg hrun2]
        exact ih _ _ hreach hrun2 hlen hk.1 hk.2.1

/-- C21, amended: in a reachable state `event_fire_signal` leaves the registrations
alone, ORs `EV_SIGNAL` into `ev_fires` of every event on the list of the signal and
sets its `EV_ON_FIRE`, leaves every other event unchanged, and appends the listed
events that were not queued to the fire queue, in list order, so that every
listed event is on the queue exactly once; a second `event_fire_signal` for the
same signal changes nothing; and the delivery loop entered in that state invokes
every listed event with `EV_SIGNAL`, provided the loop runs (`evb_running` is set)
with callbacks whose calls are well-formed and which delete a listed event only
when it is no longer on the fire queue, that is, after it was delivered (a
callback may delete its own event). -/
theorem fire_signal_queues_listed (s : event_base) (sig : Nat) (env : dispatch_env)
    (tr : List invocation) (hr : reachable s) (hrun : s.evb_running ≠ 0)
    (hcb : ∀ s1 i, reachable s1 → api_calls_valid s1 (env.callback s1 i) = true)
    (hdel : ∀ s0 ev, reachable s0 → event_fire_first s0 = some ev →
      ∀ c ∈ env.callback (event_dispatch_pop s0 ev).2 (event_dispatch_pop s0 ev).1,
        c.is_del = true → c.target ∈ s.evb_signals sig →
          c.target ∉ (event_dispatch_pop s0 ev).2.evb_fire) :
    signal_fired s (event_fire_signal s sig) (s.evb_signals sig) ∧
    (∀ x ∈ s.evb_signals sig,
      ISSET (getEv (event_fire_signal s sig) x).ev_fires EV_SIGNAL ≠ 0 ∧
        (event_fire_signal s sig).evb_fire.count x = 1) ∧
    event_fire_signal (event_fire_signal s sig) sig = event_fire_signal s sig ∧
    ∀ x ∈ s.evb_signals sig,
      ∃ i ∈ (event_dispatch_fire env (event_fire_signal s sig).evb_fire.length
          (event_fire_signal s sig) tr).2.2,
        i.ev = x ∧ ISSET i.event EV_SIGNAL ≠ 0 := by
  have hinv := reachable_fire_inv hr
  have hreach : reachable (event_fire_signal s sig) := reachable.step (.fire_signal sig) hr rfl
  have hinv1 := reachable_fire_inv hreach
  have hsf : signal_fired s (event_fire_signal s sig) (s.evb_signals sig) :=
    event_fire_signal_fold _ s hinv (hinv.sigs sig)
  have hfires : ∀ x ∈ s.evb_signals sig,
      ISSET (getEv (event_fire_signal s sig) x).ev_fires EV_SIGNAL ≠ 0 := by
    intro x hx
    rw [hsf.listed x hx]
    exact ISSET_SET_self_ne_zero _ _ (by decide)
  have hon : ∀ x ∈ s.evb_signals sig,
      ISSET (getEv (event_fire_signal s sig) x).ev_event EV_ON_FIRE ≠ 0 := by
    intro x hx
    rw [hsf.listed x hx]
    exact ISSET_SET_self_ne_zero _ _ (by decide)
  have hmem : ∀ x ∈ s.evb_signals sig, x ∈ (event_fire_signal s sig).evb_fire :=
    fun x hx => (hinv1.bit x).1 (hon x hx)
  refine ⟨hsf, ?_, ?_, ?_⟩
  · intro x hx
    exact ⟨hfires x hx, List.count_eq_one_of_mem hinv1.nodup (hmem x hx)⟩
  · have hsig : (event_fire_signal s sig).evb_signals sig = s.evb_signals sig := by
      rw [hsf.reg.2.1]
    show ((event_fire_signal s sig).evb_signals sig).foldl event_fire_signal_one
      (event_fire_signal s sig) = event_fire_signal s sig
    rw [hsig]
    exact event_fire_signal_fold_fixed _ _ (fun x hx => ⟨hon x hx, hfires x hx⟩)
  · intro x hx
    have hrun1 : (event_fire_signal s sig).evb_running ≠ 0 := by
      rw [hsf.reg.2.2.2.2.2.1]
      exact hrun
    exact event_dispatch_fire_delivers env x EV_SIGNAL hcb
      (fun s0 ev h0 hf c hc hd e => by
        have h1 := hdel s0 ev h0 hf c hc hd (e ▸ hx)
        rwa [e] at h1) _ _ tr hreach hrun1 (Nat.le_refl _)
      (hmem x hx) (hfires x hx)

theorem reachable_ex_two_listed : reachable ex_two_listed :=
  reachable_run_steps _ _ (reachable.init ex_mem (by decide)) (by decide)

theorem env_del_self_valid (s1 : event_base) (i : invocation) :
    api_calls_valid s1 (env_del_self.callback s1 i) = true := by
  show api_calls_valid s1 (if i.ev < s1.mem.length then [.signal_del i.ev 0] else []) = true
  split
  · next h => simp [api_calls_valid, api_call.valid, api_call.target, api_call.is_set, h]
  · rfl

theorem env_del_self_delivered (s0 : event_base) (ev : Nat) (h0 : reachable s0)
    (c : api_call)
    (hc : c ∈ env_del_self.callback (event_dispatch_pop s0 ev).2 (event_dispatch_pop s0 ev).1) :
    c.target ∉ (event_dispatch_pop s0 ev).2.evb_fire := by
  have hpf := event_dispatch_pop_fire s0 ev
  have hc2 : c ∈ (if (event_dispatch_pop s0 ev).1.ev < (event_dispatch_pop s0 ev).2.mem.length
      then [api_call.signal_del (event_dispatch_pop s0 ev).1.ev 0] else []) := hc
  split at hc2
  · rw [List.mem_singleton] at hc2
    rw [hc2, hpf.1]
    show (event_dispatch_pop s0 ev).1.ev ∉ s0.evb_fire.erase ev
    rw [hpf.2]
    exact fun hm => ((reachable_fire_inv h0).nodup.mem_erase_iff.1 hm).1 rfl
  · exact absurd hc2 (List.not_mem_nil _)

/-- C21, witness: two events are listed for signal 2 and every callback calls
`signal_del` on its own event; both callbacks are invoked with `EV_SIGNAL`. -/
theorem fire_signal_queues_listed_witness :
    ex_two_listed.evb_signals 2 = [0, 1] ∧ ex_two_listed.evb_running ≠ 0 ∧
    event_fire_signal (event_fire_signal ex_two_listed 2) 2 = event_fire_signal ex_two_listed 2 ∧
    (∀ x ∈ ex_two_listed.evb_signals 2,
      ∃ i ∈ (event_dispatch_fire env_del_self (event_fire_signal ex_two_listed 2).evb_fire.length
          (event_fire_signal ex_two_listed 2) []).2.2,
        i.ev = x ∧ ISSET i.event EV_SIGNAL ≠ 0) ∧
    (event_dispatch_fire env_del_self (event_fire_signal ex_two_listed 2).evb_fire.length
      (event_fire_signal ex_two_listed 2) []).2.2 =
      [{ ev := 0, fn := 7, ident := 2, event := EV_SIGNAL, arg := 42 },
       { ev := 1, fn := 7, ident := 2, event := EV_SIGNAL, arg := 43 }] ∧
    (event_dispatch_fire env_del_self (event_fire_signal ex_two_listed 2).evb_fire.length
      (event_fire_signal ex_two_listed 2) []).2.1.evb_signals 2 = [] :=
  ⟨by decide, by decide,
   (fire_signal_queues_listed ex_two_listed 2 env_del_self [] reachable_ex_two_listed (by decide)
     (fun s1 i _ => env_del_self_valid s1 i)
     (fun s0 ev h0 _ c hc _ _ => env_del_self_delivered s0 ev h0 c hc)).2.2.1,
   (fire_signal_queues_listed ex_two_listed 2 env_del_self [] reachable_ex_two_listed (by decide)
     (fun s1 i _ => env_del_self_valid s1 i)
     (fun s0 ev h0 _ c hc _ _ => env_del_self_delivered s0 ev h0 c hc)).2.2.2,
   by decide, by decide⟩

/-- C21 as stated fails: two events are on the list of signal 2 when the signal is
fired; the callback of the first (argument 42) calls `signal_del` on the second,
which takes it off the fire queue, and the delivery loop ends having invoked the
first event only. -/
theorem fire_signal_listed_not_invoked :
    ex_two_listed.evb_signals 2 = [0, 1] ∧
    (event_fire_signal ex_two_listed 2).evb_fire = [0, 1] ∧
    (event_dispatch_fire env_del_sibling (event_fire_signal ex_two_listed 2).evb_fire.length
      (event_fire_signal ex_two_listed 2) []).1 = none ∧
    (event_dispatch_fire env_del_sibling (event_fire_signal ex_two_listed 2).evb_fire.length
      (event_fire_signal ex_two_listed 2) []).2.2 =
      [{ ev := 0, fn := 7, ident := 2, event := EV_SIGNAL, arg := 42 }] ∧
    (event_dispatch_fire env_del_sibling (event_fire_signal ex_two_listed 2).evb_fire.length
      (event_fire_signal ex_two_listed 2) []).2.1.evb_fire = [] := by
  decide

/-- The kind of every event object, read through `getEv`. -/
theorem kinds_known_iff (s : event_base) :
    kinds_known s ↔ ∀ x, known_kind (getEv s x).ev_event := by
  constructor
  · intro h x
    by_cases hx : x < s.mem.length
    · apply h
      unfold getEv
      rw [List.getD_eq_getElem _ _ hx]
      exact List.getElem_mem _
    · rw [getEv_of_length_le s x (Nat.le_of_not_lt hx)]
      exact known_kind_zero
  · intro h e he
    obtain ⟨i, hi, rfl⟩ := List.getElem_of_mem he
    have := h i
    unfold getEv at this
    rw [List.getD_eq_getElem _ _ hi] at this
    exact this

theorem kinds_of_type_bits {s s1 : event_base}
    (h : ∀ x, ISSET (getEv s1 x).ev_event EV_TYPE_MASK = ISSET (getEv s x).ev_event EV_TYPE_MASK)
    (hk : ∀ x, known_kind (getEv s x).ev_event) : ∀ x, known_kind (getEv s1 x).ev_event := by
  intro x
  have := hk x
  unfold known_kind at *
  rw [h x]
  exact this

theorem kinds_api_call (s : event_base) (c : api_call)
    (hk : ∀ x, known_kind (getEv s x).ev_event) :
    ∀ x, known_kind (getEv (c.run s) x).ev_event := by
  have hf := api_call_frame s c
  cases hset : c.is_set
  · exact kinds_of_type_bits (fun x => (hf.fires hset x).2) hk
  · intro x
    by_cases hx : x = c.target
    · rw [hx]; exact hf.kind hset
    · rw [hf.others x hx]; exact hk x

theorem kinds_api_calls (l : List api_call) :
    ∀ s : event_base, (∀ x, known_kind (getEv s x).ev_event) →
      (∀ x, known_kind (getEv (l.foldl api_call.run s) x).ev_event) ∧
        dispatch_calls (l.foldl api_call.run s) = dispatch_calls s ∧
        (l.foldl api_call.run s).evb_running = s.evb_running := by
  induction l with
  | nil => intro s hk; exact ⟨hk, rfl, rfl⟩
  | cons c l ih =>
    intro s hk
    have h1 := ih (c.run s) (kinds_api_call s c hk)
    rw [List.foldl_cons]
    exact ⟨h1.1, h1.2.1.trans (api_call_frame s c).calls,
      h1.2.2.trans (api_call_frame s c).running⟩

theorem type_bits_setFlags_SET (s : event_base) (ev x m : Nat) (h : m &&& EV_TYPE_MASK = 0) :
    ISSET (getEv (setFlags s ev (fun v => SET v m)) x).ev_event EV_TYPE_MASK =
      ISSET (getEv s x).ev_event EV_TYPE_MASK := by
  rw [getEv_setFlags]
  split
  · next hx => rw [hx.1]; exact ISSET_SET_of_disj h _
  · rfl

theorem type_bits_setFlags_CLR (s : event_base) (ev x m : Nat)
    (h : (0xffff ^^^ m) &&& EV_TYPE_MASK = EV_TYPE_MASK) :
    ISSET (getEv (setFlags s ev (fun v => CLR v m)) x).ev_event EV_TYPE_MASK =
      ISSET (getEv s x).ev_event EV_TYPE_MASK := by
  rw [getEv_setFlags]
  split
  · next hx => rw [hx.1]; exact ISSET_CLR_of_disj h _
  · rfl

theorem event_fire_event_kinds (s : event_base) (ev event : Nat) (oprv : Int) :
    (∀ x, ISSET (getEv (event_fire_event s ev event oprv) x).ev_event EV_TYPE_MASK =
      ISSET (getEv s x).ev_event EV_TYPE_MASK) ∧
    dispatch_calls (event_fire_event s ev event oprv) = dispatch_calls s := by
  have k1 := fun s ev x => type_bits_setFlags_SET s ev x EV_ON_FIRE (by decide)
  have k2 := fun s ev x => type_bits_setFlags_CLR s ev x (EV_ON_LIST ||| EV_ON_HEAP) (by decide)
  unfold event_fire_event
  simp only []
  split_ifs <;>
  (refine ⟨fun x => ?_, ?_⟩
   · simp only [k1, k2, and_self, and_true, and_false, true_and, false_and, if_true, if_false, ite_true, ite_false, ne_eq, not_true_eq_false, not_false_eq_true, getEv_nevents_dec, getEv_nevents_inc, getEv_event_heap_remove, getEv_event_fire_remove, getEv_event_fire_insert, getEv_event_op, getEv_event_list_insert, getEv_event_list_remove, getEv_setSignals, setFires_get_ev_event]
   · simp [dispatch_calls, poller_call.is_dispatch])

theorem event_fire_signal_kinds (l : List Nat) :
    ∀ s : event_base,
      (∀ x, ISSET (getEv (l.foldl event_fire_signal_one s) x).ev_event EV_TYPE_MASK =
        ISSET (getEv s x).ev_event EV_TYPE_MASK) ∧
      dispatch_calls (l.foldl event_fire_signal_one s) = dispatch_calls s := by
  have k1 := fun s ev x => type_bits_setFlags_SET s ev x EV_ON_FIRE (by decide)
  induction l with
  | nil => intro s; exact ⟨fun _ => rfl, rfl⟩
  | cons a l ih =>
    intro s
    rw [List.foldl_cons]
    have h1 : (∀ x, ISSET (getEv (event_fire_signal_one s a) x).ev_event EV_TYPE_MASK =
        ISSET (getEv s x).ev_event EV_TYPE_MASK) ∧
        dispatch_calls (event_fire_signal_one s a) = dispatch_calls s := by
      unfold event_fire_signal_one
      simp only []
      split_ifs <;>
      (refine ⟨fun x => ?_, ?_⟩
       · simp only [k1, and_self, and_true, and_false, true_and, false_and, if_true, if_false, ite_true, ite_false, ne_eq, not_true_eq_false, not_false_eq_true, getEv_nevents_dec, getEv_nevents_inc, getEv_event_heap_remove, getEv_event_fire_remove, getEv_event_fire_insert, getEv_event_op, getEv_event_list_insert, getEv_event_list_remove, getEv_setSignals, setFires_get_ev_event]
       · simp [dispatch_calls])
    have h2 := ih (event_fire_signal_one s a)
    exact ⟨fun x => (h2.1 x).trans (h1.1 x), h2.2.trans h1.2⟩

theorem poller_reports_kinds (l : List poller_report) :
    ∀ s : event_base, (∀ x, known_kind (getEv s x).ev_event) →
      (∀ x, known_kind (getEv (l.foldl poller_report.run s) x).ev_event) ∧
        dispatch_calls (l.foldl poller_report.run s) = dispatch_calls s := by
  induction l with
  | nil => intro s hk; exact ⟨hk, rfl⟩
  | cons r l ih =>
    intro s hk
    rw [List.foldl_cons]
    cases r with
    | fire_event ev event oprv =>
      have h1 := event_fire_event_kinds s ev event oprv
      have h2 := ih _ (kinds_of_type_bits h1.1 hk)
      exact ⟨h2.1, h2.2.trans h1.2⟩
    | fire_signal sig =>
      have h1 := event_fire_signal_kinds (s.evb_signals sig) s
      have h2 := ih _ (kinds_of_type_bits h1.1 hk)
      exact ⟨h2.1, h2.2.trans h1.2⟩

theorem event_dispatch_pop_kinds (s : event_base) (ev : Nat) :
    (∀ x, ISSET (getEv (event_dispatch_pop s ev).2 x).ev_event EV_TYPE_MASK =
      ISSET (getEv s x).ev_event EV_TYPE_MASK) ∧
    dispatch_calls (event_dispatch_pop s ev).2 = dispatch_calls s ∧
    (event_dispatch_pop s ev).2.evb_running = s.evb_running := by
  have k1 := fun s ev x => type_bits_setFlags_CLR s ev x EV_ON_FIRE (by decide)
  unfold event_dispatch_pop
  refine ⟨fun x => ?_, ?_, ?_⟩
  · simp only [k1, and_self, and_true, and_false, true_and, false_and, if_true, if_false, ite_true, ite_false, ne_eq, not_true_eq_false, not_false_eq_true, getEv_nevents_dec, getEv_nevents_inc, getEv_event_heap_remove, getEv_event_fire_remove, getEv_event_fire_insert, getEv_event_op, getEv_event_list_insert, getEv_event_list_remove, getEv_setSignals, setFires_get_ev_event]
  · simp [dispatch_calls]
  · simp

/-- The body of the timer drain keeps the kinds and makes no call of the poller's
dispatch; on an event of one of the three kinds it does not call `abort`. -/
theorem event_dispatch_expire_kinds (s : event_base) (ev : Nat) (oprv : Int) :
    (∀ x, ISSET (getEv (event_dispatch_expire s ev oprv).2 x).ev_event EV_TYPE_MASK =
      ISSET (getEv s x).ev_event EV_TYPE_MASK) ∧
    dispatch_calls (event_dispatch_expire s ev oprv).2 = dispatch_calls s ∧
    (event_dispatch_expire s ev oprv).1 ≠ some (.ret 0) ∧
    (known_kind (getEv s ev).ev_event → (event_dispatch_expire s ev oprv).1 ≠ some .abort) ∧
    ((event_dispatch_expire s ev oprv).1 = none ∨
      (event_dispatch_expire s ev oprv).1 = some (.ret (-1)) ∨
      (event_dispatch_expire s ev oprv).1 = some .abort) := by
  have k1 := fun s ev x => type_bits_setFlags_SET s ev x EV_ON_FIRE (by decide)
  have k2 := fun s ev x => type_bits_setFlags_CLR s ev x (EV_ON_LIST ||| EV_ON_HEAP) (by decide)
  unfold event_dispatch_expire known_kind
  simp only []
  split_ifs <;>
  (refine ⟨fun x => ?_, ?_, ?_, ?_, ?_⟩
   · simp only [k1, k2, and_self, and_true, and_false, true_and, false_and, if_true, if_false, ite_true, ite_false, ne_eq, not_true_eq_false, not_false_eq_true, getEv_nevents_dec, getEv_nevents_inc, getEv_event_heap_remove, getEv_event_fire_remove, getEv_event_fire_insert, getEv_event_op, getEv_event_list_insert, getEv_event_list_remove, getEv_setSignals, setFires_get_ev_event]
   · simp [dispatch_calls, poller_call.is_dispatch]
   · simp
   · simp_all
   · simp)

theorem event_heap_cextract_getEv (s : event_base) (now : event) (x : Nat) :
    getEv (event_heap_cextract s now).2 x = getEv s x ∧
      dispatch_calls (event_heap_cextract s now).2 = dispatch_calls s := ⟨rfl, rfl⟩

theorem event_dispatch_drain_kinds (oprv : Nat → Int) (now : timespec) (fuel : Nat) :
    ∀ s : event_base, (∀ x, known_kind (getEv s x).ev_event) →
      (∀ x, known_kind (getEv (event_dispatch_drain oprv now fuel s).2 x).ev_event) ∧
        dispatch_calls (event_dispatch_drain oprv now fuel s).2 = dispatch_calls s ∧
        ((event_dispatch_drain oprv now fuel s).1 = none ∨
          (event_dispatch_drain oprv now fuel s).1 = some (.ret (-1))) := by
  induction fuel with
  | zero => intro s hk; exact ⟨hk, rfl, Or.inl rfl⟩
  | succ n ih =>
    intro s hk
    unfold event_dispatch_drain
    rcases hc : event_heap_cextract s (now_event now) with ⟨_ | ev, s1⟩
    · exact ⟨hk, rfl, Or.inl rfl⟩
    · have hs1 : s1 = (event_heap_cextract s (now_event now)).2 := by rw [hc]
      have hk1 : ∀ x, known_kind (getEv s1 x).ev_event := by
        intro x
        rw [hs1, (event_heap_cextract_getEv s _ x).1]
        exact hk x
      have hc1 : dispatch_calls s1 = dispatch_calls s := by
        rw [hs1, (event_heap_cextract_getEv s _ 0).2]
      have he := event_dispatch_expire_kinds s1 ev (oprv ev)
      simp only []
      rcases hx : event_dispatch_expire s1 ev (oprv ev) with ⟨_ | e, s2⟩
      · rw [hx] at he
        have h2 := ih s2 (kinds_of_type_bits he.1 hk1)
        exact ⟨h2.1, h2.2.1.trans (he.2.1.trans hc1), h2.2.2⟩
      · rw [hx] at he
        refine ⟨kinds_of_type_bits he.1 hk1, he.2.1.trans hc1, Or.inr ?_⟩
        rcases he.2.2.2.2 with h3 | h3 | h3
        · exact absurd h3 (by simp)
        · exact h3
        · exact absurd h3 (he.2.2.2.1 (hk1 ev))

theorem event_dispatch_fire_kinds (env : dispatch_env) (fuel : Nat) :
    ∀ (s : event_base) (tr : List invocation), (∀ x, known_kind (getEv s x).ev_event) →
      (∀ x, known_kind (getEv (event_dispatch_fire env fuel s tr).2.1 x).ev_event) ∧
        dispatch_calls (event_dispatch_fire env fuel s tr).2.1 = dispatch_calls s ∧
        ((event_dispatch_fire env fuel s tr).1 = none ∨
          ((event_dispatch_fire env fuel s tr).1 = some (.ret 0) ∧
            (event_dispatch_fire env fuel s tr).2.1.evb_running = 0)) := by
  induction fuel with
  | zero => intro s tr hk; exact ⟨hk, rfl, Or.inl rfl⟩
  | succ n ih =>
    intro s tr hk
    unfold event_dispatch_fire
    cases hf : event_fire_first s with
    | none => exact ⟨hk, rfl, Or.inl rfl⟩
    | some ev =>
      have hp := event_dispatch_pop_kinds s ev
      have ha := kinds_api_calls (env.callback (event_dispatch_pop s ev).2
        (event_dispatch_pop s ev).1) (event_dispatch_pop s ev).2 (kinds_of_type_bits hp.1 hk)
      simp only []
      split
      · next h0 => exact ⟨ha.1, ha.2.1.trans hp.2.1, Or.inr ⟨rfl, h0⟩⟩
      · have h2 := ih _ (tr ++ [(event_dispatch_pop s ev).1]) ha.1
        exact ⟨h2.1, h2.2.1.trans (ha.2.1.trans hp.2.1), h2.2.2⟩

theorem event_op_dispatch_kinds (env : dispatch_env) (runs : Nat) (s : event_base)
    (ts : Option timespec) (hk : ∀ x, known_kind (getEv s x).ev_event) :
    (∀ x, known_kind (getEv (event_op_dispatch env runs s ts).2 x).ev_event) ∧
      dispatch_calls (event_op_dispatch env runs s ts).2 = dispatch_calls s + 1 := by
  unfold event_op_dispatch
  have h1 := poller_reports_kinds (env.poll runs s ts).2
    (event_op s (.dispatch ts) (env.poll runs s ts).1) hk
  refine ⟨h1.1, ?_⟩
  rw [h1.2, dispatch_calls_event_op]
  rfl

/-- The loop of `event_dispatch` entered with `left` turns before `++runs == 30`. -/
theorem event_dispatch_loop_turns (env : dispatch_env) (left : Nat) :
    ∀ (s : event_base) (tr : List invocation), (∀ x, known_kind (getEv s x).ev_event) →
      (∀ x, known_kind (getEv (event_dispatch_loop env left s tr).2.1 x).ev_event) ∧
      dispatch_calls (event_dispatch_loop env left s tr).2.1 ≤ dispatch_calls s + left ∧
      ((event_dispatch_loop env left s tr).1 = .abort →
        dispatch_calls (event_dispatch_loop env left s tr).2.1 = dispatch_calls s + left) ∧
      (dispatch_calls (event_dispatch_loop env left s tr).2.1 = dispatch_calls s + left →
        (event_dispatch_loop env left s tr).1 = .abort ∨
          (event_dispatch_loop env left s tr).1 = .ret (-1)) ∧
      ((event_dispatch_loop env left s tr).1 = .abort ∨
        (event_dispatch_loop env left s tr).1 = .ret 0 ∨
        (event_dispatch_loop env left s tr).1 = .ret (-1)) ∧
      ((event_dispatch_loop env left s tr).1 = .ret 0 →
        (event_dispatch_loop env left s tr).2.1.evb_nevents = 0 ∨
          (event_dispatch_loop env left s tr).2.1.evb_running = 0) := by
  induction left with
  | zero =>
    intro s tr hk
    exact ⟨hk, Nat.le_refl _, fun _ => rfl, fun _ => Or.inl rfl, Or.inl rfl,
      fun h => absurd h (by simp [event_dispatch_loop])⟩
  | succ n ih =>
    intro s tr hk
    unfold event_dispatch_loop
    simp only []
    cases hm : env.monotime (29 - n) with
    | none =>
      exact ⟨hk, Nat.le_add_right _ _, fun h => absurd h (by simp), fun _ => Or.inr rfl,
        Or.inr (Or.inr rfl), fun h => absurd h (by simp)⟩
    | some now =>
      simp only []
      have hd := event_dispatch_drain_kinds (env.op_del (29 - n)) now s.evb_heap.length s hk
      rcases hdr : event_dispatch_drain (env.op_del (29 - n)) now s.evb_heap.length s
        with ⟨_ | e, s1⟩
      · rw [hdr] at hd
        simp only [] at hd ⊢
        have hf := event_dispatch_fire_kinds env s1.evb_fire.length s1 tr hd.1
        rcases hfr : event_dispatch_fire env s1.evb_fire.length s1 tr with ⟨_ | e, s2, tr2⟩
        · rw [hfr] at hf
          simp only [] at hf ⊢
          have hc2 : dispatch_calls s2 = dispatch_calls s := hf.2.1.trans hd.2.1
          split
          · next h0 =>
            dsimp only
            exact ⟨hf.1, by omega, fun h => absurd h (by simp), fun h => by omega,
              Or.inr (Or.inl rfl), fun _ => Or.inl h0⟩
          · have ho := event_op_dispatch_kinds env (29 - n) s2 (event_dispatch_timeout s2 now) hf.1
            unfold event_dispatch_timeout at ho
            split
            · dsimp only
              exact ⟨ho.1, by rw [ho.2]; omega, fun h => absurd h (by simp),
                fun _ => Or.inr rfl, Or.inr (Or.inr rfl), fun h => absurd h (by simp)⟩
            · have h3 := ih _ tr2 ho.1
              rw [ho.2, hc2] at h3
              refine ⟨h3.1, by omega, ?_, ?_, h3.2.2.2.2.1, h3.2.2.2.2.2⟩
              · intro h
                have := h3.2.2.1 h
                omega
              · intro h
                exact h3.2.2.2.1 (by omega)
        · rw [hfr] at hf
          simp only [] at hf ⊢
          have hc2 : dispatch_calls s2 = dispatch_calls s := hf.2.1.trans hd.2.1
          rcases hf.2.2 with h4 | ⟨h4, h5⟩
          · exact absurd h4 (by simp)
          · have he : e = .ret 0 := by simpa using h4
            rw [he]
            exact ⟨hf.1, by omega, fun h => absurd h (by simp), fun h => by omega,
              Or.inr (Or.inl rfl), fun _ => Or.inr h5⟩
      · rw [hdr] at hd
        simp only [] at hd ⊢
        rcases hd.2.2 with h4 | h4
        · exact absurd h4 (by simp)
        · have he : e = .ret (-1) := by simpa using h4
          rw [he]
          exact ⟨hd.1, by rw [hd.2.1]; omega, fun h => absurd h (by simp),
            fun _ => Or.inr rfl, Or.inr (Or.inr rfl), fun h => absurd h (by simp)⟩

/-- C27: one call of `event_dispatch` on event objects of the three kinds calls the
poller's dispatch at most 29 times; it ends by `abort` exactly when the loop is
entered for the 30th time (then 29 poller dispatches were made, the last of
which did not return -1), and otherwise by returning 0, with `evb_nevents` zero
or `evb_running` cleared, or by returning -1. -/
theorem dispatch_aborts_on_turn_30 (env : dispatch_env) (s : event_base)
    (hk : kinds_known s) :
    dispatch_calls (event_dispatch env s).2.1 ≤ dispatch_calls s + 29 ∧
    ((event_dispatch env s).1 = .abort →
      dispatch_calls (event_dispatch env s).2.1 = dispatch_calls s + 29) ∧
    (dispatch_calls (event_dispatch env s).2.1 = dispatch_calls s + 29 →
      (event_dispatch env s).1 = .abort ∨ (event_dispatch env s).1 = .ret (-1)) ∧
    ((event_dispatch env s).1 = .abort ∨ (event_dispatch env s).1 = .ret 0 ∨
      (event_dispatch env s).1 = .ret (-1)) ∧
    ((event_dispatch env s).1 = .ret 0 →
      (event_dispatch env s).2.1.evb_nevents = 0 ∨
        (event_dispatch env s).2.1.evb_running = 0) := by
  have h := event_dispatch_loop_turns env 29 { s with evb_running := 1 } []
    ((kinds_known_iff s).1 hk)
  exact h.2

theorem dispatch_aborts_on_turn_30_witness :
    kinds_known ex_persist ∧
    (event_dispatch env_always_ready ex_persist).1 = .abort ∧
    (event_dispatch env_always_ready ex_persist).2.2.length = 28 ∧
    dispatch_calls (event_dispatch env_always_ready ex_persist).2.1 =
      dispatch_calls ex_persist + 29 :=
  ⟨by decide, by decide, by decide,
   (dispatch_aborts_on_turn_30 env_always_ready ex_persist (by decide)).2.1 (by decide)⟩

theorem poll_inv_free_length {evp : event_poll} (h : poll_inv evp) :
    evp.evp_live.length + evp.evp_free.length = evp.evp_pfdlen := by
  have hnd : (evp.evp_live ++ evp.evp_free).Nodup :=
    List.nodup_append.2 ⟨h.live, h.free, fun x hx hy => h.disj x hx hy⟩
  have hp : (evp.evp_live ++ evp.evp_free).Perm (List.range evp.evp_pfdlen) := by
    refine (List.perm_ext_iff_of_nodup hnd (List.nodup_range _)).2 (fun i => ?_)
    rw [List.mem_append, List.mem_range]
    exact (h.cover i).symm
  have := hp.length_eq
  simpa using this

/-- What one turn of the loop of `event_poll_pack` does. -/
theorem event_poll_pack_move_spec {evp evp2 : event_poll} {s s1 : event_base} {gen l f : Nat}
    (h : poll_inv evp) (hl : l ∈ evp.evp_live) (hf : f ∈ evp.evp_free)
    (hm : event_poll_pack_move (evp_set_free evp (evp.evp_free.erase f)) s gen l f =
      some (evp2, s1)) :
    ∃ o, (getPfd evp l).evpfd_ev = some o ∧
      s1 = setEv s o { getEv s o with ev_cookie := some f } ∧
      evp2.evp_live = evp.evp_live.erase l ++ [f] ∧
      evp2.evp_free = evp.evp_free.erase f ++ [l] ∧
      evp2.evp_pfds.length = evp.evp_pfds.length ∧
      evp2.evp_gen = evp.evp_gen ∧
      (getPfd evp2 f).evpfd_ev = some o ∧ (getPfd evp2 l).evpfd_ev = none ∧
      (∀ i, i ≠ l → i ≠ f → getPfd evp2 i = getPfd evp i) ∧
      (f < evp.evp_pfds.length →
        (evp2.evp_pfds.getD f default).fd = (evp.evp_pfds.getD l default).fd ∧
        (evp2.evp_pfds.getD f default).events = (evp.evp_pfds.getD l default).events) ∧
      (∀ i, i ≠ f → evp2.evp_pfds.getD i default = evp.evp_pfds.getD i default) := by
  have hfl := poll_inv_lt h (Or.inr hf)
  have hll := poll_inv_lt h (Or.inl hl)
  have hflen : f < evp.evp_evpfds.length := Nat.lt_of_lt_of_le hfl h.len
  have hllen : l < evp.evp_evpfds.length := Nat.lt_of_lt_of_le hll h.len
  have hne : l ≠ f := fun e => h.disj l hl (e ▸ hf)
  have hidl := h.idx l hll
  have hidf := h.idx f hfl
  obtain ⟨o, ho⟩ : ∃ o, (getPfd evp l).evpfd_ev = some o :=
    Option.ne_none_iff_exists'.1 (h.owner l hl)
  unfold event_poll_pack_move at hm
  simp only [getPfd_setPfd, getPfd_setPollfd, getPfd_evpfd_live_remove, getPfd_evp_set_free,
    setPollfd_evp_evpfds, evpfd_live_remove_evp_evpfds, evp_set_free_evp_evpfds, hflen,
    and_self, and_true, if_true, ho, hne, if_false, false_and, Option.some.injEq,
    Prod.mk.injEq] at hm
  obtain ⟨rfl, rfl⟩ := hm
  refine ⟨o, ho, rfl, ?_, ?_, ?_, ?_, ?_, ?_, ?_, ?_, ?_⟩
  · simp [HEAP_INSERT, HEAP_REMOVE]
  · simp [HEAP_INSERT]
  · simp
  · simp
  · simp [getPfd_setPfd, hllen, hflen, hne.symm]
  · simp [getPfd_setPfd, hllen, hflen]
  · intro i hi1 hi2
    simp [getPfd_setPfd, hi1, hi2]
  · intro hfp
    simp [hidl, hidf, List.getD_eq_getElem?_getD, List.getElem?_set, hfp]
  · intro i hi
    have : ¬ f = i := fun e => hi e.symm
    simp [hidf, List.getD_eq_getElem?_getD, List.getElem?_set, this]


/-- The moves of the loop of `event_poll_pack`: the moved descriptors are live ones,
the targets are free ones below them, none occurs twice, and the heaps at the end
are the heaps at the start with the moved descriptors and the targets exchanged. -/
theorem event_poll_pack_moves_spec (gen : Nat) (fuel : Nat) :
    ∀ (evp : event_poll) (s : event_base), poll_inv evp → evp.evp_live.sum ≤ fuel →
      ∃ evp1 s1, event_poll_pack_loop gen fuel evp s = some (evp1, s1) ∧
        ((event_poll_pack_moves gen fuel evp s).map Prod.fst).Nodup ∧
        ((event_poll_pack_moves gen fuel evp s).map Prod.snd).Nodup ∧
        (∀ m ∈ event_poll_pack_moves gen fuel evp s,
          m.1 ∈ evp.evp_live ∧ m.2 ∈ evp.evp_free ∧ m.2 < m.1) ∧
        (∀ x, x ∈ evp1.evp_live ↔
          (x ∈ evp.evp_live ∧ x ∉ (event_poll_pack_moves gen fuel evp s).map Prod.fst) ∨
            x ∈ (event_poll_pack_moves gen fuel evp s).map Prod.snd) ∧
        (∀ x, x ∈ evp1.evp_free ↔
          (x ∈ evp.evp_free ∧ x ∉ (event_poll_pack_moves gen fuel evp s).map Prod.snd) ∨
            x ∈ (event_poll_pack_moves gen fuel evp s).map Prod.fst) := by
  induction fuel with
  | zero =>
    intro evp s h hs
    exact ⟨evp, s, rfl, List.nodup_nil, List.nodup_nil, fun m hm => absurd hm (List.not_mem_nil _),
      fun x => by simp [event_poll_pack_moves], fun x => by simp [event_poll_pack_moves]⟩
  | succ n ih =>
    intro evp s h hs
    unfold event_poll_pack_loop event_poll_pack_moves
    cases hlf : evpfd_live_first evp with
    | none =>
      exact ⟨evp, s, rfl, List.nodup_nil, List.nodup_nil,
        fun m hm => absurd hm (List.not_mem_nil _), fun x => by simp, fun x => by simp⟩
    | some l =>
      obtain ⟨hl, hmax⟩ := evpfd_live_first_max evp l hlf
      simp only []
      rcases hc : evpfd_free_cextract evp l with ⟨_ | f, evp1⟩
      · exact ⟨evp, s, rfl, List.nodup_nil, List.nodup_nil,
          fun m hm => absurd hm (List.not_mem_nil _), fun x => by simp, fun x => by simp⟩
      · obtain ⟨hff, rfl, hle⟩ := evpfd_free_cextract_some hc
        obtain ⟨hf, hmin⟩ := evpfd_free_first_min evp f hff
        rw [poll_inv_idx h (Or.inl hl), poll_inv_idx h (Or.inr hf)] at hle
        have hne : l ≠ f := fun e => h.disj l hl (e ▸ hf)
        have hfl : f < l := by omega
        obtain ⟨evp2, s1, hm, hinv, hlive, hnfds, hpfdlen⟩ :=
          poll_inv_pack_move evp s gen l f h hl hf
        obtain ⟨o, _, _, _, hfree, _⟩ := event_poll_pack_move_spec h hl hf hm
        simp only [hm]
        have hsum : evp2.evp_live.sum ≤ n := by
          rw [hlive, List.sum_append]
          have := List.sum_erase hl
          simp only [List.sum_cons, List.sum_nil]
          omega
        obtain ⟨evp3, s3, hr, hn1, hn2, hmem, hl3, hf3⟩ := ih evp2 s1 hinv hsum
        have hmaxl : ∀ x ∈ evp.evp_live, x ≤ l := by
          intro x hx
          have := hmax x hx
          rw [poll_inv_idx h (Or.inl hx), poll_inv_idx h (Or.inl hl)] at this
          exact this
        have hminf : ∀ y ∈ evp.evp_free, f ≤ y := by
          intro y hy
          have := hmin y hy
          rw [poll_inv_idx h (Or.inr hf), poll_inv_idx h (Or.inr hy)] at this
          exact this
        -- the later moves take live descriptors other than `l` to free ones other than `f`
        have hlater : ∀ m ∈ event_poll_pack_moves gen n evp2 s1,
            m.1 ∈ evp.evp_live ∧ m.1 ≠ l ∧ m.1 ≠ f ∧ m.2 ∈ evp.evp_free ∧ m.2 ≠ f ∧ m.2 ≠ l ∧
              m.2 < m.1 := by
          intro m hm2
          obtain ⟨h1, h2, h3⟩ := hmem m hm2
          rw [hlive] at h1
          rw [hfree] at h2
          have h2' : (m.2 ∈ evp.evp_free ∧ m.2 ≠ f) ∨ m.2 = l := by
            rcases List.mem_append.1 h2 with h4 | h4
            · exact Or.inl ⟨(List.mem_of_mem_erase h4), fun e => by
                rw [e] at h4
                exact (List.Nodup.not_mem_erase h.free) h4⟩
            · exact Or.inr (by simpa using h4)
          have h1' : (m.1 ∈ evp.evp_live ∧ m.1 ≠ l) ∨ m.1 = f := by
            rcases List.mem_append.1 h1 with h4 | h4
            · exact Or.inl ⟨(List.mem_of_mem_erase h4), fun e => by
                rw [e] at h4
                exact (List.Nodup.not_mem_erase h.live) h4⟩
            · exact Or.inr (by simpa using h4)
          rcases h1' with ⟨a1, a2⟩ | a1
          · rcases h2' with ⟨b1, b2⟩ | b1
            · refine ⟨a1, a2, fun e => h.disj _ a1 (e ▸ hf), b1, b2,
                fun e => h.disj _ hl (e ▸ b1), h3⟩
            · have := hmaxl _ a1
              omega
          · rcases h2' with ⟨b1, b2⟩ | b1
            · have := hminf _ b1
              omega
            · omega
        refine ⟨evp3, s3, hr, ?_, ?_, ?_, ?_, ?_⟩
        · rw [List.map_cons, List.nodup_cons]
          refine ⟨?_, hn1⟩
          intro hmem1
          obtain ⟨m, hm2, hm3⟩ := List.mem_map.1 hmem1
          exact (hlater m hm2).2.1 hm3
        · rw [List.map_cons, List.nodup_cons]
          refine ⟨?_, hn2⟩
          intro hmem1
          obtain ⟨m, hm2, hm3⟩ := List.mem_map.1 hmem1
          exact (hlater m hm2).2.2.2.2.1 hm3
        · intro m hm2
          rcases List.mem_cons.1 hm2 with e | hm3
          · rw [e]
            exact ⟨hl, hf, hfl⟩
          · have := hlater m hm3
            exact ⟨this.1, this.2.2.2.1, this.2.2.2.2.2.2⟩
        · intro x
          rw [hl3 x, hlive, List.map_cons, List.map_cons, List.mem_cons, List.mem_cons,
            List.mem_append, List.mem_singleton]
          have hfn : f ∉ (event_poll_pack_moves gen n evp2 s1).map Prod.fst := by
            intro hmem1
            obtain ⟨m, hm2, hm3⟩ := List.mem_map.1 hmem1
            exact (hlater m hm2).2.2.1 hm3
          constructor
          · rintro (⟨h1 | h1, h2⟩ | h1)
            · have hx := List.mem_of_mem_erase h1
              have hxl : x ≠ l := fun e => by
                rw [e] at h1
                exact (List.Nodup.not_mem_erase h.live) h1
              exact Or.inl ⟨hx, fun e => by
                rcases e with e | e
                · exact hxl e
                · exact h2 e⟩
            · exact Or.inr (Or.inl h1)
            · exact Or.inr (Or.inr h1)
          · rintro (⟨h1, h2⟩ | h1 | h1)
            · have hxl : x ≠ l := fun e => h2 (Or.inl e)
              exact Or.inl ⟨Or.inl ((List.mem_erase_of_ne hxl).2 h1), fun e => h2 (Or.inr e)⟩
            · rw [h1]
              exact Or.inl ⟨Or.inr rfl, hfn⟩
            · exact Or.inr h1
        · intro x
          rw [hf3 x, hfree, List.map_cons, List.map_cons, List.mem_cons, List.mem_cons,
            List.mem_append, List.mem_singleton]
          have hln : l ∉ (event_poll_pack_moves gen n evp2 s1).map Prod.snd := by
            intro hmem1
            obtain ⟨m, hm2, hm3⟩ := List.mem_map.1 hmem1
            exact (hlater m hm2).2.2.2.2.2.1 hm3
          constructor
          · rintro (⟨h1 | h1, h2⟩ | h1)
            · have hx := List.mem_of_mem_erase h1
              have hxf : x ≠ f := fun e => by
                rw [e] at h1
                exact (List.Nodup.not_mem_erase h.free) h1
              exact Or.inl ⟨hx, fun e => by
                rcases e with e | e
                · exact hxf e
                · exact h2 e⟩
            · exact Or.inr (Or.inl h1)
            · exact Or.inr (Or.inr h1)
          · rintro (⟨h1, h2⟩ | h1 | h1)
            · have hxf : x ≠ f := fun e => h2 (Or.inl e)
              exact Or.inl ⟨Or.inl ((List.mem_erase_of_ne hxf).2 h1), fun e => h2 (Or.inr e)⟩
            · rw [h1]
              exact Or.inl ⟨Or.inr rfl, hln⟩
            · exact Or.inr h1

/-- C28: for every state of the POLL poller that satisfies the slot invariant (the
live and the free heap are disjoint and cover `[0, evp_pfdlen)`), the loop of
`event_poll_pack` ends, in a state where no live position is above a free one,
after at most `min(evp_nfds, evp_pfdlen - evp_nfds)` moves; every move takes a
live descriptor to a free one below it, no descriptor takes part in two moves,
and at the end the moved descriptors are free and the targets live. -/
theorem pack_moves_bounded (evp : event_poll) (s : event_base) (h : poll_inv evp) :
    ∃ evp1 s1, event_poll_pack evp s = some (evp1, s1) ∧
      (∀ x ∈ evp1.evp_live, ∀ y ∈ evp1.evp_free, x < y) ∧
      (event_poll_pack_moves evp.evp_gen evp.evp_live.sum evp s).length ≤
        min evp.evp_nfds (evp.evp_pfdlen - evp.evp_nfds) ∧
      ((event_poll_pack_moves evp.evp_gen evp.evp_live.sum evp s).map Prod.fst ++
        (event_poll_pack_moves evp.evp_gen evp.evp_live.sum evp s).map Prod.snd).Nodup ∧
      ∀ m ∈ event_poll_pack_moves evp.evp_gen evp.evp_live.sum evp s,
        m.1 ∈ evp.evp_live ∧ m.2 ∈ evp.evp_free ∧ m.2 < m.1 ∧
          m.1 ∈ evp1.evp_free ∧ m.2 ∈ evp1.evp_live := by
  obtain ⟨evp1, s1, hr, hn1, hn2, hmem, hl1, hf1⟩ :=
    event_poll_pack_moves_spec evp.evp_gen evp.evp_live.sum evp s h (Nat.le_refl _)
  obtain ⟨evp1', s1', hr', _, _, _, hsep⟩ :=
    event_poll_pack_loop_spec evp.evp_gen evp.evp_live.sum evp s h (Nat.le_refl _)
  have he : evp1' = evp1 := by
    rw [hr] at hr'
    simp only [Option.some.injEq, Prod.mk.injEq] at hr'
    exact hr'.1.symm
  subst he
  refine ⟨evp1', s1, hr, hsep, ?_, ?_, ?_⟩
  · have h1 : ((event_poll_pack_moves evp.evp_gen evp.evp_live.sum evp s).map Prod.fst).length ≤
        evp.evp_live.length :=
      (List.subperm_of_subset hn1 (fun x hx => by
        obtain ⟨m, hm2, hm3⟩ := List.mem_map.1 hx
        exact hm3 ▸ (hmem m hm2).1)).length_le
    have h2 : ((event_poll_pack_moves evp.evp_gen evp.evp_live.sum evp s).map Prod.snd).length ≤
        evp.evp_free.length :=
      (List.subperm_of_subset hn2 (fun x hx => by
        obtain ⟨m, hm2, hm3⟩ := List.mem_map.1 hx
        exact hm3 ▸ (hmem m hm2).2.1)).length_le
    rw [List.length_map] at h1 h2
    have h3 := poll_inv_free_length h
    have h4 := h.nfds
    omega
  · refine List.nodup_append.2 ⟨hn1, hn2, ?_⟩
    intro x hx hy
    obtain ⟨m, hm2, hm3⟩ := List.mem_map.1 hx
    obtain ⟨m', hm2', hm3'⟩ := List.mem_map.1 hy
    exact h.disj x (hm3 ▸ (hmem m hm2).1) (hm3' ▸ (hmem m' hm2').2.1)
  · intro m hm2
    obtain ⟨a1, a2, a3⟩ := hmem m hm2
    refine ⟨a1, a2, a3, ?_, ?_⟩
    · exact (hf1 m.1).2 (Or.inr (List.mem_map_of_mem _ hm2))
    · exact (hl1 m.2).2 (Or.inr (List.mem_map_of_mem _ hm2))

theorem pack_moves_bounded_witness :
    event_poll_pack_moves ex_poll.1.evp_gen ex_poll.1.evp_live.sum ex_poll.1 ex_poll.2 = [(3, 2)] ∧
    ∃ evp1 s1, event_poll_pack ex_poll.1 ex_poll.2 = some (evp1, s1) ∧
      (∀ x ∈ evp1.evp_live, ∀ y ∈ evp1.evp_free, x < y) ∧
      (event_poll_pack_moves ex_poll.1.evp_gen ex_poll.1.evp_live.sum ex_poll.1 ex_poll.2).length ≤
        min ex_poll.1.evp_nfds (ex_poll.1.evp_pfdlen - ex_poll.1.evp_nfds) :=
  ⟨by decide, by
    obtain ⟨evp1, s1, h1, h2, h3, _⟩ :=
      pack_moves_bounded ex_poll.1 ex_poll.2 (poll_reachable_inv poll_reachable_ex_poll)
    exact ⟨evp1, s1, h1, h2, h3⟩⟩


theorem cookie_lt {s : event_base} {ev c : Nat} (h : (getEv s ev).ev_cookie = some c) :
    ev < s.mem.length := by
  by_contra hx
  rw [getEv_of_length_le s ev (Nat.le_of_not_lt hx)] at h
  exact absurd h (by simp [default, instInhabitedEvent])

/-- One turn of the loop of `event_poll_pack` keeps the registrations and the
agreement of slots and event objects. -/
theorem poll_cookie_inv_pack_move {evp evp2 : event_poll} {s s1 : event_base} {gen l f : Nat}
    (h : poll_inv evp) (hc : poll_cookie_inv evp s) (h2 : poll_inv evp2)
    (hl : l ∈ evp.evp_live) (hf : f ∈ evp.evp_free)
    (hpl : evp2.evp_pfdlen = evp.evp_pfdlen)
    (hm : event_poll_pack_move (evp_set_free evp (evp.evp_free.erase f)) s gen l f =
      some (evp2, s1)) :
    poll_cookie_inv evp2 s1 ∧ (poll_registrations evp2).Perm (poll_registrations evp) ∧
      (∀ x, (getEv s1 x).ev_event = (getEv s x).ev_event ∧
        (getEv s1 x).ev_ident = (getEv s x).ev_ident) := by
  obtain ⟨o, ho, hs1, hlive, hfree, hplen, hgen, hof, hol, hoth, hpf, hpo⟩ :=
    event_poll_pack_move_spec h hl hf hm
  have hne : l ≠ f := fun e => h.disj l hl (e ▸ hf)
  obtain ⟨o', ho', hco⟩ := hc.owned l hl
  have hoo : o' = o := by
    rw [ho] at ho'
    exact (Option.some.inj ho').symm
  subst hoo
  have holt : o' < s.mem.length := cookie_lt hco
  have hfp : f < evp.evp_pfds.length :=
    Nat.lt_of_lt_of_le (poll_inv_lt h (Or.inr hf)) hc.pfds
  have hkeep : ∀ i ∈ evp.evp_live.erase l, i ≠ l ∧ i ≠ f ∧ i ∈ evp.evp_live := by
    intro i hi
    have hil := List.mem_of_mem_erase hi
    exact ⟨fun e => by
      rw [e] at hi
      exact (List.Nodup.not_mem_erase h.live) hi, fun e => h.disj i hil (e ▸ hf), hil⟩
  refine ⟨⟨?_, ?_, ?_⟩, ?_, ?_⟩
  · rw [hpl, hplen]
    exact hc.pfds
  · intro i hi
    rw [hlive] at hi
    rcases List.mem_append.1 hi with hi | hi
    · obtain ⟨a1, a2, a3⟩ := hkeep i hi
      obtain ⟨e, he1, he2⟩ := hc.owned i a3
      refine ⟨e, by rw [hoth i a1 a2]; exact he1, ?_⟩
      have heo : e ≠ o' := by
        intro e1
        rw [e1, hco] at he2
        exact a1 (Option.some.inj he2).symm
      rw [hs1, getEv_setEv]
      simp only [heo, false_and, if_false]
      exact he2
    · have hif : i = f := by simpa using hi
      rw [hif]
      refine ⟨o', hof, ?_⟩
      rw [hs1, getEv_setEv]
      simp [holt]
  · intro i hi
    rw [hfree] at hi
    rcases List.mem_append.1 hi with hi | hi
    · have hif := List.mem_of_mem_erase hi
      have a1 : i ≠ f := fun e => by
        rw [e] at hi
        exact (List.Nodup.not_mem_erase h.free) hi
      have a2 : i ≠ l := fun e => h.disj l hl (e ▸ hif)
      rw [hoth i a2 a1]
      exact hc.vacant i hif
    · have hil : i = l := by simpa using hi
      rw [hil]
      exact hol
  · unfold poll_registrations
    rw [hlive, List.map_append, List.map_singleton]
    have h1 : (evp.evp_live.erase l).map (fun i =>
        ((getPfd evp2 i).evpfd_ev, (evpfd_pollfd evp2 i).fd, (evpfd_pollfd evp2 i).events)) =
        (evp.evp_live.erase l).map (fun i =>
        ((getPfd evp i).evpfd_ev, (evpfd_pollfd evp i).fd, (evpfd_pollfd evp i).events)) := by
      apply List.map_congr_left
      intro i hi
      obtain ⟨a1, a2, a3⟩ := hkeep i hi
      unfold evpfd_pollfd
      rw [hoth i a1 a2, poll_inv_idx h (Or.inl a3), hpo i a2]
    have h3 : ((getPfd evp2 f).evpfd_ev, (evpfd_pollfd evp2 f).fd,
        (evpfd_pollfd evp2 f).events) =
        ((getPfd evp l).evpfd_ev, (evpfd_pollfd evp l).fd, (evpfd_pollfd evp l).events) := by
      have hf2 : f ∈ evp2.evp_live := by rw [hlive]; simp
      unfold evpfd_pollfd
      rw [poll_inv_idx h2 (Or.inl hf2), poll_inv_idx h (Or.inl hl), hof, ho, (hpf hfp).1,
        (hpf hfp).2]
    rw [h1, h3]
    refine List.perm_append_comm.trans ?_
    have h4 := ((List.perm_cons_erase hl).map (fun i =>
      ((getPfd evp i).evpfd_ev, (evpfd_pollfd evp i).fd, (evpfd_pollfd evp i).events))).symm
    simpa using h4
  · intro x
    rw [hs1, getEv_setEv]
    split
    · next hx => rw [hx.1]; exact ⟨rfl, rfl⟩
    · exact ⟨rfl, rfl⟩

theorem event_poll_pack_loop_keeps (gen : Nat) (fuel : Nat) :
    ∀ (evp : event_poll) (s : event_base), poll_inv evp → poll_cookie_inv evp s →
      evp.evp_live.sum ≤ fuel →
      ∃ evp1 s1, event_poll_pack_loop gen fuel evp s = some (evp1, s1) ∧
        poll_cookie_inv evp1 s1 ∧ (poll_registrations evp1).Perm (poll_registrations evp) ∧
        (∀ x, (getEv s1 x).ev_event = (getEv s x).ev_event ∧
          (getEv s1 x).ev_ident = (getEv s x).ev_ident) := by
  induction fuel with
  | zero =>
    intro evp s h hc hs
    exact ⟨evp, s, rfl, hc, List.Perm.refl _, fun _ => ⟨rfl, rfl⟩⟩
  | succ n ih =>
    intro evp s h hc hs
    unfold event_poll_pack_loop
    cases hlf : evpfd_live_first evp with
    | none => exact ⟨evp, s, rfl, hc, List.Perm.refl _, fun _ => ⟨rfl, rfl⟩⟩
    | some l =>
      obtain ⟨hl, hmax⟩ := evpfd_live_first_max evp l hlf
      simp only []
      rcases hcx : evpfd_free_cextract evp l with ⟨_ | f, evp1⟩
      · exact ⟨evp, s, rfl, hc, List.Perm.refl _, fun _ => ⟨rfl, rfl⟩⟩
      · obtain ⟨hff, rfl, hle⟩ := evpfd_free_cextract_some hcx
        obtain ⟨hf, _⟩ := evpfd_free_first_min evp f hff
        rw [poll_inv_idx h (Or.inl hl), poll_inv_idx h (Or.inr hf)] at hle
        have hne : l ≠ f := fun e => h.disj l hl (e ▸ hf)
        obtain ⟨evp2, s1, hm, hinv, hlive, hnfds, hpfdlen⟩ :=
          poll_inv_pack_move evp s gen l f h hl hf
        obtain ⟨hc2, hperm, hev⟩ := poll_cookie_inv_pack_move h hc hinv hl hf hpfdlen hm
        simp only [hm]
        have hsum : evp2.evp_live.sum ≤ n := by
          rw [hlive, List.sum_append]
          have := List.sum_erase hl
          simp only [List.sum_cons, List.sum_nil]
          omega
        obtain ⟨evp3, s3, hr, hc3, hperm3, hev3⟩ := ih evp2 s1 hinv hc2 hsum
        exact ⟨evp3, s3, hr, hc3, hperm3.trans hperm,
          fun x => ⟨(hev3 x).1.trans (hev x).1, (hev3 x).2.trans (hev x).2⟩⟩

/-- C25: in a state of the POLL poller that satisfies the slot invariant and in
which the slots and the event objects agree, `event_poll_pack` returns; the
multiset of (owner, `fd`, `events`) over the live slots is the same before and
after, `evp_nfds` and `evp_pfdlen` are unchanged, the slot invariant holds, and
afterwards every live descriptor is owned by an event whose `ev_cookie`
designates that descriptor while every free descriptor has a null owner; the
flag words and identifiers of the events are untouched. -/
theorem pack_preserves_registrations (evp : event_poll) (s : event_base) (h : poll_inv evp)
    (hc : poll_cookie_inv evp s) :
    ∃ evp1 s1, event_poll_pack evp s = some (evp1, s1) ∧
      (Multiset.ofList (poll_registrations evp1) = Multiset.ofList (poll_registrations evp)) ∧
      evp1.evp_nfds = evp.evp_nfds ∧ evp1.evp_pfdlen = evp.evp_pfdlen ∧
      poll_inv evp1 ∧ poll_cookie_inv evp1 s1 ∧
      (∀ x, (getEv s1 x).ev_event = (getEv s x).ev_event ∧
        (getEv s1 x).ev_ident = (getEv s x).ev_ident) := by
  obtain ⟨evp1, s1, hr, hc1, hperm, hev⟩ :=
    event_poll_pack_loop_keeps evp.evp_gen evp.evp_live.sum evp s h hc (Nat.le_refl _)
  obtain ⟨evp1', s1', hr', hinv, hn, hp, _⟩ :=
    event_poll_pack_loop_spec evp.evp_gen evp.evp_live.sum evp s h (Nat.le_refl _)
  have he : evp1' = evp1 := by
    rw [hr] at hr'
    simp only [Option.some.injEq, Prod.mk.injEq] at hr'
    exact hr'.1.symm
  subst he
  exact ⟨evp1', s1, hr, Multiset.coe_eq_coe.2 hperm, hn, hp, hinv, hc1, hev⟩

theorem poll_cookie_inv_ex_poll : poll_cookie_inv ex_poll.1 ex_poll.2 := by
  refine ⟨by decide, ?_, by decide⟩
  intro i hi
  have h3 : i = 0 ∨ i = 3 ∨ i = 1 := by
    have : ex_poll.1.evp_live = [0, 3, 1] := by decide
    rw [this] at hi
    simpa using hi
  rcases h3 with rfl | rfl | rfl
  · exact ⟨0, by decide, by decide⟩
  · exact ⟨3, by decide, by decide⟩
  · exact ⟨4, by decide, by decide⟩

theorem pack_preserves_registrations_witness :
    poll_registrations ex_poll.1 = [(some 0, 10, POLLIN), (some 3, 13, POLLIN), (some 4, 14, POLLIN)] ∧
    ∃ evp1 s1, event_poll_pack ex_poll.1 ex_poll.2 = some (evp1, s1) ∧
      (Multiset.ofList (poll_registrations evp1) =
        Multiset.ofList (poll_registrations ex_poll.1)) ∧
      evp1.evp_nfds = ex_poll.1.evp_nfds ∧ evp1.evp_pfdlen = ex_poll.1.evp_pfdlen :=
  ⟨by decide, by
    obtain ⟨evp1, s1, h1, h2, h3, h4, _⟩ :=
      pack_preserves_registrations ex_poll.1 ex_poll.2
        (poll_reachable_inv poll_reachable_ex_poll) poll_cookie_inv_ex_poll
    exact ⟨evp1, s1, h1, h2, h3, h4⟩⟩

/-! ## C23: the conditions the scan of `event_poll_dispatch` passes to `event_fire_event` -/

/-- C23, evaluation of the code: for a scanned slot the scan of `event_poll_dispatch`
tests the intersection of the translated `revents` with the event's `ev_event`, but the
call it makes passes the whole translated set or-ed with `EV_PERSIST`, not the
intersection; `POLLHUP` translates to `EV_READ | EV_WRITE`; so for an event set
with `EV_READ` only whose descriptor reports `POLLHUP`, the poller calls
`event_fire_event` with `EV_READ | EV_WRITE | EV_PERSIST` and the callback is
invoked with `EV_READ | EV_WRITE`, which is not a subset of the conditions the
event was set with. -/
theorem poll_scan_passes_translated_set :
    (∀ s ev revents, event_poll_scan_report s ev revents =
      if ISSET (getEv s ev).ev_event (event_poll_conditions revents) ≠ 0 then
        some (.fire_event ev (event_poll_conditions revents ||| EV_PERSIST) 0)
      else none) ∧
    event_poll_conditions POLLHUP = EV_READ ||| EV_WRITE ∧
    ex_poll_read.map (fun r => (r.1, ISSET (getEv r.2.evb 0).ev_event (EV_READ ||| EV_WRITE))) =
      some (0, EV_READ) ∧
    ex_poll_hup.map (fun r => (r.1, r.2.2)) =
      some (0, [.fire_event 0 (EV_READ ||| EV_WRITE ||| EV_PERSIST) 0]) ∧
    ex_poll_hup.map (fun r => (event_fire_first r.2.1.evb,
        (event_dispatch_pop r.2.1.evb 0).1.event)) =
      some (some 0, EV_READ ||| EV_WRITE) ∧
    ¬ (EV_READ ||| EV_WRITE) &&& EV_READ = EV_READ ||| EV_WRITE := by
  refine ⟨fun _ _ _ => rfl, by decide, by decide, by decide, by decide, by decide⟩

/-! ## The calls through `evb_ops` made by a step -/

theorem call_frame_quiet {s s1 : event_base}
    (hc : ∀ x, (getEv s1 x).ev_cookie = (getEv s x).ev_cookie)
    (hb : s1.evb_backend = s.evb_backend) (hl : s1.evb_list_len = s.evb_list_len) :
    call_frame s s1 := ⟨hc, Or.inl ⟨hb, hl⟩⟩

theorem call_frame_quiet_trans {s s2 : event_base} (s1 : event_base)
    (hc : ∀ x, (getEv s1 x).ev_cookie = (getEv s x).ev_cookie)
    (hb : s1.evb_backend = s.evb_backend) (hl : s1.evb_list_len = s.evb_list_len)
    (h : call_frame s1 s2) : call_frame s s2 := by
  refine ⟨fun x => (h.cookie x).trans (hc x), ?_⟩
  rw [← hb, ← hl]
  exact h.log

theorem call_frame_event_fire_event (s : event_base) (ev event : Nat) (oprv : Int) :
    call_frame s (event_fire_event s ev event oprv) := by
  unfold event_fire_event
  by_cases h0 : ISSET (getEv s ev).ev_event EV_ON_FIRE = 0 <;>
  by_cases h1 : ISSET (getEv s ev).ev_event EV_PERSIST = 0 <;>
  by_cases h2 : ISSET event EV_PERSIST = 0 <;>
  by_cases h3 : oprv = 0 <;>
  by_cases h4 : ISSET (getEv s ev).ev_event EV_ON_HEAP = 0 <;>
  simp only [setFires_get_ev_event, getEv_event_op, h0, h1, h2, h3, h4, and_self, and_true,
    and_false, true_and, false_and, if_true, if_false, ite_true, ite_false, ne_eq,
    not_true_eq_false, not_false_eq_true] <;>
  (constructor
   · intro x; first | simp | rfl
   · first
     | (left; constructor <;> first | (simp; done) | exact rfl)
     | (right; refine ⟨.event_del ev, oprv, ?_, ?_⟩ <;> simp [list_len_step, h3]))

theorem call_frame_event_fire_signal_one (s : event_base) (ev : Nat) :
    (∀ x, (getEv (event_fire_signal_one s ev) x).ev_cookie = (getEv s x).ev_cookie) ∧
    (event_fire_signal_one s ev).evb_backend = s.evb_backend ∧
    (event_fire_signal_one s ev).evb_list_len = s.evb_list_len := by
  unfold event_fire_signal_one
  by_cases h0 : ISSET (getEv (setFires s ev (fun f => SET f EV_SIGNAL)) ev).ev_event
      EV_ON_FIRE = 0 <;>
  simp only [h0, if_true, if_false] <;>
  (refine ⟨fun x => ?_, ?_, ?_⟩ <;> simp)

theorem call_frame_fire_signal_fold (l : List Nat) :
    ∀ s : event_base,
      (∀ x, (getEv (l.foldl event_fire_signal_one s) x).ev_cookie = (getEv s x).ev_cookie) ∧
      (l.foldl event_fire_signal_one s).evb_backend = s.evb_backend ∧
      (l.foldl event_fire_signal_one s).evb_list_len = s.evb_list_len := by
  induction l with
  | nil => intro s; exact ⟨fun _ => rfl, rfl, rfl⟩
  | cons a l ih =>
    intro s
    obtain ⟨h1, h2, h3⟩ := ih (event_fire_signal_one s a)
    obtain ⟨k1, k2, k3⟩ := call_frame_event_fire_signal_one s a
    exact ⟨fun x => (h1 x).trans (k1 x), h2.trans k2, h3.trans k3⟩

theorem call_frame_event_fire_signal (s : event_base) (sig : Nat) :
    call_frame s (event_fire_signal s sig) := by
  obtain ⟨h1, h2, h3⟩ := call_frame_fire_signal_fold (s.evb_signals sig) s
  exact call_frame_quiet h1 h2 h3

theorem call_frame_event_dispatch_expire (s : event_base) (ev : Nat) (oprv : Int) :
    call_frame s (event_dispatch_expire s ev oprv).2 := by
  have k1 : ¬ EV_SIGNAL = EV_IO := by decide
  have k2 : ¬ EV_TIMEOUT = EV_IO := by decide
  have k3 : ¬ EV_TIMEOUT = EV_SIGNAL := by decide
  unfold event_dispatch_expire
  by_cases h0 : ISSET (getEv s ev).ev_event EV_TYPE_MASK = EV_IO <;>
  by_cases h1 : ISSET (getEv s ev).ev_event EV_TYPE_MASK = EV_SIGNAL <;>
  by_cases h2 : ISSET (getEv s ev).ev_event EV_TYPE_MASK = EV_TIMEOUT <;>
  by_cases h3 : oprv = 0 <;>
  by_cases h4 : (setSignals s (sigOf s ev)
      (TAILQ_REMOVE (s.evb_signals (sigOf s ev)) ev)).evb_signals (sigOf s ev) = [] <;>
  by_cases h5 : ISSET (getEv s ev).ev_event EV_ON_FIRE = 0 <;>
  simp only [h0, h1, h2, h3, h4, k1, k2, k3, expire_fire_cond, getEv_event_op, getEv_setSignals,
    getEv_event_list_remove, h5, if_true, if_false, ite_true, ite_false, ne_eq,
    not_true_eq_false, not_false_eq_true] <;>
  (constructor
   · intro x; first | simp | rfl
   · first
     | (left; constructor <;> first | (simp; done) | exact rfl)
     | (right; refine ⟨.event_del ev, oprv, ?_, ?_⟩ <;> simp [list_len_step, h3]; done)
     | (right; refine ⟨.signal_del (getEv s ev).ev_ident, oprv, ?_, ?_⟩ <;>
          simp [list_len_step, h3]))

theorem call_frame_drain_step (s : event_base) (now : timespec) (oprv : Int) :
    call_frame s (event_dispatch_drain_step s now oprv).2 := by
  unfold event_dispatch_drain_step
  rcases hc : event_heap_cextract s (now_event now) with ⟨_ | ev, s1⟩
  · exact call_frame_quiet (fun _ => rfl) rfl rfl
  · obtain ⟨_, rfl⟩ := event_heap_cextract_some hc
    exact call_frame_quiet_trans (event_heap_remove s ev) (fun x => by simp) (by simp)
      (by simp) (call_frame_event_dispatch_expire _ ev oprv)

theorem call_frame_pop (s : event_base) (ev : Nat) :
    call_frame s (event_dispatch_pop s ev).2 := by
  unfold event_dispatch_pop
  exact call_frame_quiet (fun x => by simp) (by simp) (by simp)

theorem call_frame_step (s : event_base) (st : step) : call_frame s (st.run s) := by
  cases st with
  | api c => exact ⟨(api_call_frame s c).cookie, (api_call_frame s c).log⟩
  | fire_event ev event oprv => exact call_frame_event_fire_event s ev event oprv
  | fire_signal sig => exact call_frame_event_fire_signal s sig
  | dispatch_start => exact call_frame_quiet (fun _ => rfl) rfl rfl
  | drain now oprv => exact call_frame_drain_step s now oprv
  | deliver =>
    unfold step.run
    cases hf : event_fire_first s with
    | none => exact call_frame_quiet (fun _ => rfl) rfl rfl
    | some ev => exact call_frame_pop s ev
  | op_dispatch ts rv =>
    exact ⟨fun x => by simp [step.run], Or.inr ⟨.dispatch ts, rv, rfl, rfl⟩⟩


/-! ## The slots of the POLL poller and the cookies of the events -/

theorem UINT_MOD_eq : UINT_MOD = 4294967296 := by decide

theorem uinc_mod (n : Nat) : uinc (n % UINT_MOD) = (n + 1) % UINT_MOD := by
  unfold uinc
  rw [UINT_MOD_eq]
  omega

theorem udec_mod (n : Nat) (h : 0 < n) : udec (n % UINT_MOD) = (n - 1) % UINT_MOD := by
  unfold udec
  rw [UINT_MOD_eq]
  split <;> omega

theorem cookies_live_congr {evp evp1 : event_poll} {s s1 : event_base} (h : cookies_live evp s)
    (hc : ∀ x, (getEv s1 x).ev_cookie = (getEv s x).ev_cookie)
    (hl : evp1.evp_live = evp.evp_live)
    (ho : ∀ i ∈ evp.evp_live, (getPfd evp1 i).evpfd_ev = (getPfd evp i).evpfd_ev) :
    cookies_live evp1 s1 := by
  intro e c hck
  rw [hc] at hck
  obtain ⟨h1, h2⟩ := h e c hck
  exact ⟨by rw [hl]; exact h1, by rw [ho c h1]; exact h2⟩

theorem cookies_live_insert {evp evp1 : event_poll} {s : event_base} (ev cnew : Nat)
    (h : cookies_live evp s)
    (hl : evp1.evp_live = evp.evp_live ++ [cnew])
    (hown : (getPfd evp1 cnew).evpfd_ev = some ev)
    (ho : ∀ i ∈ evp.evp_live, (getPfd evp1 i).evpfd_ev = (getPfd evp i).evpfd_ev) :
    cookies_live evp1 (setEv s ev { getEv s ev with ev_cookie := some cnew }) := by
  intro e c hck
  rw [getEv_setEv] at hck
  split at hck
  · next hx =>
    simp only [Option.some.injEq] at hck
    subst hck
    rw [hx.1]
    exact ⟨by rw [hl]; simp, hown⟩
  · obtain ⟨h1, h2⟩ := h e c hck
    exact ⟨by rw [hl]; exact List.mem_append_left _ h1, by rw [ho c h1]; exact h2⟩

theorem cookies_live_remove {evp evp1 : event_poll} {s : event_base} (ev c : Nat)
    (h : cookies_live evp s) (hck : (getEv s ev).ev_cookie = some c)
    (hl : evp1.evp_live = evp.evp_live.erase c)
    (ho : ∀ i ∈ evp.evp_live, i ≠ c → (getPfd evp1 i).evpfd_ev = (getPfd evp i).evpfd_ev) :
    cookies_live evp1 (setEv s ev { getEv s ev with ev_cookie := none }) := by
  intro e c1 hck1
  rw [getEv_setEv] at hck1
  split at hck1
  · simp at hck1
  · next hx =>
    obtain ⟨h1, h2⟩ := h e c1 hck1
    have hne : c1 ≠ c := by
      intro e2
      subst e2
      have h3 := (h ev c1 hck).2
      rw [h2] at h3
      simp only [Option.some.injEq] at h3
      exact hx ⟨h3, cookie_lt hck⟩
    exact ⟨by rw [hl]; exact (List.mem_erase_of_ne hne).2 h1, by rw [ho c1 h1 hne]; exact h2⟩

theorem cookies_live_move {evp evp1 : event_poll} {s : event_base} (o l f : Nat)
    (h : cookies_live evp s) (hol : (getPfd evp l).evpfd_ev = some o)
    (hfl : f ∉ evp.evp_live)
    (hl : evp1.evp_live = evp.evp_live.erase l ++ [f])
    (hown : (getPfd evp1 f).evpfd_ev = some o)
    (ho : ∀ i, i ≠ l → i ≠ f → getPfd evp1 i = getPfd evp i) :
    cookies_live evp1 (setEv s o { getEv s o with ev_cookie := some f }) := by
  intro e c hck
  rw [getEv_setEv] at hck
  split at hck
  · next hx =>
    simp only [Option.some.injEq] at hck
    subst hck
    rw [hx.1]
    exact ⟨by rw [hl]; simp, hown⟩
  · next hx =>
    obtain ⟨h1, h2⟩ := h e c hck
    have hne : c ≠ l := by
      intro e2
      subst e2
      rw [h2] at hol
      simp only [Option.some.injEq] at hol
      subst hol
      exact hx ⟨rfl, cookie_lt hck⟩
    have hnf : c ≠ f := fun e2 => hfl (e2 ▸ h1)
    exact ⟨by rw [hl]; exact List.mem_append_left _ ((List.mem_erase_of_ne hne).2 h1),
      by rw [ho c hne hnf]; exact h2⟩

/-- What `event_poll_event_add` does to the slots, the cookies and the base. -/
theorem event_poll_event_add_post (evp : event_poll) (s : event_base) (ev : Nat) (a1 a2 a3 : Bool)
    (h : poll_inv evp) (hc : cookies_live evp s) :
    ∃ rv evp1 s1, event_poll_event_add evp s ev a1 a2 a3 = some (rv, evp1, s1) ∧
      poll_inv evp1 ∧ cookies_live evp1 s1 ∧
      evp1.evp_nfds = (if rv = 0 then evp.evp_nfds + 1 else evp.evp_nfds) ∧
      s1.evb_backend = s.evb_backend ∧ s1.evb_list_len = s.evb_list_len ∧
      (∀ x, (getEv s1 x).ev_event = (getEv s x).ev_event) ∧
      evp1.evp_signals = evp.evp_signals ∧ evp1.evp_gen = evp.evp_gen := by
  have hpi := poll_inv_event_add evp s ev a1 a2 a3 h
  unfold event_poll_event_add at hpi ⊢
  simp only [] at hpi ⊢
  by_cases hfull : evp.evp_nfds + 1 > evp.evp_pfdlen
  · rw [if_pos hfull] at hpi ⊢
    have hn : evp.evp_nfds = evp.evp_pfdlen := by
      have := poll_inv_nfds_le h
      omega
    have hre : ∀ i ∈ evp.evp_live,
        getPfd (evp_realloc_evpfds evp (evp.evp_nfds + 1)) i = getPfd evp i := by
      intro i hi
      have hlt := poll_inv_lt h (Or.inl hi)
      exact getD_reallocarray _ _ _ _ (Nat.lt_of_lt_of_le hlt h.len) (by omega)
    cases a1
    · exact ⟨_, _, _, rfl, h, hc, by simp, rfl, rfl, fun _ => rfl, rfl, rfl⟩
    · cases a2
      · exact ⟨_, _, _, rfl, h, hc, by simp, rfl, rfl, fun _ => rfl, rfl, rfl⟩
      · cases a3
        · obtain ⟨rv0, evp0, s0, he0, hi0⟩ := hpi
          cases he0
          refine ⟨_, _, _, rfl, hi0, ?_, by simp, rfl, rfl, fun _ => rfl, rfl, rfl⟩
          exact cookies_live_congr hc (fun _ => rfl) rfl (fun i hi => by rw [hre i hi])
        · obtain ⟨rv0, evp0, s0, he0, hi0⟩ := hpi
          cases he0
          have hlen : evp.evp_nfds < (reallocarray evp.evp_evpfds (evp.evp_nfds + 1)
              (default : event_pfd)).length := by
            rw [length_reallocarray]
            omega
          refine ⟨_, _, _, rfl, hi0, ?_, by simp, by simp, by simp, ?_, rfl, rfl⟩
          · refine cookies_live_insert ev evp.evp_nfds hc (by simp [HEAP_INSERT]) ?_ ?_
            · simp [getPfd_setPfd, length_reallocarray, hlen]
            · intro i hi
              have hlt := poll_inv_lt h (Or.inl hi)
              have hne : i ≠ evp.evp_nfds := by omega
              simp only [getPfd_evp_set_nfds, getPfd_evpfd_live_insert, getPfd_setPollfd,
                getPfd_setPfd, getPfd_evp_set_pfdlen, getPfd_evp_realloc_pfds, hne, false_and,
                if_false]
              rw [hre i hi]
          · intro x
            rw [getEv_setEv]
            split
            · next hx => rw [hx.1]
            · rfl
  · rw [if_neg hfull] at hpi ⊢
    rcases hx : evpfd_free_extract evp with ⟨_ | f, evp1⟩
    · rw [hx] at hpi
      obtain ⟨rv0, evp0, s0, he0, hi0⟩ := hpi
      simp at he0
    · rw [hx] at hpi
      obtain ⟨hfirst, rfl⟩ := evpfd_free_extract_some hx
      have hf := (evpfd_free_first_min evp f hfirst).1
      have hfl := poll_inv_lt h (Or.inr hf)
      have hflen : f < evp.evp_evpfds.length := Nat.lt_of_lt_of_le hfl h.len
      obtain ⟨rv0, evp0, s0, he0, hi0⟩ := hpi
      cases he0
      refine ⟨_, _, _, rfl, hi0, ?_, by simp, by simp, by simp, ?_, rfl, rfl⟩
      · refine cookies_live_insert ev f hc (by simp [HEAP_INSERT]) ?_ ?_
        · simp [getPfd_setPfd, hflen]
        · intro i hi
          have hne : i ≠ f := fun e => h.disj i hi (e ▸ hf)
          simp only [getPfd_evp_set_nfds, getPfd_evpfd_live_insert, getPfd_setPollfd,
            getPfd_setPfd, getPfd_evp_set_free, hne, false_and, if_false]
      · intro x
        rw [getEv_setEv]
        split
        · next hx => rw [hx.1]
        · rfl

/-- What `event_poll_event_del` does to the slots, the cookies and the base, for an event
whose cookie is not null. -/
theorem event_poll_event_del_post (evp : event_poll) (s : event_base) (ev c : Nat)
    (h : poll_inv evp) (hc : cookies_live evp s) (hck : (getEv s ev).ev_cookie = some c) :
    ∃ evp1 s1, event_poll_event_del evp s ev = some (0, evp1, s1) ∧
      poll_inv evp1 ∧ cookies_live evp1 s1 ∧
      0 < evp.evp_nfds ∧ evp1.evp_nfds = evp.evp_nfds - 1 ∧
      s1.evb_backend = s.evb_backend ∧ s1.evb_list_len = s.evb_list_len ∧
      (∀ x, (getEv s1 x).ev_event = (getEv s x).ev_event) ∧
      evp1.evp_signals = evp.evp_signals ∧ evp1.evp_gen = evp.evp_gen ∧
      evp1.evp_pfdlen = evp.evp_pfdlen ∧ evp1.evp_evpfds.length = evp.evp_evpfds.length ∧
      evp1.evp_live = evp.evp_live.erase c ∧ (getPfd evp1 c).evpfd_gen = evp.evp_gen ∧
      (∀ i, i ≠ c → getPfd evp1 i = getPfd evp i) ∧ evp1.evp_pfds = evp.evp_pfds := by
  have hcl := (hc ev c hck).1
  have hlt := poll_inv_lt h (Or.inl hcl)
  have hclen : c < evp.evp_evpfds.length := Nat.lt_of_lt_of_le hlt h.len
  have hpi := poll_inv_event_del evp s ev c hck hcl h
  unfold event_poll_event_del at hpi ⊢
  rw [hck] at hpi ⊢
  obtain ⟨evp0, s0, he0, hi0⟩ := hpi
  cases he0
  have hpos : 0 < evp.evp_nfds := by
    rw [h.nfds]
    exact List.length_pos_of_mem hcl
  refine ⟨_, _, rfl, hi0, ?_, hpos, by simp, by simp, by simp, ?_, rfl, rfl, rfl, by simp,
    by simp [HEAP_REMOVE], ?_, ?_, rfl⟩
  · refine cookies_live_remove ev c hc hck (by simp [HEAP_REMOVE]) ?_
    intro i hi hne
    simp only [getPfd_evp_set_nfds, getPfd_evpfd_free_insert, getPfd_setPfd,
      getPfd_evpfd_live_remove, hne, false_and, if_false]
  · intro x
    rw [getEv_setEv]
    split
    · next hx => rw [hx.1]
    · rfl
  · simp [getPfd_setPfd, hclen]
  · intro i hne
    simp only [getPfd_evp_set_nfds, getPfd_evpfd_free_insert, getPfd_setPfd,
      getPfd_evpfd_live_remove, hne, false_and, if_false]


/-! ## The base and the POLL poller in step -/

theorem call_frame_list_len {s s1 : event_base} {c : poller_call} {rv : Int}
    (h : call_frame s s1) (hb : s1.evb_backend = s.evb_backend ++ [(c, rv)]) :
    s1.evb_list_len = list_len_step c rv s.evb_list_len := by
  rcases h.log with ⟨h1, _⟩ | ⟨c1, rv1, h1, h2⟩
  · rw [h1] at hb
    simp at hb
  · rw [h1] at hb
    have h3 := List.append_cancel_left hb
    simp only [List.cons.injEq, Prod.mk.injEq, and_true] at h3
    rw [← h3.1, ← h3.2]
    exact h2

theorem call_frame_quiet_len {s s1 : event_base} (h : call_frame s s1)
    (hb : s1.evb_backend = s.evb_backend) : s1.evb_list_len = s.evb_list_len := by
  rcases h.log with ⟨_, h2⟩ | ⟨c1, rv1, h1, _⟩
  · exact h2
  · rw [h1] at hb
    simp at hb

/-- Whether `event_add` calls the poller depends on the flags of the event only. -/
theorem event_add_calls_dep (s s1 : event_base) (ev : Nat) (tv : Option timeval)
    (now : Option timespec) (oprv oprv1 rv0 : Int)
    (he : (getEv s1 ev).ev_event = (getEv s ev).ev_event)
    (hp : (event_add s ev tv now oprv rv0).2.evb_backend ≠ s.evb_backend) :
    (event_add s1 ev tv now oprv1 rv0).2.evb_backend =
      s1.evb_backend ++ [(.event_add ev, oprv1)] := by
  unfold event_add at hp ⊢
  simp only [he]
  rcases tv with _ | t
  · by_cases h0 : ISSET (getEv s ev).ev_event EV_ON_LIST = 0 <;>
    by_cases h1 : ISSET (getEv s ev).ev_event EV_ON_HEAP = 0 <;>
    by_cases h2 : ISSET (getEv s ev).ev_event (EV_ON_LIST ||| EV_ON_HEAP) = EV_ON_LIST <;>
    by_cases h3 : oprv = 0 <;>
    by_cases h4 : oprv1 = 0 <;>
    first
      | (exfalso; apply hp; simp [h0, h1, h2, h3]; done)
      | simp [h0, h1, h2, h4]
  · rcases hd : event_deadline now t with _ | d
    · exfalso; apply hp; simp [hd]
    · by_cases h0 : ISSET (getEv s ev).ev_event EV_ON_LIST = 0 <;>
      by_cases h1 : ISSET (getEv s ev).ev_event EV_ON_HEAP = 0 <;>
      by_cases h3 : oprv = 0 <;>
      by_cases h4 : oprv1 = 0 <;>
      first
        | (exfalso; apply hp; simp [hd, h0, h1, h3]; done)
        | simp [hd, h0, h1, h4]

/-- Whether `event_del` calls the poller depends on the flags of the event only. -/
theorem event_del_calls_dep (s s1 : event_base) (ev : Nat) (oprv oprv1 : Int)
    (he : (getEv s1 ev).ev_event = (getEv s ev).ev_event)
    (hp : (event_del s ev oprv).2.evb_backend ≠ s.evb_backend) :
    (event_del s1 ev oprv1).2.evb_backend = s1.evb_backend ++ [(.event_del ev, oprv1)] := by
  unfold event_del at hp ⊢
  simp only [he, getEv_nevents_dec, getEv_event_list_remove, getEv_event_op,
    getEv_event_heap_remove] at hp ⊢
  by_cases h0 : ISSET (getEv s ev).ev_event EV_ON_LIST = 0 <;>
  by_cases h1 : ISSET (getEv s ev).ev_event EV_ON_HEAP = 0 <;>
  by_cases h2 : ISSET (getEv s ev).ev_event EV_ON_FIRE = 0 <;>
  by_cases h3 : oprv = 0 <;>
  by_cases h4 : oprv1 = 0 <;>
  first
    | (exfalso; apply hp; simp [h0, h1, h2, h3]; done)
    | simp [he, h0, h1, h2, h4]

/-- Whether `event_fire_event` calls the poller depends on the flags of the event only. -/
theorem event_fire_event_calls_dep (s s1 : event_base) (ev event : Nat) (oprv oprv1 : Int)
    (he : (getEv s1 ev).ev_event = (getEv s ev).ev_event)
    (hp : (event_fire_event s ev event oprv).evb_backend ≠ s.evb_backend) :
    (event_fire_event s1 ev event oprv1).evb_backend =
      s1.evb_backend ++ [(.event_del ev, oprv1)] := by
  unfold event_fire_event at hp ⊢
  simp only [setFires_get_ev_event, getEv_event_op, he] at hp ⊢
  by_cases h0 : ISSET (getEv s ev).ev_event EV_ON_FIRE = 0 <;>
  by_cases h1 : ISSET (getEv s ev).ev_event EV_PERSIST = 0 <;>
  by_cases h2 : ISSET event EV_PERSIST = 0 <;>
  by_cases h3 : oprv = 0 <;>
  by_cases h4 : oprv1 = 0 <;>
  by_cases h5 : ISSET (getEv s ev).ev_event EV_ON_HEAP = 0 <;>
  first
    | (exfalso; apply hp; simp [h0, h1, h2, h3, h5]; done)
    | simp [he, h0, h1, h2, h4, h5]

theorem poll_state_inv_quiet {w : poll_base} {s2 : event_base} (h : poll_state_inv w)
    (hf : call_frame w.evb s2) (hb : s2.evb_backend = w.evb.evb_backend) :
    poll_state_inv { w with evb := s2 } :=
  ⟨h.slots, cookies_live_congr h.cookies hf.cookie rfl (fun _ _ => rfl),
    (call_frame_quiet_len hf hb).trans h.len⟩

theorem poll_state_inv_op {w : poll_base} {evp1 : event_poll} {s1 s2 : event_base}
    {c : poller_call} {rv : Int} (hinv : poll_inv evp1) (hck : cookies_live evp1 s1)
    (hf : call_frame s1 s2) (hb : s2.evb_backend = s1.evb_backend ++ [(c, rv)])
    (hn : list_len_step c rv s1.evb_list_len = evp1.evp_nfds % UINT_MOD) :
    poll_state_inv { w with evb := s2, evp := evp1 } :=
  ⟨hinv, cookies_live_congr hck hf.cookie rfl (fun _ _ => rfl),
    (call_frame_list_len hf hb).trans hn⟩

theorem list_len_step_add (ev : Nat) (rv : Int) (n : Nat) :
    list_len_step (.event_add ev) rv (n % UINT_MOD) =
      (if rv = 0 then n + 1 else n) % UINT_MOD := by
  show (if rv = 0 then uinc (n % UINT_MOD) else n % UINT_MOD) = _
  rw [uinc_mod]
  split <;> rfl

theorem list_len_step_del (ev : Nat) (n : Nat) (h : 0 < n) :
    list_len_step (.event_del ev) 0 (n % UINT_MOD) = (n - 1) % UINT_MOD := by
  show (if (0 : Int) = 0 then udec (n % UINT_MOD) else n % UINT_MOD) = _
  rw [if_pos rfl, udec_mod n h]

/-- `event_add` on a base with the POLL poller keeps the invariant. -/
theorem poll_state_inv_event_add (w : poll_base) (ev : Nat) (tv : Option timeval)
    (now : Option timespec) (rv0 : Int) (a1 a2 a3 : Bool) (h : poll_state_inv w) :
    ∃ rv w2, poll_event_add w ev tv now rv0 a1 a2 a3 = some (rv, w2) ∧ poll_state_inv w2 ∧
      w2.evp.evp_signals = w.evp.evp_signals := by
  unfold poll_event_add
  split
  · next hq =>
    exact ⟨_, _, rfl, poll_state_inv_quiet h
      (call_frame_step w.evb (.api (.event_add ev tv now 0 rv0))) hq, rfl⟩
  · next hq =>
    obtain ⟨rv1, evp1, s1, hadd, hinv, hck, hn, hb, hl, hflags, hsig, _⟩ :=
      event_poll_event_add_post w.evp w.evb ev a1 a2 a3 h.slots h.cookies
    rw [hadd]
    refine ⟨_, _, rfl, ?_, hsig⟩
    refine poll_state_inv_op hinv hck
      (call_frame_step s1 (.api (.event_add ev tv now rv1 rv0)))
      (event_add_calls_dep w.evb s1 ev tv now 0 rv1 rv0 (hflags ev) hq) ?_
    rw [hl, h.len, hn, list_len_step_add]

/-- `event_del` on a base with the POLL poller keeps the invariant, when it does not
dereference a null cookie. -/
theorem poll_state_inv_event_del (w : poll_base) (ev : Nat) (h : poll_state_inv w)
    {rv : Int} {w2 : poll_base} (he : poll_event_del w ev = some (rv, w2)) :
    poll_state_inv w2 ∧ w2.evp.evp_signals = w.evp.evp_signals := by
  unfold poll_event_del at he
  split at he
  · next hq =>
    cases he
    exact ⟨poll_state_inv_quiet h (call_frame_step w.evb (.api (.event_del ev 0))) hq, rfl⟩
  · next hq =>
    cases hck : (getEv w.evb ev).ev_cookie with
    | none =>
      unfold event_poll_event_del at he
      rw [hck] at he
      simp at he
    | some c =>
      obtain ⟨evp1, s1, hdel, hinv, hck1, hpos, hn, hb, hl, hflags, hsig, _⟩ :=
        event_poll_event_del_post w.evp w.evb ev c h.slots h.cookies hck
      rw [hdel] at he
      cases he
      refine ⟨?_, hsig⟩
      refine poll_state_inv_op hinv hck1 (call_frame_step s1 (.api (.event_del ev 0)))
        (event_del_calls_dep w.evb s1 ev 0 0 (hflags ev) hq) ?_
      rw [hl, h.len, hn, list_len_step_del ev _ hpos]


/-! ## The invariant of a base with the POLL poller -/

theorem slots_kept_refl (evp : event_poll) : slots_kept evp evp :=
  ⟨rfl, rfl, rfl, rfl, rfl, fun _ => rfl, fun _ => rfl⟩

theorem slots_kept_trans {a b c : event_poll} (h1 : slots_kept a b) (h2 : slots_kept b c) :
    slots_kept a c :=
  ⟨h2.live.trans h1.live, h2.free.trans h1.free, h2.nfds.trans h1.nfds,
    h2.pfdlen.trans h1.pfdlen, h2.length.trans h1.length,
    fun i => (h2.owner i).trans (h1.owner i), fun i => (h2.idx i).trans (h1.idx i)⟩

theorem slots_kept_set_signals (evp : event_poll) (o : Option event_poll_signals) :
    slots_kept evp (evp_set_signals evp o) :=
  ⟨rfl, rfl, rfl, rfl, rfl, fun _ => rfl, fun _ => rfl⟩

theorem slots_kept_set_gen (evp : event_poll) (g : Nat) : slots_kept evp (evp_set_gen evp g) :=
  ⟨rfl, rfl, rfl, rfl, rfl, fun _ => rfl, fun _ => rfl⟩

theorem slots_kept_set_pfds (evp : event_poll) (l : List pollfd) :
    slots_kept evp (evp_set_pfds evp l) :=
  ⟨rfl, rfl, rfl, rfl, rfl, fun _ => rfl, fun _ => rfl⟩

theorem slots_kept_stamp (evp : event_poll) (i g : Nat) :
    slots_kept evp (setPfd evp i { getPfd evp i with evpfd_gen := g }) := by
  refine ⟨rfl, rfl, rfl, rfl, by simp, fun j => ?_, fun j => ?_⟩ <;>
  (rw [getPfd_setPfd]
   split
   · next hx => rw [hx.1]
   · rfl)

theorem slots_kept_stamp_fold (g : Nat) (l : List Nat) :
    ∀ evp : event_poll, slots_kept evp
      (l.foldl (fun e i => setPfd e i { getPfd e i with evpfd_gen := g }) evp) := by
  induction l with
  | nil => intro evp; exact slots_kept_refl evp
  | cons a l ih =>
    intro evp
    exact slots_kept_trans (slots_kept_stamp evp a g) (ih _)

theorem slots_kept_reset_gens (evp : event_poll) : slots_kept evp (event_poll_reset_gens evp) :=
  slots_kept_stamp_fold _ _ evp

theorem reset_gens_fold_gen (g : Nat) (l : List Nat) :
    ∀ evp : event_poll,
      (l.foldl (fun e i => setPfd e i { getPfd e i with evpfd_gen := g }) evp).evp_gen =
        evp.evp_gen := by
  induction l with
  | nil => intro evp; rfl
  | cons a l ih =>
    intro evp
    exact (ih _).trans rfl

theorem poll_inv_kept {evp evp1 : event_poll} (h : poll_inv evp) (hs : slots_kept evp evp1) :
    poll_inv evp1 := by
  refine ⟨?_, ?_, ?_, ?_, ?_, ?_, ?_, ?_⟩
  · rw [hs.live]; exact h.live
  · rw [hs.free]; exact h.free
  · rw [hs.live, hs.free]; exact h.disj
  · rw [hs.live, hs.free, hs.pfdlen]; exact h.cover
  · rw [hs.live, hs.nfds]; exact h.nfds
  · intro i hi
    rw [hs.idx]
    exact h.idx i (by rwa [hs.pfdlen] at hi)
  · rw [hs.pfdlen, hs.length]; exact h.len
  · intro i hi
    rw [hs.owner]
    exact h.owner i (by rwa [hs.live] at hi)

theorem poll_state_inv_of {w w1 : poll_base} (h : poll_state_inv w)
    (hs : slots_kept w.evp w1.evp)
    (hc : ∀ x, (getEv w1.evb x).ev_cookie = (getEv w.evb x).ev_cookie)
    (hl : w1.evb.evb_list_len = w.evb.evb_list_len) : poll_state_inv w1 :=
  ⟨poll_inv_kept h.slots hs, cookies_live_congr h.cookies hc hs.live (fun i _ => hs.owner i),
    by rw [hl, hs.nfds]; exact h.len⟩

/-! ### The signal plumbing -/

theorem poll_state_inv_signals_create (w : poll_base) (m : Option evs_storage)
    (pipe : Option (Int × Int)) (a1 a2 a3 : Bool) (h : poll_state_inv w)
    {o : Option event_poll_signals} {w1 : poll_base}
    (he : event_poll_signals_create w m pipe a1 a2 a3 = some (o, w1)) : poll_state_inv w1 := by
  unfold event_poll_signals_create at he
  rcases m with _ | st
  · cases he; exact h
  · rcases pipe with _ | fds
    · cases he; exact h
    · simp only [] at he
      have h1 : poll_state_inv { w with
          evb := event_set w.evb st.evs_ev fds.1 (EV_READ ||| EV_PERSIST) event_poll_pipe_fn 0 } :=
        poll_state_inv_quiet h
          (call_frame_step w.evb
            (.api (.event_set st.evs_ev fds.1 (EV_READ ||| EV_PERSIST) event_poll_pipe_fn 0))) rfl
      obtain ⟨rv, w2, hadd, hinv, _⟩ :=
        poll_state_inv_event_add _ st.evs_ev none none 0 a1 a2 a3 h1
      rw [hadd] at he
      simp only [] at he
      split at he
      · cases he; exact hinv
      · cases he
        exact poll_state_inv_of hinv (slots_kept_refl _) (fun _ => rfl) rfl

theorem poll_state_inv_signals_destroy (w : poll_base) (evs : Option event_poll_signals)
    (h : poll_state_inv w) {w1 : poll_base}
    (he : event_poll_signals_destroy w evs = some w1) : poll_state_inv w1 := by
  unfold event_poll_signals_destroy at he
  rcases evs with _ | e
  · cases he; exact h
  · simp only [] at he
    have h1 : poll_state_inv { w with evs_static := false } :=
      poll_state_inv_of h (slots_kept_refl _) (fun _ => rfl) rfl
    rcases hd : poll_event_del { w with evs_static := false } e.evs_ev with _ | ⟨rv, w2⟩
    · rw [hd] at he
      simp at he
    · rw [hd] at he
      simp only [] at he
      split at he
      · simp at he
      · cases he
        exact poll_state_inv_of (poll_state_inv_event_del _ _ h1 hd).1 (slots_kept_refl _)
          (fun _ => rfl) rfl

theorem poll_state_inv_signals_take (w : poll_base) (m : Option evs_storage)
    (pipe : Option (Int × Int)) (a1 a2 a3 : Bool) (h : poll_state_inv w)
    {b : Bool} {w1 : poll_base}
    (he : event_poll_signals_take w m pipe a1 a2 a3 = some (b, w1)) : poll_state_inv w1 := by
  unfold event_poll_signals_take at he
  split at he
  · rcases hc : event_poll_signals_create w m pipe a1 a2 a3 with _ | ⟨_ | evs, w2⟩
    · rw [hc] at he
      simp at he
    · rw [hc] at he
      cases he
      exact poll_state_inv_signals_create w m pipe a1 a2 a3 h hc
    · rw [hc] at he
      cases he
      exact poll_state_inv_of (poll_state_inv_signals_create w m pipe a1 a2 a3 h hc)
        (slots_kept_set_signals _ _) (fun _ => rfl) rfl
  · cases he
    exact poll_state_inv_of h (slots_kept_set_signals _ _) (fun _ => rfl) rfl

theorem poll_state_inv_signals_rele (w : poll_base) (h : poll_state_inv w) {w1 : poll_base}
    (he : event_poll_signals_rele w = some w1) : poll_state_inv w1 := by
  unfold event_poll_signals_rele at he
  split at he
  · simp at he
  · split at he
    · refine poll_state_inv_signals_destroy _ _ ?_ he
      exact poll_state_inv_of h (slots_kept_set_signals _ _) (fun _ => rfl) rfl
    · cases he
      exact poll_state_inv_of h (slots_kept_set_signals _ _) (fun _ => rfl) rfl

theorem poll_state_inv_signal_add (w : poll_base) (sg : Int) (m : Option evs_storage)
    (pipe : Option (Int × Int)) (a1 a2 a3 : Bool) (h : poll_state_inv w)
    {rv : Int} {w1 : poll_base}
    (he : event_poll_signal_add w sg m pipe a1 a2 a3 = some (rv, w1)) : poll_state_inv w1 := by
  unfold event_poll_signal_add at he
  rcases ht : event_poll_signals_take w m pipe a1 a2 a3 with _ | ⟨b, w2⟩
  · rw [ht] at he
    simp at he
  · rw [ht] at he
    have h2 := poll_state_inv_signals_take w m pipe a1 a2 a3 h ht
    cases b
    · cases he; exact h2
    · simp only [] at he
      split at he
      · rcases hr : event_poll_signals_rele w2 with _ | w3
        · rw [hr] at he
          simp at he
        · rw [hr] at he
          cases he
          exact poll_state_inv_signals_rele w2 h2 hr
      · split at he
        · simp at he
        · cases he
          exact poll_state_inv_of h2 (slots_kept_set_signals _ _) (fun _ => rfl) rfl

theorem poll_state_inv_signal_del (w : poll_base) (sg : Int) (h : poll_state_inv w)
    {rv : Int} {w1 : poll_base}
    (he : event_poll_signal_del w sg = some (rv, w1)) : poll_state_inv w1 := by
  unfold event_poll_signal_del at he
  split at he
  · simp at he
  · next evs _ =>
    split at he
    · cases he; exact h
    · rcases hr : event_poll_signals_rele
          { w with sigdisp := (sys_signal w.sigdisp sg (evs.evs_handlers sg.toNat)).2 }
        with _ | w3
      · rw [hr] at he
        simp at he
      · rw [hr] at he
        cases he
        refine poll_state_inv_signals_rele _ ?_ hr
        exact poll_state_inv_of h (slots_kept_refl _) (fun _ => rfl) rfl


/-! ### `event_poll_pack` and `event_poll_dispatch` -/

theorem event_poll_pack_loop_cookies (gen : Nat) (fuel : Nat) :
    ∀ (evp : event_poll) (s : event_base), poll_inv evp → cookies_live evp s →
      evp.evp_live.sum ≤ fuel →
      ∃ evp1 s1, event_poll_pack_loop gen fuel evp s = some (evp1, s1) ∧
        cookies_live evp1 s1 ∧ s1.evb_list_len = s.evb_list_len := by
  induction fuel with
  | zero =>
    intro evp s h hc hs
    exact ⟨evp, s, rfl, hc, rfl⟩
  | succ n ih =>
    intro evp s h hc hs
    unfold event_poll_pack_loop
    cases hlf : evpfd_live_first evp with
    | none => exact ⟨evp, s, rfl, hc, rfl⟩
    | some l =>
      obtain ⟨hl, hmax⟩ := evpfd_live_first_max evp l hlf
      simp only []
      rcases hcx : evpfd_free_cextract evp l with ⟨_ | f, evp1⟩
      · exact ⟨evp, s, rfl, hc, rfl⟩
      · obtain ⟨hff, rfl, hle⟩ := evpfd_free_cextract_some hcx
        obtain ⟨hf, _⟩ := evpfd_free_first_min evp f hff
        rw [poll_inv_idx h (Or.inl hl), poll_inv_idx h (Or.inr hf)] at hle
        have hne : l ≠ f := fun e => h.disj l hl (e ▸ hf)
        obtain ⟨evp2, s1, hm, hinv, hlive, hnfds, hpfdlen⟩ :=
          poll_inv_pack_move evp s gen l f h hl hf
        obtain ⟨o, ho, hs1, _, _, _, _, hof, _, hoth, _, _⟩ :=
          event_poll_pack_move_spec h hl hf hm
        have hc2 : cookies_live evp2 s1 := by
          rw [hs1]
          exact cookies_live_move o l f hc ho (fun hm2 => h.disj f hm2 hf) hlive hof hoth
        simp only [hm]
        have hsum : evp2.evp_live.sum ≤ n := by
          rw [hlive, List.sum_append]
          have := List.sum_erase hl
          simp only [List.sum_cons, List.sum_nil]
          omega
        obtain ⟨evp3, s3, hr, hc3, hl3⟩ := ih evp2 s1 hinv hc2 hsum
        refine ⟨evp3, s3, hr, hc3, hl3.trans ?_⟩
        rw [hs1]
        rfl

theorem poll_state_inv_pack (w : poll_base) (h : poll_state_inv w) :
    ∃ evp1 s1, event_poll_pack w.evp w.evb = some (evp1, s1) ∧ poll_inv evp1 ∧
      cookies_live evp1 s1 ∧ evp1.evp_nfds = w.evp.evp_nfds ∧
      s1.evb_list_len = w.evb.evb_list_len ∧ (∀ i, i ∈ evp1.evp_live ↔ i < evp1.evp_nfds) := by
  obtain ⟨evp1, s1, hr, hc1, hl1⟩ :=
    event_poll_pack_loop_cookies w.evp.evp_gen w.evp.evp_live.sum w.evp w.evb h.slots h.cookies
      (Nat.le_refl _)
  obtain ⟨evp2, s2, hr2, hinv, hn, hp, hsep⟩ :=
    event_poll_pack_loop_spec w.evp.evp_gen w.evp.evp_live.sum w.evp w.evb h.slots (Nat.le_refl _)
  have he : evp2 = evp1 := by
    rw [hr] at hr2
    simp only [Option.some.injEq, Prod.mk.injEq] at hr2
    exact hr2.1.symm
  subst he
  exact ⟨evp2, s1, hr, hinv, hc1, hn, hl1, (poll_inv_packed hinv hsep).1⟩

theorem signal_scan_fold_quiet (l : List Nat) :
    ∀ (r : Int × event_poll_signals × event_base × List poller_report),
      (∀ x, (getEv (l.foldl
          (fun r sg =>
            if r.2.1.evs_signals sg ≠ 0 then
              (1, { r.2.1 with
                  evs_signals := fun j => if j = sg then 0 else r.2.1.evs_signals j },
                event_fire_signal r.2.2.1 sg, r.2.2.2 ++ [.fire_signal sg])
            else r) r).2.2.1 x).ev_cookie = (getEv r.2.2.1 x).ev_cookie) ∧
      (l.foldl
          (fun r sg =>
            if r.2.1.evs_signals sg ≠ 0 then
              (1, { r.2.1 with
                  evs_signals := fun j => if j = sg then 0 else r.2.1.evs_signals j },
                event_fire_signal r.2.2.1 sg, r.2.2.2 ++ [.fire_signal sg])
            else r) r).2.2.1.evb_list_len = r.2.2.1.evb_list_len := by
  induction l with
  | nil => intro r; exact ⟨fun _ => rfl, rfl⟩
  | cons a l ih =>
    intro r
    simp only [List.foldl_cons]
    split
    · obtain ⟨h1, h2⟩ := ih (1, { r.2.1 with
          evs_signals := fun j => if j = a then 0 else r.2.1.evs_signals j },
        event_fire_signal r.2.2.1 a, r.2.2.2 ++ [.fire_signal a])
      obtain ⟨k1, _, k3⟩ := call_frame_fire_signal_fold (r.2.2.1.evb_signals a) r.2.2.1
      exact ⟨fun x => (h1 x).trans (k1 x), h2.trans k3⟩
    · exact ih r

theorem event_poll_signal_scan_quiet (evs : event_poll_signals) (s : event_base) :
    (∀ x, (getEv (event_poll_signal_scan evs s).2.2.1 x).ev_cookie = (getEv s x).ev_cookie) ∧
      (event_poll_signal_scan evs s).2.2.1.evb_list_len = s.evb_list_len := by
  unfold event_poll_signal_scan
  exact signal_scan_fold_quiet (List.range NSIG) (0, { evs with evs_rescan := 0 }, s, [])

theorem poll_state_inv_rescan (w : poll_base) (h : poll_state_inv w) :
    poll_state_inv (event_poll_rescan w).2.1 := by
  unfold event_poll_rescan
  split
  · exact h
  · next evs _ =>
    split
    · obtain ⟨h1, h2⟩ := event_poll_signal_scan_quiet evs w.evb
      show poll_state_inv { w with
        evp := evp_set_signals w.evp (some (event_poll_signal_scan evs w.evb).2.1)
        evb := (event_poll_signal_scan evs w.evb).2.2.1 }
      generalize event_poll_signal_scan evs w.evb = r at h1 h2 ⊢
      exact poll_state_inv_of h (slots_kept_set_signals _ _) h1 h2
    · exact h

/-- `event_fire_event` called by the POLL poller keeps the invariant; the generation and
the number of slots stay, and a slot that was live or stamped with the current
generation is so afterwards. -/
theorem poll_fire_event_post (w : poll_base) (e event : Nat) (h : poll_state_inv w)
    {w1 : poll_base} (he : poll_fire_event w e event = some w1) :
    poll_state_inv w1 ∧ w1.evp.evp_gen = w.evp.evp_gen ∧
      w1.evp.evp_pfdlen = w.evp.evp_pfdlen ∧
      ∀ j, (j ∈ w.evp.evp_live ∨ (getPfd w.evp j).evpfd_gen = w.evp.evp_gen) →
        (j ∈ w1.evp.evp_live ∨ (getPfd w1.evp j).evpfd_gen = w.evp.evp_gen) := by
  unfold poll_fire_event at he
  split at he
  · next hq =>
    cases he
    exact ⟨poll_state_inv_quiet h (call_frame_event_fire_event w.evb e event 0) hq, rfl, rfl,
      fun j hj => hj⟩
  · next hq =>
    cases hck : (getEv w.evb e).ev_cookie with
    | none =>
      unfold event_poll_event_del at he
      rw [hck] at he
      simp at he
    | some c =>
      obtain ⟨evp1, s1, hdel, hinv, hck1, hpos, hn, hb, hl, hflags, hsig, hgen, hpl, hlen,
        hlive, hstamp, hoth, _⟩ :=
        event_poll_event_del_post w.evp w.evb e c h.slots h.cookies hck
      rw [hdel] at he
      cases he
      refine ⟨?_, hgen, hpl, ?_⟩
      · refine poll_state_inv_op hinv hck1 (call_frame_event_fire_event s1 e event 0)
          (event_fire_event_calls_dep w.evb s1 e event 0 0 (hflags e) hq) ?_
        rw [hl, h.len, hn, list_len_step_del e _ hpos]
      · intro j hj
        by_cases hjc : j = c
        · right
          rw [hjc]
          exact hstamp
        · rcases hj with hj | hj
          · left
            show j ∈ evp1.evp_live
            rw [hlive]
            exact (List.mem_erase_of_ne hjc).2 hj
          · right
            show (getPfd evp1 j).evpfd_gen = _
            rw [hoth j hjc]
            exact hj

theorem event_poll_scan_slot_ok (w : poll_base) (i : Nat) (h : poll_state_inv w)
    (hi : i ∈ w.evp.evp_live) :
    poll_result_ok
      (fun r : poll_base × List poller_report =>
        poll_state_inv r.1 ∧ r.1.evp.evp_gen = w.evp.evp_gen ∧
        r.1.evp.evp_pfdlen = w.evp.evp_pfdlen ∧
        ∀ j, (j ∈ w.evp.evp_live ∨ (getPfd w.evp j).evpfd_gen = w.evp.evp_gen) →
          (j ∈ r.1.evp.evp_live ∨ (getPfd r.1.evp j).evpfd_gen = w.evp.evp_gen))
      (event_poll_scan_slot w i) := by
  have hkeep : poll_result_ok
      (fun r : poll_base × List poller_report =>
        poll_state_inv r.1 ∧ r.1.evp.evp_gen = w.evp.evp_gen ∧
        r.1.evp.evp_pfdlen = w.evp.evp_pfdlen ∧
        ∀ j, (j ∈ w.evp.evp_live ∨ (getPfd w.evp j).evpfd_gen = w.evp.evp_gen) →
          (j ∈ r.1.evp.evp_live ∨ (getPfd r.1.evp j).evpfd_gen = w.evp.evp_gen))
      (.ok (w, [])) := ⟨h, rfl, rfl, fun j hj => hj⟩
  obtain ⟨o, ho⟩ : ∃ o, (getPfd w.evp i).evpfd_ev = some o :=
    Option.ne_none_iff_exists'.1 (h.slots.owner i hi)
  unfold event_poll_scan_slot
  rw [ho]
  simp only []
  rcases event_poll_scan_report w.evb o (w.evp.evp_pfds.getD i default).revents
    with _ | ⟨e, event, x⟩ | sg
  · exact hkeep
  · simp only []
    cases hf : poll_fire_event w e event with
    | none => rfl
    | some w1 => exact poll_fire_event_post w e event h hf
  · exact hkeep

theorem event_poll_scan_ok (gen n0 : Nat) :
    ∀ (fuel i : Nat) (w : poll_base) (len : Int) (rep : List poller_report),
      poll_state_inv w → w.evp.evp_gen = gen → n0 ≤ w.evp.evp_pfdlen → i + fuel ≤ n0 →
      (∀ j, i ≤ j → j < n0 → j ∈ w.evp.evp_live ∨ (getPfd w.evp j).evpfd_gen = gen) →
      poll_result_ok (fun r : poll_base × List poller_report => poll_state_inv r.1)
        (event_poll_scan gen fuel i w len rep) := by
  intro fuel
  induction fuel with
  | zero =>
    intro i w len rep h _ _ _ _
    exact h
  | succ n ih =>
    intro i w len rep h hg hn hfuel hinv
    have hi : i < n0 := by omega
    have hlen : ¬ w.evp.evp_evpfds.length ≤ i := by
      have := h.slots.len
      omega
    unfold event_poll_scan
    rw [if_neg hlen]
    split
    · exact ih (i + 1) w len rep h hg hn (by omega) (fun j hj1 hj2 => hinv j (by omega) hj2)
    · next hne =>
      have hlive : i ∈ w.evp.evp_live := (hinv i (Nat.le_refl _) hi).resolve_right hne
      have hslot := event_poll_scan_slot_ok w i h hlive
      rcases hs : event_poll_scan_slot w i with f | ⟨w1, r1⟩
      · rw [hs] at hslot
        exact hslot
      · rw [hs] at hslot
        obtain ⟨h1, hg1, hp1, hj1⟩ := hslot
        have ih1 := fun (len1 : Int) (rep1 : List poller_report) =>
          ih (i + 1) w1 len1 rep1 h1 (hg1.trans hg) (by rw [hp1]; exact hn) (by omega)
            (fun j hj2 hj3 => by
              have := hj1 j (by rw [hg]; exact hinv j (by omega) hj3)
              rwa [hg] at this)
        simp only []
        split
        · split
          · exact h1
          · exact ih1 _ _
        · exact ih1 _ _

/-- `event_poll_dispatch` keeps the invariant, and it neither dereferences a null
`evpfd_ev` nor reads beyond `evp_evpfds`. -/
theorem event_poll_dispatch_ok (w : poll_base) (len : Int) (revents : Nat → Nat)
    (h : poll_state_inv w) :
    poll_result_ok (fun r : Int × poll_base × List poller_report => poll_state_inv r.2.1)
      (event_poll_dispatch w len revents) := by
  have h0 := poll_state_inv_rescan w h
  obtain ⟨evp1, s1, hpack, hinv1, hck1, hn1, hl1, hpacked⟩ := poll_state_inv_pack _ h0
  have hA : poll_state_inv { (event_poll_rescan w).2.1 with evp := evp1, evb := s1 } :=
    ⟨hinv1, hck1, by
      show s1.evb_list_len = evp1.evp_nfds % UINT_MOD
      rw [hl1, h0.len, hn1]⟩
  unfold event_poll_dispatch
  split
  · exact h0
  · rw [hpack]
    simp only []
    split
    · exact hA
    · split
      · exact poll_state_inv_of hA (slots_kept_set_pfds _ _) (fun _ => rfl) rfl
      · have hk : slots_kept evp1
            (if (evp_set_gen (evp_set_pfds evp1
                (sys_ppoll revents (event_list_len s1) 0 evp1.evp_pfds))
                (uinc (evp_set_pfds evp1
                  (sys_ppoll revents (event_list_len s1) 0 evp1.evp_pfds)).evp_gen)).evp_gen = 0
              then event_poll_reset_gens (evp_set_gen (evp_set_pfds evp1
                (sys_ppoll revents (event_list_len s1) 0 evp1.evp_pfds))
                (uinc (evp_set_pfds evp1
                  (sys_ppoll revents (event_list_len s1) 0 evp1.evp_pfds)).evp_gen))
              else evp_set_gen (evp_set_pfds evp1
                (sys_ppoll revents (event_list_len s1) 0 evp1.evp_pfds))
                (uinc (evp_set_pfds evp1
                  (sys_ppoll revents (event_list_len s1) 0 evp1.evp_pfds)).evp_gen)) := by
          split
          · exact slots_kept_trans
              (slots_kept_trans (slots_kept_set_pfds _ _) (slots_kept_set_gen _ _))
              (slots_kept_reset_gens _)
          · exact slots_kept_trans (slots_kept_set_pfds _ _) (slots_kept_set_gen _ _)
        have hB := @poll_state_inv_of _
          ({ (event_poll_rescan w).2.1 with
            evp := (if (evp_set_gen (evp_set_pfds evp1
                (sys_ppoll revents (event_list_len s1) 0 evp1.evp_pfds))
                (uinc (evp_set_pfds evp1
                  (sys_ppoll revents (event_list_len s1) 0 evp1.evp_pfds)).evp_gen)).evp_gen = 0
              then event_poll_reset_gens (evp_set_gen (evp_set_pfds evp1
                (sys_ppoll revents (event_list_len s1) 0 evp1.evp_pfds))
                (uinc (evp_set_pfds evp1
                  (sys_ppoll revents (event_list_len s1) 0 evp1.evp_pfds)).evp_gen))
              else evp_set_gen (evp_set_pfds evp1
                (sys_ppoll revents (event_list_len s1) 0 evp1.evp_pfds))
                (uinc (evp_set_pfds evp1
                  (sys_ppoll revents (event_list_len s1) 0 evp1.evp_pfds)).evp_gen)),
            evb := s1 } : poll_base) hA hk (fun _ => rfl) rfl
        have hle : event_list_len s1 ≤ evp1.evp_nfds := by
          show s1.evb_list_len ≤ evp1.evp_nfds
          rw [hl1, h0.len, hn1]
          exact Nat.mod_le _ _
        have hscan := event_poll_scan_ok _ (event_list_len s1) (event_list_len s1) 0 _ len
          (event_poll_rescan w).2.2 hB rfl
          (by
            show event_list_len s1 ≤ _
            rw [hk.pfdlen]
            exact Nat.le_trans hle (poll_inv_nfds_le hinv1))
          (by omega)
          (fun j _ hj => Or.inl (by
            show j ∈ _
            rw [hk.live]
            exact (hpacked j).2 (by omega)))
        revert hscan
        rcases event_poll_scan _ (event_list_len s1) 0 _ len (event_poll_rescan w).2.2
          with f | ⟨w1, r1⟩
        · exact fun hscan => hscan
        · exact fun hscan => hscan


/-! ## C29: `evb_list_len` and `evp_nfds` -/

theorem poll_op_post (w : poll_base) (e : poll_env) (c : poller_call) (h : poll_state_inv w)
    {rv : Int} {w1 : poll_base} (ho : poll_op w e c = some (rv, w1)) :
    poll_inv w1.evp ∧ cookies_live w1.evp w1.evb ∧
      list_len_step c rv w1.evb.evb_list_len = w1.evp.evp_nfds % UINT_MOD := by
  cases c with
  | event_add ev =>
    obtain ⟨rv1, evp1, s1, hadd, hinv, hck, hn, hb, hl, hflags, hsig, _⟩ :=
      event_poll_event_add_post w.evp w.evb ev e.a1 e.a2 e.a3 h.slots h.cookies
    simp only [poll_op, hadd, Option.map_some', Option.some.injEq, Prod.mk.injEq] at ho
    obtain ⟨rfl, rfl⟩ := ho
    refine ⟨hinv, hck, ?_⟩
    show list_len_step _ rv1 s1.evb_list_len = evp1.evp_nfds % UINT_MOD
    rw [hl, h.len, hn, list_len_step_add]
  | event_del ev =>
    cases hck : (getEv w.evb ev).ev_cookie with
    | none =>
      simp only [poll_op, event_poll_event_del, hck, Option.map_none'] at ho
      simp at ho
    | some c =>
      obtain ⟨evp1, s1, hdel, hinv, hck1, hpos, hn, hb, hl, _⟩ :=
        event_poll_event_del_post w.evp w.evb ev c h.slots h.cookies hck
      simp only [poll_op, hdel, Option.map_some', Option.some.injEq, Prod.mk.injEq] at ho
      obtain ⟨rfl, rfl⟩ := ho
      refine ⟨hinv, hck1, ?_⟩
      show list_len_step _ 0 s1.evb_list_len = evp1.evp_nfds % UINT_MOD
      rw [hl, h.len, hn, list_len_step_del ev _ hpos]
  | signal_add sg =>
    have hi := poll_state_inv_signal_add w sg e.m e.pipe e.a1 e.a2 e.a3 h ho
    exact ⟨hi.slots, hi.cookies, hi.len⟩
  | signal_del sg =>
    have hi := poll_state_inv_signal_del w sg h ho
    exact ⟨hi.slots, hi.cookies, hi.len⟩
  | dispatch ts =>
    have hd := event_poll_dispatch_ok w e.len e.revents h
    simp only [poll_op] at ho
    rcases hr : event_poll_dispatch w e.len e.revents with f | r
    · rw [hr] at ho
      simp at ho
    · rw [hr] at ho hd
      simp only [Option.some.injEq, Prod.mk.injEq] at ho
      obtain ⟨rfl, rfl⟩ := ho
      have hi : poll_state_inv r.2.1 := hd
      exact ⟨hi.slots, hi.cookies, hi.len⟩

theorem poll_api_step_inv {w w1 : poll_base} (h : poll_state_inv w) (hs : poll_api_step w w1) :
    poll_state_inv w1 := by
  cases hs with
  | quiet st hv hp hq => exact poll_state_inv_quiet h (call_frame_step w.evb st) hq
  | op st e c rv w2 hv hp hc ho hl =>
    obtain ⟨h1, h2, h3⟩ := poll_op_post w e c h ho
    exact poll_state_inv_op (w := w2) h1 h2 (call_frame_step w2.evb st) hl h3

theorem poll_api_reachable_inv {w : poll_base} (h : poll_api_reachable w) :
    poll_state_inv w := by
  induction h with
  | init mem disp hm =>
    refine ⟨poll_inv_init, ?_, rfl⟩
    intro ev c hck
    exfalso
    by_cases hlt : ev < mem.length
    · have hmem : getEv (event_init mem) ev ∈ mem := by
        show mem.getD ev default ∈ mem
        rw [List.getD_eq_getElem _ _ hlt]
        exact List.getElem_mem hlt
      have := List.all_eq_true.1 hm _ hmem
      simp only [Bool.and_eq_true, decide_eq_true_eq] at this
      rw [this.2] at hck
      simp at hck
    · rw [getEv_of_length_le _ _ (Nat.le_of_not_lt hlt)] at hck
      simp [default, instInhabitedEvent] at hck
  | step _ hs ih => exact poll_api_step_inv ih hs

theorem poll_inv_free_extract {evp : event_poll} (h : poll_inv evp)
    (hn : evp.evp_nfds + 1 ≤ evp.evp_pfdlen) : (evpfd_free_extract evp).1 ≠ none := by
  intro hnone
  obtain ⟨rv, evp1, s1, he, _⟩ := poll_inv_event_add evp (event_init []) 0 true true true h
  unfold event_poll_event_add at he
  simp only [] at he
  rw [if_neg (by omega)] at he
  rcases hx : evpfd_free_extract evp with ⟨_ | f, e1⟩
  · rw [hx] at he
    simp at he
  · rw [hx] at hnone
    simp at hnone

/-- C29: in every state of a base with the POLL poller that is reachable from
`event_init` by the public API and `event_dispatch`, `evb_list_len` is `evp_nfds` reduced
to an `unsigned int`, hence equal to it while `evp_nfds` is below `2^32`;
`event_poll_pack` returns, and after it every position below `event_list_len` holds a live
descriptor with an owner (and these are all the live descriptors while
`evp_nfds` is below `2^32`); `event_poll_dispatch` never dereferences a null `evpfd_ev` and
never reads beyond `evp_evpfds`; and when `event_poll_event_add` takes a descriptor from the
free heap, the heap is not empty and the function returns. -/
theorem poll_list_len_is_nfds (w : poll_base) (h : poll_api_reachable w) :
    w.evb.evb_list_len = w.evp.evp_nfds % UINT_MOD ∧
    (w.evp.evp_nfds < UINT_MOD → event_list_len w.evb = w.evp.evp_nfds) ∧
    (∃ evp1 s1, event_poll_pack w.evp w.evb = some (evp1, s1) ∧
      event_list_len s1 = event_list_len w.evb ∧ evp1.evp_nfds = w.evp.evp_nfds ∧
      (∀ i, i < event_list_len s1 →
        i ∈ evp1.evp_live ∧ (getPfd evp1 i).evpfd_ev ≠ none) ∧
      (w.evp.evp_nfds < UINT_MOD → ∀ i, i ∈ evp1.evp_live ↔ i < event_list_len s1)) ∧
    (∀ len revents, event_poll_dispatch w len revents ≠ .error .null_owner ∧
      event_poll_dispatch w len revents ≠ .error .out_of_bounds) ∧
    (∀ ev a1 a2 a3, w.evp.evp_nfds + 1 ≤ w.evp.evp_pfdlen →
      (evpfd_free_extract w.evp).1 ≠ none ∧
      event_poll_event_add w.evp w.evb ev a1 a2 a3 ≠ none) := by
  have hi := poll_api_reachable_inv h
  refine ⟨hi.len, ?_, ?_, ?_, ?_⟩
  · intro hlt
    show w.evb.evb_list_len = _
    rw [hi.len, Nat.mod_eq_of_lt hlt]
  · obtain ⟨evp1, s1, hpack, hinv1, hck1, hn1, hl1, hpacked⟩ := poll_state_inv_pack w hi
    have hle : event_list_len s1 ≤ evp1.evp_nfds := by
      show s1.evb_list_len ≤ evp1.evp_nfds
      rw [hl1, hi.len, hn1]
      exact Nat.mod_le _ _
    refine ⟨evp1, s1, hpack, hl1, hn1, ?_, ?_⟩
    · intro i hlt
      have hm := (hpacked i).2 (by omega)
      exact ⟨hm, hinv1.owner i hm⟩
    · intro hlt i
      have he : event_list_len s1 = evp1.evp_nfds := by
        show s1.evb_list_len = evp1.evp_nfds
        rw [hl1, hi.len, hn1, Nat.mod_eq_of_lt hlt]
      rw [he]
      exact hpacked i
  · intro len revents
    have hd := event_poll_dispatch_ok w len revents hi
    constructor <;>
    (intro he
     rw [he] at hd
     have hd2 : _ = poll_fault.null_cookie := hd
     cases hd2)
  · intro ev a1 a2 a3 hn
    refine ⟨poll_inv_free_extract hi.slots hn, ?_⟩
    obtain ⟨rv, evp1, s1, he, _⟩ := poll_inv_event_add w.evp w.evb ev a1 a2 a3 hi.slots
    rw [he]
    simp

theorem poll_api_reachable_ex_poll_added : poll_api_reachable ex_poll_added :=
  .step
    (.step (.init ex_mem (fun j => if j = 2 then 77 else SIG_DFL) (by decide))
      (.quiet (.api (.event_set 0 3 EV_READ 7 42)) (by decide) rfl rfl))
    (.op (.api (.event_add 0 none none 0 0)) ex_poll_env (.event_add 0) 0 ex_poll_add_op
      (by decide) rfl (by decide) rfl (by decide))

/-- C29, witness: the state after a read event was set and added is reachable; there
`evb_list_len` and `evp_nfds` are both 1. -/
theorem poll_list_len_is_nfds_witness :
    poll_api_reachable ex_poll_added ∧
      ex_poll_added.evb.evb_list_len = ex_poll_added.evp.evp_nfds % UINT_MOD ∧
      ex_poll_added.evp.evp_nfds = 1 ∧ event_list_len ex_poll_added.evb = 1 :=
  ⟨poll_api_reachable_ex_poll_added,
    (poll_list_len_is_nfds ex_poll_added poll_api_reachable_ex_poll_added).1,
    by decide, by decide⟩

/-! ## C24: the generation counter of the POLL poller -/

theorem event_poll_scan_slot_fire {w w1 : poll_base} {i e event : Nat} {x : Int} (ev : Nat)
    (h1 : (getPfd w.evp i).evpfd_ev = some ev)
    (h2 : event_poll_scan_report w.evb ev (w.evp.evp_pfds.getD i default).revents =
      some (.fire_event e event x))
    (h3 : poll_fire_event w e event = some w1) :
    event_poll_scan_slot w i = .ok (w1, [.fire_event e event 0]) := by
  unfold event_poll_scan_slot
  rw [h1]
  simp only []
  rw [h2]
  simp only []
  rw [h3]

theorem event_poll_scan_one_fire {gen i : Nat} {w w1 : poll_base} {rep r : List poller_report}
    (h1 : ¬ w.evp.evp_evpfds.length ≤ i) (h2 : (getPfd w.evp i).evpfd_gen ≠ gen)
    (h3 : event_poll_scan_slot w i = .ok (w1, r))
    (h4 : (w1.evp.evp_pfds.getD i default).revents ≠ 0) :
    event_poll_scan gen 1 i w 1 rep = .ok (w1, rep ++ r) := by
  rw [event_poll_scan, if_neg h1, if_neg h2, h3]
  simp only []
  rw [if_pos h4, if_pos (by decide)]

theorem event_poll_scan_one_skip {gen i : Nat} {w : poll_base} {len : Int}
    {rep : List poller_report}
    (h1 : ¬ w.evp.evp_evpfds.length ≤ i) (h2 : (getPfd w.evp i).evpfd_gen = gen) :
    event_poll_scan gen 1 i w len rep = .ok (w, rep) := by
  rw [event_poll_scan, if_neg h1, if_pos h2, event_poll_scan]

theorem event_poll_dispatch_scan {w w1 : poll_base} {len : Int} {revents : Nat → Nat}
    {rep : List poller_report} (evp4 : event_poll)
    (hr : event_poll_rescan w = (false, w, []))
    (hp : event_poll_pack w.evp w.evb = some (w.evp, w.evb))
    (h1 : len ≠ -1) (h2 : len ≠ 0)
    (he : (if uinc w.evp.evp_gen = 0 then
        event_poll_reset_gens (evp_set_gen
          (evp_set_pfds w.evp (sys_ppoll revents (event_list_len w.evb) 0 w.evp.evp_pfds))
          (uinc w.evp.evp_gen))
      else evp_set_gen
          (evp_set_pfds w.evp (sys_ppoll revents (event_list_len w.evb) 0 w.evp.evp_pfds))
          (uinc w.evp.evp_gen)) = evp4)
    (hs : event_poll_scan evp4.evp_gen (event_list_len w.evb) 0 { w with evp := evp4 } len [] =
      .ok (w1, rep)) :
    event_poll_dispatch w len revents = .ok (0, w1, rep) := by
  unfold event_poll_dispatch
  rw [hr]
  simp only [Bool.false_eq_true, if_false]
  rw [hp]
  simp only [if_neg h1, if_neg h2]
  have he2 : (if (evp_set_gen
        (evp_set_pfds w.evp (sys_ppoll revents (event_list_len w.evb) 0 w.evp.evp_pfds))
        (uinc (evp_set_pfds w.evp
          (sys_ppoll revents (event_list_len w.evb) 0 w.evp.evp_pfds)).evp_gen)).evp_gen = 0 then
        event_poll_reset_gens (evp_set_gen
          (evp_set_pfds w.evp (sys_ppoll revents (event_list_len w.evb) 0 w.evp.evp_pfds))
          (uinc (evp_set_pfds w.evp
            (sys_ppoll revents (event_list_len w.evb) 0 w.evp.evp_pfds)).evp_gen))
      else evp_set_gen
          (evp_set_pfds w.evp (sys_ppoll revents (event_list_len w.evb) 0 w.evp.evp_pfds))
          (uinc (evp_set_pfds w.evp
            (sys_ppoll revents (event_list_len w.evb) 0 w.evp.evp_pfds)).evp_gen)) = evp4 := he
  rw [he2]
  have hs2 : event_poll_scan evp4.evp_gen (event_list_len w.evb) 0
      { w with evp := evp4, evb := w.evb } len [] = .ok (w1, rep) := hs
  rw [hs2]


theorem ex_gen_start_eq :
    ({ ({ ex_gen_add_op with
          evb := (step.api (.event_add 0 none none 0 0)).run ex_gen_add_op.evb } : poll_base) with
        evb := step.dispatch_start.run
          ({ ex_gen_add_op with
            evb := (step.api (.event_add 0 none none 0 0)).run ex_gen_add_op.evb } : poll_base).evb }
      : poll_base) = ex_gen 0 0 0 [(.event_add 0, 0)] := by
  rfl

theorem ex_gen_flags_clr : CLR (ex_gen_flags ||| EV_ON_FIRE) EV_ON_FIRE = ex_gen_flags := by
  decide

theorem ex_gen_deliver (g sg : Nat) (L : List (poller_call × Int)) :
    ({ ex_gen_fired g sg L with
        evb := step.deliver.run ((step.op_dispatch none 0).run (ex_gen_fired g sg L).evb) }
      : poll_base) = ex_gen g sg POLLIN (L ++ [(.dispatch none, 0)]) := by
  simp [ex_gen_fired, ex_gen, ex_gen_state, step.run, event_op, event_fire_first, TAILQ_FIRST,
    event_dispatch_pop, event_fire_remove, TAILQ_REMOVE, setFlags, setFires, setEv, getEv,
    ex_gen_flags_clr]

theorem ex_gen_rescan (g sg r : Nat) (L : List (poller_call × Int)) :
    event_poll_rescan (ex_gen g sg r L) = (false, ex_gen g sg r L, []) := rfl

theorem ex_gen_pack (g sg r : Nat) (L : List (poller_call × Int)) :
    event_poll_pack (ex_gen g sg r L).evp (ex_gen g sg r L).evb =
      some ((ex_gen g sg r L).evp, (ex_gen g sg r L).evb) := rfl

theorem ex_gen_ppoll (g g1 sg r : Nat) (L : List (poller_call × Int)) :
    evp_set_gen
        (evp_set_pfds (ex_gen g sg r L).evp
          (sys_ppoll (fun _ => POLLIN) (event_list_len (ex_gen g sg r L).evb) 0
            (ex_gen g sg r L).evp.evp_pfds)) g1 =
      (ex_gen g1 sg POLLIN L).evp := rfl

theorem ex_gen_reset (g g1 sg r : Nat) (L : List (poller_call × Int)) :
    event_poll_reset_gens (evp_set_gen
        (evp_set_pfds (ex_gen g sg r L).evp
          (sys_ppoll (fun _ => POLLIN) (event_list_len (ex_gen g sg r L).evb) 0
            (ex_gen g sg r L).evp.evp_pfds)) g1) =
      (ex_gen g1 (UINT_MOD - 1) POLLIN L).evp := rfl

theorem ex_gen_fire_event (g sg : Nat) (L : List (poller_call × Int)) :
    event_fire_event (ex_gen g sg POLLIN L).evb 0 (EV_READ ||| EV_PERSIST) 0 =
      (ex_gen_fired g sg L).evb := by
  have k3 : ISSET ex_gen_flags EV_ON_FIRE = 0 := by decide
  have k4 : ¬ ISSET ex_gen_flags EV_PERSIST = 0 := by decide
  have k5 : SET 0 (ISSET (EV_READ ||| EV_PERSIST) (EV_READ ||| EV_WRITE ||| EV_TIMEOUT)) =
      EV_READ := by decide
  have k6 : ISSET (EV_READ ||| EV_PERSIST) (EV_READ ||| EV_WRITE ||| EV_TIMEOUT) = EV_READ := by
    decide
  simp [event_fire_event, ex_gen, ex_gen_fired, ex_gen_state, setFires, setFlags, setEv, getEv,
    event_fire_insert, TAILQ_INSERT_TAIL, k3, k4, k5, k6, SET]

theorem ex_gen_poll_fire (g sg : Nat) (L : List (poller_call × Int)) :
    poll_fire_event (ex_gen g sg POLLIN L) 0 (EV_READ ||| EV_PERSIST) =
      some (ex_gen_fired g sg L) := by
  unfold poll_fire_event
  rw [ex_gen_fire_event,
    if_pos (show (ex_gen_fired g sg L).evb.evb_backend = (ex_gen g sg POLLIN L).evb.evb_backend
      from rfl)]
  rfl

theorem ex_gen_scan_report (g sg : Nat) (L : List (poller_call × Int)) :
    event_poll_scan_report (ex_gen g sg POLLIN L).evb 0 POLLIN =
      some (.fire_event 0 (EV_READ ||| EV_PERSIST) 0) := by
  have k2 : event_poll_conditions POLLIN = EV_READ := by decide
  have k3 : ¬ ISSET ex_gen_flags EV_READ = 0 := by decide
  simp [event_poll_scan_report, k2, ex_gen, ex_gen_state, getEv, k3]

theorem ex_gen_scan_slot (g sg : Nat) (L : List (poller_call × Int)) :
    event_poll_scan_slot (ex_gen g sg POLLIN L) 0 =
      .ok (ex_gen_fired g sg L, [.fire_event 0 (EV_READ ||| EV_PERSIST) 0]) :=
  event_poll_scan_slot_fire 0 rfl (ex_gen_scan_report g sg L) (ex_gen_poll_fire g sg L)

theorem ex_gen_scan_fire (g sg : Nat) (L : List (poller_call × Int)) (h1 : sg ≠ g) :
    event_poll_scan g 1 0 (ex_gen g sg POLLIN L) 1 [] =
      .ok (ex_gen_fired g sg L, [.fire_event 0 (EV_READ ||| EV_PERSIST) 0]) :=
  event_poll_scan_one_fire (Nat.not_succ_le_zero 0) h1 (ex_gen_scan_slot g sg L)
    (show POLLIN ≠ 0 by decide)

theorem ex_gen_scan_skip (g sg : Nat) (L : List (poller_call × Int)) (h1 : sg = g) :
    event_poll_scan g 1 0 (ex_gen g sg POLLIN L) 1 [] = .ok (ex_gen g sg POLLIN L, []) :=
  event_poll_scan_one_skip (Nat.not_succ_le_zero 0) h1

/-- A dispatch of the poller in a state of `ex_gen` whose descriptor is not stamped with
the incremented generation fires the event. -/
theorem ex_gen_dispatch_fire (g sg r : Nat) (L : List (poller_call × Int))
    (h0 : uinc g ≠ 0) (h1 : sg ≠ uinc g) :
    event_poll_dispatch (ex_gen g sg r L) 1 (fun _ => POLLIN) =
      .ok (0, ex_gen_fired (uinc g) sg L, [.fire_event 0 (EV_READ ||| EV_PERSIST) 0]) := by
  refine event_poll_dispatch_scan (ex_gen (uinc g) sg POLLIN L).evp
    (ex_gen_rescan g sg r L) (ex_gen_pack g sg r L) (by decide) (by decide) ?_ ?_
  · show (if uinc g = 0 then _ else _) = _
    rw [if_neg h0]
    exact ex_gen_ppoll g (uinc g) sg r L
  · exact ex_gen_scan_fire (uinc g) sg L h1

/-- A dispatch of the poller in a state of `ex_gen` in which the generation counter wraps
stamps the descriptor with `~0` and fires the event. -/
theorem ex_gen_dispatch_wrap (g sg r : Nat) (L : List (poller_call × Int))
    (h0 : uinc g = 0) :
    event_poll_dispatch (ex_gen g sg r L) 1 (fun _ => POLLIN) =
      .ok (0, ex_gen_fired 0 (UINT_MOD - 1) L, [.fire_event 0 (EV_READ ||| EV_PERSIST) 0]) := by
  refine event_poll_dispatch_scan (ex_gen 0 (UINT_MOD - 1) POLLIN L).evp
    (ex_gen_rescan g sg r L) (ex_gen_pack g sg r L) (by decide) (by decide) ?_ ?_
  · show (if uinc g = 0 then _ else _) = _
    rw [if_pos h0]
    have h2 : uinc (ex_gen g sg r L).evp.evp_gen = 0 := h0
    rw [h2]
    exact ex_gen_reset g 0 sg r L
  · exact ex_gen_scan_fire 0 (UINT_MOD - 1) L (by decide)

/-- A dispatch of the poller in a state of `ex_gen` whose descriptor is stamped with the
incremented generation skips the descriptor. -/
theorem ex_gen_dispatch_skip (g sg r : Nat) (L : List (poller_call × Int))
    (h0 : uinc g ≠ 0) (h1 : sg = uinc g) :
    event_poll_dispatch (ex_gen g sg r L) 1 (fun _ => POLLIN) =
      .ok (0, ex_gen (uinc g) sg POLLIN L, []) := by
  refine event_poll_dispatch_scan (ex_gen (uinc g) sg POLLIN L).evp
    (ex_gen_rescan g sg r L) (ex_gen_pack g sg r L) (by decide) (by decide) ?_ ?_
  · show (if uinc g = 0 then _ else _) = _
    rw [if_neg h0]
    exact ex_gen_ppoll g (uinc g) sg r L
  · exact ex_gen_scan_skip (uinc g) sg L h1


theorem uinc_of_lt {x : Nat} (h : x + 1 < UINT_MOD) : uinc x = x + 1 := by
  unfold uinc
  exact Nat.mod_eq_of_lt h

theorem uinc_max : uinc (UINT_MOD - 1) = 0 := by decide

theorem UINT_MOD_ge : 2 ≤ UINT_MOD := by decide

theorem ex_gen_reachable_start : poll_api_reachable (ex_gen 0 0 0 [(.event_add 0, 0)]) := by
  rw [← ex_gen_start_eq]
  exact .step
    (.step
      (.step (.init [default] (fun _ => SIG_DFL) (by decide))
        (.quiet (.api (.event_set 0 3 (EV_READ ||| EV_PERSIST) 7 42)) (by decide) rfl rfl))
      (.op (.api (.event_add 0 none none 0 0)) ex_gen_env (.event_add 0) 0 ex_gen_add_op
        (by decide) rfl (by decide) rfl (by decide)))
    (.quiet .dispatch_start rfl rfl rfl)

theorem ex_gen_poll_op {w w1 : poll_base} {rep : List poller_report}
    (h : event_poll_dispatch w 1 (fun _ => POLLIN) = .ok (0, w1, rep)) :
    poll_op w ex_gen_env (.dispatch none) = some (0, w1) := by
  show (match event_poll_dispatch w 1 (fun _ => POLLIN) with
    | .error _ => none
    | .ok r => some (r.1, r.2.1)) = _
  rw [h]

/-- One turn of `event_dispatch` in a state of `ex_gen`: the poller fires the event, and
the delivery loop takes it from the fire queue. -/
theorem ex_gen_reachable_turn {g g1 sg sg1 r : Nat} {L : List (poller_call × Int)}
    (h : poll_api_reachable (ex_gen g sg r L))
    (hd : event_poll_dispatch (ex_gen g sg r L) 1 (fun _ => POLLIN) =
      .ok (0, ex_gen_fired g1 sg1 L, [.fire_event 0 (EV_READ ||| EV_PERSIST) 0])) :
    poll_api_reachable (ex_gen g1 sg1 POLLIN (L ++ [(.dispatch none, 0)])) := by
  rw [← ex_gen_deliver]
  exact .step
    (.step h (.op (.op_dispatch none 0) ex_gen_env (.dispatch none) 0 (ex_gen_fired g1 sg1 L)
      rfl rfl rfl (ex_gen_poll_op hd) rfl))
    (.quiet .deliver rfl rfl rfl)

theorem ex_gen_reachable_iter (sg : Nat) :
    ∀ (n g r : Nat) (L : List (poller_call × Int)), g + n < UINT_MOD →
      (∀ k, g < k → k ≤ g + n → sg ≠ k) → poll_api_reachable (ex_gen g sg r L) →
      ∃ r1 L1, poll_api_reachable (ex_gen (g + n) sg r1 L1) := by
  intro n
  induction n with
  | zero =>
    intro g r L _ _ h
    exact ⟨r, L, h⟩
  | succ n ih =>
    intro g r L hlt hne h
    obtain ⟨r1, L1, h1⟩ := ih g r L (by omega) (fun k hk1 hk2 => hne k hk1 (by omega)) h
    have hu : uinc (g + n) = g + (n + 1) := uinc_of_lt (by omega)
    have h2 := ex_gen_reachable_turn h1
      (ex_gen_dispatch_fire (g + n) sg r1 L1 (by rw [hu]; omega)
        (by rw [hu]; exact hne _ (by omega) (Nat.le_refl _)))
    rw [hu] at h2
    exact ⟨_, _, h2⟩

/-- The state of `ex_gen` in which the generation counter has wrapped and has since
reached `~0 - 1`, while the descriptor keeps the stamp `~0` of the wrap, is
reachable. -/
theorem ex_gen_reachable_collision :
    ∃ r L, poll_api_reachable (ex_gen (UINT_MOD - 2) (UINT_MOD - 1) r L) := by
  have hM := UINT_MOD_ge
  obtain ⟨r1, L1, h1⟩ := ex_gen_reachable_iter 0 (UINT_MOD - 1) 0 0 _ (by omega)
    (fun k hk _ => by omega) ex_gen_reachable_start
  have h2 := ex_gen_reachable_turn h1
    (ex_gen_dispatch_wrap (0 + (UINT_MOD - 1)) 0 r1 L1 (by rw [Nat.zero_add]; exact uinc_max))
  obtain ⟨r3, L3, h3⟩ := ex_gen_reachable_iter (UINT_MOD - 1) (UINT_MOD - 2) 0 _ _ (by omega)
    (fun k _ hk => by omega) h2
  rw [Nat.zero_add] at h3
  exact ⟨r3, L3, h3⟩


/-- C24, evaluation of the code: a state is reachable (a persistent read event is set and
added once, the generation counter wraps after `2^32` dispatches that fire the
event, which stamps the descriptor with `~0`, and `2^32 - 2` more dispatches bring
the counter to `~0 - 1`) in which the descriptor 0 is live at position 0, owned by
a registered event that waits for `EV_READ` and is not on the fire queue, and was
neither vacated nor recycled since the wrap; its stored generation equals the
generation the next dispatch increments to, `~0`; so that dispatch, to which
the platform reports the descriptor as readable, skips the slot and fires
nothing, whereas the same dispatch of a state that differs in the stored
generation only fires the event. -/
theorem poll_generation_sentinel_collides :
    ∃ (r : Nat) (L : List (poller_call × Int)),
      poll_api_reachable (ex_gen (UINT_MOD - 2) (UINT_MOD - 1) r L) ∧
      (ex_gen (UINT_MOD - 2) (UINT_MOD - 1) r L).evp.evp_live = [0] ∧
      event_list_len (ex_gen (UINT_MOD - 2) (UINT_MOD - 1) r L).evb = 1 ∧
      (getPfd (ex_gen (UINT_MOD - 2) (UINT_MOD - 1) r L).evp 0).evpfd_ev = some 0 ∧
      ISSET (getEv (ex_gen (UINT_MOD - 2) (UINT_MOD - 1) r L).evb 0).ev_event
        (EV_READ ||| EV_ON_LIST ||| EV_ON_FIRE) = EV_READ ||| EV_ON_LIST ∧
      (getPfd (ex_gen (UINT_MOD - 2) (UINT_MOD - 1) r L).evp 0).evpfd_gen =
        uinc (ex_gen (UINT_MOD - 2) (UINT_MOD - 1) r L).evp.evp_gen ∧
      uinc (ex_gen (UINT_MOD - 2) (UINT_MOD - 1) r L).evp.evp_gen = UINT_MOD - 1 ∧
      event_poll_dispatch (ex_gen (UINT_MOD - 2) (UINT_MOD - 1) r L) 1 (fun _ => POLLIN) =
        .ok (0, ex_gen (UINT_MOD - 1) (UINT_MOD - 1) POLLIN L, []) ∧
      (ex_gen (UINT_MOD - 1) (UINT_MOD - 1) POLLIN L).evb.evb_fire = [] ∧
      event_poll_dispatch (ex_gen (UINT_MOD - 2) 0 r L) 1 (fun _ => POLLIN) =
        .ok (0, ex_gen_fired (UINT_MOD - 1) 0 L, [.fire_event 0 (EV_READ ||| EV_PERSIST) 0]) := by
  obtain ⟨r, L, h⟩ := ex_gen_reachable_collision
  have hu : uinc (UINT_MOD - 2) = UINT_MOD - 1 := by decide
  have h0 : uinc (UINT_MOD - 2) ≠ 0 := by decide
  have hf : ISSET ex_gen_flags (EV_READ ||| EV_ON_LIST ||| EV_ON_FIRE) = EV_READ ||| EV_ON_LIST := by
    decide
  refine ⟨r, L, h, rfl, rfl, rfl, hf, hu.symm, hu, ?_, rfl, ?_⟩
  · have := ex_gen_dispatch_skip (UINT_MOD - 2) (UINT_MOD - 1) r L h0 hu.symm
    rw [hu] at this
    exact this
  · have := ex_gen_dispatch_fire (UINT_MOD - 2) 0 r L h0 (by decide)
    rw [hu] at this
    exact this

end Minevent
